import Mathlib

/-!
# ARC-SRTK: single-frequency RTK core (`arc_srtk.cc`, `arc_ObservationModel.cpp`)

Shallow embedding of the estimator core.

Conventions of the embedding
* C `double` values are exact rationals (`ℚ`); rounding, infinities and NaN are
  not represented.
* A C array (pointer) is a total map from the index to the value; a write is
  `Function.update`.  Matrices are column-major flat arrays, element `(i,j)` of
  an `n`-row matrix is at flat index `i + j*n`, exactly as in the source.
* Functions of RTKLIB that the sources call but do not define are fields of the
  environment record `Env`.
-/

namespace ARC

/-! ## Data model -/

/-- Time stamp `gtime_t`: whole seconds and fraction. -/
structure gtime_t where
  time : Int
  sec : ℚ
deriving DecidableEq

/-- Observation record `obsd_t`, the members the core reads. -/
structure obsd_t where
  time : gtime_t
  sat : Nat
  rcv : Nat
  SNR : Nat → Nat
  LLI : Nat → Nat
  L : Nat → ℚ
  P : Nat → ℚ

/-- Satellite track `ssat_t`, one per satellite slot. -/
structure ssat_t where
  sys : Nat
  azel : Nat → ℚ
  resp : Nat → ℚ
  resc : Nat → ℚ
  vsat : Nat → Nat
  snr : Nat → Nat
  fix : Nat → Nat
  slip : Nat → Nat
  half : Nat → Nat
  lock : Nat → Int
  outc : Nat → Nat
  slipc : Nat → Nat
  rejc : Nat → Nat
  pt : Nat → Nat → gtime_t
  ph : Nat → Nat → ℚ

/-- Extended error model of the options (`exterr_t`). -/
structure exterr_t where
  ena : Nat → Int
  cerr : Nat → Nat → ℚ
  perr : Nat → Nat → ℚ

/-- Processing options `prcopt_t`, the members the core reads.  Members that
are only handed on to library functions (SNR mask, antenna tables, ocean loading,
ephemeris option) travel inside the record and are not listed. -/
structure prcopt_t where
  mode : Int
  nf : Nat
  ionoopt : Int
  tropopt : Int
  dynamics : Int
  modear : Int
  glomodear : Int
  bdsmodear : Int
  maxout : Int
  minlock : Int
  minfix : Int
  niter : Nat
  intpref : Int
  tidecorr : Int
  ceres : Int
  elmin : ℚ
  elmaskar : ℚ
  elmaskhold : ℚ
  maxinno : ℚ
  maxtdiff : ℚ
  sclkstab : ℚ
  thresar : Nat → ℚ
  prn : Nat → ℚ
  std : Nat → ℚ
  err : Nat → ℚ
  eratio : Nat → ℚ
  ru : Nat → ℚ
  rb : Nat → ℚ
  baseline : Nat → ℚ
  exterr : exterr_t

/-- Solution `sol_t`. -/
structure sol_t where
  time : gtime_t
  rr : Nat → ℚ
  qr : Nat → ℚ
  stat : Int
  ns : Int
  age : ℚ
  ratio : ℚ

/-- Navigation data `nav_t`: carrier wavelengths `lam[sat-1][f]`; the rest is
only handed on to library functions. -/
structure nav_t where
  lam : Nat → Nat → ℚ

/-- RTK control struct `rtk_t`. -/
structure rtk_t where
  sol : sol_t
  rb : Nat → ℚ
  nx : Nat
  na : Nat
  tt : ℚ
  x : Nat → ℚ
  P : Nat → ℚ
  xa : Nat → ℚ
  Pa : Nat → ℚ
  nfix : Int
  ssat : Nat → ssat_t
  opt : prcopt_t

/-! ## Constants of `rtklib.h` and of the source -/

/-- Modelled from the spec: the header `rtklib.h` is not among the sources; the
positioning modes take the RTKLIB values, in the order `single, dgps, kinematic,
static, moving_base, fixed` of the spec's configuration section. -/
def PMODE_SINGLE : Int := 0
/-- Modelled from the spec: see `PMODE_SINGLE`. -/
def PMODE_DGPS : Int := 1
/-- Modelled from the spec: see `PMODE_SINGLE`. -/
def PMODE_KINEMA : Int := 2
/-- Modelled from the spec: see `PMODE_SINGLE`. -/
def PMODE_STATIC : Int := 3
/-- Modelled from the spec: see `PMODE_SINGLE`. -/
def PMODE_MOVEB : Int := 4
/-- Modelled from the spec: see `PMODE_SINGLE`. -/
def PMODE_FIXED : Int := 5

/-- Modelled from the spec: ionosphere options of `rtklib.h` (absent from the
sources), RTKLIB values: off 0, broadcast 1, sbas 2, iono-free LC 3, estimate 4. -/
def IONOOPT_BRDC : Int := 1
/-- Modelled from the spec: see `IONOOPT_BRDC`. -/
def IONOOPT_IFLC : Int := 3
/-- Modelled from the spec: see `IONOOPT_BRDC`. -/
def IONOOPT_EST : Int := 4

/-- Modelled from the spec: troposphere options of `rtklib.h` (absent from the
sources), RTKLIB values: off 0, Saastamoinen 1, sbas 2, estimate 3, estimate with
gradients 4. -/
def TROPOPT_EST : Int := 3
/-- Modelled from the spec: see `TROPOPT_EST`. -/
def TROPOPT_ESTG : Int := 4

/-- Modelled from the spec: ambiguity-resolution modes of `rtklib.h` (absent from
the sources), in the order `off, continuous, instantaneous, fix_and_hold` of the
spec's configuration section. -/
def ARMODE_OFF : Int := 0
/-- Modelled from the spec: see `ARMODE_OFF`. -/
def ARMODE_INST : Int := 2
/-- Modelled from the spec: see `ARMODE_OFF`. -/
def ARMODE_FIXHOLD : Int := 3

/-- Modelled from the spec: solution status of `rtklib.h` (absent from the
sources), RTKLIB values: none 0, fix 1, float 2, dgps 4. -/
def SOLQ_NONE : Int := 0
/-- Modelled from the spec: see `SOLQ_NONE`. -/
def SOLQ_FIX : Int := 1
/-- Modelled from the spec: see `SOLQ_NONE`. -/
def SOLQ_FLOAT : Int := 2
/-- Modelled from the spec: see `SOLQ_NONE`. -/
def SOLQ_DGPS : Int := 4

/-- Modelled from the spec: navigation-system tags of `rtklib.h` (absent from the
sources), RTKLIB bit values. -/
def SYS_GPS : Nat := 1
/-- Modelled from the spec: see `SYS_GPS`. -/
def SYS_SBS : Nat := 2
/-- Modelled from the spec: see `SYS_GPS`. -/
def SYS_GLO : Nat := 4
/-- Modelled from the spec: see `SYS_GPS`. -/
def SYS_GAL : Nat := 8
/-- Modelled from the spec: see `SYS_GPS`. -/
def SYS_QZS : Nat := 16
/-- Modelled from the spec: see `SYS_GPS`. -/
def SYS_CMP : Nat := 32

/-- `#define SQR(x) ((x)*(x))`. -/
def SQR (x : ℚ) : ℚ := x * x

/-- `#define VAR_POS SQR(30.0)`. -/
def VAR_POS : ℚ := SQR 30
/-- `#define VAR_VEL SQR(10.0)`. -/
def VAR_VEL : ℚ := SQR 10
/-- `#define VAR_ACC SQR(10.0)`. -/
def VAR_ACC : ℚ := SQR 10
/-- `#define VAR_GRA SQR(0.001)`. -/
def VAR_GRA : ℚ := SQR (1 / 1000)
/-- `#define INIT_ZWD 0.15`. -/
def INIT_ZWD : ℚ := 15 / 100
/-- `#define GAP_RESION 120`. -/
def GAP_RESION : Nat := 120
/-- `#define VAR_HOLDAMB 0.001`. -/
def VAR_HOLDAMB : ℚ := 1 / 1000

/-- Result of `lambda`: status and the arrays `F` (candidates) and `s` (squared
residual norms). -/
structure lambda_t where
  info : Int
  F : Nat → ℚ
  s : Nat → ℚ

/-- Result of `arc_filter`: status and the updated `x`, `P`. -/
structure filter_t where
  info : Int
  x : Nat → ℚ
  P : Nat → ℚ

/-- Result of `satposs`. -/
structure satposs_t where
  rs : Nat → ℚ
  dts : Nat → ℚ
  var : Nat → ℚ
  svh : Nat → Int

/-- Locals of `arc_relpos` that change in the course of the epoch, together with
the control struct. `info` is `none` until `arc_filter` has been called. -/
structure relpos_t where
  rtk : rtk_t
  xp : Nat → ℚ
  Pp : Nat → ℚ
  xa : Nat → ℚ
  bias : Nat → ℚ
  y : Nat → ℚ
  e : Nat → ℚ
  azel : Nat → ℚ
  v : Nat → ℚ
  H : Nat → ℚ
  R : Nat → ℚ
  vflg : Nat → Nat
  nv : Nat
  info : Option Int
  stat : Int

/-- Build constants and library functions that the sources use but do not
define (`rtklib.h`, `arc.h`, the RTKLIB common library).  Every definition below
is parametric in this record. -/
structure Env where
  MAXSAT : Nat
  NFREQ : Nat
  NFREQGLO : Nat
  CLIGHT : ℚ
  DTTOL : ℚ
  EFACT_GPS : ℚ
  EFACT_GLO : ℚ
  EFACT_SBS : ℚ
  ARC_SOLVALTHRES : ℚ
  lam_carr : Nat → ℚ
  /-- `arc_norm(a,n)`: Euclidean norm of the first `n` elements. -/
  arc_norm : (Nat → ℚ) → Nat → ℚ
  sin : ℚ → ℚ
  cos : ℚ → ℚ
  tan : ℚ → ℚ
  timediff : gtime_t → gtime_t → ℚ
  gpst2utc : gtime_t → gtime_t
  /-- `ecef2pos(r,pos)`: the three elements of `pos`. -/
  ecef2pos : (Nat → ℚ) → Nat → ℚ
  /-- `covecef(pos,Q,P)`: the nine elements of `P`. -/
  covecef : (Nat → ℚ) → (Nat → ℚ) → Nat → ℚ
  satsys : Nat → Nat
  satposs : gtime_t → (Nat → obsd_t) → Nat → nav_t → prcopt_t → satposs_t
  /-- `tidedisp(tutc,rr,opt,erp,odisp,dr)` for station `base`: the three elements
  of `dr`. -/
  tidedisp : gtime_t → (Nat → ℚ) → prcopt_t → nav_t → Nat → Nat → ℚ
  /-- `geodist(rs,rr,e)`: the range and the three elements of `e` after the call
  (third argument: `e` before the call). -/
  geodist : (Nat → ℚ) → (Nat → ℚ) → (Nat → ℚ) → ℚ × (Nat → ℚ)
  /-- `satazel(pos,e,azel)`: the elevation and the two elements of `azel` after the
  call (third argument: `azel` before the call). -/
  satazel : (Nat → ℚ) → (Nat → ℚ) → (Nat → ℚ) → ℚ × (Nat → ℚ)
  satexclude : Nat → Int → prcopt_t → Bool
  tropmodel : gtime_t → (Nat → ℚ) → ℚ
  /-- `tropmapf(time,pos,azel,mapfw)`: the dry mapping (return value) and the wet
  mapping written to `mapfw`. -/
  tropmapf : gtime_t → (Nat → ℚ) → (Nat → ℚ) → ℚ × ℚ
  /-- `ionocorr(time,nav,sat,pos,azel,ionoopt,&ion,&var)`: status, `ion`, `var`. -/
  ionocorr : gtime_t → nav_t → Nat → (Nat → ℚ) → (Nat → ℚ) → Int → Bool × ℚ × ℚ
  ionmapf : (Nat → ℚ) → (Nat → ℚ) → ℚ
  /-- `antmodel(pcv,del,azel,opt,dant)` for antenna `index`: the elements of
  `dant`. -/
  antmodel : prcopt_t → Nat → (Nat → ℚ) → Nat → ℚ
  /-- `testsnr(base,freq,el,snr,mask)`. -/
  testsnr : Nat → Nat → ℚ → ℚ → prcopt_t → Bool
  /-- `arc_matinv(A,n)`: status (0: ok) and `A` after the call. -/
  arc_matinv : (Nat → ℚ) → Nat → Int × (Nat → ℚ)
  /-- `lambda(n,m,a,Q,F,s)`. -/
  lambda : Nat → Nat → (Nat → ℚ) → (Nat → ℚ) → lambda_t
  /-- `arc_filter(x,P,H,v,R,n,m)`. -/
  arc_filter : (Nat → ℚ) → (Nat → ℚ) → (Nat → ℚ) → (Nat → ℚ) → (Nat → ℚ) → Nat → Nat →
    filter_t
  /-- `arc_mat(n,m)`: the unspecified contents of a freshly allocated array. -/
  arc_mat : Nat → Nat → Nat → ℚ
  /-- The branch `else if (opt->ceres)` of `arc_relpos`, which hands the epoch to
  the Ceres solver (arguments: locals, `obs`, `nu`, `nr`, `nav`, `rs`, `dts`, `svh`,
  `sat`, `iu`, `ir`, `ns`, `dt`). -/
  ceres_epoch : relpos_t → (Nat → obsd_t) → Nat → Nat → nav_t → (Nat → ℚ) → (Nat → ℚ) →
    (Nat → Int) → (Nat → Nat) → (Nat → Nat) → (Nat → Nat) → Nat → ℚ → relpos_t

/-! ## Loops and matrices -/

/-- `for (i=0;i<n;i++) body`: the state after the loop. -/
def forN {σ : Type} : Nat → (Nat → σ → σ) → σ → σ
  | 0, _, s => s
  | n + 1, body, s => body n (forN n body s)

/-- Modelled from the spec: `arc_zeros(n,m)` (not among the sources), a freshly
allocated array of zeros. -/
def arc_zeros (_n _m : Nat) : Nat → ℚ := fun _ => 0

/-- The array `A` with the part from offset `off` on replaced by `B`: the effect
of a callee that received the pointer `A+off` and left `B` there. -/
def splice {α : Type} (A : Nat → α) (off : Nat) (B : Nat → α) : Nat → α :=
  fun k => if off ≤ k then B (k - off) else A k

/-- `for (j=0;j<n;j++) if (p(j)) break;`: the value of `j` after the loop, started
at `j`. -/
def find_first (p : Nat → Bool) : Nat → Nat → Nat
  | 0, j => j
  | n + 1, j => if p j then j else find_first p n (j + 1)

/-- Modelled from the spec: `arc_matcpy(A,B,n,m)` (not among the sources) copies
the `n*m` elements of `B` to `A`. -/
def arc_matcpy (A B : Nat → ℚ) (n m : Nat) : Nat → ℚ :=
  fun idx => if idx < n * m then B idx else A idx

/-- Modelled from the spec: `arc_eye(n)` (not among the sources), the `n`-by-`n`
identity matrix. -/
def arc_eye (n : Nat) : Nat → ℚ :=
  fun idx => if idx < n * n ∧ idx % n = idx / n then 1 else 0

/-- Transposition flags of `arc_matmul`: `"NN"`, `"NT"`, `"TN"`, `"TT"`. -/
inductive trans_t where
  | NN | NT | TN | TT
deriving DecidableEq

/-- Modelled from the spec: `arc_matmul(tr,n,k,m,alpha,A,B,beta,C)` (not among the
sources) is the matrix product `C = alpha*op(A)*op(B) + beta*C` of column-major
arrays, `op(A)` of size `n`-by-`m`, `op(B)` of size `m`-by-`k`: the products the
spec writes as `Dᵀ x`, `Dᵀ P D`, `Q_ab Q_b⁻¹ (…)`. -/
def arc_matmul (tr : trans_t) (n k m : Nat) (alpha : ℚ) (A B : Nat → ℚ) (beta : ℚ)
    (C : Nat → ℚ) : Nat → ℚ :=
  fun idx =>
    if idx < n * k then
      alpha * (Finset.sum (Finset.range m) fun x =>
        match tr with
        | trans_t.NN => A (idx % n + x * n) * B (x + (idx / n) * m)
        | trans_t.NT => A (idx % n + x * n) * B (idx / n + x * k)
        | trans_t.TN => A (x + (idx % n) * m) * B (x + (idx / n) * m)
        | trans_t.TT => A (x + (idx % n) * m) * B (idx / n + x * k))
        + beta * C idx
    else C idx

/-! ## State layout -/

/-- `#define NF(opt) ((opt)->ionoopt==IONOOPT_IFLC?1:(opt)->nf)`. -/
def NF (opt : prcopt_t) : Nat := if opt.ionoopt = IONOOPT_IFLC then 1 else opt.nf
/-- `#define NP(opt) ((opt)->dynamics==0?3:9)`. -/
def NP (opt : prcopt_t) : Nat := if opt.dynamics = 0 then 3 else 9
/-- `#define NI(opt) ((opt)->ionoopt!=IONOOPT_EST?0:MAXSAT)`. -/
def NI (E : Env) (opt : prcopt_t) : Nat := if opt.ionoopt ≠ IONOOPT_EST then 0 else E.MAXSAT
/-- `#define NT(opt) ((opt)->tropopt<TROPOPT_EST?0:((opt)->tropopt<TROPOPT_ESTG?2:6))`. -/
def NT (opt : prcopt_t) : Nat :=
  if opt.tropopt < TROPOPT_EST then 0 else if opt.tropopt < TROPOPT_ESTG then 2 else 6
/-- `#define NL(opt) ((opt)->glomodear!=2?0:NFREQGLO)`. -/
def NL (E : Env) (opt : prcopt_t) : Nat := if opt.glomodear ≠ 2 then 0 else E.NFREQGLO
/-- `#define NB(opt) ((opt)->mode<=PMODE_DGPS?0:MAXSAT*NF(opt))`. -/
def NB (E : Env) (opt : prcopt_t) : Nat :=
  if opt.mode ≤ PMODE_DGPS then 0 else E.MAXSAT * NF opt
/-- `#define NR(opt) (NP(opt)+NI(opt)+NT(opt)+NL(opt))`. -/
def NR (E : Env) (opt : prcopt_t) : Nat := NP opt + NI E opt + NT opt + NL E opt
/-- `#define NX(opt) (NR(opt)+NB(opt))`. -/
def NX (E : Env) (opt : prcopt_t) : Nat := NR E opt + NB E opt
/-- `#define II(s,opt) (NP(opt)+(s)-1)`. -/
def II (s : Nat) (opt : prcopt_t) : Nat := NP opt + s - 1
/-- `#define IT(r,opt) (NP(opt)+NI(opt)+NT(opt)/2*(r))`. -/
def IT (E : Env) (r : Nat) (opt : prcopt_t) : Nat := NP opt + NI E opt + NT opt / 2 * r
/-- `#define IB(s,f,opt) (NR(opt)+MAXSAT*(f)+(s)-1)`. -/
def IB (E : Env) (s f : Nat) (opt : prcopt_t) : Nat := NR E opt + E.MAXSAT * f + s - 1

/-! ## Common satellites -/

/-- Output arrays of `arc_selsat` together with the running count `k`. -/
structure selsat_t where
  sat : Nat → Nat
  iu : Nat → Nat
  ir : Nat → Nat
  k : Nat

/-- Loop of `arc_selsat` (and of `ARC_ObservationModel::SelectCommonSat`, which has
the same body): `for (i=0,j=nu;i<nu&&j<nu+nr;i++,j++)`.  The body's `j--` (resp.
`i--`) followed by the loop increment `i++,j++` advances only `i` (resp. only
`j`). -/
def arc_selsat_loop (obs : Nat → obsd_t) (azel : Nat → ℚ) (nu nr : Nat) (elmin : ℚ)
    (i j : Nat) (o : selsat_t) : selsat_t :=
  if i < nu ∧ j < nu + nr then
    if (obs i).sat < (obs j).sat then
      arc_selsat_loop obs azel nu nr elmin (i + 1) j o
    else if (obs i).sat > (obs j).sat then
      arc_selsat_loop obs azel nu nr elmin i (j + 1) o
    else if azel (1 + j * 2) ≥ elmin then
      arc_selsat_loop obs azel nu nr elmin (i + 1) (j + 1)
        { sat := Function.update o.sat o.k (obs i).sat
          iu := Function.update o.iu o.k i
          ir := Function.update o.ir o.k j
          k := o.k + 1 }
    else
      arc_selsat_loop obs azel nu nr elmin (i + 1) (j + 1) o
  else o
termination_by (nu - i) + (nu + nr - j)
decreasing_by all_goals omega

/-- Select common satellites between rover and reference station: `arc_selsat`.
`sat`, `iu`, `ir` are the caller's arrays, the result holds them after the call
and the return value `k`. -/
def arc_selsat (obs : Nat → obsd_t) (azel : Nat → ℚ) (nu nr : Nat) (elmin : ℚ)
    (sat iu ir : Nat → Nat) : selsat_t :=
  arc_selsat_loop obs azel nu nr elmin 0 nu { sat := sat, iu := iu, ir := ir, k := 0 }

/-- The rover part `obs[0..nu)` and the base part `obs[nu..nu+nr)` are each
strictly increasing in satellite id. -/
def obs_sorted (obs : Nat → obsd_t) (nu nr : Nat) : Prop :=
  (∀ a b, a < b → b < nu → (obs a).sat < (obs b).sat) ∧
  (∀ a b, nu ≤ a → a < b → b < nu + nr → (obs a).sat < (obs b).sat)

/-- `ARC_ObservationModel::SelectCommonSat`: the same loop as `arc_selsat`. -/
def SelectCommonSat (obs : Nat → obsd_t) (azel : Nat → ℚ) (nu nr : Nat) (elmin : ℚ)
    (sat iu ir : Nat → Nat) : selsat_t :=
  arc_selsat_loop obs azel nu nr elmin 0 nu { sat := sat, iu := iu, ir := ir, k := 0 }

/-- Per-satellite members of `ARC_ObservationModel` written by `ComputeSatPos`
(`m_SatPos`, `m_SatClk`, `m_SatPosVar`, `m_SVH`); the index is an integer, as the
subscripts `(SatList[i]-1)*6+j` are. -/
structure satstore_t where
  m_SatPos : Int → ℚ
  m_SatClk : Int → ℚ
  m_SatPosVar : Int → ℚ
  m_SVH : Int → Int

/-- The first inner loop of `ComputeSatPos`, `for (int j=0;j<6;i++)`: its header
steps the index `i` of the enclosing loop and leaves `j`.  `fuel` bounds the
number of iterations, `none` is returned when it is used up; otherwise the value
of `i` and the array `m_SatPos` at the exit of the loop. -/
def ComputeSatPos_pos (SatList : Nat → Int) (SatPos : Nat → ℚ) :
    Nat → Nat → Nat → (Int → ℚ) → Option (Nat × (Int → ℚ))
  | 0, _, _, _ => none
  | fuel + 1, i, j, m =>
    if j < 6 then
      ComputeSatPos_pos SatList SatPos fuel (i + 1) j
        (Function.update m ((SatList i - 1) * 6 + j) (SatPos (i * 6 + j)))
    else some (i, m)

/-- The loop `for (int i=0;i<Nu+Nb;i++)` of `ComputeSatPos` from index `i`, with
`N = Nu+Nb` and the arrays `SatPos`, `SatClk`, `Var`, `Svh` filled by `satposs`. -/
def ComputeSatPos_loop (SatList : Nat → Int) (N : Nat) (SatPos SatClk Var : Nat → ℚ)
    (Svh : Nat → Int) : Nat → Nat → satstore_t → Option satstore_t
  | 0, _, _ => none
  | fuel + 1, i, s =>
    if i < N then
      if SatList i ≠ 0 then
        match ComputeSatPos_pos SatList SatPos fuel i 0 s.m_SatPos with
        | none => none
        | some (i1, m) =>
          ComputeSatPos_loop SatList N SatPos SatClk Var Svh fuel (i1 + 1)
            { m_SatPos := m
              m_SatClk := forN 2
                (fun j c => Function.update c ((SatList i1 - 1) * 2 + j) (SatClk (i1 * 2 + j)))
                s.m_SatClk
              m_SatPosVar := Function.update s.m_SatPosVar (SatList i1 - 1) (Var i1)
              m_SVH := Function.update s.m_SVH (SatList i1 - 1) (Svh i1) }
      else ComputeSatPos_loop SatList N SatPos SatClk Var Svh fuel (i + 1) s
    else some s

/-- `ARC_ObservationModel::ComputeSatPos`: satellite positions and clocks of the
`Nu+Nb` observations by `satposs`, then the copy into the per-satellite members.
`fuel` bounds the number of loop iterations; the result is `none` when the
function has not returned within the bound. -/
def ComputeSatPos (E : Env) (fuel : Nat) (m_RoverTime : gtime_t) (m_Obs : Nat → obsd_t)
    (Nu Nb : Nat) (m_Nav : nav_t) (m_Opt : prcopt_t) (SatList : Nat → Int) (s : satstore_t) :
    Option satstore_t :=
  let sp := E.satposs m_RoverTime m_Obs (Nu + Nb) m_Nav m_Opt
  ComputeSatPos_loop SatList (Nu + Nb) sp.rs sp.dts sp.var sp.svh fuel 0 s

/-- Invariant of the selection loop. -/
structure selsat_inv (obs : Nat → obsd_t) (azel : Nat → ℚ) (nu nr : Nat) (elmin : ℚ)
    (i j : Nat) (o : selsat_t) : Prop where
  hj : nu ≤ j
  idx : ∀ t, t < o.k → o.iu t < nu ∧ nu ≤ o.ir t ∧ o.ir t < nu + nr ∧
    (obs (o.iu t)).sat = o.sat t ∧ (obs (o.ir t)).sat = o.sat t ∧
    azel (1 + o.ir t * 2) ≥ elmin
  incr : ∀ s t, s < t → t < o.k → o.sat s < o.sat t
  below_u : ∀ t, t < o.k → ∀ a, i ≤ a → a < nu → o.sat t < (obs a).sat
  below_r : ∀ t, t < o.k → ∀ b, j ≤ b → b < nu + nr → o.sat t < (obs b).sat
  compl : ∀ a b, a < nu → nu ≤ b → b < nu + nr → (obs a).sat = (obs b).sat →
    azel (1 + b * 2) ≥ elmin → (∃ t, t < o.k ∧ o.sat t = (obs a).sat) ∨ (i ≤ a ∧ j ≤ b)


/-! ## Temporal update -/

/-- `P` is symmetric: `P[a+b*nx] = P[b+a*nx]` for all state indices `a`, `b`. -/
def P_symm (rtk : rtk_t) : Prop :=
  ∀ a b, a < rtk.nx → b < rtk.nx → rtk.P (a + b * rtk.nx) = rtk.P (b + a * rtk.nx)

/-- The assignment `rtk->ssat[s].outc[f]=v`. -/
def set_outc (rtk : rtk_t) (s f v : Nat) : rtk_t :=
  { rtk with ssat := (Function.update rtk.ssat s
      { rtk.ssat s with outc := Function.update (rtk.ssat s).outc f v }) }

/-- The assignment `rtk->ssat[s].lock[f]=v`. -/
def set_lock (rtk : rtk_t) (s f : Nat) (v : Int) : rtk_t :=
  { rtk with ssat := (Function.update rtk.ssat s
      { rtk.ssat s with lock := Function.update (rtk.ssat s).lock f v }) }

/-- The assignment `rtk->ssat[s].slip[f]=v`. -/
def set_slip (rtk : rtk_t) (s f v : Nat) : rtk_t :=
  { rtk with ssat := (Function.update rtk.ssat s
      { rtk.ssat s with slip := Function.update (rtk.ssat s).slip f v }) }

/-- The assignment `rtk->ssat[s].half[f]=v`. -/
def set_half (rtk : rtk_t) (s f v : Nat) : rtk_t :=
  { rtk with ssat := (Function.update rtk.ssat s
      { rtk.ssat s with half := Function.update (rtk.ssat s).half f v }) }

/-- The assignment `rtk->x[i]=v`. -/
def set_x (rtk : rtk_t) (i : Nat) (v : ℚ) : rtk_t :=
  { rtk with x := Function.update rtk.x i v }

/-- The assignment `rtk->P[i]=v` (flat index `i`). -/
def set_P (rtk : rtk_t) (i : Nat) (v : ℚ) : rtk_t :=
  { rtk with P := Function.update rtk.P i v }

/-- Row `j` and column `j` of `P` are zero. -/
def rowcol_zero (rtk : rtk_t) (j : Nat) : Prop :=
  ∀ k, k < rtk.nx → rtk.P (j + k * rtk.nx) = 0 ∧ rtk.P (k + j * rtk.nx) = 0

/-- The state `r` differs from `r0` at most in the ambiguity states: same
dimension and options, same `x` outside the ambiguity indices `IB(s,0)`, same
`P` outside the rows and columns of the ambiguity indices. -/
def amb_frame (E : Env) (r0 r : rtk_t) : Prop :=
  r.nx = r0.nx ∧ r.opt = r0.opt ∧
  (∀ k, (∀ s, k ≠ IB E s 0 r0.opt) → r.x k = r0.x k) ∧
  (∀ idx, (∀ s m, idx ≠ IB E s 0 r0.opt + m * r0.nx ∧ idx ≠ m + IB E s 0 r0.opt * r0.nx) →
    r.P idx = r0.P idx)

/-- The control struct `r` has the options, the dimension, the base position, the
solution and the satellite systems of `r0`: what the temporal update leaves
alone besides the states. -/
def sys_frame (r0 r : rtk_t) : Prop :=
  r.opt = r0.opt ∧ r.nx = r0.nx ∧ r.rb = r0.rb ∧ r.sol = r0.sol ∧
  ∀ i, (r.ssat i).sys = (r0.ssat i).sys

/-- The value of `++outc>(unsigned int)maxout` in `arc_udbias` for a slot whose
counter is `outc` before the increment: the incremented `unsigned int` counter
exceeds `maxout` converted to `unsigned int`. -/
def outage_exceeds (outc : Nat) (maxout : Int) : Prop :=
  (outc + 1) % 2 ^ 32 > (maxout % 2 ^ 32).toNat

instance (outc : Nat) (maxout : Int) : Decidable (outage_exceeds outc maxout) :=
  inferInstanceAs (Decidable ((outc + 1) % 2 ^ 32 > (maxout % 2 ^ 32).toNat))

/-- Single-differenced observable `arc_sdobs`. -/
def arc_sdobs (E : Env) (obs : Nat → obsd_t) (i j f : Nat) : ℚ :=
  let pi := if f < E.NFREQ then (obs i).L f else (obs i).P (f - E.NFREQ)
  let pj := if f < E.NFREQ then (obs j).L f else (obs j).P (f - E.NFREQ)
  if pi = 0 ∨ pj = 0 then 0 else pi - pj

/-- Baseline length `arc_baseline` (the vector `dr` is not used by the callers). -/
def arc_baseline (E : Env) (ru rb : Nat → ℚ) : ℚ :=
  E.arc_norm (fun i => ru i - rb i) 3

/-- Initialize state and covariance: `arc_initx`. -/
def arc_initx (rtk : rtk_t) (xi var : ℚ) (i : Nat) : rtk_t :=
  forN rtk.nx
    (fun j r => set_P (set_P r (j + i * r.nx) (if i = j then var else 0))
      (i + j * r.nx) (if i = j then var else 0))
    (set_x rtk i xi)

/-- State transition branch of `arc_udpos`: `x=F*x, P=F*P*F'+Q`, with `Q` added
to the acceleration block. -/
def arc_udpos_dyn (E : Env) (rtk : rtk_t) (tt : ℚ) : rtk_t :=
  let nx := rtk.nx
  let F := forN 6 (fun i F => Function.update F (i + (i + 3) * nx) tt) (arc_eye nx)
  let xp := arc_matmul trans_t.NN nx 1 nx 1 F rtk.x 0 (fun _ => 0)
  let x1 := arc_matcpy rtk.x xp nx 1
  let FP := arc_matmul trans_t.NN nx nx nx 1 F rtk.P 0 (fun _ => 0)
  let P1 := arc_matmul trans_t.NT nx nx nx 1 FP F 0 rtk.P
  let Q : Nat → ℚ := fun k =>
    if k = 0 ∨ k = 4 then SQR (rtk.opt.prn 3) else if k = 8 then SQR (rtk.opt.prn 4) else 0
  let pos := E.ecef2pos x1
  let Qv := E.covecef pos Q
  let P2 := forN 3 (fun i P => forN 3 (fun j P =>
      Function.update P (i + 6 + (j + 6) * nx) (P (i + 6 + (j + 6) * nx) + Qv (i + j * 3))) P) P1
  { rtk with x := x1, P := P2 }

/-- `arc_udpos`: initialize position for first epoch. -/
def arc_udpos_first (E : Env) (rtk : rtk_t) : rtk_t :=
  if E.arc_norm rtk.x 3 ≤ 0 then
    let r1 := forN 3 (fun i r => arc_initx r (r.sol.rr i) VAR_POS i) rtk
    if rtk.opt.dynamics ≠ 0 then
      let r2 := forN 3 (fun i r => arc_initx r (r.sol.rr (i + 3)) VAR_VEL (i + 3)) r1
      forN 3 (fun i r => arc_initx r (1 / 1000000) VAR_ACC (i + 6)) r2
    else r1
  else rtk

/-- `arc_udpos`: check variance of estimated position, `var` after `var/=3.0`. -/
def arc_udpos_var (rtk : rtk_t) : ℚ :=
  (forN 3 (fun i v => v + rtk.P (i + i * rtk.nx)) (0 : ℚ)) / 3

/-- Temporal update of position/velocity/acceleration: `arc_udpos`. -/
def arc_udpos (E : Env) (rtk : rtk_t) (tt : ℚ) : rtk_t :=
  /- fixed mode -/
  if rtk.opt.mode = PMODE_FIXED then
    forN 3 (fun i r => arc_initx r (r.opt.ru i) (1 / 100000000) i) rtk
  else
    /- initialize position for first epoch -/
    let rtk1 := arc_udpos_first E rtk
    /- static mode -/
    if rtk1.opt.mode = PMODE_STATIC then rtk1
    /- kinematic mode without dynamics -/
    else if rtk1.opt.dynamics = 0 then
      forN 3 (fun i r => arc_initx r (r.sol.rr i) VAR_POS i) rtk1
    /- check variance of estimated position -/
    else if arc_udpos_var rtk1 ≥ VAR_POS then
      /- reset position with large variance -/
      let r1 := forN 3 (fun i r => arc_initx r (r.sol.rr i) VAR_POS i) rtk1
      let r2 := forN 3 (fun i r => arc_initx r (r.sol.rr (i + 3)) VAR_VEL (i + 3)) r1
      forN 3 (fun i r => arc_initx r (1 / 1000000) VAR_ACC (i + 6)) r2
    /- state transition of position/velocity/acceleration -/
    else arc_udpos_dyn E rtk1 tt

/-- Temporal update of ionospheric parameters: `arc_udion`. -/
def arc_udion (E : Env) (rtk : rtk_t) (tt bl : ℚ) (sat : Nat → Nat) (ns : Nat) : rtk_t :=
  let rtk1 := forN E.MAXSAT
    (fun i0 r =>
      let i := i0 + 1
      let j := II i r.opt
      if r.x j ≠ 0 ∧ (r.ssat (i - 1)).outc 0 > GAP_RESION ∧ (r.ssat (i - 1)).outc 1 > GAP_RESION
      then set_x r j 0 else r) rtk
  forN ns
    (fun i r =>
      let j := II (sat i) r.opt
      if r.x j = 0 then
        arc_initx r (1 / 1000000) (SQR (r.opt.std 1 * bl / 10000)) j
      else
        /- elevation dependent factor of process noise -/
        let el := (r.ssat (sat i - 1)).azel 1
        let fact := E.cos el
        set_P r (j + j * r.nx) (r.P (j + j * r.nx) + SQR (r.opt.prn 1 * bl / 10000 * fact) * tt))
    rtk1

/-- Temporal update of tropospheric parameters: `arc_udtrop` (the argument `bl`
is not used by the body). -/
def arc_udtrop (E : Env) (rtk : rtk_t) (tt : ℚ) : rtk_t :=
  forN 2
    (fun i r =>
      let j := IT E i r.opt
      if r.x j = 0 then
        let r1 := arc_initx r INIT_ZWD (SQR (r.opt.std 2)) j  /- initial zwd -/
        if r1.opt.tropopt ≥ TROPOPT_ESTG then
          forN 2 (fun k r2 => arc_initx r2 (1 / 1000000) VAR_GRA (j + 1 + k)) r1
        else r1
      else
        let r1 := set_P r (j + j * r.nx) (r.P (j + j * r.nx) + SQR (r.opt.prn 2) * tt)
        if r1.opt.tropopt ≥ TROPOPT_ESTG then
          forN 2 (fun k r2 =>
            set_P r2 ((j + 1 + k) * (1 + r2.nx))
              (r2.P ((j + 1 + k) * (1 + r2.nx)) + SQR (r2.opt.prn 2 * (3 / 10)) * |r2.tt|)) r1
        else r1) rtk

/-- Modelled from the spec: `getbitu(buff,pos,len)` of the RTKLIB common library
(not among the sources), on one byte: the `len` bits that start `pos` bits below
the most significant bit.  The loss-of-lock cache is kept in the upper nibble of
the slip byte. -/
def getbitu (buff pos len : Nat) : Nat := (buff / 2 ^ (8 - pos - len)) % 2 ^ len

/-- Modelled from the spec: `setbitu(buff,pos,len,data)` of the RTKLIB common
library (not among the sources), on one byte: replaces the field read by
`getbitu` with the `len` low bits of `data`. -/
def setbitu (buff pos len data : Nat) : Nat :=
  buff - getbitu buff pos len * 2 ^ (8 - pos - len) + (data % 2 ^ len) * 2 ^ (8 - pos - len)

/-- Detect cycle slip by LLI: `arc_detslp_ll`. -/
def arc_detslp_ll (rtk : rtk_t) (obs : Nat → obsd_t) (i rcv : Nat) : rtk_t :=
  let f := 0
  let sat := (obs i).sat
  if (obs i).L f = 0 then rtk
  else
    /- restore previous LLI -/
    let LLI := if rcv = 1 then getbitu ((rtk.ssat (sat - 1)).slip f) 0 2  /- rover -/
               else getbitu ((rtk.ssat (sat - 1)).slip f) 2 2              /- base  -/
    /- detect slip by cycle slip flag in LLI -/
    let slip0 := if rtk.tt ≥ 0 then (obs i).LLI f else LLI
    /- detect slip by parity unknown flag transition in LLI -/
    let slip :=
      if (LLI &&& 2 ≠ 0 ∧ ¬ ((obs i).LLI f &&& 2 ≠ 0)) ∨
         (¬ (LLI &&& 2 ≠ 0) ∧ (obs i).LLI f &&& 2 ≠ 0) then slip0 ||| 1 else slip0
    /- save current LLI -/
    let r1 := if rcv = 1
      then set_slip rtk (sat - 1) f (setbitu ((rtk.ssat (sat - 1)).slip f) 0 2 ((obs i).LLI f))
      else set_slip rtk (sat - 1) f (setbitu ((rtk.ssat (sat - 1)).slip f) 2 2 ((obs i).LLI f))
    /- save slip and half-cycle valid flag -/
    let r2 := set_slip r1 (sat - 1) f ((r1.ssat (sat - 1)).slip f ||| (slip % 256))
    set_half r2 (sat - 1) f (if (obs i).LLI f &&& 2 ≠ 0 then 0 else 1)

/-- The slip byte that `arc_detslp_ll` leaves for a non-zero carrier phase, from
the byte before `b`, the current indicator `L` (`obs[i].LLI[f]`), the position
`pos` of the receiver's field (0 rover, 2 base) and the slip word `slip0`
before the parity test: the statements `slip|=1`, `setbitu(..,pos,2,L)` and
`slip[f]|=(unsigned char)slip` in sequence. -/
def detslp_byte (b L pos slip0 : Nat) : Nat :=
  setbitu b pos 2 L |||
    ((if (getbitu b pos 2 &&& 2 ≠ 0 ∧ ¬ (L &&& 2 ≠ 0)) ∨
         (¬ (getbitu b pos 2 &&& 2 ≠ 0) ∧ L &&& 2 ≠ 0) then slip0 ||| 1 else slip0) % 256)

/-- First loop of `arc_udbias`: slip detection by LLI for the common
satellites. -/
def arc_udbias_detslp (rtk : rtk_t) (obs : Nat → obsd_t) (sat iu ir : Nat → Nat) (ns : Nat) :
    rtk_t :=
  let f := 0
  forN ns
    (fun i r =>
      /- detect cycle slip by LLI -/
      let r1 := set_slip r (sat i - 1) f ((r.ssat (sat i - 1)).slip f &&& 0xFC)
      let r2 := arc_detslp_ll r1 obs (iu i) 1
      let r3 := arc_detslp_ll r2 obs (ir i) 2
      /- update half-cycle valid flag -/
      set_half r3 (sat i - 1) f
        (if (obs (iu i)).LLI f &&& 2 ≠ 0 ∨ (obs (ir i)).LLI f &&& 2 ≠ 0 then 0 else 1))
    rtk

/-- Body of the second loop of `arc_udbias` for the satellite `i = i0+1`.
`outc` is an `unsigned int`, `maxout` is cast to it. -/
def arc_udbias_outage_body (E : Env) (i0 : Nat) (r : rtk_t) : rtk_t :=
  let f := 0
  let i := i0 + 1
  let reset : Bool := decide (outage_exceeds ((r.ssat (i - 1)).outc f) r.opt.maxout)
  let r1 := set_outc r (i - 1) f (((r.ssat (i - 1)).outc f + 1) % 2 ^ 32)
  let r2 :=
    if r1.opt.modear = ARMODE_INST ∧ r1.x (IB E i f r1.opt) ≠ 0 then
      arc_initx r1 0 0 (IB E i f r1.opt)
    else if reset = true ∧ r1.x (IB E i f r1.opt) ≠ 0 then
      arc_initx r1 0 0 (IB E i f r1.opt)
    else r1
  if r2.opt.modear ≠ ARMODE_INST ∧ reset = true then
    set_lock r2 (i - 1) f (- r2.opt.minlock)
  else r2

/-- Second loop of `arc_udbias`: reset phase-bias if instantaneous AR or expire
obs outage counter. -/
def arc_udbias_outage (E : Env) (rtk : rtk_t) : rtk_t :=
  forN E.MAXSAT (arc_udbias_outage_body E) rtk

/-- Third loop of `arc_udbias`: process noise, and reset phase-bias if detecting
cycle slip. -/
def arc_udbias_slip (E : Env) (rtk : rtk_t) (tt : ℚ) (sat : Nat → Nat) (ns : Nat) : rtk_t :=
  let f := 0
  forN ns
    (fun i r =>
      let j := IB E (sat i) f r.opt
      let r1 := set_P r (j + j * r.nx) (r.P (j + j * r.nx) + r.opt.prn 0 * r.opt.prn 0 * tt)
      let slip := (r1.ssat (sat i - 1)).slip f
      if r1.opt.modear = ARMODE_INST ∨ ¬ (slip &&& 1 ≠ 0) then r1
      else set_lock (set_x r1 j 0) (sat i - 1) f (- r1.opt.minlock)) rtk

/-- Locals `bias`, `offset`, `j` of `arc_udbias` in the phase-minus-code loop. -/
structure udbias_est_t where
  bias : Nat → ℚ
  offset : ℚ
  j : Nat

/-- Fourth loop of `arc_udbias`: estimate approximate phase-bias by phase -
code. -/
def arc_udbias_est (E : Env) (rtk : rtk_t) (obs : Nat → obsd_t) (sat iu ir : Nat → Nat)
    (ns : Nat) (nav : nav_t) : udbias_est_t :=
  let f := 0
  forN ns
    (fun i s =>
      let cp := arc_sdobs E obs (iu i) (ir i) f
      let pr := arc_sdobs E obs (iu i) (ir i) (f + E.NFREQ)
      let lami := nav.lam (sat i - 1) f
      if cp = 0 ∨ pr = 0 ∨ lami ≤ 0 then s
      else
        let b := cp - pr / lami
        let s1 := { s with bias := Function.update s.bias i b }
        if rtk.x (IB E (sat i) f rtk.opt) ≠ 0 then
          { s1 with offset := s1.offset + (b - rtk.x (IB E (sat i) f rtk.opt)), j := s1.j + 1 }
        else s1)
    { bias := fun _ => 0, offset := 0, j := 0 }

/-- Fifth step of `arc_udbias`: correct phase-bias offset to ensure phase-code
coherency. -/
def arc_udbias_offset (E : Env) (rtk : rtk_t) (s : udbias_est_t) : rtk_t :=
  let f := 0
  if s.j > 0 then
    forN E.MAXSAT
      (fun i0 r =>
        let i := i0 + 1
        if r.x (IB E i f r.opt) ≠ 0 then
          set_x r (IB E i f r.opt) (r.x (IB E i f r.opt) + s.offset / (s.j : ℚ))
        else r) rtk
  else rtk

/-- Last loop of `arc_udbias`: set initial states of phase-bias. -/
def arc_udbias_init (E : Env) (rtk : rtk_t) (bias : Nat → ℚ) (sat : Nat → Nat) (ns : Nat) :
    rtk_t :=
  let f := 0
  forN ns
    (fun i r =>
      if bias i = 0 ∨ r.x (IB E (sat i) f r.opt) ≠ 0 then r
      else arc_initx r (bias i) (SQR (r.opt.std 0)) (IB E (sat i) f r.opt)) rtk

/-- Temporal update of phase biases: `arc_udbias`. -/
def arc_udbias (E : Env) (rtk : rtk_t) (tt : ℚ) (obs : Nat → obsd_t) (sat iu ir : Nat → Nat)
    (ns : Nat) (nav : nav_t) : rtk_t :=
  let r1 := arc_udbias_detslp rtk obs sat iu ir ns
  let r2 := arc_udbias_outage E r1
  let r3 := arc_udbias_slip E r2 tt sat ns
  let s := arc_udbias_est E r3 obs sat iu ir ns nav
  let r4 := arc_udbias_offset E r3 s
  arc_udbias_init E r4 s.bias sat ns

/-- `arc_udbias`, phase-minus-code loop: common satellite `i` passes the test
`cp==0.0||pr==0.0||lami<=0.0` (it is not skipped). -/
def udbias_valid (E : Env) (obs : Nat → obsd_t) (sat iu ir : Nat → Nat) (nav : nav_t)
    (i : Nat) : Prop :=
  ¬ (arc_sdobs E obs (iu i) (ir i) 0 = 0 ∨ arc_sdobs E obs (iu i) (ir i) (0 + E.NFREQ) = 0 ∨
      nav.lam (sat i - 1) 0 ≤ 0)

instance (E : Env) (obs : Nat → obsd_t) (sat iu ir : Nat → Nat) (nav : nav_t) (i : Nat) :
    Decidable (udbias_valid E obs sat iu ir nav i) :=
  inferInstanceAs (Decidable (¬ (arc_sdobs E obs (iu i) (ir i) 0 = 0 ∨
    arc_sdobs E obs (iu i) (ir i) (0 + E.NFREQ) = 0 ∨ nav.lam (sat i - 1) 0 ≤ 0)))

/-- `arc_udbias`, phase-minus-code loop: the value `cp-pr/lami` of common
satellite `i`. -/
def udbias_pmc (E : Env) (obs : Nat → obsd_t) (sat iu ir : Nat → Nat) (nav : nav_t)
    (i : Nat) : ℚ :=
  arc_sdobs E obs (iu i) (ir i) 0 -
    arc_sdobs E obs (iu i) (ir i) (0 + E.NFREQ) / nav.lam (sat i - 1) 0

/-- The control struct of `arc_udbias` when the phase-minus-code loop starts
(after the slip detection, the outage loop and the slip loop). -/
def arc_udbias_before_est (E : Env) (rtk : rtk_t) (tt : ℚ) (obs : Nat → obsd_t)
    (sat iu ir : Nat → Nat) (ns : Nat) : rtk_t :=
  arc_udbias_slip E (arc_udbias_outage E (arc_udbias_detslp rtk obs sat iu ir ns)) tt sat ns

/-- The control struct of `arc_udbias` when the last loop (set initial states of
phase-bias) starts. -/
def arc_udbias_before_init (E : Env) (rtk : rtk_t) (tt : ℚ) (obs : Nat → obsd_t)
    (sat iu ir : Nat → Nat) (ns : Nat) (nav : nav_t) : rtk_t :=
  arc_udbias_offset E (arc_udbias_before_est E rtk tt obs sat iu ir ns)
    (arc_udbias_est E (arc_udbias_before_est E rtk tt obs sat iu ir ns) obs sat iu ir ns nav)

/-- The common satellites (positions in `sat[0..ns)`) that enter the coherency
offset: valid single-differenced phase and code, positive wavelength, and a
non-zero ambiguity state. -/
def udbias_sel (E : Env) (rtk : rtk_t) (obs : Nat → obsd_t) (sat iu ir : Nat → Nat)
    (ns : Nat) (nav : nav_t) : Finset Nat :=
  (Finset.range ns).filter
    (fun i => udbias_valid E obs sat iu ir nav i ∧ rtk.x (IB E (sat i) 0 rtk.opt) ≠ 0)

/-- Spec: the arithmetic mean, over the common satellites of `udbias_sel`, of
(phase-minus-code estimate - current ambiguity value). -/
def coherency_mean (E : Env) (rtk : rtk_t) (obs : Nat → obsd_t) (sat iu ir : Nat → Nat)
    (ns : Nat) (nav : nav_t) : ℚ :=
  Finset.sum (udbias_sel E rtk obs sat iu ir ns nav)
      (fun i => udbias_pmc E obs sat iu ir nav i - rtk.x (IB E (sat i) 0 rtk.opt)) /
    ((udbias_sel E rtk obs sat iu ir ns nav).card : ℚ)

/-- Temporal update of states: `arc_udstate`. -/
def arc_udstate (E : Env) (rtk : rtk_t) (obs : Nat → obsd_t) (sat iu ir : Nat → Nat)
    (ns : Nat) (nav : nav_t) : rtk_t :=
  let tt := |rtk.tt|
  /- temporal update of position/velocity/acceleration -/
  let r1 := arc_udpos E rtk tt
  /- temporal update of ionospheric parameters -/
  let r2 :=
    if r1.opt.ionoopt ≥ IONOOPT_EST then
      arc_udion E r1 tt (arc_baseline E r1.x r1.rb) sat ns
    else r1
  /- temporal update of tropospheric parameters -/
  let r3 := if r2.opt.tropopt ≥ TROPOPT_EST then arc_udtrop E r2 tt else r2
  /- temporal update of phase-bias -/
  if r3.opt.mode > PMODE_DGPS then arc_udbias E r3 tt obs sat iu ir ns nav else r3

/-! ## Observation model -/

/-- Result of `arc_zdres`: return value and the arrays `y`, `e`, `azel`. -/
structure zdres_t where
  ret : Int
  y : Nat → ℚ
  e : Nat → ℚ
  azel : Nat → ℚ

/-- Undifferenced phase/code residual for satellite: `arc_zdres_sat` (`nf` is 1
in the source).  The result is the array `y` of the caller, the arguments `y`,
`azel` start at the satellite's first element. -/
def arc_zdres_sat (E : Env) (base : Nat) (r : ℚ) (obs : obsd_t) (nav : nav_t)
    (azel dant : Nat → ℚ) (dion : ℚ) (opt : prcopt_t) (y : Nat → ℚ) : Nat → ℚ :=
  let lam := nav.lam (obs.sat - 1)
  let i := 0
  let nf := 1
  if lam i = 0 then y
  /- check snr mask -/
  else if E.testsnr base i (azel 1) ((obs.SNR i : ℚ) * (1 / 4)) opt then y
  else
    /- residuals = observable - pseudorange -/
    let y1 := if obs.L i ≠ 0 then Function.update y i (obs.L i * lam i - r - dant i + dion) else y
    if obs.P i ≠ 0 then Function.update y1 (i + nf) (obs.P i - r - dant i - dion) else y1

/-- `arc_zdres`: body of the loop `for (i=0;i<n;i++)` over the observations, for
the tide-corrected position `rr_` and its geodetic form `pos`. -/
def arc_zdres_obs (E : Env) (base : Nat) (obs : Nat → obsd_t) (rs dts : Nat → ℚ)
    (svh : Nat → Int) (nav : nav_t) (rr_ pos : Nat → ℚ) (opt : prcopt_t) (index : Nat)
    (i : Nat) (s : zdres_t) : zdres_t :=
  let nf := 1
  /- compute geometric-range and azimuth/elevation angle -/
  let g := E.geodist (fun k => rs (i * 6 + k)) rr_ (fun k => s.e (i * 3 + k))
  let e1 : Nat → ℚ := fun k => if i * 3 ≤ k ∧ k < i * 3 + 3 then g.2 (k - i * 3) else s.e k
  let s1 := { s with e := e1 }
  if g.1 ≤ 0 then s1
  else
    let a := E.satazel pos (fun k => e1 (i * 3 + k)) (fun k => s.azel (i * 2 + k))
    let azel1 : Nat → ℚ :=
      fun k => if i * 2 ≤ k ∧ k < i * 2 + 2 then a.2 (k - i * 2) else s.azel k
    let s2 := { s1 with azel := azel1 }
    if a.1 < opt.elmin then s2
    /- excluded satellite? -/
    else if E.satexclude (obs i).sat (svh i) opt then s2
    else
      /- satellite clock-bias -/
      let r1 := g.1 + - E.CLIGHT * dts (i * 2)
      /- troposphere delay model (hydrostatic) -/
      let zhd := E.tropmodel (obs 0).time pos
      let r2 := r1 + (E.tropmapf (obs i).time pos (fun k => azel1 (i * 2 + k))).1 * zhd
      /- ionospheric corrections -/
      let ic := E.ionocorr (obs i).time nav (obs i).sat pos (fun k => azel1 (i * 2 + k))
        IONOOPT_BRDC
      if ic.1 = false then s2
      else
        /- receiver antenna phase center correction -/
        let dant := E.antmodel opt index (fun k => azel1 (i * 2 + k))
        /- undifferenced phase/code residual for satellite -/
        let ys := arc_zdres_sat E base r2 (obs i) nav (fun k => azel1 (i * 2 + k)) dant
          ic.2.1 opt (fun k => s2.y (i * nf * 2 + k))
        { s2 with y := fun k =>
            if i * nf * 2 ≤ k ∧ k < i * nf * 2 + 2 then ys (k - i * nf * 2) else s2.y k }

/-- Undifferenced phase/code residuals: `arc_zdres`.  The arrays `rs`, `dts`,
`svh`, `y`, `e`, `azel` and `obs` start at the station's first observation. -/
def arc_zdres (E : Env) (base : Nat) (obs : Nat → obsd_t) (n : Nat) (rs dts : Nat → ℚ)
    (svh : Nat → Int) (nav : nav_t) (rr : Nat → ℚ) (opt : prcopt_t) (index : Nat)
    (y e azel : Nat → ℚ) : zdres_t :=
  let nf := 1
  let y0 := forN (n * nf * 2) (fun i y => Function.update y i 0) y
  if E.arc_norm rr 3 ≤ 0 then { ret := 0, y := y0, e := e, azel := azel }  /- no receiver position -/
  else
    /- earth tide correction -/
    let rr_ : Nat → ℚ :=
      if opt.tidecorr ≠ 0 then
        fun i => if i < 3 then rr i + E.tidedisp (E.gpst2utc (obs 0).time) rr opt nav base i
                 else rr i
      else rr
    let pos := E.ecef2pos rr_
    forN n (arc_zdres_obs E base obs rs dts svh nav rr_ pos opt index)
      { ret := 1, y := y0, e := e, azel := azel }

/-- Test valid observation data: `arc_validobs`. -/
def arc_validobs (i j f nf : Nat) (y : Nat → ℚ) : Bool :=
  /- if no phase observable, pseudorange is also unusable -/
  decide (y (f + i * nf * 2) ≠ 0 ∧ y (f + j * nf * 2) ≠ 0 ∧
    (f < nf ∨ (y (f - nf + i * nf * 2) ≠ 0 ∧ y (f - nf + j * nf * 2) ≠ 0)))

/-- Single-differenced measurement error variance: `arc_varerr`. -/
def arc_varerr (E : Env) (sys : Nat) (el bl dt : ℚ) (f : Nat) (opt : prcopt_t) : ℚ :=
  let c := opt.err 3 * bl / 10000
  let d := E.CLIGHT * opt.sclkstab * dt
  let sinel := E.sin el
  let i := if sys = SYS_GLO then 1 else (if sys = SYS_GAL then 2 else 0)
  let nf := NF opt
  let ab : ℚ × ℚ :=
    /- extended error model -/
    if f ≥ nf ∧ opt.exterr.ena 0 ≠ 0 then  /- code -/
      let a := opt.exterr.cerr i ((f - nf) * 2)
      let b := opt.exterr.cerr i (1 + (f - nf) * 2)
      if sys = SYS_SBS then (a * E.EFACT_SBS, b * E.EFACT_SBS) else (a, b)
    else if f < nf ∧ opt.exterr.ena 1 ≠ 0 then  /- phase -/
      let a := opt.exterr.perr i (f * 2)
      let b := opt.exterr.perr i (1 + f * 2)
      if sys = SYS_SBS then (a * E.EFACT_SBS, b * E.EFACT_SBS) else (a, b)
    else  /- normal error model -/
      let fact0 : ℚ := if f ≥ nf then opt.eratio (f - nf) else 1
      let fact1 := if fact0 ≤ 0 then opt.eratio 0 else fact0
      let fact := fact1 *
        (if sys = SYS_GLO then E.EFACT_GLO else (if sys = SYS_SBS then E.EFACT_SBS else E.EFACT_GPS))
      (fact * opt.err 1, fact * opt.err 2)
  2 * (if opt.ionoopt = IONOOPT_IFLC then 3 else 1) *
    (ab.1 * ab.1 + ab.2 * ab.2 / sinel / sinel + c * c) + d * d

/-- Double-differenced measurement error covariance: `arc_ddcov`. -/
def arc_ddcov (nb : Nat → Nat) (n : Nat) (Ri Rj : Nat → ℚ) (nv : Nat) (R : Nat → ℚ) :
    Nat → ℚ :=
  let R0 := forN (nv * nv) (fun i R => Function.update R i 0) R
  (forN n
    (fun b (s : Nat × (Nat → ℚ)) =>
      (s.1 + nb b,
        forN (nb b) (fun i R => forN (nb b) (fun j R =>
          Function.update R (s.1 + i + (s.1 + j) * nv)
            (Ri (s.1 + i) + (if i = j then Rj (s.1 + i) else 0))) R) s.2))
    (0, R0)).2

/-- Offset `k` of block `b` in `arc_ddcov`: the sum of the sizes of the blocks
before it (the loop header `for (b=0;b<n;k+=nb[b++])`). -/
def ddcov_off (nb : Nat → Nat) : Nat → Nat
  | 0 => 0
  | b + 1 => ddcov_off nb b + nb b

/-- Result of `arc_constbl`: return value and the arrays `v`, `H`, `Ri`, `Rj`. -/
structure constbl_t where
  ret : Int
  v : Nat → ℚ
  H : Option (Nat → ℚ)
  Ri : Nat → ℚ
  Rj : Nat → ℚ

/-- Baseline length constraint: `arc_constbl`.  `P` and `H` may be null
pointers. -/
def arc_constbl (E : Env) (rtk : rtk_t) (x : Nat → ℚ) (P : Option (Nat → ℚ)) (v : Nat → ℚ)
    (H : Option (Nat → ℚ)) (Ri Rj : Nat → ℚ) (index : Nat) : constbl_t :=
  let thres : ℚ := 1 / 10  /- threshold for nonlinearity -/
  /- no constraint -/
  if rtk.opt.baseline 0 ≤ 0 then { ret := 0, v := v, H := H, Ri := Ri, Rj := Rj }
  else
    /- time-adjusted baseline vector and length -/
    let xb : Nat → ℚ := fun i => rtk.rb i + rtk.rb (i + 3) * rtk.sol.age
    let b : Nat → ℚ := fun i => x i - xb i
    let bb := E.arc_norm b 3
    /- approximate variance of solution -/
    let var : ℚ :=
      match P with
      | some P => (forN 3 (fun i v => v + P (i + i * rtk.nx)) (0 : ℚ)) / 3
      | none => 0
    /- check nonlinearity -/
    if var > thres * thres * bb * bb then { ret := 0, v := v, H := H, Ri := Ri, Rj := Rj }
    else
      /- constraint to baseline length -/
      { ret := 1
        v := Function.update v index (rtk.opt.baseline 0 - bb)
        H := H.map (fun H =>
          forN 3 (fun i H => Function.update H (i + index * rtk.nx) (b i / bb)) H)
        Ri := Function.update Ri index 0
        Rj := Function.update Rj index (SQR (rtk.opt.baseline 1)) }

/-- The baseline length `bb` of `arc_constbl`: the norm of the rover position
minus the time-adjusted base position. -/
def constbl_bb (E : Env) (rtk : rtk_t) (x : Nat → ℚ) : ℚ :=
  E.arc_norm (fun i => x i - (rtk.rb i + rtk.rb (i + 3) * rtk.sol.age)) 3

/-- The approximate variance `var` of `arc_constbl`: the mean of the three
position variances, `0` when `P` is a null pointer. -/
def constbl_var (rtk : rtk_t) (P : Option (Nat → ℚ)) : ℚ :=
  match P with
  | some P => (forN 3 (fun i v => v + P (i + i * rtk.nx)) (0 : ℚ)) / 3
  | none => 0

/-- Precise tropospheric model: `arc_prectrop`; the return value and the three
elements of `dtdx`. -/
def arc_prectrop (E : Env) (time : gtime_t) (pos : Nat → ℚ) (r : Nat) (azel : Nat → ℚ)
    (opt : prcopt_t) (x : Nat → ℚ) : ℚ × (Nat → ℚ) :=
  let i := IT E r opt
  /- wet mapping function -/
  let m_w0 := (E.tropmapf time pos azel).2
  if opt.tropopt ≥ TROPOPT_ESTG ∧ azel 1 > 0 then
    let cotz := 1 / E.tan (azel 1)
    let grad_n := m_w0 * cotz * E.cos (azel 0)
    let grad_e := m_w0 * cotz * E.sin (azel 0)
    let m_w := m_w0 + (grad_n * x (i + 1) + grad_e * x (i + 2))
    (m_w * x i, fun k => if k = 0 then m_w else if k = 1 then grad_n * x i
                         else if k = 2 then grad_e * x i else 0)
  else
    (m_w0 * x i, fun k => if k = 0 then m_w0 else 0)

/-- Test navi system (m=0:gps/qzs/sbs,1:glo,2:gal,3:bds): `arc_test_sys`. -/
def arc_test_sys (sys m : Nat) : Bool :=
  if sys = SYS_GPS then decide (m = 0)
  else if sys = SYS_SBS then decide (m = 0)
  else if sys = SYS_GAL then decide (m = 2)
  else if sys = SYS_CMP then decide (m = 3)
  else false

/-- Working state of `arc_ddres`: the track data it writes, the output arrays
(`H`, `R` may be null pointers) and the locals `Ri`, `Rj`, `nv`, `nb`, `b`. -/
structure ddres_t where
  rtk : rtk_t
  v : Nat → ℚ
  H : Option (Nat → ℚ)
  R : Option (Nat → ℚ)
  Ri : Nat → ℚ
  Rj : Nat → ℚ
  vflg : Nat → Nat
  nv : Nat
  nb : Nat → Nat
  b : Nat

/-- Atmospheric factors computed by `arc_ddres` before the system loop: `im`,
`tropu`, `tropr`, `dtdxu`, `dtdxr`. -/
structure ddres_atm_t where
  im : Nat → ℚ
  tropu : Nat → ℚ
  tropr : Nat → ℚ
  dtdxu : Nat → ℚ
  dtdxr : Nat → ℚ

/-- `arc_ddres`: compute factors of ionospheric and tropospheric delay. -/
def arc_ddres_atm (E : Env) (rtk : rtk_t) (x azel : Nat → ℚ) (iu ir : Nat → Nat) (ns : Nat) :
    ddres_atm_t :=
  let opt := rtk.opt
  let posu := E.ecef2pos x
  let posr := E.ecef2pos rtk.rb
  forN ns
    (fun i a =>
      let a1 :=
        if opt.ionoopt ≥ IONOOPT_EST then
          { a with im := (Function.update a.im i
              ((E.ionmapf posu (fun k => azel (iu i * 2 + k)) +
                E.ionmapf posr (fun k => azel (ir i * 2 + k))) / 2)) }
        else a
      if opt.tropopt ≥ TROPOPT_EST then
        let tu := arc_prectrop E rtk.sol.time posu 0 (fun k => azel (iu i * 2 + k)) opt x
        let tr := arc_prectrop E rtk.sol.time posr 1 (fun k => azel (ir i * 2 + k)) opt x
        { a1 with
          tropu := Function.update a1.tropu i tu.1
          tropr := Function.update a1.tropr i tr.1
          dtdxu := (fun k => if i * 3 ≤ k ∧ k < i * 3 + 3 then tu.2 (k - i * 3) else a1.dtdxu k)
          dtdxr := (fun k => if i * 3 ≤ k ∧ k < i * 3 + 3 then tr.2 (k - i * 3) else a1.dtdxr k) }
      else a1)
    { im := E.arc_mat ns 1, tropu := E.arc_mat ns 1, tropr := E.arc_mat ns 1,
      dtdxu := E.arc_mat ns 3, dtdxr := E.arc_mat ns 3 }

/-- `arc_ddres`: search reference satellite with highest elevation; `none` is the
initial `i=-1`. -/
def arc_ddres_ref (rtk : rtk_t) (sat iu ir : Nat → Nat) (ns : Nat) (y azel : Nat → ℚ)
    (m f nf : Nat) : Option Nat :=
  forN ns
    (fun j i =>
      let sysi := (rtk.ssat (sat j - 1)).sys
      if arc_test_sys sysi m = false then i
      else if arc_validobs (iu j) (ir j) f nf y = false then i
      else
        match i with
        | none => some j
        | some i0 => if azel (1 + iu j * 2) ≥ azel (1 + iu i0 * 2) then some j else some i0)
    none

/-- `arc_ddres`: body of the loop "make double difference" for reference `i` and
satellite `j`. -/
def arc_ddres_pair (E : Env) (nav : nav_t) (dt : ℚ) (x : Nat → ℚ) (sat : Nat → Nat)
    (y e azel : Nat → ℚ) (iu ir : Nat → Nat) (bl : ℚ) (a : ddres_atm_t) (m f i j : Nat)
    (s : ddres_t) : ddres_t :=
  let nf := 1
  let rtk := s.rtk
  let opt := rtk.opt
  let nx := rtk.nx
  if i = j then s
  else
    let sysi := (rtk.ssat (sat i - 1)).sys
    let sysj := (rtk.ssat (sat j - 1)).sys
    if arc_test_sys sysj m = false then s
    else if arc_validobs (iu j) (ir j) f nf y = false then s
    else
      let ff := f % nf
      let lami := nav.lam (sat i - 1) ff
      let lamj := nav.lam (sat j - 1) ff
      if lami ≤ 0 ∨ lamj ≤ 0 then s
      else
        let nv := s.nv
        let H0 := s.H.map (fun H => forN nx (fun k H => Function.update H (nv * nx + k) 0) H)
        /- double-differenced residual -/
        let v0 := (y (f + iu i * nf * 2) - y (f + ir i * nf * 2)) -
                  (y (f + iu j * nf * 2) - y (f + ir j * nf * 2))
        /- derivatives by rover position -/
        let H1 := H0.map (fun H => forN 3 (fun k H =>
          Function.update H (nv * nx + k) (- e (k + iu i * 3) + e (k + iu j * 3))) H)
        /- double-differenced ionospheric delay term -/
        let fi := lami / E.lam_carr 0
        let fj := lamj / E.lam_carr 0
        let didxi := (if f < nf then -1 else 1) * fi * fi * a.im i
        let didxj := (if f < nf then -1 else 1) * fj * fj * a.im j
        let v1 := if opt.ionoopt = IONOOPT_EST then
          v0 - (didxi * x (II (sat i) opt) - didxj * x (II (sat j) opt)) else v0
        let H2 := if opt.ionoopt = IONOOPT_EST then
          H1.map (fun H => Function.update (Function.update H (nv * nx + II (sat i) opt) didxi)
            (nv * nx + II (sat j) opt) (- didxj)) else H1
        /- double-differenced tropospheric delay term -/
        let trop : Bool := decide (opt.tropopt = TROPOPT_EST ∨ opt.tropopt = TROPOPT_ESTG)
        let v2 := if trop then v1 - ((a.tropu i - a.tropu j) - (a.tropr i - a.tropr j)) else v1
        let H3 := if trop then
          H2.map (fun H => forN (if opt.tropopt < TROPOPT_ESTG then 1 else 3) (fun k H =>
            Function.update
              (Function.update H (nv * nx + IT E 0 opt + k) (a.dtdxu (k + i * 3) - a.dtdxu (k + j * 3)))
              (nv * nx + IT E 1 opt + k) (- (a.dtdxr (k + i * 3) - a.dtdxr (k + j * 3)))) H)
          else H2
        /- double-differenced phase-bias term -/
        let v3 := if f < nf then v2 - (lami * x (IB E (sat i) f opt) - lamj * x (IB E (sat j) f opt))
                  else v2
        let H4 := if f < nf then
          H3.map (fun H => Function.update (Function.update H (nv * nx + IB E (sat i) f opt) lami)
            (nv * nx + IB E (sat j) f opt) (- lamj)) else H3
        let ssj := rtk.ssat (sat j - 1)
        let rtk1 : rtk_t := { rtk with ssat := (Function.update rtk.ssat (sat j - 1)
          (if f < nf then { ssj with resc := Function.update ssj.resc f v3 }
           else { ssj with resp := Function.update ssj.resp (f - nf) v3 })) }
        let s1 : ddres_t := { s with rtk := rtk1, v := Function.update s.v nv v3, H := H4 }
        /- test innovation -/
        if opt.ceres = 0 ∧ opt.maxinno > 0 ∧ |v3| > opt.maxinno then
          if f < nf then
            let si := rtk1.ssat (sat i - 1)
            let ssat1 := Function.update rtk1.ssat (sat i - 1)
              { si with rejc := Function.update si.rejc f ((si.rejc f + 1) % 2 ^ 32) }
            let sj := ssat1 (sat j - 1)
            let ssat2 := Function.update ssat1 (sat j - 1)
              { sj with rejc := Function.update sj.rejc f ((sj.rejc f + 1) % 2 ^ 32) }
            { s1 with rtk := { rtk1 with ssat := ssat2 } }
          else s1
        else
          /- single-differenced measurement error variances -/
          let Rj1 := if s1.R.isSome then
            Function.update s1.Rj nv (arc_varerr E sysj (azel (1 + iu j * 2)) bl dt f opt) else s1.Rj
          let Ri1 := if s1.R.isSome then
            Function.update s1.Ri nv (arc_varerr E sysi (azel (1 + iu i * 2)) bl dt f opt) else s1.Ri
          /- set valid data flags -/
          let fv := if opt.mode > PMODE_DGPS then f else f - nf
          let rtk2 : rtk_t :=
            if opt.mode > PMODE_DGPS ∧ ¬ (f < nf) then rtk1
            else
              let sj := rtk1.ssat (sat j - 1)
              let ssat1 := Function.update rtk1.ssat (sat j - 1)
                { sj with vsat := Function.update sj.vsat fv 1 }
              let si := ssat1 (sat i - 1)
              { rtk1 with ssat := (Function.update ssat1 (sat i - 1)
                  { si with vsat := Function.update si.vsat fv 1 }) }
          { s1 with
            rtk := rtk2
            Ri := Ri1
            Rj := Rj1
            vflg := (Function.update s1.vflg nv
              ((sat i <<< 16) ||| (sat j <<< 8) ||| ((if f < nf then 0 else 1) <<< 4) ||| (f % nf)))
            nv := nv + 1
            nb := Function.update s1.nb s1.b (s1.nb s1.b + 1) }

/-- `arc_ddres`: one pass of the loops over the system `m` and the channel `f`. -/
def arc_ddres_group (E : Env) (nav : nav_t) (dt : ℚ) (x : Nat → ℚ) (sat : Nat → Nat)
    (y e azel : Nat → ℚ) (iu ir : Nat → Nat) (ns : Nat) (bl : ℚ) (a : ddres_atm_t) (m f : Nat)
    (s : ddres_t) : ddres_t :=
  let nf := 1
  match arc_ddres_ref s.rtk sat iu ir ns y azel m f nf with
  | none => s
  | some i =>
    let s1 := forN ns (fun j s => arc_ddres_pair E nav dt x sat y e azel iu ir bl a m f i j s) s
    { s1 with b := s1.b + 1 }

/-- Double-differenced phase/code residuals: `arc_ddres`.  The return value is
the field `nv` of the result. -/
def arc_ddres (E : Env) (rtk : rtk_t) (nav : nav_t) (dt : ℚ) (x : Nat → ℚ)
    (P : Option (Nat → ℚ)) (sat : Nat → Nat) (y e azel : Nat → ℚ) (iu ir : Nat → Nat) (ns : Nat)
    (v : Nat → ℚ) (H R : Option (Nat → ℚ)) (vflg : Nat → Nat) : ddres_t :=
  let nf := 1
  let opt := rtk.opt
  let bl := arc_baseline E x rtk.rb
  let rtk0 : rtk_t := forN E.MAXSAT
    (fun i r =>
      let ss := r.ssat i
      { r with ssat := (Function.update r.ssat i
          { ss with resp := Function.update ss.resp 0 0, resc := Function.update ss.resc 0 0 }) })
    rtk
  let a := arc_ddres_atm E rtk x azel iu ir ns
  let f0 := if opt.mode > PMODE_DGPS then 0 else nf
  let s1 := forN 4
    (fun m s => forN (nf * 2 - f0)
      (fun k s => arc_ddres_group E nav dt x sat y e azel iu ir ns bl a m (f0 + k) s) s)
    { rtk := rtk0, v := v, H := H, R := R, Ri := E.arc_mat (ns * nf * 2 + 2) 1,
      Rj := E.arc_mat (ns * nf * 2 + 2) 1, vflg := vflg, nv := 0, nb := fun _ => 0, b := 0 }
  /- baseline length constraint for moving baseline -/
  let s2 :=
    if opt.mode = PMODE_MOVEB then
      let c := arc_constbl E s1.rtk x P s1.v s1.H s1.Ri s1.Rj s1.nv
      let s1c : ddres_t := { s1 with v := c.v, H := c.H, Ri := c.Ri, Rj := c.Rj }
      if c.ret ≠ 0 then
        { s1c with
          vflg := Function.update s1c.vflg s1c.nv (3 <<< 4)
          nv := s1c.nv + 1
          nb := Function.update s1c.nb s1c.b (s1c.nb s1c.b + 1)
          b := s1c.b + 1 }
      else s1c
    else s1
  /- double-differenced measurement error covariance -/
  match s2.R with
  | some R => { s2 with R := some (arc_ddcov s2.nb s2.b s2.Ri s2.Rj s2.nv R) }
  | none => s2

/-- Function-local static storage of `arc_intpres`: the cached base epoch. -/
structure intpres_static_t where
  obsb : Nat → obsd_t
  yb : Nat → ℚ
  e : Nat → ℚ
  azel : Nat → ℚ
  nb : Nat

/-- Result of `arc_intpres`: the returned time deviation, the residuals `y` and
the static storage after the call. -/
structure intpres_t where
  ret : ℚ
  y : Nat → ℚ
  st : intpres_static_t

/-- Time-interpolation of residuals (for post-mission): `arc_intpres`.  `obs` and
`y` start at the first base observation. -/
def arc_intpres (E : Env) (st : intpres_static_t) (time : gtime_t) (obs : Nat → obsd_t)
    (n : Nat) (nav : nav_t) (rtk : rtk_t) (y : Nat → ℚ) : intpres_t :=
  let opt := rtk.opt
  let nf := 1
  let tt := E.timediff time (obs 0).time
  if st.nb = 0 ∨ |tt| < E.DTTOL then
    { ret := tt, y := y,
      st := { st with nb := n, obsb := fun i => if i < n then obs i else st.obsb i } }
  else
    let ttb := E.timediff time (st.obsb 0).time
    if |ttb| > opt.maxtdiff * 2 ∨ ttb = tt then { ret := tt, y := y, st := st }
    else
      let sp := E.satposs time st.obsb st.nb nav opt
      let z := arc_zdres E 1 st.obsb st.nb sp.rs sp.dts sp.svh nav rtk.rb opt 1 st.yb st.e st.azel
      let st1 : intpres_static_t := { st with yb := z.y, e := z.e, azel := z.azel }
      if z.ret = 0 then { ret := tt, y := y, st := st1 }
      else
        let y1 := forN n
          (fun i y =>
            let j := find_first (fun j => decide ((st.obsb j).sat = (obs i).sat)) st.nb 0
            if j ≥ st.nb then y
            else forN (nf * 2)
              (fun k y =>
                let p := y (i * nf * 2 + k)
                let q := z.y (j * nf * 2 + k)
                if p = 0 ∨ q = 0 then Function.update y (i * nf * 2 + k) 0
                else Function.update y (i * nf * 2 + k) ((ttb * p - tt * q) / (ttb - tt))) y) y
        { ret := if |ttb| > |tt| then ttb else tt, y := y1, st := st1 }

/-- `ARC_ObservationModel::IntPres`: the body of `arc_intpres` with the options
`m_Opt` and the base position `rb` read from the true state
(`m_TrueArcState.getBasePosX/Y/Z`). -/
def IntPres (E : Env) (st : intpres_static_t) (time : gtime_t) (obs : Nat → obsd_t)
    (n : Nat) (nav : nav_t) (m_Opt : prcopt_t) (rb : Nat → ℚ) (y : Nat → ℚ) : intpres_t :=
  let nf := 1
  let tt := E.timediff time (obs 0).time
  if st.nb = 0 ∨ |tt| < E.DTTOL then
    { ret := tt, y := y,
      st := { st with nb := n, obsb := fun i => if i < n then obs i else st.obsb i } }
  else
    let ttb := E.timediff time (st.obsb 0).time
    if |ttb| > m_Opt.maxtdiff * 2 ∨ ttb = tt then { ret := tt, y := y, st := st }
    else
      let sp := E.satposs time st.obsb st.nb nav m_Opt
      let z := arc_zdres E 1 st.obsb st.nb sp.rs sp.dts sp.svh nav rb m_Opt 1 st.yb st.e st.azel
      let st1 : intpres_static_t := { st with yb := z.y, e := z.e, azel := z.azel }
      if z.ret = 0 then { ret := tt, y := y, st := st1 }
      else
        let y1 := forN n
          (fun i y =>
            let j := find_first (fun j => decide ((st.obsb j).sat = (obs i).sat)) st.nb 0
            if j ≥ st.nb then y
            else forN (nf * 2)
              (fun k y =>
                let p := y (i * nf * 2 + k)
                let q := z.y (j * nf * 2 + k)
                if p = 0 ∨ q = 0 then Function.update y (i * nf * 2 + k) 0
                else Function.update y (i * nf * 2 + k) ((ttb * p - tt * q) / (ttb - tt))) y) y
        { ret := if |ttb| > |tt| then ttb else tt, y := y1, st := st1 }

/-! ## Ambiguity resolution -/

/-- Working state of `arc_ddmat`: the track data (fix flags), `D` and `nb`. -/
structure ddmat_t where
  rtk : rtk_t
  D : Nat → ℚ
  nb : Nat

/-- `arc_ddmat`: the loop `for (i=k;i<k+MAXSAT;i++)` that looks for the reference
ambiguity, with `n` iterations left; the result holds the value of `i` after
the loop (`k+MAXSAT` when the loop ends without `break`). -/
def arc_ddmat_ref (m f k : Nat) (nofix : Bool) : Nat → Nat → rtk_t → rtk_t × Nat
  | 0, i, r => (r, i)
  | n + 1, i, r =>
    let ss := r.ssat (i - k)
    if r.x i = 0 ∨ arc_test_sys ss.sys m = false ∨ ss.vsat f = 0 ∨ ss.half f = 0 then
      arc_ddmat_ref m f k nofix n (i + 1) r
    else if ss.lock f > 0 ∧ ¬ (ss.slip f &&& 2 ≠ 0) ∧ ss.azel 1 ≥ r.opt.elmaskar ∧
        nofix = false then
      ({ r with ssat := Function.update r.ssat (i - k) { ss with fix := Function.update ss.fix f 2 } },
        i)
    else
      arc_ddmat_ref m f k nofix n (i + 1)
        { r with ssat := Function.update r.ssat (i - k) { ss with fix := Function.update ss.fix f 1 } }

/-- The test of the reference search of `arc_ddmat` on the ambiguity index `i`
(satellite slot `i-k`): an active ambiguity of family `m` with valid data and
valid half-cycle flag, with lock, without the parity-unknown flag, at or above
the elevation mask of ambiguity resolution. -/
def ddmat_ref_ok (r : rtk_t) (m f k : Nat) (nofix : Bool) (i : Nat) : Prop :=
  ¬ (r.x i = 0 ∨ arc_test_sys (r.ssat (i - k)).sys m = false ∨ (r.ssat (i - k)).vsat f = 0 ∨
      (r.ssat (i - k)).half f = 0) ∧
  ((r.ssat (i - k)).lock f > 0 ∧ ¬ ((r.ssat (i - k)).slip f &&& 2 ≠ 0) ∧
    (r.ssat (i - k)).azel 1 ≥ r.opt.elmaskar ∧ nofix = false)

/-- `arc_ddmat`: body of the loop `for (j=k;j<k+MAXSAT;j++)` for reference `i`. -/
def arc_ddmat_col (m f k : Nat) (nofix : Bool) (i j : Nat) (s : ddmat_t) : ddmat_t :=
  let r := s.rtk
  let nx := r.nx
  let na := r.na
  let ss := r.ssat (j - k)
  if i = j ∨ r.x j = 0 ∨ arc_test_sys ss.sys m = false ∨ ss.vsat f = 0 then s
  else if ss.lock f > 0 ∧ ¬ (ss.slip f &&& 2 ≠ 0) ∧ (r.ssat (i - k)).vsat f ≠ 0 ∧
      ss.azel 1 ≥ r.opt.elmaskar ∧ nofix = false then
    { rtk := { r with ssat := (Function.update r.ssat (j - k)
                 { ss with fix := Function.update ss.fix f 2 }) }
      D := Function.update (Function.update s.D (i + (na + s.nb) * nx) 1)
             (j + (na + s.nb) * nx) (-1)
      nb := s.nb + 1 }
  else
    { s with rtk := { r with ssat := (Function.update r.ssat (j - k)
                        { ss with fix := Function.update ss.fix f 1 }) } }

/-- Single to double-difference transformation matrix (D'): `arc_ddmat`.  The
return value is the field `nb` of the result. -/
def arc_ddmat (E : Env) (rtk : rtk_t) (D : Nat → ℚ) : ddmat_t :=
  let nx := rtk.nx
  let na := rtk.na
  let nf := 1
  let rtk0 : rtk_t := forN E.MAXSAT
    (fun i r =>
      let ss := r.ssat i
      { r with ssat := Function.update r.ssat i { ss with fix := Function.update ss.fix 0 0 } })
    rtk
  let D0 := forN na (fun i D => Function.update D (i + i * nx) 1) D
  forN 4
    (fun m s =>
      let nofix : Bool := decide ((m = 1 ∧ s.rtk.opt.glomodear = 0) ∨
        (m = 3 ∧ s.rtk.opt.bdsmodear = 0))
      forN nf
        (fun f s =>
          let k := na + E.MAXSAT * f
          let ri := arc_ddmat_ref m f k nofix E.MAXSAT k s.rtk
          forN E.MAXSAT (fun j0 s => arc_ddmat_col m f k nofix ri.2 (k + j0) s)
            { s with rtk := ri.1 }) s)
    { rtk := rtk0, D := D0, nb := 0 }

/-- `arc_ddmat`: the flag `nofix=(m==1&&rtk->opt.glomodear==0)||
(m==3&&rtk->opt.bdsmodear==0)` of family `m`. -/
def ddmat_nofix (rtk : rtk_t) (m : Nat) : Bool :=
  decide ((m = 1 ∧ rtk.opt.glomodear = 0) ∨ (m = 3 ∧ rtk.opt.bdsmodear = 0))

/-- The control struct `r` differs from `r0` at most in the fix flags: what the
loops of `arc_ddmat` read (states, options, and the satellite fields `sys`,
`vsat`, `half`, `lock`, `slip`, `azel`) is the same. -/
def fix_frame (r0 r : rtk_t) : Prop :=
  r.x = r0.x ∧ r.nx = r0.nx ∧ r.na = r0.na ∧ r.opt = r0.opt ∧
  ∀ t, (r.ssat t).sys = (r0.ssat t).sys ∧ (r.ssat t).vsat = (r0.ssat t).vsat ∧
    (r.ssat t).half = (r0.ssat t).half ∧ (r.ssat t).lock = (r0.ssat t).lock ∧
    (r.ssat t).slip = (r0.ssat t).slip ∧ (r.ssat t).azel = (r0.ssat t).azel

/-- Column `na+c` of `D` is a double-difference column of family `m`: `+1` in row
`r`, the first ambiguity of the family that passes the reference test, `-1` in
row `s`, another active ambiguity of the family, and 0 in every other row. -/
def ddmat_col_spec (R0 : rtk_t) (D : Nat → ℚ) (c m r s : Nat) : Prop :=
  R0.na ≤ r ∧ r < R0.nx ∧ R0.na ≤ s ∧ s < R0.nx ∧ r ≠ s ∧
  ddmat_ref_ok R0 m 0 R0.na (ddmat_nofix R0 m) r ∧
  (∀ j, R0.na ≤ j → j < r → ¬ ddmat_ref_ok R0 m 0 R0.na (ddmat_nofix R0 m) j) ∧
  R0.x s ≠ 0 ∧ arc_test_sys (R0.ssat (s - R0.na)).sys m = true ∧
  ∀ t, t < R0.nx → D (t + (R0.na + c) * R0.nx) = if t = r then 1 else if t = s then -1 else 0

/-- Invariant of the loops of `arc_ddmat` in family `M` before the candidate
`na+P`: the first `na` columns of `D` are identity columns, the columns
`na..na+nb-1` are double-difference columns (of family `mf c`, reference `rf c`,
other ambiguity `sf c`) written in the order of the families and of the
satellites, and the columns from `na+nb` on are zero. -/
def ddmat_inv (R0 : rtk_t) (mf rf sf : Nat → Nat) (M P : Nat) (s : ddmat_t) : Prop :=
  fix_frame R0 s.rtk ∧
  (∀ c t, c < R0.na → t < R0.nx → s.D (t + c * R0.nx) = if t = c then 1 else 0) ∧
  (∀ c t, R0.na + s.nb ≤ c → t < R0.nx → s.D (t + c * R0.nx) = 0) ∧
  (∀ c, c < s.nb → ddmat_col_spec R0 s.D c (mf c) (rf c) (sf c) ∧
    (mf c < M ∨ (mf c = M ∧ sf c < R0.na + P))) ∧
  (∀ c c2, c < c2 → c2 < s.nb → mf c < mf c2 ∨ (mf c = mf c2 ∧ sf c < sf c2))

/-- See `ddmat_inv`. -/
def ddmat_Inv (R0 : rtk_t) (M P : Nat) (s : ddmat_t) : Prop :=
  ∃ mf rf sf, ddmat_inv R0 mf rf sf M P s


/-- Locals of `arc_restamb` and `arc_holdamb` in the loop over the satellites:
the list `index` and its length `n`. -/
structure index_t where
  index : Nat → Nat
  n : Nat

/-- Working state of `arc_restamb`: `xa`, `nv` and the list `index`. -/
structure restamb_t where
  xa : Nat → ℚ
  nv : Nat
  index : Nat → Nat

/-- Restore single-differenced ambiguity: `arc_restamb`; the array `xa` after the
call. -/
def arc_restamb (E : Env) (rtk : rtk_t) (bias : Nat → ℚ) (xa : Nat → ℚ) : Nat → ℚ :=
  let nf := NF rtk.opt
  let xa0 := forN rtk.nx (fun i xa => Function.update xa i (rtk.x i)) xa
  let xa1 := forN rtk.na (fun i xa => Function.update xa i (rtk.xa i)) xa0
  (forN 4
    (fun m s => forN nf
      (fun f (s : restamb_t) =>
        let ix : index_t := forN E.MAXSAT
          (fun i (ix : index_t) =>
            if arc_test_sys (rtk.ssat i).sys m = false ∨ (rtk.ssat i).fix f ≠ 2 then ix
            else { index := Function.update ix.index ix.n (IB E (i + 1) f rtk.opt), n := ix.n + 1 })
          { index := s.index, n := 0 }
        if ix.n < 2 then { s with index := ix.index }
        else
          let xa2 := Function.update s.xa (ix.index 0) (rtk.x (ix.index 0))
          forN (ix.n - 1)
            (fun i0 (s : restamb_t) =>
              { s with
                xa := Function.update s.xa (ix.index (i0 + 1)) (s.xa (ix.index 0) - bias s.nv)
                nv := s.nv + 1 })
            { s with xa := xa2, index := ix.index }) s)
    { xa := xa1, nv := 0, index := fun _ => 0 }).xa

/-- Working state of `arc_holdamb`: the control struct (hold flags), `v`, `H`,
`nv` and the list `index`. -/
structure holdamb_t where
  rtk : rtk_t
  v : Nat → ℚ
  H : Nat → ℚ
  nv : Nat
  index : Nat → Nat

/-- `arc_holdamb`: the loop over the satellites for the family `m` and the
frequency `f`; it lists the ambiguity indices of the satellites to hold in
`index` (their number is `n`) and marks them (`fix = 3`). -/
def arc_holdamb_mark (E : Env) (m f : Nat) (rtk : rtk_t) (index : Nat → Nat) :
    rtk_t × index_t :=
  forN E.MAXSAT
    (fun i (ri : rtk_t × index_t) =>
      let ss := ri.1.ssat i
      if arc_test_sys ss.sys m = false ∨ ss.fix f ≠ 2 ∨ ss.azel 1 < ri.1.opt.elmaskhold then ri
      else
        ({ ri.1 with ssat := (Function.update ri.1.ssat i
             { ss with fix := Function.update ss.fix f 3 }) },  /- hold -/
         { index := Function.update ri.2.index ri.2.n (IB E (i + 1) f ri.1.opt),
           n := ri.2.n + 1 }))
    (rtk, { index := index, n := 0 })

/-- `arc_holdamb`: the loop `for (i=1;i<n;i++)` (constraint to fixed ambiguity)
for the list `ix` of length `n`. -/
def arc_holdamb_rows (xa : Nat → ℚ) (ix : Nat → Nat) (n : Nat) (s : holdamb_t) : holdamb_t :=
  forN (n - 1)
    (fun i0 (s : holdamb_t) =>
      let i := i0 + 1
      { s with
        v := (Function.update s.v s.nv
          ((xa (ix 0) - xa (ix i)) - (s.rtk.x (ix 0) - s.rtk.x (ix i))))
        H := (Function.update (Function.update s.H (ix 0 + s.nv * s.rtk.nx) 1)
          (ix i + s.nv * s.rtk.nx) (-1))
        nv := s.nv + 1 })
    s

/-- `arc_holdamb`: one pass of the loops over the family `m` and the frequency
`f`. -/
def arc_holdamb_group (E : Env) (xa : Nat → ℚ) (m f : Nat) (s : holdamb_t) : holdamb_t :=
  let ri := arc_holdamb_mark E m f s.rtk s.index
  arc_holdamb_rows xa ri.2.index ri.2.n { s with rtk := ri.1, index := ri.2.index }

/-- `arc_holdamb`: the loops that mark the held satellites and build the
constraints `v`, `H`. -/
def arc_holdamb_constr (E : Env) (rtk : rtk_t) (xa : Nat → ℚ) : holdamb_t :=
  let nb := rtk.nx - rtk.na
  let nf := NF rtk.opt
  forN 4
    (fun m s => forN nf (fun f (s : holdamb_t) => arc_holdamb_group E xa m f s) s)
    { rtk := rtk, v := E.arc_mat nb 1, H := arc_zeros nb rtk.nx, nv := 0, index := fun _ => 0 }

/-- The test of `arc_holdamb` on the satellite slot `i` (satellite `i+1`): family
`m`, fix status 2 on frequency `f`, elevation not below `elmaskhold`. -/
def holdamb_sel (rtk : rtk_t) (m f i : Nat) : Bool :=
  arc_test_sys (rtk.ssat i).sys m && decide ((rtk.ssat i).fix f = 2) &&
    decide (¬ (rtk.ssat i).azel 1 < rtk.opt.elmaskhold)

/-- The satellites of family `m` to hold, as the claim on `arc_holdamb` words it:
the slots (satellite number minus 1) with fix status 2 and elevation at least
`elmaskhold`, in increasing satellite number. -/
def holdamb_list (E : Env) (rtk : rtk_t) (m f : Nat) : List Nat :=
  (List.range E.MAXSAT).filter (holdamb_sel rtk m f)

/-- Invariant of the marking loop of `arc_holdamb` after `n` satellite slots,
started from `rtk`: the slots below `n` that pass the test are marked and
listed in increasing order. -/
def holdamb_mark_inv (E : Env) (m f : Nat) (rtk : rtk_t) (n : Nat) (r : rtk_t × index_t) :
    Prop :=
  r.1.x = rtk.x ∧ r.1.P = rtk.P ∧ r.1.nx = rtk.nx ∧ r.1.opt = rtk.opt ∧
  (∀ i, (r.1.ssat i).sys = (rtk.ssat i).sys ∧ (r.1.ssat i).azel = (rtk.ssat i).azel ∧
    ∀ g, (r.1.ssat i).fix g =
      if g = f ∧ i < n ∧ holdamb_sel rtk m f i = true then 3 else (rtk.ssat i).fix g) ∧
  r.2.n = ((List.range n).filter (holdamb_sel rtk m f)).length ∧
  ∀ t, t < r.2.n → r.2.index t =
    IB E (((List.range n).filter (holdamb_sel rtk m f)).getD t 0 + 1) f rtk.opt

/-- Number of constraints of the families before `m`: one for every listed
satellite but the first of each family. -/
def holdamb_off (E : Env) (rtk : rtk_t) : Nat → Nat
  | 0 => 0
  | m + 1 => holdamb_off E rtk m + ((holdamb_list E rtk m 0).length - 1)

/-- Invariant of the loop over the families in `arc_holdamb` before family `m`,
started from `rtk`: the satellites of the earlier families that pass the test
are marked, and the constraints of the earlier families are in `v` and `H`
(rows from `nv` on are still zero). -/
def holdamb_inv (E : Env) (rtk : rtk_t) (xa : Nat → ℚ) (m : Nat) (s : holdamb_t) : Prop :=
  s.rtk.x = rtk.x ∧ s.rtk.P = rtk.P ∧ s.rtk.nx = rtk.nx ∧ s.rtk.opt = rtk.opt ∧
  (∀ i, (s.rtk.ssat i).sys = (rtk.ssat i).sys ∧ (s.rtk.ssat i).azel = (rtk.ssat i).azel ∧
    ∀ g, ((g = 0 ∧ i < E.MAXSAT ∧ ∃ m2, m2 < m ∧ holdamb_sel rtk m2 0 i = true) →
        (s.rtk.ssat i).fix g = 3) ∧
      (¬ (g = 0 ∧ i < E.MAXSAT ∧ ∃ m2, m2 < m ∧ holdamb_sel rtk m2 0 i = true) →
        (s.rtk.ssat i).fix g = (rtk.ssat i).fix g)) ∧
  s.nv = holdamb_off E rtk m ∧
  (∀ m2 t, m2 < m → t + 1 < (holdamb_list E rtk m2 0).length →
    s.v (holdamb_off E rtk m2 + t) =
      (xa (IB E ((holdamb_list E rtk m2 0).getD 0 0 + 1) 0 rtk.opt) -
        xa (IB E ((holdamb_list E rtk m2 0).getD (t + 1) 0 + 1) 0 rtk.opt)) -
      (rtk.x (IB E ((holdamb_list E rtk m2 0).getD 0 0 + 1) 0 rtk.opt) -
        rtk.x (IB E ((holdamb_list E rtk m2 0).getD (t + 1) 0 + 1) 0 rtk.opt)) ∧
    ∀ c, c < rtk.nx → s.H (c + (holdamb_off E rtk m2 + t) * rtk.nx) =
      if c = IB E ((holdamb_list E rtk m2 0).getD 0 0 + 1) 0 rtk.opt then 1
      else if c = IB E ((holdamb_list E rtk m2 0).getD (t + 1) 0 + 1) 0 rtk.opt then -1
      else 0) ∧
  (∀ c t, c < rtk.nx → s.nv ≤ t → s.H (c + t * rtk.nx) = 0)

/-- Hold integer ambiguity: `arc_holdamb`. -/
def arc_holdamb (E : Env) (rtk : rtk_t) (xa : Nat → ℚ) : rtk_t :=
  let s := arc_holdamb_constr E rtk xa
  if s.nv > 0 then
    let R := forN s.nv (fun i R => Function.update R (i + i * s.nv) VAR_HOLDAMB)
      (arc_zeros s.nv s.nv)
    /- update states with constraints -/
    let fl := E.arc_filter s.rtk.x s.rtk.P s.H s.v R s.rtk.nx s.nv
    { s.rtk with x := fl.x, P := fl.P }
  else s.rtk

/-- Result of `arc_resamb_LAMBDA`: the return value `nb`, the control struct and
the arrays `bias`, `xa` after the call. -/
structure resamb_t where
  nb : Nat
  rtk : rtk_t
  bias : Nat → ℚ
  xa : Nat → ℚ

/-- `arc_resamb_LAMBDA`: the vector `y=D'*x`. -/
def resamb_y (rtk : rtk_t) (D : Nat → ℚ) (nb : Nat) (y0 : Nat → ℚ) : Nat → ℚ :=
  arc_matmul trans_t.TN (rtk.na + nb) 1 rtk.nx 1 D rtk.x 0 y0

/-- `arc_resamb_LAMBDA`: the matrix `Qy=D'*P*D`. -/
def resamb_Qy (rtk : rtk_t) (D : Nat → ℚ) (nb : Nat) (DP0 Qy0 : Nat → ℚ) : Nat → ℚ :=
  let ny := rtk.na + nb
  let DP := arc_matmul trans_t.TN ny rtk.nx rtk.nx 1 D rtk.P 0 DP0
  arc_matmul trans_t.NN ny ny rtk.nx 1 DP D 0 Qy0

/-- `arc_resamb_LAMBDA`: phase-bias covariance (Qb). -/
def resamb_Qb (na nb : Nat) (Qy Qb0 : Nat → ℚ) : Nat → ℚ :=
  forN nb (fun i Q => forN nb (fun j Q =>
    Function.update Q (i + j * nb) (Qy (na + i + (na + j) * (na + nb)))) Q) Qb0

/-- `arc_resamb_LAMBDA`: real-parameters to bias covariance (Qab). -/
def resamb_Qab (na nb : Nat) (Qy Qab0 : Nat → ℚ) : Nat → ℚ :=
  forN na (fun i Q => forN nb (fun j Q =>
    Function.update Q (i + j * na) (Qy (i + (na + j) * (na + nb)))) Q) Qab0

/-- `arc_resamb_LAMBDA`: the accepted branch, "transform float to fixed solution
(xa=xa-Qab*Qb\(b0-b))", for the locals `nb`, `y`, `Qb`, `Qab`, `b`. -/
def arc_resamb_fixed (E : Env) (rtk : rtk_t) (nb : Nat) (y Qb Qab b : Nat → ℚ)
    (bias xa : Nat → ℚ) : resamb_t :=
  let nx := rtk.nx
  let na := rtk.na
  let xa_0 := forN na (fun i a => Function.update a i (rtk.x i)) rtk.xa
  let Pa_0 := forN na (fun i Pa => forN na (fun j Pa =>
    Function.update Pa (i + j * na) (rtk.P (i + j * nx))) Pa) rtk.Pa
  let rtk3 : rtk_t := { rtk with xa := xa_0, Pa := Pa_0 }
  let bias1 := forN nb (fun i bs => Function.update bs i (b i)) bias
  let y1 := forN nb (fun i y => Function.update y (na + i) (y (na + i) - b i)) y
  let mi := E.arc_matinv Qb nb
  if mi.1 = 0 then
    let Qbi := mi.2
    let db := arc_matmul trans_t.NN nb 1 nb 1 Qbi (fun i => y1 (na + i)) 0 (E.arc_mat nb 1)
    let xa_1 := arc_matmul trans_t.NN na 1 nb (-1) Qab db 1 rtk3.xa
    /- covariance of fixed solution (Qa=Qa-Qab*Qb^-1*Qab') -/
    let QQ := arc_matmul trans_t.NN na nb nb 1 Qab Qbi 0 (E.arc_mat na nb)
    let Pa_1 := arc_matmul trans_t.NT na na nb (-1) QQ Qab 1 rtk3.Pa
    let rtk4 : rtk_t := { rtk3 with xa := xa_1, Pa := Pa_1 }
    /- restore single-differenced ambiguity -/
    { nb := nb, rtk := rtk4, bias := bias1, xa := arc_restamb E rtk4 bias1 xa }
  else { nb := 0, rtk := rtk3, bias := bias1, xa := xa }

/-- Locals of `arc_resamb_LAMBDA` up to the integer search: the control struct
after `arc_ddmat`, `D`, `nb`, `y`, `Qb`, `Qab` and the result of `lambda`. -/
structure resamb_in_t where
  rtk : rtk_t
  D : Nat → ℚ
  nb : Nat
  y : Nat → ℚ
  Qb : Nat → ℚ
  Qab : Nat → ℚ
  lam : lambda_t

/-- `arc_resamb_LAMBDA` from `arc_ddmat` to the call of `lambda`. -/
def arc_resamb_in (E : Env) (rtk : rtk_t) : resamb_in_t :=
  let nx := rtk.nx
  let na := rtk.na
  /- single to double-difference transformation matrix (D') -/
  let dd := arc_ddmat E rtk (arc_zeros nx nx)
  let nb := dd.nb
  let ny := na + nb
  /- transform single to double-differenced phase-bias (y=D'*x, Qy=D'*P*D) -/
  let y := resamb_y dd.rtk dd.D nb (E.arc_mat ny 1)
  let Qy := resamb_Qy dd.rtk dd.D nb (E.arc_mat ny nx) (E.arc_mat ny ny)
  /- phase-bias covariance (Qb) and real-parameters to bias covariance (Qab) -/
  let Qb := resamb_Qb na nb Qy (E.arc_mat nb nb)
  let Qab := resamb_Qab na nb Qy (E.arc_mat na nb)
  /- lambda/mlambda integer least-square estimation -/
  { rtk := dd.rtk, D := dd.D, nb := nb, y := y, Qb := Qb, Qab := Qab,
    lam := E.lambda nb 2 (fun i => y (na + i)) Qb }

/-- `arc_resamb_LAMBDA`: the control struct after `rtk->sol.ratio=0.0`. -/
def resamb_rtk0 (rtk : rtk_t) : rtk_t := { rtk with sol := { rtk.sol with ratio := 0 } }

/-- Resolve integer ambiguity by LAMBDA: `arc_resamb_LAMBDA`. -/
def arc_resamb_LAMBDA (E : Env) (rtk : rtk_t) (bias xa : Nat → ℚ) : resamb_t :=
  let rtk0 : rtk_t := resamb_rtk0 rtk
  if rtk0.opt.mode ≤ PMODE_DGPS ∨ rtk0.opt.modear = ARMODE_OFF ∨ rtk0.opt.thresar 0 < 1 then
    { nb := 0, rtk := rtk0, bias := bias, xa := xa }
  else
    let L := arc_resamb_in E rtk0
    let rtk1 := L.rtk
    let nb := L.nb
    if nb ≤ 0 then { nb := 0, rtk := rtk1, bias := bias, xa := xa }
    else
      if L.lam.info = 0 then
        let b := L.lam.F
        let s := L.lam.s
        let ratio0 : ℚ := if s 0 > 0 then s 1 / s 0 else 0
        let ratio : ℚ := if ratio0 > 9999 / 10 then 9999 / 10 else ratio0
        let rtk2 : rtk_t := { rtk1 with sol := { rtk1.sol with ratio := ratio } }
        /- validation by popular ratio-test -/
        if s 0 ≤ 0 ∨ s 1 / s 0 ≥ rtk2.opt.thresar 0 then
          arc_resamb_fixed E rtk2 nb L.y L.Qb L.Qab b bias xa
        else  /- validation failed -/
          { nb := 0, rtk := rtk2, bias := bias, xa := xa }
      else
        { nb := nb, rtk := rtk1, bias := bias, xa := xa }

/-- The control struct `r` differs from `r0` in the satellite tracks only: what
`arc_ddmat`, which sets the fix flags, leaves alone. -/
def ssat_only (r0 r : rtk_t) : Prop :=
  r.x = r0.x ∧ r.P = r0.P ∧ r.nx = r0.nx ∧ r.na = r0.na ∧ r.opt = r0.opt ∧
  r.xa = r0.xa ∧ r.Pa = r0.Pa ∧ r.sol = r0.sol

/-- A flat column-major array read as an `n`-by-`m` matrix. -/
def toMat (A : Nat → ℚ) (n m : Nat) : Matrix (Fin n) (Fin m) ℚ :=
  fun i j => A (i.val + j.val * n)

/-- The first `n` elements of an array read as a vector. -/
def toVec (a : Nat → ℚ) (n : Nat) : Fin n → ℚ := fun i => a i.val

/-- The block `P[0..na,0..na)` of the `nx`-by-`nx` covariance. -/
def P_block (P : Nat → ℚ) (nx na : Nat) : Matrix (Fin na) (Fin na) ℚ :=
  fun i j => P (i.val + j.val * nx)

/-- The claim's double-differenced float vector `Dᵀ x`, for an `nx`-by-`ny`
array `D`. -/
def dd_y (D x : Nat → ℚ) (nx ny : Nat) : Fin ny → ℚ :=
  Matrix.mulVec (Matrix.transpose (toMat D nx ny)) (toVec x nx)

/-- The claim's covariance `Dᵀ P D`. -/
def dd_Qy (D P : Nat → ℚ) (nx ny : Nat) : Matrix (Fin ny) (Fin ny) ℚ :=
  Matrix.transpose (toMat D nx ny) * toMat P nx nx * toMat D nx ny

/-- The claim's `b_float`: the ambiguity part (the last `nb` elements) of `Dᵀ x`. -/
def dd_bfloat (D x : Nat → ℚ) (nx na nb : Nat) : Fin nb → ℚ :=
  fun i => dd_y D x nx (na + nb) (Fin.natAdd na i)

/-- The claim's `Q_b`: the ambiguity/ambiguity block of `Dᵀ P D`. -/
def dd_Qb (D P : Nat → ℚ) (nx na nb : Nat) : Matrix (Fin nb) (Fin nb) ℚ :=
  fun i j => dd_Qy D P nx (na + nb) (Fin.natAdd na i) (Fin.natAdd na j)

/-- The claim's `Q_ab`: the real/ambiguity block of `Dᵀ P D`. -/
def dd_Qab (D P : Nat → ℚ) (nx na nb : Nat) : Matrix (Fin na) (Fin nb) ℚ :=
  fun i j => dd_Qy D P nx (na + nb) (Fin.castAdd nb i) (Fin.natAdd na j)

/-- The locals of `arc_resamb_LAMBDA` up to the integer search, for the control
struct `rtk` on entry. -/
def resamb_L (E : Env) (rtk : rtk_t) : resamb_in_t := arc_resamb_in E (resamb_rtk0 rtk)

/-- `arc_resamb_LAMBDA` reaches the back-transform: ambiguity resolution is
enabled, `arc_ddmat` returns `nb > 0`, `lambda` returns 0, the ratio test
`s[0]<=0.0||s[1]/s[0]>=opt->thresar[0]` passes and `arc_matinv` returns 0. -/
def resamb_accepts (E : Env) (rtk : rtk_t) : Prop :=
  ¬ (rtk.opt.mode ≤ PMODE_DGPS ∨ rtk.opt.modear = ARMODE_OFF ∨ rtk.opt.thresar 0 < 1) ∧
  0 < (resamb_L E rtk).nb ∧
  (resamb_L E rtk).lam.info = 0 ∧
  ((resamb_L E rtk).lam.s 0 ≤ 0 ∨
    (resamb_L E rtk).lam.s 1 / (resamb_L E rtk).lam.s 0 ≥ rtk.opt.thresar 0) ∧
  (E.arc_matinv (resamb_L E rtk).Qb (resamb_L E rtk).nb).1 = 0

/-- The array that `arc_matinv` leaves in place of `Qb`. -/
def resamb_Qbi (E : Env) (rtk : rtk_t) : Nat → ℚ :=
  (E.arc_matinv (resamb_L E rtk).Qb (resamb_L E rtk).nb).2

/-- Validation of solution: `arc_valpos`.  The post-fit residual test only writes
log lines; the returned `stat` is the initial 1. -/
def arc_valpos (_rtk : rtk_t) (_v _R : Nat → ℚ) (_vflg : Nat → Nat) (_nv : Nat) (_thres : ℚ) :
    Int := 1

/-! ## Epoch driver -/

/-- Measurement update loop of `arc_relpos` (`opt->ceres==0`), with `n`
iterations left; a `break` leaves the loop with `stat=SOLQ_NONE`. -/
def arc_relpos_iter (E : Env) (obs : Nat → obsd_t) (nu : Nat) (nav : nav_t)
    (rs dts : Nat → ℚ) (svh : Nat → Int) (sat iu ir : Nat → Nat) (ns : Nat) (dt : ℚ) :
    Nat → relpos_t → relpos_t
  | 0, s => s
  | n + 1, s =>
    /- undifferenced residuals for rover -/
    let z := arc_zdres E 0 obs nu rs dts svh nav s.xp s.rtk.opt 0 s.y s.e s.azel
    let s1 : relpos_t := { s with y := z.y, e := z.e, azel := z.azel }
    if z.ret = 0 then { s1 with stat := SOLQ_NONE }
    else
      /- double-differenced residuals and derivatives -/
      let d := arc_ddres E s1.rtk nav dt s1.xp (some s1.Pp) sat s1.y s1.e s1.azel iu ir ns
        s1.v (some s1.H) (some s1.R) s1.vflg
      let s2 : relpos_t := { s1 with rtk := d.rtk, v := d.v, H := d.H.getD s1.H,
                                     R := d.R.getD s1.R, vflg := d.vflg, nv := d.nv }
      if d.nv < 1 then { s2 with stat := SOLQ_NONE }
      else
        /- kalman filter measurement update -/
        let Pp := arc_matcpy s2.Pp s2.rtk.P s2.rtk.nx s2.rtk.nx
        let fl := E.arc_filter s2.xp Pp s2.H s2.v s2.R s2.rtk.nx s2.nv
        let s3 : relpos_t := { s2 with xp := fl.x, Pp := fl.P, info := some fl.info }
        if fl.info ≠ 0 then { s3 with stat := SOLQ_NONE }
        else arc_relpos_iter E obs nu nav rs dts svh sat iu ir ns dt n s3

/-- `arc_relpos`: float solution, from "post-fit residuals for float solution" to
"lack of valid satellites". -/
def arc_relpos_float (E : Env) (obs : Nat → obsd_t) (nu : Nat) (nav : nav_t)
    (rs dts : Nat → ℚ) (svh : Nat → Int) (sat iu ir : Nat → Nat) (ns : Nat) (dt : ℚ)
    (s : relpos_t) : relpos_t :=
  let nf := 1
  if s.stat = SOLQ_NONE then s
  else
    let z := arc_zdres E 0 obs nu rs dts svh nav s.xp s.rtk.opt 0 s.y s.e s.azel
    let s1 : relpos_t := { s with y := z.y, e := z.e, azel := z.azel }
    if z.ret = 0 then s1
    else
      /- post-fit residuals for float solution -/
      let d := arc_ddres E s1.rtk nav dt s1.xp (some s1.Pp) sat s1.y s1.e s1.azel iu ir ns
        s1.v none (some s1.R) s1.vflg
      let s2 : relpos_t := { s1 with rtk := d.rtk, v := d.v, R := d.R.getD s1.R,
                                     vflg := d.vflg, nv := d.nv }
      /- validation of float solution -/
      if arc_valpos s2.rtk s2.v s2.R s2.vflg s2.nv 4 ≠ 0 then
        /- update state and covariance matrix -/
        let r0 := s2.rtk
        let r1 : rtk_t := { r0 with x := arc_matcpy r0.x s2.xp r0.nx 1
                                    P := arc_matcpy r0.P s2.Pp r0.nx r0.nx
                                    sol := { r0.sol with ns := 0 } }
        /- update ambiguity control struct -/
        let r2 : rtk_t := forN ns (fun i r => forN nf (fun f r =>
          let ss := r.ssat (sat i - 1)
          if ss.vsat f = 0 then r
          else
            { r with
              ssat := (Function.update r.ssat (sat i - 1)
                { ss with lock := Function.update ss.lock f (ss.lock f + 1)
                          outc := Function.update ss.outc f 0 })
              sol := (if f = 0 then { r.sol with ns := r.sol.ns + 1 } else r.sol) }) r) r1
        /- lack of valid satellites -/
        { s2 with rtk := r2, stat := if r2.sol.ns < 4 then SOLQ_NONE else s2.stat }
      else { s2 with stat := SOLQ_NONE }

/-- `arc_relpos`: resolve integer ambiguity by LAMBDA, validation of the fixed
solution and hold. -/
def arc_relpos_fix (E : Env) (obs : Nat → obsd_t) (nu : Nat) (nav : nav_t)
    (rs dts : Nat → ℚ) (svh : Nat → Int) (sat iu ir : Nat → Nat) (ns : Nat) (dt : ℚ)
    (s : relpos_t) : relpos_t :=
  if s.stat = SOLQ_NONE then s
  else
    let ra := arc_resamb_LAMBDA E s.rtk s.bias s.xa
    let s1 : relpos_t := { s with rtk := ra.rtk, bias := ra.bias, xa := ra.xa }
    if ra.nb > 1 then
      let z := arc_zdres E 0 obs nu rs dts svh nav s1.xa s1.rtk.opt 0 s1.y s1.e s1.azel
      let s2 : relpos_t := { s1 with y := z.y, e := z.e, azel := z.azel }
      if z.ret = 0 then s2
      else
        /- post-fit residuals for fixed solution -/
        let d := arc_ddres E s2.rtk nav dt s2.xa none sat s2.y s2.e s2.azel iu ir ns
          s2.v none (some s2.R) s2.vflg
        let s3 : relpos_t := { s2 with rtk := d.rtk, v := d.v, R := d.R.getD s2.R,
                                       vflg := d.vflg, nv := d.nv }
        /- validation of fixed solution -/
        if arc_valpos s3.rtk s3.v s3.R s3.vflg s3.nv E.ARC_SOLVALTHRES ≠ 0 then
          /- hold integer ambiguity -/
          let r1 : rtk_t := { s3.rtk with nfix := s3.rtk.nfix + 1 }
          let r2 := if r1.nfix ≥ r1.opt.minfix ∧ r1.opt.modear = ARMODE_FIXHOLD then
            arc_holdamb E r1 s3.xa else r1
          { s3 with rtk := r2, stat := SOLQ_FIX }
        else s3
    else s1

/-- `arc_relpos`: from "save solution status" to the end; the control struct
after the epoch. -/
def arc_relpos_save (E : Env) (obs : Nat → obsd_t) (n : Nat) (sat iu : Nat → Nat) (ns : Nat)
    (rtk : rtk_t) (stat : Int) : rtk_t :=
  let nf := 1
  /- save solution status -/
  let r1 : rtk_t :=
    if stat = SOLQ_FIX then
      { rtk with sol := { rtk.sol with
          rr := (fun i => if i < 3 then rtk.xa i else rtk.sol.rr i)
          qr := (fun i => if i < 3 then rtk.Pa (i + i * rtk.na)
                          else if i = 3 then rtk.Pa 1
                          else if i = 4 then rtk.Pa (1 + 2 * rtk.na)
                          else if i = 5 then rtk.Pa 2 else rtk.sol.qr i) } }
    else
      { rtk with
        sol := { rtk.sol with
          rr := (fun i => if i < 3 then rtk.x i else rtk.sol.rr i)
          qr := (fun i => if i < 3 then rtk.P (i + i * rtk.nx)
                          else if i = 3 then rtk.P 1
                          else if i = 4 then rtk.P (1 + 2 * rtk.nx)
                          else if i = 5 then rtk.P 2 else rtk.sol.qr i) }
        nfix := 0 }
  let r2 : rtk_t := forN n (fun i r => forN nf (fun j r =>
    if (obs i).L j = 0 then r
    else
      let ss := r.ssat ((obs i).sat - 1)
      { r with ssat := (Function.update r.ssat ((obs i).sat - 1)
          { ss with
            pt := Function.update ss.pt ((obs i).rcv - 1)
              (Function.update (ss.pt ((obs i).rcv - 1)) j (obs i).time)
            ph := Function.update ss.ph ((obs i).rcv - 1)
              (Function.update (ss.ph ((obs i).rcv - 1)) j ((obs i).L j)) }) }) r) r1
  let r3 : rtk_t := forN ns (fun i r => forN nf (fun j r =>
    /- output snr of rover receiver -/
    let ss := r.ssat (sat i - 1)
    { r with ssat := (Function.update r.ssat (sat i - 1)
        { ss with snr := Function.update ss.snr j ((obs (iu i)).SNR j) }) }) r) r2
  let r4 : rtk_t := forN E.MAXSAT (fun i r => forN nf (fun j r =>
    let ss := r.ssat i
    let ss1 := if ss.fix j = 2 ∧ stat ≠ SOLQ_FIX then { ss with fix := Function.update ss.fix j 1 }
               else ss
    let ss2 := if ss1.slip j &&& 1 ≠ 0 then
                 { ss1 with slipc := Function.update ss1.slipc j ((ss1.slipc j + 1) % 2 ^ 32) }
               else ss1
    { r with ssat := Function.update r.ssat i ss2 }) r) r3
  if stat ≠ SOLQ_NONE then { r4 with sol := { r4.sol with stat := stat } } else r4

/-- Result of `arc_relpos`: return value, control struct and the static storage
of `arc_intpres` after the call. -/
structure relpos_ret_t where
  ret : Int
  rtk : rtk_t
  st : intpres_static_t

/-- Locals of `arc_relpos` after the undifferenced residuals of the base station:
the control struct, the satellite positions, the return value of `arc_zdres`
and the arrays `y`, `e`, `azel`. -/
structure relpos_base_t where
  rtk : rtk_t
  sp : satposs_t
  ret : Int
  y : Nat → ℚ
  e : Nat → ℚ
  azel : Nat → ℚ

/-- `arc_relpos` from its start to "undifferenced residuals for base station". -/
def arc_relpos_base (E : Env) (rtk : rtk_t) (obs : Nat → obsd_t) (nu nr : Nat) (nav : nav_t) :
    relpos_base_t :=
  let opt := rtk.opt
  let time := (obs 0).time
  let n := nu + nr
  let nf := 1
  let y0 := E.arc_mat (nf * 2) n
  let e0 := E.arc_mat 3 n
  let azel0 := arc_zeros 2 n
  let rtk1 : rtk_t := forN E.MAXSAT
    (fun i r =>
      let ss := r.ssat i
      { r with ssat := (Function.update r.ssat i
          { ss with sys := E.satsys (i + 1)
                    vsat := Function.update ss.vsat 0 0
                    snr := Function.update ss.snr 0 0 }) }) rtk
  /- satellite positions/clocks -/
  let sp := E.satposs time obs n nav opt
  /- undifferenced residuals for base station -/
  let zb := arc_zdres E 1 (fun i => obs (nu + i)) nr (fun k => sp.rs (nu * 6 + k))
    (fun k => sp.dts (nu * 2 + k)) (fun k => sp.svh (nu + k)) nav rtk1.rb opt 1
    (fun k => y0 (nu * nf * 2 + k)) (fun k => e0 (nu * 3 + k)) (fun k => azel0 (nu * 2 + k))
  { rtk := rtk1, sp := sp, ret := zb.ret, y := splice y0 (nu * nf * 2) zb.y,
    e := splice e0 (nu * 3) zb.e, azel := splice azel0 (nu * 2) zb.azel }

/-- `arc_relpos`: "time-interpolation of residuals (for post-processing)"; without
`opt->intpref`, `dt` keeps the value `timediff(time,obs[nu].time)`. -/
def arc_relpos_intp (E : Env) (st : intpres_static_t) (rtk : rtk_t) (obs : Nat → obsd_t)
    (nu nr : Nat) (nav : nav_t) : intpres_t :=
  let nf := 1
  let b := arc_relpos_base E rtk obs nu nr nav
  if rtk.opt.intpref ≠ 0 then
    arc_intpres E st (obs 0).time (fun i => obs (nu + i)) nr nav b.rtk
      (fun k => b.y (nu * nf * 2 + k))
  else { ret := E.timediff (obs 0).time (obs nu).time, y := fun k => b.y (nu * nf * 2 + k),
         st := st }

/-- `arc_relpos`: "select common satellites between rover and base-station". -/
def arc_relpos_sel (E : Env) (rtk : rtk_t) (obs : Nat → obsd_t) (nu nr : Nat) (nav : nav_t) :
    selsat_t :=
  arc_selsat obs (arc_relpos_base E rtk obs nu nr nav).azel nu nr rtk.opt.elmin
    (fun _ => 0) (fun _ => 0) (fun _ => 0)

/-- `arc_relpos`: the control struct after "temporal update of states". -/
def arc_relpos_ud (E : Env) (rtk : rtk_t) (obs : Nat → obsd_t) (nu nr : Nat) (nav : nav_t) :
    rtk_t :=
  let ss := arc_relpos_sel E rtk obs nu nr nav
  arc_udstate E (arc_relpos_base E rtk obs nu nr nav).rtk obs ss.sat ss.iu ss.ir ss.k nav

/-- `arc_relpos`: from the allocation of `xp`, `Pp`, `xa` to the end of the
measurement update (the loop `for (i=0;i<niter;i++)`, or the ceres branch). -/
def arc_relpos_meas (E : Env) (st : intpres_static_t) (rtk : rtk_t) (obs : Nat → obsd_t)
    (nu nr : Nat) (nav : nav_t) : relpos_t :=
  let opt := rtk.opt
  let nf := 1
  let stat0 : Int := if rtk.opt.mode ≤ PMODE_DGPS then SOLQ_DGPS else SOLQ_FLOAT
  let b := arc_relpos_base E rtk obs nu nr nav
  let sp := b.sp
  let ip := arc_relpos_intp E st rtk obs nu nr nav
  let dt := ip.ret
  let ss := arc_relpos_sel E rtk obs nu nr nav
  let ns := ss.k
  let rtk2 := arc_relpos_ud E rtk obs nu nr nav
  let nx := rtk2.nx
  let ny := ns * nf * 2 + 2
  /- add 2 iterations for baseline-constraint moving-base -/
  let niter := opt.niter + (if opt.mode = PMODE_MOVEB ∧ opt.baseline 0 > 0 then 2 else 0)
  let s0 : relpos_t :=
    { rtk := rtk2, xp := arc_matcpy (E.arc_mat nx 1) rtk2.x nx 1, Pp := arc_zeros nx nx,
      xa := E.arc_mat nx 1, bias := E.arc_mat nx 1, y := splice b.y (nu * nf * 2) ip.y,
      e := b.e, azel := b.azel,
      v := E.arc_mat ny 1, H := arc_zeros nx ny, R := E.arc_mat ny ny, vflg := fun _ => 0,
      nv := 0, info := none, stat := stat0 }
  if opt.ceres = 0 then
    arc_relpos_iter E obs nu nav sp.rs sp.dts sp.svh ss.sat ss.iu ss.ir ns dt niter s0
  else E.ceres_epoch s0 obs nu nr nav sp.rs sp.dts sp.svh ss.sat ss.iu ss.ir ns dt

/-- Relative positioning: `arc_relpos`. -/
def arc_relpos (E : Env) (st : intpres_static_t) (rtk : rtk_t) (obs : Nat → obsd_t)
    (nu nr : Nat) (nav : nav_t) : relpos_ret_t :=
  let n := nu + nr
  let b := arc_relpos_base E rtk obs nu nr nav
  let sp := b.sp
  if b.ret = 0 then { ret := 0, rtk := b.rtk, st := st }
  else
    /- time-interpolation of residuals (for post-processing) -/
    let ip := arc_relpos_intp E st rtk obs nu nr nav
    let dt := ip.ret
    /- select common satellites between rover and base-station -/
    let ss := arc_relpos_sel E rtk obs nu nr nav
    let ns := ss.k
    if ns ≤ 0 then { ret := 0, rtk := b.rtk, st := ip.st }
    else
      /- temporal update of states, measurement update -/
      let s1 := arc_relpos_meas E st rtk obs nu nr nav
      let s2 := arc_relpos_float E obs nu nav sp.rs sp.dts sp.svh ss.sat ss.iu ss.ir ns dt s1
      let s3 := arc_relpos_fix E obs nu nav sp.rs sp.dts sp.svh ss.sat ss.iu ss.ir ns dt s2
      let rtk3 := arc_relpos_save E obs n ss.sat ss.iu ns s3.rtk s3.stat
      { ret := if s3.stat ≠ SOLQ_NONE then 1 else 0, rtk := rtk3, st := ip.st }

/-- `arc_relpos`: the working state after the float solution, when the
base-station residuals are formed and common satellites exist (the state with
which "resolve integer ambiguity by LAMBDA" starts). -/
def arc_relpos_fl (E : Env) (st : intpres_static_t) (rtk : rtk_t) (obs : Nat → obsd_t)
    (nu nr : Nat) (nav : nav_t) : relpos_t :=
  let b := arc_relpos_base E rtk obs nu nr nav
  let sp := b.sp
  let ip := arc_relpos_intp E st rtk obs nu nr nav
  let ss := arc_relpos_sel E rtk obs nu nr nav
  arc_relpos_float E obs nu nav sp.rs sp.dts sp.svh ss.sat ss.iu ss.ir ss.k ip.ret
    (arc_relpos_meas E st rtk obs nu nr nav)

/-! ## Concrete inputs -/

/-- Two rover and two base observations, satellites 3 and 7 at both stations. -/
def obs_w1 : Nat → obsd_t := fun i =>
  { time := ⟨0, 0⟩, sat := if i % 2 = 0 then 3 else 7, rcv := if i < 2 then 1 else 2,
    SNR := fun _ => 0, LLI := fun _ => 0, L := fun _ => 1, P := fun _ => 1 }


/-- A small concrete environment: two satellite slots, one frequency; the
library functions are simple total functions (the 1-norm stands in for the
Euclidean norm: both vanish exactly on the zero vector); the solvers `lambda`,
`arc_matinv`, `arc_filter` report success and leave their arguments. -/
def E0 : Env where
  MAXSAT := 2
  NFREQ := 1
  NFREQGLO := 0
  CLIGHT := 299792458
  DTTOL := 1 / 200
  EFACT_GPS := 1
  EFACT_GLO := 3 / 2
  EFACT_SBS := 3
  ARC_SOLVALTHRES := 4
  lam_carr := fun _ => 1
  arc_norm := fun a n => forN n (fun i s => s + |a i|) 0
  sin := fun _ => 1
  cos := fun _ => 1
  tan := fun _ => 1
  timediff := fun a b => (a.time - b.time : Int) + a.sec - b.sec
  gpst2utc := fun t => t
  ecef2pos := fun r => r
  covecef := fun _ Q => Q
  satsys := fun _ => SYS_GPS
  satposs := fun _ _ _ _ _ => { rs := fun _ => 0, dts := fun _ => 0, var := fun _ => 0,
                                svh := fun _ => 0 }
  tidedisp := fun _ _ _ _ _ _ => 0
  geodist := fun _ _ _ => (1, fun _ => 0)
  satazel := fun _ _ _ => (1, fun k => if k = 1 then 1 else 0)
  satexclude := fun _ _ _ => false
  tropmodel := fun _ _ => 0
  tropmapf := fun _ _ _ => (1, 1)
  ionocorr := fun _ _ _ _ _ _ => (true, 0, 0)
  ionmapf := fun _ _ => 1
  antmodel := fun _ _ _ _ => 0
  testsnr := fun _ _ _ _ _ => false
  arc_matinv := fun A _ => (0, A)
  lambda := fun _ _ a _ => { info := 0, F := a, s := fun _ => 0 }
  arc_filter := fun x P _ _ _ _ _ => { info := 0, x := x, P := P }
  arc_mat := fun _ _ _ => 0
  ceres_epoch := fun s _ _ _ _ _ _ _ _ _ _ _ _ => s

/-- Options of a single-frequency kinematic session without dynamics, without
ionosphere and troposphere estimation, continuous ambiguity resolution. -/
def opt0 : prcopt_t where
  mode := PMODE_KINEMA
  nf := 1
  ionoopt := IONOOPT_BRDC
  tropopt := 1
  dynamics := 0
  modear := 1
  glomodear := 0
  bdsmodear := 0
  maxout := 5
  minlock := 0
  minfix := 10
  niter := 1
  intpref := 0
  tidecorr := 0
  ceres := 0
  elmin := 1 / 4
  elmaskar := 0
  elmaskhold := 0
  maxinno := 30
  maxtdiff := 30
  sclkstab := 0
  thresar := fun _ => 3
  prn := fun _ => 1 / 10000
  std := fun _ => 30
  err := fun _ => 1 / 1000
  eratio := fun _ => 100
  ru := fun _ => 0
  rb := fun _ => 0
  baseline := fun _ => 0
  exterr := { ena := fun _ => 0, cerr := fun _ _ => 0, perr := fun _ _ => 0 }

/-- A satellite track with every member zero. -/
def ssat0 : ssat_t where
  sys := 0
  azel := fun _ => 0
  resp := fun _ => 0
  resc := fun _ => 0
  vsat := fun _ => 0
  snr := fun _ => 0
  fix := fun _ => 0
  slip := fun _ => 0
  half := fun _ => 0
  lock := fun _ => 0
  outc := fun _ => 0
  slipc := fun _ => 0
  rejc := fun _ => 0
  pt := fun _ _ => ⟨0, 0⟩
  ph := fun _ _ => 0

/-- The control struct as `rtkinit` leaves it for `opt0` (three position states
and two ambiguity states, everything zero), with a single-point solution at
`(1,2,3)` and the base station at `(1,0,0)`. -/
def rtk0 : rtk_t where
  sol := { time := ⟨0, 0⟩, rr := fun i => if i < 3 then (i : ℚ) + 1 else 0, qr := fun _ => 0,
           stat := 0, ns := 0, age := 0, ratio := 0 }
  rb := fun i => if i = 0 then 1 else 0
  nx := 5
  na := 3
  tt := 0
  x := fun _ => 0
  P := fun _ => 0
  xa := fun _ => 0
  Pa := fun _ => 0
  nfix := 0
  ssat := fun _ => ssat0
  opt := opt0

/-- Navigation data with unit wavelengths. -/
def nav0 : nav_t where
  lam := fun _ _ => 1

/-- One rover observation (index 0) and one base observation (index 1) of
satellite 1, carrier phase 5 and 2 cycles, pseudorange 7 and 3 m. -/
def obs10 : Nat → obsd_t := fun i =>
  { time := ⟨0, 0⟩, sat := 1, rcv := if i = 0 then 1 else 2, SNR := fun _ => 0,
    LLI := fun _ => 0, L := fun _ => if i = 0 then 5 else 2,
    P := fun _ => if i = 0 then 7 else 3 }

/-- `rtk0` with every outage counter at 10 (`maxout` is 5), every ambiguity
state zero, and variance 1 left on the diagonal entry of the ambiguity of
satellite 2 (state index 4, flat index `4+4*5`). -/
def rtk10 : rtk_t :=
  { rtk0 with
    P := fun k => if k = 24 then 1 else 0
    ssat := fun _ => { ssat0 with outc := fun _ => 10 } }

/-- `rtk10` with the ambiguity of satellite 2 (state index 4) active. -/
def rtk10b : rtk_t :=
  { rtk10 with x := fun k => if k = 4 then 7 else 0 }

/-- `rtk0` with an initialised position `(10,10,10)` (kinematic mode). -/
def rtk8 : rtk_t :=
  { rtk0 with x := fun k => if k < 3 then 10 else 0 }

/-- `rtk8` in static mode; satellite 1 has an active ambiguity equal to its
phase-minus-code value `-1` for `obs10`. -/
def rtk8s : rtk_t :=
  { rtk0 with
    x := fun k => if k < 3 then 10 else if k = 3 then -1 else 0
    opt := { opt0 with mode := PMODE_STATIC } }

/-- `E0` with a search `lambda` that reports success, the candidate vector of
ones and the squared norms `s0`, `s1`, and an `arc_matinv` that inverts
1-by-1 matrices. -/
def E_lam (s0 s1 : ℚ) : Env :=
  { E0 with
    lambda := fun _ _ _ _ =>
      { info := 0, F := fun _ => 1, s := fun k => if k = 0 then s0 else s1 }
    arc_matinv := fun A _ => (0, fun k => if k = 0 then 1 / A 0 else A k) }

/-- `rtk0` with both satellites (GPS) tracked with valid data and lock, the
ambiguity states 1 and 2 cycles, and a covariance with unit diagonal and the
entries `P[0+3*5] = P[3+0*5] = 1/2`. -/
def rtkL : rtk_t :=
  { rtk0 with
    x := fun k => if k = 3 then 1 else if k = 4 then 2 else 0
    P := fun k => if k % 6 = 0 then 1 else if k = 15 ∨ k = 3 then 1 / 2 else 0
    ssat := fun _ => { ssat0 with sys := SYS_GPS, azel := fun _ => 1, vsat := fun _ => 1,
                                  half := fun _ => 1, lock := fun _ => 1 } }

/-- `E0` with satellites seen at the elevation 1/10 (below the mask 1/4 of
`opt0`). -/
def E_low : Env :=
  { E0 with satazel := fun _ _ _ => (1 / 10, fun k => if k = 1 then 1 / 10 else 0) }

/-- Static storage of `arc_intpres` before the first epoch. -/
def st0 : intpres_static_t where
  obsb := obs10
  yb := fun _ => 0
  e := fun _ => 0
  azel := fun _ => 0
  nb := 0

/-- `E0` with a measurement update `arc_filter` that reports the error 1. -/
def E_fail : Env :=
  { E0 with arc_filter := fun x P _ _ _ _ _ => { info := 1, x := x, P := P } }

/-- Satellites 1 and 2 observed by the rover (indices 0, 1) and by the base
station (indices 2, 3), carrier phase 5 cycles and pseudorange 7 m. -/
def obsF : Nat → obsd_t := fun i =>
  { time := ⟨0, 0⟩, sat := if i % 2 = 0 then 1 else 2, rcv := if i < 2 then 1 else 2,
    SNR := fun _ => 0, LLI := fun _ => 0, L := fun _ => 5, P := fun _ => 7 }

/-- `rtk8` (kinematic mode, position `(10,10,10)`) with the innovation test
switched off (`maxinno = 0`). -/
def rtkF : rtk_t :=
  { rtk8 with opt := { opt0 with maxinno := 0 } }

/-- Two common satellites for the reference search of `arc_ddres`: satellite
`j+1` is observation `j` of the rover and observation `j+2` of the base. -/
def sat_w : Nat → Nat := fun j => j + 1

/-- See `sat_w`. -/
def ir_w : Nat → Nat := fun j => j + 2

/-- Elevations that grow with the observation index (`azel[1+i*2] = 1+i*2`). -/
def azel_w : Nat → ℚ := fun k => k

/-- Static storage of `arc_intpres` with one cached base epoch (`obs10`). -/
def st1 : intpres_static_t := { st0 with nb := 1 }

/-- The control struct `rtk0` with a nominal baseline length of 10 m and a
standard deviation of 1 m. -/
def rtkC : rtk_t := { rtk0 with opt := { opt0 with baseline := fun k => if k = 0 then 10 else 1 } }

/-- A rover position 10 m from the base of `rtk0`. -/
def xC : Nat → ℚ := fun i => if i = 0 then 11 else 0

/-- A 5 x 5 covariance with unit diagonal. -/
def PC : Nat → ℚ := fun k => if k % 6 = 0 then 1 else 0

/-- Block sizes of two reference-satellite groups: two pairs and one pair. -/
def nb_w : Nat → Nat := fun b => if b = 0 then 2 else 1

/-- The satellite list of the observations `obs_w1` (satellites 3, 7, 3, 7). -/
def SatList_w : Nat → Int := fun i => if i < 4 then ((obs_w1 i).sat : Int) else 0

/-- Per-satellite members with every entry zero. -/
def store0 : satstore_t where
  m_SatPos := fun _ => 0
  m_SatClk := fun _ => 0
  m_SatPosVar := fun _ => 0
  m_SVH := fun _ => 0

/-- One common satellite, number 2: rover observation 0 with the loss-of-lock
bit of the LLI set, base observation 1 without. -/
def obs11 : Nat → obsd_t := fun i =>
  { time := ⟨0, 0⟩, sat := 2, rcv := if i = 0 then 1 else 2, SNR := fun _ => 0,
    LLI := fun _ => if i = 0 then 1 else 0, L := fun _ => 5, P := fun _ => 7 }

/-- The control struct `rtk0` with an active ambiguity of satellite 2 (state 4,
value 7, variance 1) that is correlated with the ambiguity of satellite 1
(`P[3,4] = P[4,3] = 1`). -/
def rtk11 : rtk_t :=
  { rtk0 with
    x := fun k => if k = 4 then 7 else 0
    P := fun k => if k = 24 ∨ k = 23 ∨ k = 19 then 1 else 0 }

/-- The control struct `rtkL` (two tracked GPS satellites, ambiguities 1 and 2
cycles) with the innovation test switched off. -/
def rtk12 : rtk_t := { rtkL with opt := { opt0 with maxinno := 0 } }

/-- The state of the measurement loop of `arc_ddres` before the first pair: no
residual yet, a design matrix with every entry 7, no covariance requested. -/
def s12 : ddres_t where
  rtk := rtk12
  v := fun _ => 0
  H := some (fun _ => 7)
  R := none
  Ri := fun _ => 0
  Rj := fun _ => 0
  vflg := fun _ => 0
  nv := 0
  nb := fun _ => 0
  b := 0

/-- Atmospheric factors of `arc_ddres`, all zero. -/
def atm0 : ddres_atm_t where
  im := fun _ => 0
  tropu := fun _ => 0
  tropr := fun _ => 0
  dtdxu := fun _ => 0
  dtdxr := fun _ => 0

/-- The control struct `rtk0` with an active ambiguity of satellite 1 (state 3)
whose half-cycle flag is not valid: GPS, valid data, lock count 1, `half = 0`.
Every entry of `ssat` holds these values. -/
def rtk14 : rtk_t :=
  { rtk0 with
    x := fun k => if k = 3 then 1 else 0
    ssat := fun _ => { ssat0 with sys := SYS_GPS, azel := fun _ => 1, vsat := fun _ => 1,
                                  half := fun _ => 0, lock := fun _ => 1 } }

/-- The control struct `rtkL` with both GPS satellites fixed (`fix = 2`). -/
def rtk18 : rtk_t :=
  { rtkL with
    ssat := fun _ => { ssat0 with sys := SYS_GPS, azel := fun _ => 1, vsat := fun _ => 1,
                                  half := fun _ => 1, lock := fun _ => 1, fix := fun _ => 2 } }

/-- A fixed solution with the ambiguities 5 and 3 cycles. -/
def xa18 : Nat → ℚ := fun k => if k = 3 then 5 else if k = 4 then 3 else 0

/-- `E0` with three satellite slots and a search `lambda` that returns the float
ambiguities as the best candidate, with the squared norms 1 and 4. -/
def E3 : Env :=
  { E0 with
    MAXSAT := 3
    lambda := fun _ _ a _ => { info := 0, F := a, s := fun k => if k = 0 then 1 else 4 } }

/-- A control struct with three tracked GPS satellites: position `(10,10,10)`,
ambiguities 1, 2, 3 cycles, unit covariance (`nx = 6`, `na = 3`). -/
def rtk15 : rtk_t :=
  { rtk0 with
    nx := 6
    x := fun k => if k < 3 then 10 else if k = 3 then 1 else if k = 4 then 2
                  else if k = 5 then 3 else 0
    P := fun k => if k % 7 = 0 then 1 else 0
    ssat := fun _ => { ssat0 with sys := SYS_GPS, azel := fun _ => 1, vsat := fun _ => 1,
                                  half := fun _ => 1, lock := fun _ => 1 } }

/-- A working state of `arc_relpos` after a float solution (`stat = SOLQ_FLOAT`)
for the control struct `r`, the work arrays zero. -/
def s_float (r : rtk_t) : relpos_t where
  rtk := r
  xp := r.x
  Pp := r.P
  xa := fun _ => 0
  bias := fun _ => 0
  y := fun _ => 0
  e := fun _ => 0
  azel := fun _ => 0
  v := fun _ => 0
  H := fun _ => 0
  R := fun _ => 0
  vflg := fun _ => 0
  nv := 0
  info := some 0
  stat := SOLQ_FLOAT

/-- A rover position equal to the base position of `rtk0`. -/
def xB : Nat → ℚ := fun i => if i = 0 then 1 else 0

/-- The control struct `rtk0` with two tracked GPS satellites with valid data
and lock, ambiguities 1 and 2 cycles; the half-cycle flag of satellite 1 is not
valid, that of satellite 2 is. -/
def rtk28 : rtk_t :=
  { rtk0 with
    x := fun k => if k = 3 then 1 else if k = 4 then 2 else 0
    ssat := fun s => { ssat0 with sys := SYS_GPS, azel := fun _ => 1, vsat := fun _ => 1,
                                  half := fun _ => if s = 0 then 0 else 1,
                                  lock := fun _ => 1 } }

/-- A control struct with ionosphere estimation: `nx = 7` (position, two
ionosphere states 3 and 4, two ambiguities), the ionosphere state of satellite 1
active (value 5), the outage counter `c0` on frequency slot 0 and `c1` on slot 1
for every satellite. -/
def rtk27 (c0 c1 : Nat) : rtk_t :=
  { rtk0 with
    nx := 7
    x := fun k => if k = 3 then 5 else 0
    opt := { opt0 with ionoopt := IONOOPT_EST }
    ssat := fun _ => { ssat0 with outc := fun f => if f = 0 then c0 else c1 } }

/-- The control struct `rtkL` (two tracked GPS satellites, both eligible as
reference) with satellite 1 at the elevation 1/2 and satellite 2 at the
elevation 1. -/
def rtk21 : rtk_t :=
  { rtkL with
    ssat := fun s => { ssat0 with sys := SYS_GPS, azel := fun _ => if s = 0 then 1 / 2 else 1,
                                  vsat := fun _ => 1, half := fun _ => 1, lock := fun _ => 1 } }

/-- The state of the measurement loop of `arc_ddres` before the first pair, for
the control struct `rtkL` (`maxinno = 30`, `ceres = 0`): no residual yet, a
design matrix with every entry 7, no covariance requested. -/
def s23 : ddres_t := { s12 with rtk := rtkL }

/-- Zero-difference residuals `y[k] = 10 (k+1)^2`. -/
def y23 : Nat → ℚ := fun k => 10 * ((k : ℚ) + 1) ^ 2

/-- The observations `obs10` with the loss-of-lock indicator 3 (slip and parity
unknown). -/
def obs24 : Nat → obsd_t := fun i => { obs10 i with LLI := fun _ => 3 }

/-- The control struct `rtk0` in a forward run (`tt = 1`) with the slip byte
`0x40` of satellite 1 (cached rover indicator 1, cached base indicator 0). -/
def rtk24 : rtk_t :=
  { rtk0 with tt := 1, ssat := fun _ => { ssat0 with slip := fun _ => 64 } }

/-- The control struct `rtkL` with two tracked GPS satellites in the slots 0 and
1 and nothing tracked in any other slot. -/
def rtk14w : rtk_t :=
  { rtkL with
    ssat := fun s => if s < 2 then { ssat0 with sys := SYS_GPS, azel := fun _ => 1,
                                                vsat := fun _ => 1, half := fun _ => 1,
                                                lock := fun _ => 1 } else ssat0 }

/-- The control struct `rtk14` (one active GPS ambiguity whose half-cycle flag is
not valid, so that the GPS family has no reference) with nothing tracked
outside the slots 0 and 1. -/
def rtk14z : rtk_t :=
  { rtk14 with
    ssat := fun s => if s < 2 then { ssat0 with sys := SYS_GPS, azel := fun _ => 1,
                                                vsat := fun _ => 1, half := fun _ => 0,
                                                lock := fun _ => 1 } else ssat0 }
/-! ## Theorems -/

theorem selsat_loop_inv (obs : Nat → obsd_t) (azel : Nat → ℚ) (nu nr : Nat) (elmin : ℚ)
    (hs : obs_sorted obs nu nr) (i j : Nat) (o : selsat_t)
    (h : selsat_inv obs azel nu nr elmin i j o) :
    ∃ i' j', selsat_inv obs azel nu nr elmin i' j' (arc_selsat_loop obs azel nu nr elmin i j o) ∧
      ¬ (i' < nu ∧ j' < nu + nr) := by
  induction i, j, o using arc_selsat_loop.induct obs azel nu nr elmin with
  | case1 i j o hc hlt ih =>
    rw [arc_selsat_loop, if_pos hc, if_pos hlt]
    apply ih
    refine ⟨h.hj, h.idx, h.incr, ?_, h.below_r, ?_⟩
    · intro t ht a ha han
      exact h.below_u t ht a (by omega) han
    · intro a b ha hb hbn hab hel
      rcases h.compl a b ha hb hbn hab hel with h1 | ⟨h1, h2⟩
      · exact Or.inl h1
      · right
        refine ⟨?_, h2⟩
        by_contra hcon
        have hai : a = i := by omega
        subst hai
        have : (obs j).sat ≤ (obs b).sat := by
          rcases Nat.eq_or_lt_of_le h2 with e | l
          · rw [e]
          · exact le_of_lt (hs.2 j b h.hj l hbn)
        omega
  | case2 i j o hc hlt hgt ih =>
    rw [arc_selsat_loop, if_pos hc, if_neg hlt, if_pos hgt]
    apply ih
    refine ⟨by have := h.hj; omega, h.idx, h.incr, h.below_u, ?_, ?_⟩
    · intro t ht b hb hbn
      exact h.below_r t ht b (by omega) hbn
    · intro a b ha hb hbn hab hel
      rcases h.compl a b ha hb hbn hab hel with h1 | ⟨h1, h2⟩
      · exact Or.inl h1
      · right
        refine ⟨h1, ?_⟩
        by_contra hcon
        have hbj : b = j := by omega
        subst hbj
        have : (obs i).sat ≤ (obs a).sat := by
          rcases Nat.eq_or_lt_of_le h1 with e | l
          · rw [e]
          · exact le_of_lt (hs.1 i a l ha)
        omega
  | case3 i j o hc hlt hgt hel ih =>
    rw [arc_selsat_loop, if_pos hc, if_neg hlt, if_neg hgt, if_pos hel]
    apply ih
    have heq : (obs i).sat = (obs j).sat := by omega
    refine ⟨by have := h.hj; omega, ?_, ?_, ?_, ?_, ?_⟩
    · intro t ht
      simp only at ht
      rcases Nat.lt_succ_iff_lt_or_eq.mp ht with l | e
      · have hne : t ≠ o.k := by omega
        simp only [Function.update_noteq hne]
        exact h.idx t l
      · subst e
        simp only [Function.update_same]
        exact ⟨hc.1, h.hj, hc.2, trivial, heq.symm, hel⟩
    · intro s t hst ht
      simp only at ht
      rcases Nat.lt_succ_iff_lt_or_eq.mp ht with l | e
      · have hne : t ≠ o.k := by omega
        have hne2 : s ≠ o.k := by omega
        simp only [Function.update_noteq hne, Function.update_noteq hne2]
        exact h.incr s t hst l
      · subst e
        have hne2 : s ≠ o.k := by omega
        simp only [Function.update_same, Function.update_noteq hne2]
        exact h.below_u s hst i le_rfl hc.1
    · intro t ht a ha han
      simp only at ht
      rcases Nat.lt_succ_iff_lt_or_eq.mp ht with l | e
      · have hne : t ≠ o.k := by omega
        simp only [Function.update_noteq hne]
        exact h.below_u t l a (by omega) han
      · subst e
        simp only [Function.update_same]
        exact hs.1 i a (by omega) han
    · intro t ht b hb hbn
      simp only at ht
      rcases Nat.lt_succ_iff_lt_or_eq.mp ht with l | e
      · have hne : t ≠ o.k := by omega
        simp only [Function.update_noteq hne]
        exact h.below_r t l b (by omega) hbn
      · subst e
        simp only [Function.update_same]
        rw [heq]
        exact hs.2 j b h.hj (by omega) hbn
    · intro a b ha hb hbn hab hel2
      rcases h.compl a b ha hb hbn hab hel2 with ⟨t, ht, hteq⟩ | ⟨h1, h2⟩
      · left
        refine ⟨t, by simp only; omega, ?_⟩
        have hne : t ≠ o.k := by omega
        simp only [Function.update_noteq hne]
        exact hteq
      · by_cases hai : a = i
        · left
          subst hai
          exact ⟨o.k, by simp only; omega, by simp only [Function.update_same]⟩
        · by_cases hbj : b = j
          · subst hbj
            have := hs.1 i a (by omega) ha
            omega
          · right
            omega
  | case4 i j o hc hlt hgt hel ih =>
    rw [arc_selsat_loop, if_pos hc, if_neg hlt, if_neg hgt, if_neg hel]
    apply ih
    have heq : (obs i).sat = (obs j).sat := by omega
    refine ⟨by have := h.hj; omega, h.idx, h.incr, ?_, ?_, ?_⟩
    · intro t ht a ha han
      exact h.below_u t ht a (by omega) han
    · intro t ht b hb hbn
      exact h.below_r t ht b (by omega) hbn
    · intro a b ha hb hbn hab hel2
      rcases h.compl a b ha hb hbn hab hel2 with h1 | ⟨h1, h2⟩
      · exact Or.inl h1
      · right
        by_cases hai : a = i
        · subst hai
          by_cases hbj : b = j
          · subst hbj
            exact absurd hel2 hel
          · have := hs.2 j b h.hj (by omega) hbn
            omega
        · by_cases hbj : b = j
          · subst hbj
            have := hs.1 i a (by omega) ha
            omega
          · omega
  | case5 i j o hc =>
    rw [arc_selsat_loop, if_neg hc]
    exact ⟨i, j, h, hc⟩

theorem selsat_inv_init (obs : Nat → obsd_t) (azel : Nat → ℚ) (nu nr : Nat) (elmin : ℚ)
    (sat iu ir : Nat → Nat) :
    selsat_inv obs azel nu nr elmin 0 nu { sat := sat, iu := iu, ir := ir, k := 0 } := by
  refine ⟨le_rfl, ?_, ?_, ?_, ?_, ?_⟩
  · intro t ht; exact absurd ht (Nat.not_lt_zero _)
  · intro s t _ ht; exact absurd ht (Nat.not_lt_zero _)
  · intro t ht; exact absurd ht (Nat.not_lt_zero _)
  · intro t ht; exact absurd ht (Nat.not_lt_zero _)
  · intro a b _ hb _ _ _
    exact Or.inr ⟨Nat.zero_le _, hb⟩

/-- C1: when the rover part and the base part of the observation list are each
strictly increasing in satellite id, the satellite ids written by `arc_selsat`
(and by `SelectCommonSat`) to `sat[0..k)` are strictly increasing. -/
theorem C1_selsat_strictly_increasing (obs : Nat → obsd_t) (azel : Nat → ℚ) (nu nr : Nat)
    (elmin : ℚ) (sat iu ir : Nat → Nat) (hs : obs_sorted obs nu nr) :
    (∀ s t, s < t → t < (arc_selsat obs azel nu nr elmin sat iu ir).k →
      (arc_selsat obs azel nu nr elmin sat iu ir).sat s <
        (arc_selsat obs azel nu nr elmin sat iu ir).sat t) ∧
    (∀ s t, s < t → t < (SelectCommonSat obs azel nu nr elmin sat iu ir).k →
      (SelectCommonSat obs azel nu nr elmin sat iu ir).sat s <
        (SelectCommonSat obs azel nu nr elmin sat iu ir).sat t) := by
  obtain ⟨i', j', hinv, _⟩ := selsat_loop_inv obs azel nu nr elmin hs 0 nu _
    (selsat_inv_init obs azel nu nr elmin sat iu ir)
  exact ⟨hinv.incr, hinv.incr⟩

theorem obs_w1_sorted : obs_sorted obs_w1 2 2 := by
  constructor
  · intro a b hab hb
    have ha : a = 0 := by omega
    have hb : b = 1 := by omega
    subst ha; subst hb
    simp [obs_w1]
  · intro a b ha hab hb
    have ha : a = 2 := by omega
    have hb : b = 3 := by omega
    subst ha; subst hb
    simp [obs_w1]

theorem C1_selsat_strictly_increasing_witness :
    (∀ s t, s < t → t < (arc_selsat obs_w1 (fun _ => 1) 2 2 0 (fun _ => 0) (fun _ => 0)
        (fun _ => 0)).k →
      (arc_selsat obs_w1 (fun _ => 1) 2 2 0 (fun _ => 0) (fun _ => 0) (fun _ => 0)).sat s <
        (arc_selsat obs_w1 (fun _ => 1) 2 2 0 (fun _ => 0) (fun _ => 0) (fun _ => 0)).sat t) ∧
    (∀ s t, s < t → t < (SelectCommonSat obs_w1 (fun _ => 1) 2 2 0 (fun _ => 0) (fun _ => 0)
        (fun _ => 0)).k →
      (SelectCommonSat obs_w1 (fun _ => 1) 2 2 0 (fun _ => 0) (fun _ => 0) (fun _ => 0)).sat s <
        (SelectCommonSat obs_w1 (fun _ => 1) 2 2 0 (fun _ => 0) (fun _ => 0) (fun _ => 0)).sat t) :=
  C1_selsat_strictly_increasing obs_w1 (fun _ => 1) 2 2 0 (fun _ => 0) (fun _ => 0)
    (fun _ => 0) obs_w1_sorted

/-- C2: under the same precondition `arc_selsat` returns exactly the masked
common satellites: `s` occurs in `sat[0..k)` iff some rover index `i < nu` and
base index `nu ≤ j < nu+nr` have `obs[i].sat = obs[j].sat = s` and
`azel[1+2j] ≥ elmin`; and at every output position `t`,
`iu[t] < nu ≤ ir[t] < nu+nr` and `obs[iu[t]].sat = obs[ir[t]].sat = sat[t]`. -/
theorem C2_selsat_exact (obs : Nat → obsd_t) (azel : Nat → ℚ) (nu nr : Nat)
    (elmin : ℚ) (sat iu ir : Nat → Nat) (hs : obs_sorted obs nu nr) :
    (∀ s, (∃ t, t < (arc_selsat obs azel nu nr elmin sat iu ir).k ∧
          (arc_selsat obs azel nu nr elmin sat iu ir).sat t = s) ↔
        (∃ i j, i < nu ∧ nu ≤ j ∧ j < nu + nr ∧ (obs i).sat = s ∧ (obs j).sat = s ∧
          azel (1 + 2 * j) ≥ elmin)) ∧
    (∀ t, t < (arc_selsat obs azel nu nr elmin sat iu ir).k →
      (arc_selsat obs azel nu nr elmin sat iu ir).iu t < nu ∧
      nu ≤ (arc_selsat obs azel nu nr elmin sat iu ir).ir t ∧
      (arc_selsat obs azel nu nr elmin sat iu ir).ir t < nu + nr ∧
      (obs ((arc_selsat obs azel nu nr elmin sat iu ir).iu t)).sat =
        (arc_selsat obs azel nu nr elmin sat iu ir).sat t ∧
      (obs ((arc_selsat obs azel nu nr elmin sat iu ir).ir t)).sat =
        (arc_selsat obs azel nu nr elmin sat iu ir).sat t) := by
  obtain ⟨i', j', hinv, hex⟩ := selsat_loop_inv obs azel nu nr elmin hs 0 nu _
    (selsat_inv_init obs azel nu nr elmin sat iu ir)
  have hj := hinv.hj
  constructor
  · intro s
    constructor
    · rintro ⟨t, ht, hst⟩
      obtain ⟨h1, h2, h3, h4, h5, h6⟩ := hinv.idx t ht
      refine ⟨_, _, h1, h2, h3, h4.trans hst, h5.trans hst, ?_⟩
      rw [Nat.mul_comm]; exact h6
    · rintro ⟨i, j, hi, hj1, hj2, hsi, hsj, hel⟩
      rw [Nat.mul_comm] at hel
      rcases hinv.compl i j hi hj1 hj2 (hsi.trans hsj.symm) hel with ⟨t, ht, hte⟩ | ⟨h1, h2⟩
      · exact ⟨t, ht, hte.trans hsi⟩
      · exfalso; apply hex; omega
  · intro t ht
    obtain ⟨h1, h2, h3, h4, h5, _⟩ := hinv.idx t ht
    exact ⟨h1, h2, h3, h4, h5⟩

theorem C2_selsat_exact_witness :
    (∀ s, (∃ t, t < (arc_selsat obs_w1 (fun _ => 1) 2 2 0 (fun _ => 0) (fun _ => 0)
            (fun _ => 0)).k ∧
          (arc_selsat obs_w1 (fun _ => 1) 2 2 0 (fun _ => 0) (fun _ => 0) (fun _ => 0)).sat t
            = s) ↔
        (∃ i j, i < 2 ∧ 2 ≤ j ∧ j < 2 + 2 ∧ (obs_w1 i).sat = s ∧ (obs_w1 j).sat = s ∧
          (fun _ => (1 : ℚ)) (1 + 2 * j) ≥ 0)) ∧
    (∀ t, t < (arc_selsat obs_w1 (fun _ => 1) 2 2 0 (fun _ => 0) (fun _ => 0) (fun _ => 0)).k →
      (arc_selsat obs_w1 (fun _ => 1) 2 2 0 (fun _ => 0) (fun _ => 0) (fun _ => 0)).iu t < 2 ∧
      2 ≤ (arc_selsat obs_w1 (fun _ => 1) 2 2 0 (fun _ => 0) (fun _ => 0) (fun _ => 0)).ir t ∧
      (arc_selsat obs_w1 (fun _ => 1) 2 2 0 (fun _ => 0) (fun _ => 0) (fun _ => 0)).ir t
        < 2 + 2 ∧
      (obs_w1 ((arc_selsat obs_w1 (fun _ => 1) 2 2 0 (fun _ => 0) (fun _ => 0)
          (fun _ => 0)).iu t)).sat =
        (arc_selsat obs_w1 (fun _ => 1) 2 2 0 (fun _ => 0) (fun _ => 0) (fun _ => 0)).sat t ∧
      (obs_w1 ((arc_selsat obs_w1 (fun _ => 1) 2 2 0 (fun _ => 0) (fun _ => 0)
          (fun _ => 0)).ir t)).sat =
        (arc_selsat obs_w1 (fun _ => 1) 2 2 0 (fun _ => 0) (fun _ => 0) (fun _ => 0)).sat t) :=
  C2_selsat_exact obs_w1 (fun _ => 1) 2 2 0 (fun _ => 0) (fun _ => 0) (fun _ => 0) obs_w1_sorted

/-! ### Loops -/

theorem forN_succ {σ : Type} (n : Nat) (body : Nat → σ → σ) (s : σ) :
    forN (n + 1) body s = body n (forN n body s) := rfl

/-- Invariant rule for `forN`. -/
theorem forN_inv {σ : Type} (I : σ → Prop) (n : Nat) (body : Nat → σ → σ) (s : σ)
    (h0 : I s) (hstep : ∀ i s, i < n → I s → I (body i s)) : I (forN n body s) := by
  induction n with
  | zero => exact h0
  | succ n ih =>
    rw [forN_succ]
    exact hstep n _ (Nat.lt_succ_self n) (ih (fun i s hi => hstep i s (Nat.lt_succ_of_lt hi)))

/-- Invariant rule for `forN` with the loop counter. -/
theorem forN_inv_idx {σ : Type} (I : Nat → σ → Prop) (n : Nat) (body : Nat → σ → σ) (s : σ)
    (h0 : I 0 s) (hstep : ∀ i s, i < n → I i s → I (i + 1) (body i s)) :
    I n (forN n body s) := by
  induction n with
  | zero => exact h0
  | succ n ih =>
    rw [forN_succ]
    exact hstep n _ (Nat.lt_succ_self n) (ih (fun i s hi => hstep i s (Nat.lt_succ_of_lt hi)))

/-! ### Assignments -/
@[simp] theorem set_outc_x (r : rtk_t) (s f v : Nat) : (set_outc r s f v).x = r.x := rfl
@[simp] theorem set_outc_P (r : rtk_t) (s f v : Nat) : (set_outc r s f v).P = r.P := rfl
@[simp] theorem set_outc_nx (r : rtk_t) (s f v : Nat) : (set_outc r s f v).nx = r.nx := rfl
@[simp] theorem set_outc_na (r : rtk_t) (s f v : Nat) : (set_outc r s f v).na = r.na := rfl
@[simp] theorem set_outc_opt (r : rtk_t) (s f v : Nat) : (set_outc r s f v).opt = r.opt := rfl
@[simp] theorem set_outc_tt (r : rtk_t) (s f v : Nat) : (set_outc r s f v).tt = r.tt := rfl
@[simp] theorem set_outc_sol (r : rtk_t) (s f v : Nat) : (set_outc r s f v).sol = r.sol := rfl
@[simp] theorem set_outc_rb (r : rtk_t) (s f v : Nat) : (set_outc r s f v).rb = r.rb := rfl
@[simp] theorem set_outc_xa (r : rtk_t) (s f v : Nat) : (set_outc r s f v).xa = r.xa := rfl
@[simp] theorem set_outc_Pa (r : rtk_t) (s f v : Nat) : (set_outc r s f v).Pa = r.Pa := rfl
@[simp] theorem set_outc_nfix (r : rtk_t) (s f v : Nat) : (set_outc r s f v).nfix = r.nfix := rfl
@[simp] theorem set_outc_ssat_sys (r : rtk_t) (s f v : Nat) (t : Nat) :
    ((set_outc r s f v).ssat t).sys = (r.ssat t).sys := by
  unfold set_outc
  by_cases h : t = s
  · subst h; simp only [Function.update_same]
  · simp only [Function.update_noteq h]
@[simp] theorem set_outc_ssat_azel (r : rtk_t) (s f v : Nat) (t : Nat) :
    ((set_outc r s f v).ssat t).azel = (r.ssat t).azel := by
  unfold set_outc
  by_cases h : t = s
  · subst h; simp only [Function.update_same]
  · simp only [Function.update_noteq h]
@[simp] theorem set_outc_ssat_vsat (r : rtk_t) (s f v : Nat) (t : Nat) :
    ((set_outc r s f v).ssat t).vsat = (r.ssat t).vsat := by
  unfold set_outc
  by_cases h : t = s
  · subst h; simp only [Function.update_same]
  · simp only [Function.update_noteq h]
@[simp] theorem set_outc_ssat_fix (r : rtk_t) (s f v : Nat) (t : Nat) :
    ((set_outc r s f v).ssat t).fix = (r.ssat t).fix := by
  unfold set_outc
  by_cases h : t = s
  · subst h; simp only [Function.update_same]
  · simp only [Function.update_noteq h]
@[simp] theorem set_outc_ssat_slip (r : rtk_t) (s f v : Nat) (t : Nat) :
    ((set_outc r s f v).ssat t).slip = (r.ssat t).slip := by
  unfold set_outc
  by_cases h : t = s
  · subst h; simp only [Function.update_same]
  · simp only [Function.update_noteq h]
@[simp] theorem set_outc_ssat_half (r : rtk_t) (s f v : Nat) (t : Nat) :
    ((set_outc r s f v).ssat t).half = (r.ssat t).half := by
  unfold set_outc
  by_cases h : t = s
  · subst h; simp only [Function.update_same]
  · simp only [Function.update_noteq h]
@[simp] theorem set_outc_ssat_lock (r : rtk_t) (s f v : Nat) (t : Nat) :
    ((set_outc r s f v).ssat t).lock = (r.ssat t).lock := by
  unfold set_outc
  by_cases h : t = s
  · subst h; simp only [Function.update_same]
  · simp only [Function.update_noteq h]
theorem set_outc_ssat_outc (r : rtk_t) (s f v : Nat) (t : Nat) :
    ((set_outc r s f v).ssat t).outc =
      if t = s then Function.update (r.ssat s).outc f v else (r.ssat t).outc := by
  unfold set_outc
  by_cases h : t = s
  · subst h; simp only [Function.update_same, if_true]
  · simp only [Function.update_noteq h, if_neg h]
@[simp] theorem set_lock_x (r : rtk_t) (s f : Nat) (v : Int) : (set_lock r s f v).x = r.x := rfl
@[simp] theorem set_lock_P (r : rtk_t) (s f : Nat) (v : Int) : (set_lock r s f v).P = r.P := rfl
@[simp] theorem set_lock_nx (r : rtk_t) (s f : Nat) (v : Int) : (set_lock r s f v).nx = r.nx := rfl
@[simp] theorem set_lock_na (r : rtk_t) (s f : Nat) (v : Int) : (set_lock r s f v).na = r.na := rfl
@[simp] theorem set_lock_opt (r : rtk_t) (s f : Nat) (v : Int) : (set_lock r s f v).opt = r.opt := rfl
@[simp] theorem set_lock_tt (r : rtk_t) (s f : Nat) (v : Int) : (set_lock r s f v).tt = r.tt := rfl
@[simp] theorem set_lock_sol (r : rtk_t) (s f : Nat) (v : Int) : (set_lock r s f v).sol = r.sol := rfl
@[simp] theorem set_lock_rb (r : rtk_t) (s f : Nat) (v : Int) : (set_lock r s f v).rb = r.rb := rfl
@[simp] theorem set_lock_xa (r : rtk_t) (s f : Nat) (v : Int) : (set_lock r s f v).xa = r.xa := rfl
@[simp] theorem set_lock_Pa (r : rtk_t) (s f : Nat) (v : Int) : (set_lock r s f v).Pa = r.Pa := rfl
@[simp] theorem set_lock_nfix (r : rtk_t) (s f : Nat) (v : Int) : (set_lock r s f v).nfix = r.nfix := rfl
@[simp] theorem set_lock_ssat_sys (r : rtk_t) (s f : Nat) (v : Int) (t : Nat) :
    ((set_lock r s f v).ssat t).sys = (r.ssat t).sys := by
  unfold set_lock
  by_cases h : t = s
  · subst h; simp only [Function.update_same]
  · simp only [Function.update_noteq h]
@[simp] theorem set_lock_ssat_azel (r : rtk_t) (s f : Nat) (v : Int) (t : Nat) :
    ((set_lock r s f v).ssat t).azel = (r.ssat t).azel := by
  unfold set_lock
  by_cases h : t = s
  · subst h; simp only [Function.update_same]
  · simp only [Function.update_noteq h]
@[simp] theorem set_lock_ssat_vsat (r : rtk_t) (s f : Nat) (v : Int) (t : Nat) :
    ((set_lock r s f v).ssat t).vsat = (r.ssat t).vsat := by
  unfold set_lock
  by_cases h : t = s
  · subst h; simp only [Function.update_same]
  · simp only [Function.update_noteq h]
@[simp] theorem set_lock_ssat_fix (r : rtk_t) (s f : Nat) (v : Int) (t : Nat) :
    ((set_lock r s f v).ssat t).fix = (r.ssat t).fix := by
  unfold set_lock
  by_cases h : t = s
  · subst h; simp only [Function.update_same]
  · simp only [Function.update_noteq h]
@[simp] theorem set_lock_ssat_slip (r : rtk_t) (s f : Nat) (v : Int) (t : Nat) :
    ((set_lock r s f v).ssat t).slip = (r.ssat t).slip := by
  unfold set_lock
  by_cases h : t = s
  · subst h; simp only [Function.update_same]
  · simp only [Function.update_noteq h]
@[simp] theorem set_lock_ssat_half (r : rtk_t) (s f : Nat) (v : Int) (t : Nat) :
    ((set_lock r s f v).ssat t).half = (r.ssat t).half := by
  unfold set_lock
  by_cases h : t = s
  · subst h; simp only [Function.update_same]
  · simp only [Function.update_noteq h]
@[simp] theorem set_lock_ssat_outc (r : rtk_t) (s f : Nat) (v : Int) (t : Nat) :
    ((set_lock r s f v).ssat t).outc = (r.ssat t).outc := by
  unfold set_lock
  by_cases h : t = s
  · subst h; simp only [Function.update_same]
  · simp only [Function.update_noteq h]
theorem set_lock_ssat_lock (r : rtk_t) (s f : Nat) (v : Int) (t : Nat) :
    ((set_lock r s f v).ssat t).lock =
      if t = s then Function.update (r.ssat s).lock f v else (r.ssat t).lock := by
  unfold set_lock
  by_cases h : t = s
  · subst h; simp only [Function.update_same, if_true]
  · simp only [Function.update_noteq h, if_neg h]
@[simp] theorem set_slip_x (r : rtk_t) (s f v : Nat) : (set_slip r s f v).x = r.x := rfl
@[simp] theorem set_slip_P (r : rtk_t) (s f v : Nat) : (set_slip r s f v).P = r.P := rfl
@[simp] theorem set_slip_nx (r : rtk_t) (s f v : Nat) : (set_slip r s f v).nx = r.nx := rfl
@[simp] theorem set_slip_na (r : rtk_t) (s f v : Nat) : (set_slip r s f v).na = r.na := rfl
@[simp] theorem set_slip_opt (r : rtk_t) (s f v : Nat) : (set_slip r s f v).opt = r.opt := rfl
@[simp] theorem set_slip_tt (r : rtk_t) (s f v : Nat) : (set_slip r s f v).tt = r.tt := rfl
@[simp] theorem set_slip_sol (r : rtk_t) (s f v : Nat) : (set_slip r s f v).sol = r.sol := rfl
@[simp] theorem set_slip_rb (r : rtk_t) (s f v : Nat) : (set_slip r s f v).rb = r.rb := rfl
@[simp] theorem set_slip_xa (r : rtk_t) (s f v : Nat) : (set_slip r s f v).xa = r.xa := rfl
@[simp] theorem set_slip_Pa (r : rtk_t) (s f v : Nat) : (set_slip r s f v).Pa = r.Pa := rfl
@[simp] theorem set_slip_nfix (r : rtk_t) (s f v : Nat) : (set_slip r s f v).nfix = r.nfix := rfl
@[simp] theorem set_slip_ssat_sys (r : rtk_t) (s f v : Nat) (t : Nat) :
    ((set_slip r s f v).ssat t).sys = (r.ssat t).sys := by
  unfold set_slip
  by_cases h : t = s
  · subst h; simp only [Function.update_same]
  · simp only [Function.update_noteq h]
@[simp] theorem set_slip_ssat_azel (r : rtk_t) (s f v : Nat) (t : Nat) :
    ((set_slip r s f v).ssat t).azel = (r.ssat t).azel := by
  unfold set_slip
  by_cases h : t = s
  · subst h; simp only [Function.update_same]
  · simp only [Function.update_noteq h]
@[simp] theorem set_slip_ssat_vsat (r : rtk_t) (s f v : Nat) (t : Nat) :
    ((set_slip r s f v).ssat t).vsat = (r.ssat t).vsat := by
  unfold set_slip
  by_cases h : t = s
  · subst h; simp only [Function.update_same]
  · simp only [Function.update_noteq h]
@[simp] theorem set_slip_ssat_fix (r : rtk_t) (s f v : Nat) (t : Nat) :
    ((set_slip r s f v).ssat t).fix = (r.ssat t).fix := by
  unfold set_slip
  by_cases h : t = s
  · subst h; simp only [Function.update_same]
  · simp only [Function.update_noteq h]
@[simp] theorem set_slip_ssat_half (r : rtk_t) (s f v : Nat) (t : Nat) :
    ((set_slip r s f v).ssat t).half = (r.ssat t).half := by
  unfold set_slip
  by_cases h : t = s
  · subst h; simp only [Function.update_same]
  · simp only [Function.update_noteq h]
@[simp] theorem set_slip_ssat_lock (r : rtk_t) (s f v : Nat) (t : Nat) :
    ((set_slip r s f v).ssat t).lock = (r.ssat t).lock := by
  unfold set_slip
  by_cases h : t = s
  · subst h; simp only [Function.update_same]
  · simp only [Function.update_noteq h]
@[simp] theorem set_slip_ssat_outc (r : rtk_t) (s f v : Nat) (t : Nat) :
    ((set_slip r s f v).ssat t).outc = (r.ssat t).outc := by
  unfold set_slip
  by_cases h : t = s
  · subst h; simp only [Function.update_same]
  · simp only [Function.update_noteq h]
theorem set_slip_ssat_slip (r : rtk_t) (s f v : Nat) (t : Nat) :
    ((set_slip r s f v).ssat t).slip =
      if t = s then Function.update (r.ssat s).slip f v else (r.ssat t).slip := by
  unfold set_slip
  by_cases h : t = s
  · subst h; simp only [Function.update_same, if_true]
  · simp only [Function.update_noteq h, if_neg h]
@[simp] theorem set_half_x (r : rtk_t) (s f v : Nat) : (set_half r s f v).x = r.x := rfl
@[simp] theorem set_half_P (r : rtk_t) (s f v : Nat) : (set_half r s f v).P = r.P := rfl
@[simp] theorem set_half_nx (r : rtk_t) (s f v : Nat) : (set_half r s f v).nx = r.nx := rfl
@[simp] theorem set_half_na (r : rtk_t) (s f v : Nat) : (set_half r s f v).na = r.na := rfl
@[simp] theorem set_half_opt (r : rtk_t) (s f v : Nat) : (set_half r s f v).opt = r.opt := rfl
@[simp] theorem set_half_tt (r : rtk_t) (s f v : Nat) : (set_half r s f v).tt = r.tt := rfl
@[simp] theorem set_half_sol (r : rtk_t) (s f v : Nat) : (set_half r s f v).sol = r.sol := rfl
@[simp] theorem set_half_rb (r : rtk_t) (s f v : Nat) : (set_half r s f v).rb = r.rb := rfl
@[simp] theorem set_half_xa (r : rtk_t) (s f v : Nat) : (set_half r s f v).xa = r.xa := rfl
@[simp] theorem set_half_Pa (r : rtk_t) (s f v : Nat) : (set_half r s f v).Pa = r.Pa := rfl
@[simp] theorem set_half_nfix (r : rtk_t) (s f v : Nat) : (set_half r s f v).nfix = r.nfix := rfl
@[simp] theorem set_half_ssat_sys (r : rtk_t) (s f v : Nat) (t : Nat) :
    ((set_half r s f v).ssat t).sys = (r.ssat t).sys := by
  unfold set_half
  by_cases h : t = s
  · subst h; simp only [Function.update_same]
  · simp only [Function.update_noteq h]
@[simp] theorem set_half_ssat_azel (r : rtk_t) (s f v : Nat) (t : Nat) :
    ((set_half r s f v).ssat t).azel = (r.ssat t).azel := by
  unfold set_half
  by_cases h : t = s
  · subst h; simp only [Function.update_same]
  · simp only [Function.update_noteq h]
@[simp] theorem set_half_ssat_vsat (r : rtk_t) (s f v : Nat) (t : Nat) :
    ((set_half r s f v).ssat t).vsat = (r.ssat t).vsat := by
  unfold set_half
  by_cases h : t = s
  · subst h; simp only [Function.update_same]
  · simp only [Function.update_noteq h]
@[simp] theorem set_half_ssat_fix (r : rtk_t) (s f v : Nat) (t : Nat) :
    ((set_half r s f v).ssat t).fix = (r.ssat t).fix := by
  unfold set_half
  by_cases h : t = s
  · subst h; simp only [Function.update_same]
  · simp only [Function.update_noteq h]
@[simp] theorem set_half_ssat_slip (r : rtk_t) (s f v : Nat) (t : Nat) :
    ((set_half r s f v).ssat t).slip = (r.ssat t).slip := by
  unfold set_half
  by_cases h : t = s
  · subst h; simp only [Function.update_same]
  · simp only [Function.update_noteq h]
@[simp] theorem set_half_ssat_lock (r : rtk_t) (s f v : Nat) (t : Nat) :
    ((set_half r s f v).ssat t).lock = (r.ssat t).lock := by
  unfold set_half
  by_cases h : t = s
  · subst h; simp only [Function.update_same]
  · simp only [Function.update_noteq h]
@[simp] theorem set_half_ssat_outc (r : rtk_t) (s f v : Nat) (t : Nat) :
    ((set_half r s f v).ssat t).outc = (r.ssat t).outc := by
  unfold set_half
  by_cases h : t = s
  · subst h; simp only [Function.update_same]
  · simp only [Function.update_noteq h]
theorem set_half_ssat_half (r : rtk_t) (s f v : Nat) (t : Nat) :
    ((set_half r s f v).ssat t).half =
      if t = s then Function.update (r.ssat s).half f v else (r.ssat t).half := by
  unfold set_half
  by_cases h : t = s
  · subst h; simp only [Function.update_same, if_true]
  · simp only [Function.update_noteq h, if_neg h]
@[simp] theorem set_x_x (r : rtk_t) (i : Nat) (v : ℚ) : (set_x r i v).x = Function.update r.x i v := rfl
@[simp] theorem set_x_P (r : rtk_t) (i : Nat) (v : ℚ) : (set_x r i v).P = r.P := rfl
@[simp] theorem set_x_nx (r : rtk_t) (i : Nat) (v : ℚ) : (set_x r i v).nx = r.nx := rfl
@[simp] theorem set_x_na (r : rtk_t) (i : Nat) (v : ℚ) : (set_x r i v).na = r.na := rfl
@[simp] theorem set_x_opt (r : rtk_t) (i : Nat) (v : ℚ) : (set_x r i v).opt = r.opt := rfl
@[simp] theorem set_x_tt (r : rtk_t) (i : Nat) (v : ℚ) : (set_x r i v).tt = r.tt := rfl
@[simp] theorem set_x_sol (r : rtk_t) (i : Nat) (v : ℚ) : (set_x r i v).sol = r.sol := rfl
@[simp] theorem set_x_rb (r : rtk_t) (i : Nat) (v : ℚ) : (set_x r i v).rb = r.rb := rfl
@[simp] theorem set_x_xa (r : rtk_t) (i : Nat) (v : ℚ) : (set_x r i v).xa = r.xa := rfl
@[simp] theorem set_x_Pa (r : rtk_t) (i : Nat) (v : ℚ) : (set_x r i v).Pa = r.Pa := rfl
@[simp] theorem set_x_nfix (r : rtk_t) (i : Nat) (v : ℚ) : (set_x r i v).nfix = r.nfix := rfl
@[simp] theorem set_x_ssat (r : rtk_t) (i : Nat) (v : ℚ) : (set_x r i v).ssat = r.ssat := rfl
@[simp] theorem set_P_x (r : rtk_t) (i : Nat) (v : ℚ) : (set_P r i v).x = r.x := rfl
@[simp] theorem set_P_P (r : rtk_t) (i : Nat) (v : ℚ) : (set_P r i v).P = Function.update r.P i v := rfl
@[simp] theorem set_P_nx (r : rtk_t) (i : Nat) (v : ℚ) : (set_P r i v).nx = r.nx := rfl
@[simp] theorem set_P_na (r : rtk_t) (i : Nat) (v : ℚ) : (set_P r i v).na = r.na := rfl
@[simp] theorem set_P_opt (r : rtk_t) (i : Nat) (v : ℚ) : (set_P r i v).opt = r.opt := rfl
@[simp] theorem set_P_tt (r : rtk_t) (i : Nat) (v : ℚ) : (set_P r i v).tt = r.tt := rfl
@[simp] theorem set_P_sol (r : rtk_t) (i : Nat) (v : ℚ) : (set_P r i v).sol = r.sol := rfl
@[simp] theorem set_P_rb (r : rtk_t) (i : Nat) (v : ℚ) : (set_P r i v).rb = r.rb := rfl
@[simp] theorem set_P_xa (r : rtk_t) (i : Nat) (v : ℚ) : (set_P r i v).xa = r.xa := rfl
@[simp] theorem set_P_Pa (r : rtk_t) (i : Nat) (v : ℚ) : (set_P r i v).Pa = r.Pa := rfl
@[simp] theorem set_P_nfix (r : rtk_t) (i : Nat) (v : ℚ) : (set_P r i v).nfix = r.nfix := rfl
@[simp] theorem set_P_ssat (r : rtk_t) (i : Nat) (v : ℚ) : (set_P r i v).ssat = r.ssat := rfl

/-! ### `arc_initx` -/

/-- Fields other than `x` and `P` are not touched by `arc_initx`. -/
theorem arc_initx_frame (rtk : rtk_t) (xi var : ℚ) (i : Nat) :
    (arc_initx rtk xi var i).nx = rtk.nx ∧ (arc_initx rtk xi var i).na = rtk.na ∧
    (arc_initx rtk xi var i).opt = rtk.opt ∧ (arc_initx rtk xi var i).ssat = rtk.ssat ∧
    (arc_initx rtk xi var i).sol = rtk.sol ∧ (arc_initx rtk xi var i).rb = rtk.rb ∧
    (arc_initx rtk xi var i).tt = rtk.tt ∧ (arc_initx rtk xi var i).xa = rtk.xa ∧
    (arc_initx rtk xi var i).Pa = rtk.Pa ∧ (arc_initx rtk xi var i).nfix = rtk.nfix ∧
    (arc_initx rtk xi var i).x = Function.update rtk.x i xi := by
  unfold arc_initx
  exact forN_inv (fun r : rtk_t => r.nx = rtk.nx ∧ r.na = rtk.na ∧ r.opt = rtk.opt ∧ r.ssat = rtk.ssat ∧
    r.sol = rtk.sol ∧ r.rb = rtk.rb ∧ r.tt = rtk.tt ∧ r.xa = rtk.xa ∧ r.Pa = rtk.Pa ∧
    r.nfix = rtk.nfix ∧ r.x = Function.update rtk.x i xi) _ _ _
    ⟨rfl, rfl, rfl, rfl, rfl, rfl, rfl, rfl, rfl, rfl, rfl⟩ (fun j s _ h => h)

/-- Covariance after `arc_initx` at a state index `i < nx`: row `i` and column `i`
are zero except the diagonal, which is `var`; every other entry is kept. -/
theorem arc_initx_P (rtk : rtk_t) (xi var : ℚ) (i : Nat) (hi : i < rtk.nx) (a b : Nat)
    (ha : a < rtk.nx) (hb : b < rtk.nx) :
    (arc_initx rtk xi var i).P (a + b * rtk.nx) =
      if a = i ∨ b = i then (if a = i ∧ b = i then var else 0) else rtk.P (a + b * rtk.nx) := by
  unfold arc_initx
  have key : ∀ n, n ≤ rtk.nx →
      (forN n (fun j r => set_P (set_P r (j + i * r.nx) (if i = j then var else 0))
          (i + j * r.nx) (if i = j then var else 0))
        (set_x rtk i xi)).nx = rtk.nx ∧
      (forN n (fun j r => set_P (set_P r (j + i * r.nx) (if i = j then var else 0))
          (i + j * r.nx) (if i = j then var else 0))
        (set_x rtk i xi)).P (a + b * rtk.nx) =
        if (a = i ∧ b < n) ∨ (b = i ∧ a < n) then (if a = i ∧ b = i then var else 0)
        else rtk.P (a + b * rtk.nx) := by
    intro n
    induction n with
    | zero => intro _; simp [forN]
    | succ n ih =>
      intro hn
      obtain ⟨ih1, ih2⟩ := ih (Nat.le_of_succ_le hn)
      rw [forN_succ]
      refine ⟨ih1, ?_⟩
      simp only [set_P_P, set_P_nx]
      rw [ih1]
      have e1 : a + b * rtk.nx = i + n * rtk.nx ↔ a = i ∧ b = n := by
        constructor
        · intro h
          have h1 := congrArg (· % rtk.nx) h
          have h2 := congrArg (· / rtk.nx) h
          simp only [Nat.add_mul_mod_self_right, Nat.mod_eq_of_lt ha, Nat.mod_eq_of_lt hi] at h1
          have hpos : 0 < rtk.nx := by omega
          simp only [Nat.add_mul_div_right _ _ hpos, Nat.div_eq_of_lt ha, Nat.div_eq_of_lt hi,
            Nat.zero_add] at h2
          exact ⟨h1, h2⟩
        · rintro ⟨rfl, rfl⟩; rfl
      have hn' : n < rtk.nx := by omega
      have e2 : a + b * rtk.nx = n + i * rtk.nx ↔ a = n ∧ b = i := by
        constructor
        · intro h
          have h1 := congrArg (· % rtk.nx) h
          have h2 := congrArg (· / rtk.nx) h
          simp only [Nat.add_mul_mod_self_right, Nat.mod_eq_of_lt ha, Nat.mod_eq_of_lt hn'] at h1
          have hpos : 0 < rtk.nx := by omega
          simp only [Nat.add_mul_div_right _ _ hpos, Nat.div_eq_of_lt ha, Nat.div_eq_of_lt hn',
            Nat.zero_add] at h2
          exact ⟨h1, h2⟩
        · rintro ⟨rfl, rfl⟩; rfl
      by_cases c1 : a = i ∧ b = n
      · rw [Function.update_apply, if_pos (e1.mpr c1)]
        obtain ⟨rfl, rfl⟩ := c1
        simp [eq_comm]
      · rw [Function.update_apply, if_neg (fun h => c1 (e1.mp h))]
        by_cases c2 : a = n ∧ b = i
        · rw [Function.update_apply, if_pos (e2.mpr c2)]
          obtain ⟨rfl, rfl⟩ := c2
          have : ¬ (b = a ∧ a = b) := fun h => c1 ⟨h.2, h.1⟩
          by_cases hba : b = a
          · exact absurd ⟨hba.symm, hba⟩ c1
          · simp [hba, Ne.symm hba]
        · rw [Function.update_apply, if_neg (fun h => c2 (e2.mp h)), ih2]
          have q1 : ((a = i ∧ b < n + 1) ∨ (b = i ∧ a < n + 1)) ↔
              ((a = i ∧ b < n) ∨ (b = i ∧ a < n)) := by
            constructor
            · rintro (⟨h1, h2⟩ | ⟨h1, h2⟩)
              · left; refine ⟨h1, ?_⟩
                rcases Nat.lt_succ_iff_lt_or_eq.mp h2 with l | e
                · exact l
                · exact absurd ⟨h1, e⟩ c1
              · right; refine ⟨h1, ?_⟩
                rcases Nat.lt_succ_iff_lt_or_eq.mp h2 with l | e
                · exact l
                · exact absurd ⟨e, h1⟩ c2
            · rintro (⟨h1, h2⟩ | ⟨h1, h2⟩)
              · exact Or.inl ⟨h1, Nat.lt_succ_of_lt h2⟩
              · exact Or.inr ⟨h1, Nat.lt_succ_of_lt h2⟩
          simp only [q1]
  obtain ⟨_, k2⟩ := key rtk.nx le_rfl
  rw [k2]
  have q : ((a = i ∧ b < rtk.nx) ∨ (b = i ∧ a < rtk.nx)) ↔ (a = i ∨ b = i) := by
    constructor
    · rintro (⟨h, _⟩ | ⟨h, _⟩)
      · exact Or.inl h
      · exact Or.inr h
    · rintro (h | h)
      · exact Or.inl ⟨h, hb⟩
      · exact Or.inr ⟨h, ha⟩
  simp only [q]

/-! ### Symmetry of `P` -/

theorem flat_inj {n a b c d : Nat} (ha : a < n) (hc : c < n) (h : a + b * n = c + d * n) :
    a = c ∧ b = d := by
  have h1 := congrArg (· % n) h
  have h2 := congrArg (· / n) h
  have hpos : 0 < n := by omega
  simp only [Nat.add_mul_mod_self_right, Nat.mod_eq_of_lt ha, Nat.mod_eq_of_lt hc] at h1
  simp only [Nat.add_mul_div_right _ _ hpos, Nat.div_eq_of_lt ha, Nat.div_eq_of_lt hc,
    Nat.zero_add] at h2
  exact ⟨h1, h2⟩

theorem flat_lt {n a b : Nat} (ha : a < n) (hb : b < n) : a + b * n < n * n := by
  have : b + 1 ≤ n := hb
  calc a + b * n < n + b * n := by omega
    _ = (b + 1) * n := by ring
    _ ≤ n * n := Nat.mul_le_mul_right n this

/-- A flat index on the diagonal is met inside the matrix only at the diagonal
position itself. -/
theorem flat_diag {n a b j : Nat} (ha : a < n) (hb : b < n) (h : a + b * n = j + j * n) :
    a = j ∧ b = j := by
  by_cases hj : j < n
  · exact flat_inj ha hj h
  · exfalso
    have h1 := flat_lt ha hb
    have h2 : n * n ≤ j * n := Nat.mul_le_mul_right n (by omega)
    omega

theorem arc_initx_symm (rtk : rtk_t) (xi var : ℚ) (i : Nat) (hi : i < rtk.nx)
    (hs : P_symm rtk) : P_symm (arc_initx rtk xi var i) := by
  intro a b ha hb
  have hnx := (arc_initx_frame rtk xi var i).1
  rw [hnx] at ha hb ⊢
  rw [arc_initx_P rtk xi var i hi a b ha hb, arc_initx_P rtk xi var i hi b a hb ha]
  by_cases h1 : a = i <;> by_cases h2 : b = i <;> simp [h1, h2, hs a b ha hb]

/-- Symmetry depends on `nx` and `P` only. -/
theorem P_symm_congr (r r' : rtk_t) (h1 : r'.nx = r.nx) (h2 : r'.P = r.P) (hs : P_symm r) :
    P_symm r' := by
  intro a b ha hb
  rw [h1] at ha hb ⊢
  rw [h2]
  exact hs a b ha hb

/-- Writing a diagonal entry keeps `P` symmetric. -/
theorem diag_symm (rtk : rtk_t) (j : Nat) (val : ℚ) (hs : P_symm rtk) :
    P_symm (set_P rtk (j + j * rtk.nx) val) := by
  intro a b ha hb
  show Function.update rtk.P (j + j * rtk.nx) val (a + b * rtk.nx) =
    Function.update rtk.P (j + j * rtk.nx) val (b + a * rtk.nx)
  by_cases h : a + b * rtk.nx = j + j * rtk.nx
  · obtain ⟨rfl, rfl⟩ := flat_diag ha hb h
    rfl
  · have h' : b + a * rtk.nx ≠ j + j * rtk.nx := by
      intro h2
      obtain ⟨rfl, rfl⟩ := flat_diag hb ha h2
      exact h rfl
    rw [Function.update_noteq h, Function.update_noteq h']
    exact hs a b ha hb

@[simp] theorem arc_initx_nx (rtk : rtk_t) (xi var : ℚ) (i : Nat) :
    (arc_initx rtk xi var i).nx = rtk.nx := (arc_initx_frame rtk xi var i).1
@[simp] theorem arc_initx_na (rtk : rtk_t) (xi var : ℚ) (i : Nat) :
    (arc_initx rtk xi var i).na = rtk.na := (arc_initx_frame rtk xi var i).2.1
@[simp] theorem arc_initx_opt (rtk : rtk_t) (xi var : ℚ) (i : Nat) :
    (arc_initx rtk xi var i).opt = rtk.opt := (arc_initx_frame rtk xi var i).2.2.1
@[simp] theorem arc_initx_ssat (rtk : rtk_t) (xi var : ℚ) (i : Nat) :
    (arc_initx rtk xi var i).ssat = rtk.ssat := (arc_initx_frame rtk xi var i).2.2.2.1
@[simp] theorem arc_initx_sol (rtk : rtk_t) (xi var : ℚ) (i : Nat) :
    (arc_initx rtk xi var i).sol = rtk.sol := (arc_initx_frame rtk xi var i).2.2.2.2.1
@[simp] theorem arc_initx_rb (rtk : rtk_t) (xi var : ℚ) (i : Nat) :
    (arc_initx rtk xi var i).rb = rtk.rb := (arc_initx_frame rtk xi var i).2.2.2.2.2.1
@[simp] theorem arc_initx_tt (rtk : rtk_t) (xi var : ℚ) (i : Nat) :
    (arc_initx rtk xi var i).tt = rtk.tt := (arc_initx_frame rtk xi var i).2.2.2.2.2.2.1
@[simp] theorem arc_initx_x (rtk : rtk_t) (xi var : ℚ) (i : Nat) :
    (arc_initx rtk xi var i).x = Function.update rtk.x i xi :=
  (arc_initx_frame rtk xi var i).2.2.2.2.2.2.2.2.2.2

/-- `arc_initx` applied in a loop at state indices keeps the dimensions, the
options and the symmetry of `P`. -/
theorem forN_initx_symm (rtk : rtk_t) (n : Nat) (xi : Nat → rtk_t → ℚ) (var : ℚ)
    (idx : Nat → Nat) (hidx : ∀ i, i < n → idx i < rtk.nx) (hs : P_symm rtk) :
    (forN n (fun i r => arc_initx r (xi i r) var (idx i)) rtk).nx = rtk.nx ∧
    (forN n (fun i r => arc_initx r (xi i r) var (idx i)) rtk).opt = rtk.opt ∧
    (forN n (fun i r => arc_initx r (xi i r) var (idx i)) rtk).ssat = rtk.ssat ∧
    P_symm (forN n (fun i r => arc_initx r (xi i r) var (idx i)) rtk) := by
  refine forN_inv (fun r : rtk_t => r.nx = rtk.nx ∧ r.opt = rtk.opt ∧ r.ssat = rtk.ssat ∧
    P_symm r) _ _ _ ⟨rfl, rfl, rfl, hs⟩ ?_
  intro i s hi ⟨h1, h2, h3, h4⟩
  refine ⟨by simp [h1], by simp [h2], by simp [h3], ?_⟩
  exact arc_initx_symm s _ _ _ (by rw [h1]; exact hidx i hi) h4

theorem arc_udion_symm (E : Env) (rtk : rtk_t) (tt bl : ℚ) (sat : Nat → Nat) (ns : Nat)
    (hidx : ∀ i, i < ns → II (sat i) rtk.opt < rtk.nx) (hs : P_symm rtk) :
    (arc_udion E rtk tt bl sat ns).nx = rtk.nx ∧ (arc_udion E rtk tt bl sat ns).opt = rtk.opt ∧
    P_symm (arc_udion E rtk tt bl sat ns) := by
  unfold arc_udion
  have h1 : (fun r : rtk_t => r.nx = rtk.nx ∧ r.opt = rtk.opt ∧ P_symm r)
      (forN E.MAXSAT (fun i0 r =>
        let i := i0 + 1
        let j := II i r.opt
        if r.x j ≠ 0 ∧ (r.ssat (i - 1)).outc 0 > GAP_RESION ∧
            (r.ssat (i - 1)).outc 1 > GAP_RESION
        then set_x r j 0 else r) rtk) := by
    refine forN_inv (fun r : rtk_t => r.nx = rtk.nx ∧ r.opt = rtk.opt ∧ P_symm r) _ _ _
      ⟨rfl, rfl, hs⟩ ?_
    intro i s _ h
    dsimp only
    split
    · exact ⟨h.1, h.2.1, P_symm_congr s _ rfl rfl h.2.2⟩
    · exact h
  refine forN_inv (fun r : rtk_t => r.nx = rtk.nx ∧ r.opt = rtk.opt ∧ P_symm r) _ _ _ h1 ?_
  intro i s hi ⟨h1, h2, h3⟩
  dsimp only
  split
  · refine ⟨by simp [h1], by simp [h2], ?_⟩
    exact arc_initx_symm s _ _ _ (by rw [h1, h2]; exact hidx i hi) h3
  · exact ⟨h1, h2, diag_symm s _ _ h3⟩

theorem arc_udtrop_symm (E : Env) (rtk : rtk_t) (tt : ℚ)
    (hidx : IT E 1 rtk.opt + (if rtk.opt.tropopt ≥ TROPOPT_ESTG then 2 else 0) < rtk.nx)
    (hs : P_symm rtk) :
    (arc_udtrop E rtk tt).nx = rtk.nx ∧ (arc_udtrop E rtk tt).opt = rtk.opt ∧
    P_symm (arc_udtrop E rtk tt) := by
  unfold arc_udtrop
  refine forN_inv (fun r : rtk_t => r.nx = rtk.nx ∧ r.opt = rtk.opt ∧ P_symm r) _ _ _
    ⟨rfl, rfl, hs⟩ ?_
  intro i s hi ⟨h1, h2, h3⟩
  have hle : IT E i rtk.opt ≤ IT E 1 rtk.opt := by
    unfold IT
    have : i ≤ 1 := by omega
    exact Nat.add_le_add_left (Nat.mul_le_mul_left _ this) _
  dsimp only
  split
  · -- initialisation
    have hs1 : P_symm (arc_initx s INIT_ZWD (SQR (s.opt.std 2)) (IT E i s.opt)) :=
      arc_initx_symm s _ _ _ (by rw [h1, h2]; omega) h3
    split
    · rename_i hg
      rw [arc_initx_opt, h2] at hg
      rw [if_pos hg] at hidx
      have g := forN_initx_symm (arc_initx s INIT_ZWD (SQR (s.opt.std 2)) (IT E i s.opt)) 2
        (fun _ _ => 1 / 1000000) VAR_GRA (fun k => IT E i s.opt + 1 + k)
        (by
          intro k hk
          show IT E i s.opt + 1 + k < (arc_initx s INIT_ZWD (SQR (s.opt.std 2)) (IT E i s.opt)).nx
          rw [arc_initx_nx, h1, h2]; omega) hs1
      exact ⟨g.1.trans (by simp [h1]), g.2.1.trans (by simp [h2]), g.2.2.2⟩
    · exact ⟨by simp [h1], by simp [h2], hs1⟩
  · -- process noise
    have hs1 := diag_symm s (IT E i s.opt) (s.P (IT E i s.opt + IT E i s.opt * s.nx) +
      SQR (s.opt.prn 2) * tt) h3
    split
    · refine forN_inv (fun r : rtk_t => r.nx = rtk.nx ∧ r.opt = rtk.opt ∧ P_symm r) _ _ _
        ⟨h1, h2, hs1⟩ ?_
      intro k r _ ⟨g1, g2, g3⟩
      refine ⟨g1, g2, ?_⟩
      have e : (IT E i s.opt + 1 + k) * (1 + r.nx) =
          (IT E i s.opt + 1 + k) + (IT E i s.opt + 1 + k) * r.nx := by ring
      rw [e]
      exact diag_symm r _ _ g3
    · exact ⟨h1, h2, hs1⟩

/-- `arc_detslp_ll` writes the slip byte and the half-cycle flag of one satellite
only. -/
theorem arc_detslp_ll_frame (rtk : rtk_t) (obs : Nat → obsd_t) (i rcv : Nat) :
    (arc_detslp_ll rtk obs i rcv).x = rtk.x ∧ (arc_detslp_ll rtk obs i rcv).P = rtk.P ∧
    (arc_detslp_ll rtk obs i rcv).nx = rtk.nx ∧ (arc_detslp_ll rtk obs i rcv).opt = rtk.opt ∧
    (arc_detslp_ll rtk obs i rcv).tt = rtk.tt ∧
    (∀ s, ((arc_detslp_ll rtk obs i rcv).ssat s).outc = (rtk.ssat s).outc ∧
      ((arc_detslp_ll rtk obs i rcv).ssat s).lock = (rtk.ssat s).lock) := by
  unfold arc_detslp_ll
  dsimp only
  split
  · exact ⟨rfl, rfl, rfl, rfl, rfl, fun _ => ⟨rfl, rfl⟩⟩
  · split <;> simp

@[simp] theorem arc_detslp_ll_x (rtk : rtk_t) (obs : Nat → obsd_t) (i rcv : Nat) :
    (arc_detslp_ll rtk obs i rcv).x = rtk.x := (arc_detslp_ll_frame rtk obs i rcv).1
@[simp] theorem arc_detslp_ll_P (rtk : rtk_t) (obs : Nat → obsd_t) (i rcv : Nat) :
    (arc_detslp_ll rtk obs i rcv).P = rtk.P := (arc_detslp_ll_frame rtk obs i rcv).2.1
@[simp] theorem arc_detslp_ll_nx (rtk : rtk_t) (obs : Nat → obsd_t) (i rcv : Nat) :
    (arc_detslp_ll rtk obs i rcv).nx = rtk.nx := (arc_detslp_ll_frame rtk obs i rcv).2.2.1
@[simp] theorem arc_detslp_ll_opt (rtk : rtk_t) (obs : Nat → obsd_t) (i rcv : Nat) :
    (arc_detslp_ll rtk obs i rcv).opt = rtk.opt := (arc_detslp_ll_frame rtk obs i rcv).2.2.2.1
@[simp] theorem arc_detslp_ll_tt (rtk : rtk_t) (obs : Nat → obsd_t) (i rcv : Nat) :
    (arc_detslp_ll rtk obs i rcv).tt = rtk.tt := (arc_detslp_ll_frame rtk obs i rcv).2.2.2.2.1
@[simp] theorem arc_detslp_ll_outc (rtk : rtk_t) (obs : Nat → obsd_t) (i rcv s : Nat) :
    ((arc_detslp_ll rtk obs i rcv).ssat s).outc = (rtk.ssat s).outc :=
  ((arc_detslp_ll_frame rtk obs i rcv).2.2.2.2.2 s).1
@[simp] theorem arc_detslp_ll_lock (rtk : rtk_t) (obs : Nat → obsd_t) (i rcv s : Nat) :
    ((arc_detslp_ll rtk obs i rcv).ssat s).lock = (rtk.ssat s).lock :=
  ((arc_detslp_ll_frame rtk obs i rcv).2.2.2.2.2 s).2

theorem arc_udbias_detslp_frame (rtk : rtk_t) (obs : Nat → obsd_t) (sat iu ir : Nat → Nat)
    (ns : Nat) :
    (arc_udbias_detslp rtk obs sat iu ir ns).x = rtk.x ∧
    (arc_udbias_detslp rtk obs sat iu ir ns).P = rtk.P ∧
    (arc_udbias_detslp rtk obs sat iu ir ns).nx = rtk.nx ∧
    (arc_udbias_detslp rtk obs sat iu ir ns).opt = rtk.opt ∧
    (arc_udbias_detslp rtk obs sat iu ir ns).tt = rtk.tt ∧
    (∀ s, ((arc_udbias_detslp rtk obs sat iu ir ns).ssat s).outc = (rtk.ssat s).outc ∧
      ((arc_udbias_detslp rtk obs sat iu ir ns).ssat s).lock = (rtk.ssat s).lock) := by
  unfold arc_udbias_detslp
  refine forN_inv (fun r : rtk_t => r.x = rtk.x ∧ r.P = rtk.P ∧ r.nx = rtk.nx ∧
    r.opt = rtk.opt ∧ r.tt = rtk.tt ∧
    (∀ s, (r.ssat s).outc = (rtk.ssat s).outc ∧ (r.ssat s).lock = (rtk.ssat s).lock)) _ _ _
    ⟨rfl, rfl, rfl, rfl, rfl, fun _ => ⟨rfl, rfl⟩⟩ ?_
  intro i r _ ⟨h1, h2, h3, h4, h5, h6⟩
  simp [h1, h2, h3, h4, h5, h6]

/-- The body of the outage loop keeps `nx`, `opt`, `tt`. -/
theorem arc_udbias_outage_body_frame (E : Env) (i0 : Nat) (r : rtk_t) :
    (arc_udbias_outage_body E i0 r).nx = r.nx ∧ (arc_udbias_outage_body E i0 r).opt = r.opt ∧
    (arc_udbias_outage_body E i0 r).tt = r.tt := by
  unfold arc_udbias_outage_body
  dsimp only
  split <;> split <;> (try split) <;> simp

theorem arc_udbias_outage_body_symm (E : Env) (i0 : Nat) (r : rtk_t)
    (hidx : IB E (i0 + 1) 0 r.opt < r.nx) (hs : P_symm r) :
    P_symm (arc_udbias_outage_body E i0 r) := by
  have a1 : P_symm (set_outc r (i0 + 1 - 1) 0 (((r.ssat (i0 + 1 - 1)).outc 0 + 1) % 2 ^ 32)) :=
    P_symm_congr r _ rfl rfl hs
  have a2 := arc_initx_symm _ 0 0 (IB E (i0 + 1) 0 r.opt) (by simpa using hidx) a1
  unfold arc_udbias_outage_body
  dsimp only
  split <;> (try split) <;> (try split) <;>
    first
    | exact a2
    | exact a1

theorem arc_udbias_outage_symm (E : Env) (rtk : rtk_t)
    (hidx : ∀ i, 1 ≤ i → i ≤ E.MAXSAT → IB E i 0 rtk.opt < rtk.nx) (hs : P_symm rtk) :
    (arc_udbias_outage E rtk).nx = rtk.nx ∧ (arc_udbias_outage E rtk).opt = rtk.opt ∧
    P_symm (arc_udbias_outage E rtk) := by
  unfold arc_udbias_outage
  refine forN_inv (fun r : rtk_t => r.nx = rtk.nx ∧ r.opt = rtk.opt ∧ P_symm r) _ _ _
    ⟨rfl, rfl, hs⟩ ?_
  intro i0 r hi0 ⟨h1, h2, h3⟩
  have f := arc_udbias_outage_body_frame E i0 r
  exact ⟨f.1.trans h1, f.2.1.trans h2, arc_udbias_outage_body_symm E i0 r
    (by rw [h1, h2]; exact hidx _ (by omega) (by omega)) h3⟩

theorem arc_udbias_slip_symm (E : Env) (rtk : rtk_t) (tt : ℚ) (sat : Nat → Nat) (ns : Nat)
    (hs : P_symm rtk) :
    (arc_udbias_slip E rtk tt sat ns).nx = rtk.nx ∧
    (arc_udbias_slip E rtk tt sat ns).opt = rtk.opt ∧
    P_symm (arc_udbias_slip E rtk tt sat ns) := by
  unfold arc_udbias_slip
  refine forN_inv (fun r : rtk_t => r.nx = rtk.nx ∧ r.opt = rtk.opt ∧ P_symm r) _ _ _
    ⟨rfl, rfl, hs⟩ ?_
  intro i r _ ⟨h1, h2, h3⟩
  have d := diag_symm r (IB E (sat i) 0 r.opt)
    (r.P (IB E (sat i) 0 r.opt + IB E (sat i) 0 r.opt * r.nx) + r.opt.prn 0 * r.opt.prn 0 * tt) h3
  dsimp only
  split
  · exact ⟨h1, h2, d⟩
  · exact ⟨h1, h2, P_symm_congr _ _ rfl rfl d⟩

theorem arc_udbias_offset_frame (E : Env) (rtk : rtk_t) (s : udbias_est_t) :
    (arc_udbias_offset E rtk s).nx = rtk.nx ∧ (arc_udbias_offset E rtk s).opt = rtk.opt ∧
    (arc_udbias_offset E rtk s).P = rtk.P ∧ (arc_udbias_offset E rtk s).ssat = rtk.ssat ∧
    (arc_udbias_offset E rtk s).tt = rtk.tt := by
  unfold arc_udbias_offset
  split
  · refine forN_inv (fun r : rtk_t => r.nx = rtk.nx ∧ r.opt = rtk.opt ∧ r.P = rtk.P ∧
      r.ssat = rtk.ssat ∧ r.tt = rtk.tt) _ _ _ ⟨rfl, rfl, rfl, rfl, rfl⟩ ?_
    intro i r _ h
    dsimp only
    split
    · exact h
    · exact h
  · exact ⟨rfl, rfl, rfl, rfl, rfl⟩

theorem arc_udbias_init_symm (E : Env) (rtk : rtk_t) (bias : Nat → ℚ) (sat : Nat → Nat)
    (ns : Nat) (hidx : ∀ i, i < ns → IB E (sat i) 0 rtk.opt < rtk.nx) (hs : P_symm rtk) :
    (arc_udbias_init E rtk bias sat ns).nx = rtk.nx ∧
    (arc_udbias_init E rtk bias sat ns).opt = rtk.opt ∧
    P_symm (arc_udbias_init E rtk bias sat ns) := by
  unfold arc_udbias_init
  refine forN_inv (fun r : rtk_t => r.nx = rtk.nx ∧ r.opt = rtk.opt ∧ P_symm r) _ _ _
    ⟨rfl, rfl, hs⟩ ?_
  intro i r hi ⟨h1, h2, h3⟩
  split
  · exact ⟨h1, h2, h3⟩
  · exact ⟨by simp [h1], by simp [h2],
      arc_initx_symm r _ _ _ (by rw [h1, h2]; exact hidx i hi) h3⟩

theorem arc_udbias_symm (E : Env) (rtk : rtk_t) (tt : ℚ) (obs : Nat → obsd_t)
    (sat iu ir : Nat → Nat) (ns : Nat) (nav : nav_t)
    (hall : ∀ i, 1 ≤ i → i ≤ E.MAXSAT → IB E i 0 rtk.opt < rtk.nx)
    (hidx : ∀ i, i < ns → IB E (sat i) 0 rtk.opt < rtk.nx) (hs : P_symm rtk) :
    (arc_udbias E rtk tt obs sat iu ir ns nav).nx = rtk.nx ∧
    (arc_udbias E rtk tt obs sat iu ir ns nav).opt = rtk.opt ∧
    P_symm (arc_udbias E rtk tt obs sat iu ir ns nav) := by
  unfold arc_udbias
  dsimp only
  have f1 := arc_udbias_detslp_frame rtk obs sat iu ir ns
  have s1 : P_symm (arc_udbias_detslp rtk obs sat iu ir ns) := by
    intro a b ha hb
    rw [f1.2.2.1] at ha hb ⊢
    rw [f1.2.1]
    exact hs a b ha hb
  have f2 := arc_udbias_outage_symm E (arc_udbias_detslp rtk obs sat iu ir ns)
    (by rw [f1.2.2.1, f1.2.2.2.1]; exact hall) s1
  have f3 := arc_udbias_slip_symm E (arc_udbias_outage E (arc_udbias_detslp rtk obs sat iu ir ns))
    tt sat ns f2.2.2
  generalize arc_udbias_slip E (arc_udbias_outage E (arc_udbias_detslp rtk obs sat iu ir ns))
    tt sat ns = r3 at f3 ⊢
  have hn3 : r3.nx = rtk.nx := f3.1.trans (f2.1.trans f1.2.2.1)
  have ho3 : r3.opt = rtk.opt := f3.2.1.trans (f2.2.1.trans f1.2.2.2.1)
  generalize arc_udbias_est E r3 obs sat iu ir ns nav = es
  have f4 := arc_udbias_offset_frame E r3 es
  have s4 : P_symm (arc_udbias_offset E r3 es) := by
    intro a b ha hb
    rw [f4.1] at ha hb ⊢
    rw [f4.2.2.1]
    exact f3.2.2 a b ha hb
  have f5 := arc_udbias_init_symm E (arc_udbias_offset E r3 es) es.bias sat ns
    (by rw [f4.1, f4.2.1, hn3, ho3]; exact hidx) s4
  exact ⟨f5.1.trans (f4.1.trans hn3), f5.2.1.trans (f4.2.1.trans ho3), f5.2.2⟩

theorem arc_udpos_symm (E : Env) (rtk : rtk_t) (tt : ℚ) (h3 : 3 ≤ rtk.nx)
    (h9 : rtk.opt.dynamics ≠ 0 → 9 ≤ rtk.nx)
    (hbr : rtk.opt.mode = PMODE_FIXED ∨ rtk.opt.mode = PMODE_STATIC ∨ rtk.opt.dynamics = 0 ∨
      arc_udpos_var (arc_udpos_first E rtk) ≥ VAR_POS)
    (hs : P_symm rtk) : P_symm (arc_udpos E rtk tt) := by
  have hfirst : (arc_udpos_first E rtk).nx = rtk.nx ∧ (arc_udpos_first E rtk).opt = rtk.opt ∧
      P_symm (arc_udpos_first E rtk) := by
    unfold arc_udpos_first
    split
    · have g1 := forN_initx_symm rtk 3 (fun i r => r.sol.rr i) VAR_POS (fun i => i)
        (by intro i hi; beta_reduce; omega) hs
      dsimp only
      split
      · rename_i hd
        have g2 := forN_initx_symm _ 3 (fun i r => r.sol.rr (i + 3)) VAR_VEL (fun i => i + 3)
          (by intro i hi; rw [g1.1]; have := h9 hd; beta_reduce; omega) g1.2.2.2
        have g3 := forN_initx_symm _ 3 (fun _ _ => 1 / 1000000) VAR_ACC (fun i => i + 6)
          (by intro i hi; rw [g2.1, g1.1]; have := h9 hd; beta_reduce; omega) g2.2.2.2
        exact ⟨g3.1.trans (g2.1.trans g1.1), g3.2.1.trans (g2.2.1.trans g1.2.1), g3.2.2.2⟩
      · exact ⟨g1.1, g1.2.1, g1.2.2.2⟩
    · exact ⟨rfl, rfl, hs⟩
  unfold arc_udpos
  split
  · exact (forN_initx_symm rtk 3 (fun i r => r.opt.ru i) (1 / 100000000) (fun i => i)
      (by intro i hi; beta_reduce; omega) hs).2.2.2
  · rename_i hfix
    dsimp only
    split
    · exact hfirst.2.2
    · rename_i hstat
      rw [hfirst.2.1] at hstat
      split
      · exact (forN_initx_symm _ 3 (fun i r => r.sol.rr i) VAR_POS (fun i => i)
          (by intro i hi; rw [hfirst.1]; beta_reduce; omega) hfirst.2.2).2.2.2
      · rename_i hdyn
        rw [hfirst.2.1] at hdyn
        have hv : arc_udpos_var (arc_udpos_first E rtk) ≥ VAR_POS := by
          rcases hbr with h | h | h | h
          · exact absurd h hfix
          · exact absurd h hstat
          · exact absurd h hdyn
          · exact h
        rw [if_pos hv]
        have g1 := forN_initx_symm (arc_udpos_first E rtk) 3 (fun i r => r.sol.rr i) VAR_POS
          (fun i => i) (by intro i hi; rw [hfirst.1]; beta_reduce; omega) hfirst.2.2
        have g2 := forN_initx_symm _ 3 (fun i r => r.sol.rr (i + 3)) VAR_VEL (fun i => i + 3)
          (by intro i hi; rw [g1.1, hfirst.1]; have := h9 hdyn; beta_reduce; omega) g1.2.2.2
        exact (forN_initx_symm _ 3 (fun _ _ => 1 / 1000000) VAR_ACC (fun i => i + 6)
          (by intro i hi; rw [g2.1, g1.1, hfirst.1]; have := h9 hdyn; beta_reduce; omega) g2.2.2.2).2.2.2

/-- Diagonal of `P` after a run of `arc_initx` at the state indices
`off, off+1, ..`: the visited diagonal entries hold `var`, the others are kept. -/
theorem forN_initx_diag (rtk : rtk_t) (n off : Nat) (xi : Nat → rtk_t → ℚ) (var : ℚ)
    (hn : off + n ≤ rtk.nx) (a : Nat) (ha : a < rtk.nx) :
    (forN n (fun i r => arc_initx r (xi i r) var (off + i)) rtk).nx = rtk.nx ∧
    (forN n (fun i r => arc_initx r (xi i r) var (off + i)) rtk).P (a + a * rtk.nx) =
      if off ≤ a ∧ a < off + n then var else rtk.P (a + a * rtk.nx) := by
  induction n with
  | zero =>
    refine ⟨rfl, ?_⟩
    have : ¬ (off ≤ a ∧ a < off + 0) := by omega
    rw [if_neg this]; rfl
  | succ n ih =>
    obtain ⟨ih1, ih2⟩ := ih (by omega)
    rw [forN_succ]
    have f := arc_initx_frame (forN n (fun i r => arc_initx r (xi i r) var (off + i)) rtk)
      (xi n (forN n (fun i r => arc_initx r (xi i r) var (off + i)) rtk)) var (off + n)
    refine ⟨f.1.trans ih1, ?_⟩
    have hP := arc_initx_P (forN n (fun i r => arc_initx r (xi i r) var (off + i)) rtk)
      (xi n (forN n (fun i r => arc_initx r (xi i r) var (off + i)) rtk)) var (off + n)
      (by rw [ih1]; omega) a a (by rw [ih1]; exact ha) (by rw [ih1]; exact ha)
    rw [ih1] at hP
    rw [hP, ih2]
    by_cases h : a = off + n
    · subst h
      simp
    · have e1 : ¬ (a = off + n ∨ a = off + n) := by omega
      rw [if_neg e1]
      by_cases h2 : off ≤ a ∧ a < off + n
      · rw [if_pos h2, if_pos (by omega)]
      · rw [if_neg h2, if_neg (by omega)]

/-- After the first-epoch initialisation the mean position variance is
`VAR_POS`. -/
theorem arc_udpos_first_var (E : Env) (rtk : rtk_t) (h3 : 3 ≤ rtk.nx)
    (h9 : rtk.opt.dynamics ≠ 0 → 9 ≤ rtk.nx) (hn : E.arc_norm rtk.x 3 ≤ 0) :
    arc_udpos_var (arc_udpos_first E rtk) = VAR_POS := by
  have key : (arc_udpos_first E rtk).nx = rtk.nx ∧
      ∀ a, a < 3 → (arc_udpos_first E rtk).P (a + a * rtk.nx) = VAR_POS := by
    unfold arc_udpos_first
    rw [if_pos hn]
    dsimp only
    have g1 := fun a (ha : a < rtk.nx) =>
      forN_initx_diag rtk 3 0 (fun i r => r.sol.rr i) VAR_POS (by omega) a ha
    simp only [Nat.zero_add] at g1
    split
    · rename_i hd
      have h9' := h9 hd
      have g2 := fun a (ha : a < rtk.nx) =>
        forN_initx_diag (forN 3 (fun i r => arc_initx r (r.sol.rr i) VAR_POS i) rtk) 3 3
          (fun i r => r.sol.rr (i + 3)) VAR_VEL (by rw [(g1 0 (by omega)).1]; omega) a
          (by rw [(g1 0 (by omega)).1]; exact ha)
      simp only [(g1 0 (by omega)).1, Nat.add_comm 3] at g2
      have g3 := fun a (ha : a < rtk.nx) =>
        forN_initx_diag (forN 3 (fun i r => arc_initx r (r.sol.rr (i + 3)) VAR_VEL (i + 3))
            (forN 3 (fun i r => arc_initx r (r.sol.rr i) VAR_POS i) rtk)) 3 6
          (fun _ _ => 1 / 1000000) VAR_ACC (by rw [(g2 0 (by omega)).1]; omega) a
          (by rw [(g2 0 (by omega)).1]; exact ha)
      simp only [(g2 0 (by omega)).1, Nat.add_comm 6] at g3
      refine ⟨(g3 0 (by omega)).1, fun a ha => ?_⟩
      rw [(g3 a (by omega)).2, if_neg (by omega), (g2 a (by omega)).2, if_neg (by omega),
        (g1 a (by omega)).2, if_pos (by omega)]
    · refine ⟨(g1 0 (by omega)).1, fun a ha => ?_⟩
      rw [(g1 a (by omega)).2, if_pos (by omega)]
  unfold arc_udpos_var
  rw [key.1]
  simp only [forN]
  rw [key.2 0 (by omega), key.2 1 (by omega), key.2 2 (by omega)]
  ring

/-- C9: symmetry of `P` is preserved by the temporal update.  If `P` is symmetric
on entry then it is symmetric after `arc_initx`, after `arc_udion`, after
`arc_udtrop`, after `arc_udbias`, and after `arc_udpos` in every branch that does
not apply the dynamics state transition (fixed mode, first-epoch initialisation,
static mode, kinematic mode without dynamics, variance reset), all state indices
used lying inside the state dimension `nx`. -/
theorem C9_symmetry_preserved (E : Env) (rtk : rtk_t) (hs : P_symm rtk) :
    (∀ xi var i, i < rtk.nx → P_symm (arc_initx rtk xi var i)) ∧
    (∀ tt bl sat ns, (∀ i, i < ns → II (sat i) rtk.opt < rtk.nx) →
      P_symm (arc_udion E rtk tt bl sat ns)) ∧
    (∀ tt, IT E 1 rtk.opt + (if rtk.opt.tropopt ≥ TROPOPT_ESTG then 2 else 0) < rtk.nx →
      P_symm (arc_udtrop E rtk tt)) ∧
    (∀ tt obs sat iu ir ns nav, (∀ i, 1 ≤ i → i ≤ E.MAXSAT → IB E i 0 rtk.opt < rtk.nx) →
      (∀ i, i < ns → IB E (sat i) 0 rtk.opt < rtk.nx) →
      P_symm (arc_udbias E rtk tt obs sat iu ir ns nav)) ∧
    (∀ tt, 3 ≤ rtk.nx → (rtk.opt.dynamics ≠ 0 → 9 ≤ rtk.nx) →
      (rtk.opt.mode = PMODE_FIXED ∨ E.arc_norm rtk.x 3 ≤ 0 ∨ rtk.opt.mode = PMODE_STATIC ∨
        rtk.opt.dynamics = 0 ∨ arc_udpos_var rtk ≥ VAR_POS) →
      P_symm (arc_udpos E rtk tt)) := by
  refine ⟨?_, ?_, ?_, ?_, ?_⟩
  · intro xi var i hi
    exact arc_initx_symm rtk xi var i hi hs
  · intro tt bl sat ns h
    exact (arc_udion_symm E rtk tt bl sat ns h hs).2.2
  · intro tt h
    exact (arc_udtrop_symm E rtk tt h hs).2.2
  · intro tt obs sat iu ir ns nav h1 h2
    exact (arc_udbias_symm E rtk tt obs sat iu ir ns nav h1 h2 hs).2.2
  · intro tt h3 h9 hbr
    apply arc_udpos_symm E rtk tt h3 h9 _ hs
    rcases hbr with h | h | h | h | h
    · exact Or.inl h
    · by_cases hd : rtk.opt.dynamics = 0
      · exact Or.inr (Or.inr (Or.inl hd))
      · right; right; right
        rw [arc_udpos_first_var E rtk h3 h9 h]
    · exact Or.inr (Or.inl h)
    · exact Or.inr (Or.inr (Or.inl h))
    · by_cases hn : E.arc_norm rtk.x 3 ≤ 0
      · by_cases hd : rtk.opt.dynamics = 0
        · exact Or.inr (Or.inr (Or.inl hd))
        · right; right; right
          rw [arc_udpos_first_var E rtk h3 h9 hn]
      · right; right; right
        unfold arc_udpos_first
        rw [if_neg hn]
        exact h

theorem rtk0_symm : P_symm rtk0 := fun _ _ _ _ => rfl

theorem C9_symmetry_preserved_witness :
    (∀ xi var i, i < rtk0.nx → P_symm (arc_initx rtk0 xi var i)) ∧
    (∀ tt bl sat ns, (∀ i, i < ns → II (sat i) rtk0.opt < rtk0.nx) →
      P_symm (arc_udion E0 rtk0 tt bl sat ns)) ∧
    (∀ tt, IT E0 1 rtk0.opt + (if rtk0.opt.tropopt ≥ TROPOPT_ESTG then 2 else 0) < rtk0.nx →
      P_symm (arc_udtrop E0 rtk0 tt)) ∧
    (∀ tt obs sat iu ir ns nav, (∀ i, 1 ≤ i → i ≤ E0.MAXSAT → IB E0 i 0 rtk0.opt < rtk0.nx) →
      (∀ i, i < ns → IB E0 (sat i) 0 rtk0.opt < rtk0.nx) →
      P_symm (arc_udbias E0 rtk0 tt obs sat iu ir ns nav)) ∧
    (∀ tt, 3 ≤ rtk0.nx → (rtk0.opt.dynamics ≠ 0 → 9 ≤ rtk0.nx) →
      (rtk0.opt.mode = PMODE_FIXED ∨ E0.arc_norm rtk0.x 3 ≤ 0 ∨ rtk0.opt.mode = PMODE_STATIC ∨
        rtk0.opt.dynamics = 0 ∨ arc_udpos_var rtk0 ≥ VAR_POS) →
      P_symm (arc_udpos E0 rtk0 tt)) :=
  C9_symmetry_preserved E0 rtk0 rtk0_symm

/-! ### Ambiguity reset on outage -/

theorem IB_inj (E : Env) (opt : prcopt_t) (s t : Nat) (hs : 1 ≤ s) (ht : 1 ≤ t)
    (h : IB E s 0 opt = IB E t 0 opt) : s = t := by
  unfold IB at h
  omega

theorem rowcol_zero_congr (r r' : rtk_t) (j : Nat) (h1 : r'.nx = r.nx) (h2 : r'.P = r.P)
    (h : rowcol_zero r j) : rowcol_zero r' j := by
  intro k hk
  rw [h1] at hk ⊢
  rw [h2]
  exact h k hk

theorem arc_initx_rowcol_self (rtk : rtk_t) (xi : ℚ) (i : Nat) (hi : i < rtk.nx) :
    rowcol_zero (arc_initx rtk xi 0 i) i := by
  intro k hk
  rw [arc_initx_nx] at hk ⊢
  rw [arc_initx_P rtk xi 0 i hi i k hi hk, arc_initx_P rtk xi 0 i hi k i hk hi]
  simp

theorem arc_initx_rowcol_other (rtk : rtk_t) (xi var : ℚ) (i j : Nat) (hi : i < rtk.nx)
    (hj : j < rtk.nx) (hij : j ≠ i) (h : rowcol_zero rtk j) :
    rowcol_zero (arc_initx rtk xi var i) j := by
  intro k hk
  rw [arc_initx_nx] at hk ⊢
  rw [arc_initx_P rtk xi var i hi j k hj hk, arc_initx_P rtk xi var i hi k j hk hj]
  have := h k hk
  by_cases hki : k = i
  · simp [hki, hij]
  · simp [hki, hij, this.1, this.2]

theorem diag_rowcol (rtk : rtk_t) (j j' : Nat) (val : ℚ) (hj' : j' < rtk.nx) (hne : j' ≠ j)
    (h : rowcol_zero rtk j') : rowcol_zero (set_P rtk (j + j * rtk.nx) val) j' := by
  intro k hk
  show Function.update rtk.P (j + j * rtk.nx) val (j' + k * rtk.nx) = 0 ∧
    Function.update rtk.P (j + j * rtk.nx) val (k + j' * rtk.nx) = 0
  have e1 : j' + k * rtk.nx ≠ j + j * rtk.nx := fun e => hne (flat_diag hj' hk e).1
  have e2 : k + j' * rtk.nx ≠ j + j * rtk.nx := fun e => hne (flat_diag hk hj' e).2
  rw [Function.update_noteq e1, Function.update_noteq e2]
  exact h k hk

/-- Effect of the body of the outage loop, outside instantaneous mode, on the
state vector, the counters and the lock counts. -/
theorem arc_udbias_outage_body_spec (E : Env) (i0 : Nat) (r : rtk_t)
    (hmode : r.opt.modear ≠ ARMODE_INST) :
    (arc_udbias_outage_body E i0 r).x =
      (if outage_exceeds ((r.ssat i0).outc 0) r.opt.maxout ∧ r.x (IB E (i0 + 1) 0 r.opt) ≠ 0
       then Function.update r.x (IB E (i0 + 1) 0 r.opt) 0 else r.x) ∧
    (∀ t, t ≠ i0 → ((arc_udbias_outage_body E i0 r).ssat t).outc = (r.ssat t).outc ∧
      ((arc_udbias_outage_body E i0 r).ssat t).lock = (r.ssat t).lock) ∧
    (outage_exceeds ((r.ssat i0).outc 0) r.opt.maxout →
      ((arc_udbias_outage_body E i0 r).ssat i0).lock 0 = - r.opt.minlock) := by
  unfold arc_udbias_outage_body
  simp only [Nat.add_sub_cancel, set_outc_opt, set_outc_x, hmode, false_and, if_false,
    decide_eq_true_eq, ne_eq, not_false_eq_true, true_and]
  by_cases hr : outage_exceeds ((r.ssat i0).outc 0) r.opt.maxout
  · by_cases hx : r.x (IB E (i0 + 1) 0 r.opt) = 0
    · simp only [hr, hx, not_true_eq_false, and_false, if_false, set_outc_opt, hmode,
        not_false_eq_true, and_self, if_true, set_lock_x, set_outc_x, true_and, forall_true_left]
      refine ⟨fun t ht => ?_, ?_⟩
      · simp [ht, set_outc_ssat_outc, set_lock_ssat_lock]
      · simp [set_lock_ssat_lock]
    · simp only [hr, hx, not_false_eq_true, and_self, if_true, arc_initx_opt, set_outc_opt,
        hmode, set_lock_x, arc_initx_x, set_outc_x, true_and, forall_true_left]
      refine ⟨fun t ht => ?_, ?_⟩
      · simp [ht, set_outc_ssat_outc, set_lock_ssat_lock]
      · simp [set_lock_ssat_lock]
  · simp only [hr, false_and, if_false, and_false, set_outc_x, true_and, false_implies,
      and_true]
    intro t ht
    simp [ht, set_outc_ssat_outc]

/-- Effect of the body of the outage loop on the rows and columns of `P`. -/
theorem arc_udbias_outage_body_rowcol (E : Env) (i0 : Nat) (r : rtk_t)
    (hmode : r.opt.modear ≠ ARMODE_INST) (hidx : IB E (i0 + 1) 0 r.opt < r.nx) :
    (outage_exceeds ((r.ssat i0).outc 0) r.opt.maxout → r.x (IB E (i0 + 1) 0 r.opt) ≠ 0 →
      rowcol_zero (arc_udbias_outage_body E i0 r) (IB E (i0 + 1) 0 r.opt)) ∧
    (∀ j, j < r.nx → j ≠ IB E (i0 + 1) 0 r.opt → rowcol_zero r j →
      rowcol_zero (arc_udbias_outage_body E i0 r) j) := by
  have a1 : ∀ j, rowcol_zero r j →
      rowcol_zero (set_outc r (i0 + 1 - 1) 0 (((r.ssat (i0 + 1 - 1)).outc 0 + 1) % 2 ^ 32)) j :=
    fun j h => rowcol_zero_congr r _ j rfl rfl h
  have a2 := arc_initx_rowcol_self
    (set_outc r (i0 + 1 - 1) 0 (((r.ssat (i0 + 1 - 1)).outc 0 + 1) % 2 ^ 32)) 0
    (IB E (i0 + 1) 0 r.opt) (by simpa using hidx)
  have a3 : ∀ j, j < r.nx → j ≠ IB E (i0 + 1) 0 r.opt → rowcol_zero r j →
      rowcol_zero (arc_initx
        (set_outc r (i0 + 1 - 1) 0 (((r.ssat (i0 + 1 - 1)).outc 0 + 1) % 2 ^ 32)) 0 0
        (IB E (i0 + 1) 0 r.opt)) j :=
    fun j hj hne h => arc_initx_rowcol_other _ 0 0 _ j (by simpa using hidx) (by simpa using hj)
      hne (a1 j h)
  unfold arc_udbias_outage_body
  simp only [Nat.add_sub_cancel, set_outc_opt, set_outc_x, hmode, false_and, if_false,
    decide_eq_true_eq, ne_eq, not_false_eq_true, true_and] at a1 a2 a3 ⊢
  constructor
  · intro hr hx
    simp only [hr, hx, not_false_eq_true, and_self, if_true, arc_initx_opt, set_outc_opt, hmode]
    exact rowcol_zero_congr _ _ _ rfl rfl a2
  · intro j hj hne h
    split <;> split <;>
      first
      | exact rowcol_zero_congr _ _ _ rfl rfl (a3 j hj hne h)
      | exact rowcol_zero_congr _ _ _ rfl rfl (a1 j h)

/-- What the outage loop of `arc_udbias` establishes for a slot `s` whose
incremented outage counter exceeds `maxout`, outside instantaneous mode. -/
theorem arc_udbias_outage_reset (E : Env) (rtk : rtk_t) (s : Nat) (hs1 : 1 ≤ s)
    (hs2 : s ≤ E.MAXSAT) (hmode : rtk.opt.modear ≠ ARMODE_INST)
    (hidx : ∀ i, 1 ≤ i → i ≤ E.MAXSAT → IB E i 0 rtk.opt < rtk.nx)
    (hex : outage_exceeds ((rtk.ssat (s - 1)).outc 0) rtk.opt.maxout) :
    (arc_udbias_outage E rtk).nx = rtk.nx ∧ (arc_udbias_outage E rtk).opt = rtk.opt ∧
    (arc_udbias_outage E rtk).x (IB E s 0 rtk.opt) = 0 ∧
    ((arc_udbias_outage E rtk).ssat (s - 1)).lock 0 = - rtk.opt.minlock ∧
    (rtk.x (IB E s 0 rtk.opt) ≠ 0 → rowcol_zero (arc_udbias_outage E rtk) (IB E s 0 rtk.opt)) := by
  have hsx : IB E s 0 rtk.opt < rtk.nx := hidx s hs1 hs2
  have main := forN_inv_idx (fun (n : Nat) (r : rtk_t) =>
      r.nx = rtk.nx ∧ r.opt = rtk.opt ∧
      (∀ t, n ≤ t → (r.ssat t).outc = (rtk.ssat t).outc) ∧
      (∀ t, n ≤ t → r.x (IB E (t + 1) 0 rtk.opt) = rtk.x (IB E (t + 1) 0 rtk.opt)) ∧
      (s - 1 < n → r.x (IB E s 0 rtk.opt) = 0 ∧ (r.ssat (s - 1)).lock 0 = - rtk.opt.minlock ∧
        (rtk.x (IB E s 0 rtk.opt) ≠ 0 → rowcol_zero r (IB E s 0 rtk.opt))))
    E.MAXSAT (arc_udbias_outage_body E) rtk
    ⟨rfl, rfl, fun _ _ => rfl, fun _ _ => rfl, fun h => absurd h (Nat.not_lt_zero _)⟩ ?_
  · obtain ⟨m1, m2, _, _, m5⟩ := main
    have := m5 (by omega)
    exact ⟨m1, m2, this.1, this.2.1, this.2.2⟩
  · intro i0 r hi0 ⟨h1, h2, h3, h4, h5⟩
    have hm : r.opt.modear ≠ ARMODE_INST := by rw [h2]; exact hmode
    have hib : IB E (i0 + 1) 0 r.opt < r.nx := by
      rw [h1, h2]; exact hidx _ (by omega) (by omega)
    have f := arc_udbias_outage_body_frame E i0 r
    obtain ⟨bx, bs, bl⟩ := arc_udbias_outage_body_spec E i0 r hm
    obtain ⟨br1, br2⟩ := arc_udbias_outage_body_rowcol E i0 r hm hib
    rw [h2] at bx bl br1 br2
    have ho0 : (r.ssat i0).outc = (rtk.ssat i0).outc := h3 i0 le_rfl
    rw [ho0] at bx bl br1
    refine ⟨f.1.trans h1, f.2.1.trans h2, ?_, ?_, ?_⟩
    · intro t ht
      rw [(bs t (by omega)).1]
      exact h3 t (by omega)
    · intro t ht
      rw [bx]
      have hne : IB E (t + 1) 0 rtk.opt ≠ IB E (i0 + 1) 0 rtk.opt := by
        intro e
        have := IB_inj E rtk.opt _ _ (by omega) (by omega) e
        omega
      split
      · rw [Function.update_noteq hne]; exact h4 t (by omega)
      · exact h4 t (by omega)
    · intro hlt
      by_cases hsi : s - 1 = i0
      · subst hsi
        have hs' : s - 1 + 1 = s := by omega
        rw [hs'] at bx br1
        have hx0 : r.x (IB E s 0 rtk.opt) = rtk.x (IB E s 0 rtk.opt) := by
          have := h4 (s - 1) le_rfl
          rw [hs'] at this
          exact this
        refine ⟨?_, bl hex, ?_⟩
        · rw [bx]
          by_cases hz : r.x (IB E s 0 rtk.opt) = 0
          · rw [if_neg (fun h => h.2 hz)]; exact hz
          · rw [if_pos ⟨hex, hz⟩]; simp only [Function.update_same]
        · intro hnz
          exact br1 hex (by rw [hx0]; exact hnz)
      · have hprev := h5 (by omega)
        have hne : IB E s 0 rtk.opt ≠ IB E (i0 + 1) 0 rtk.opt := by
          intro e
          have := IB_inj E rtk.opt _ _ hs1 (by omega) e
          omega
        refine ⟨?_, ?_, ?_⟩
        · rw [bx]
          split
          · rw [Function.update_noteq hne]; exact hprev.1
          · exact hprev.1
        · rw [(bs (s - 1) hsi).2]; exact hprev.2.1
        · intro hnz
          exact br2 _ (by rw [h1]; exact hsx) hne (hprev.2.2 hnz)

/-- The slip loop of `arc_udbias` leaves alone a satellite `s` that is not among
the common satellites. -/
theorem arc_udbias_slip_other (E : Env) (rtk : rtk_t) (tt : ℚ) (sat : Nat → Nat) (ns s : Nat)
    (hs1 : 1 ≤ s) (hsx : IB E s 0 rtk.opt < rtk.nx)
    (hsat : ∀ i, i < ns → 1 ≤ sat i ∧ sat i ≠ s) :
    (arc_udbias_slip E rtk tt sat ns).nx = rtk.nx ∧
    (arc_udbias_slip E rtk tt sat ns).opt = rtk.opt ∧
    (arc_udbias_slip E rtk tt sat ns).x (IB E s 0 rtk.opt) = rtk.x (IB E s 0 rtk.opt) ∧
    ((arc_udbias_slip E rtk tt sat ns).ssat (s - 1)).lock = (rtk.ssat (s - 1)).lock ∧
    (rowcol_zero rtk (IB E s 0 rtk.opt) →
      rowcol_zero (arc_udbias_slip E rtk tt sat ns) (IB E s 0 rtk.opt)) := by
  unfold arc_udbias_slip
  refine forN_inv (fun r : rtk_t => r.nx = rtk.nx ∧ r.opt = rtk.opt ∧
    r.x (IB E s 0 rtk.opt) = rtk.x (IB E s 0 rtk.opt) ∧
    (r.ssat (s - 1)).lock = (rtk.ssat (s - 1)).lock ∧
    (rowcol_zero rtk (IB E s 0 rtk.opt) → rowcol_zero r (IB E s 0 rtk.opt))) _ _ _
    ⟨rfl, rfl, rfl, rfl, fun h => h⟩ ?_
  intro i r hi ⟨h1, h2, h3, h4, h5⟩
  have hne : IB E s 0 rtk.opt ≠ IB E (sat i) 0 rtk.opt := by
    intro e
    exact (hsat i hi).2 (IB_inj E rtk.opt _ _ hs1 (hsat i hi).1 e).symm
  have hne2 : s - 1 ≠ sat i - 1 := by
    have := hsat i hi
    omega
  have d : rowcol_zero rtk (IB E s 0 rtk.opt) →
      rowcol_zero (set_P r (IB E (sat i) 0 r.opt + IB E (sat i) 0 r.opt * r.nx)
        (r.P (IB E (sat i) 0 r.opt + IB E (sat i) 0 r.opt * r.nx) +
          r.opt.prn 0 * r.opt.prn 0 * tt)) (IB E s 0 rtk.opt) := by
    intro h
    exact diag_rowcol r _ _ _ (by rw [h1]; exact hsx) (by rw [h2]; exact hne) (h5 h)
  dsimp only
  split
  · exact ⟨h1, h2, h3, h4, d⟩
  · refine ⟨h1, h2, ?_, ?_, fun h => rowcol_zero_congr _ _ _ rfl rfl (d h)⟩
    · simp only [set_lock_x, set_x_x, set_P_x, set_P_opt, h2]
      rw [Function.update_noteq hne]; exact h3
    · rw [set_lock_ssat_lock, if_neg hne2]
      exact h4

/-- The coherency correction of `arc_udbias` leaves a zero ambiguity state
zero. -/
theorem arc_udbias_offset_zero (E : Env) (rtk : rtk_t) (es : udbias_est_t) (s : Nat)
    (hs1 : 1 ≤ s) (hz : rtk.x (IB E s 0 rtk.opt) = 0) :
    (arc_udbias_offset E rtk es).x (IB E s 0 rtk.opt) = 0 := by
  unfold arc_udbias_offset
  split
  · have := forN_inv (fun r : rtk_t => r.opt = rtk.opt ∧ r.x (IB E s 0 rtk.opt) = 0)
      E.MAXSAT (fun i0 r =>
        let i := i0 + 1
        if r.x (IB E i 0 r.opt) ≠ 0 then
          set_x r (IB E i 0 r.opt) (r.x (IB E i 0 r.opt) + es.offset / (es.j : ℚ))
        else r) rtk ⟨rfl, hz⟩ (by
        intro i0 r _ ⟨g1, g2⟩
        dsimp only
        split
        · rename_i hnz
          refine ⟨g1, ?_⟩
          rw [set_x_x, Function.update_noteq]
          · exact g2
          · intro e
            rw [g1] at e hnz
            rw [← e] at hnz
            exact hnz g2
        · exact ⟨g1, g2⟩)
    exact this.2
  · exact hz

/-- The seeding loop of `arc_udbias` leaves alone a satellite `s` that is not
among the common satellites. -/
theorem arc_udbias_init_other (E : Env) (rtk : rtk_t) (bias : Nat → ℚ) (sat : Nat → Nat)
    (ns s : Nat) (hs1 : 1 ≤ s) (hsx : IB E s 0 rtk.opt < rtk.nx)
    (hsat : ∀ i, i < ns → 1 ≤ sat i ∧ sat i ≠ s)
    (hidx : ∀ i, i < ns → IB E (sat i) 0 rtk.opt < rtk.nx) :
    (arc_udbias_init E rtk bias sat ns).x (IB E s 0 rtk.opt) = rtk.x (IB E s 0 rtk.opt) ∧
    (arc_udbias_init E rtk bias sat ns).ssat = rtk.ssat ∧
    (rowcol_zero rtk (IB E s 0 rtk.opt) →
      rowcol_zero (arc_udbias_init E rtk bias sat ns) (IB E s 0 rtk.opt)) := by
  unfold arc_udbias_init
  have := forN_inv (fun r : rtk_t => r.nx = rtk.nx ∧ r.opt = rtk.opt ∧
    r.x (IB E s 0 rtk.opt) = rtk.x (IB E s 0 rtk.opt) ∧ r.ssat = rtk.ssat ∧
    (rowcol_zero rtk (IB E s 0 rtk.opt) → rowcol_zero r (IB E s 0 rtk.opt))) ns
    (fun i r =>
      if bias i = 0 ∨ r.x (IB E (sat i) 0 r.opt) ≠ 0 then r
      else arc_initx r (bias i) (SQR (r.opt.std 0)) (IB E (sat i) 0 r.opt)) rtk
    ⟨rfl, rfl, rfl, rfl, fun h => h⟩ (by
      intro i r hi ⟨h1, h2, h3, h4, h5⟩
      have hne : IB E s 0 rtk.opt ≠ IB E (sat i) 0 rtk.opt := by
        intro e
        exact (hsat i hi).2 (IB_inj E rtk.opt _ _ hs1 (hsat i hi).1 e).symm
      dsimp only
      split
      · exact ⟨h1, h2, h3, h4, h5⟩
      · refine ⟨by simp [h1], by simp [h2], ?_, by simp [h4], ?_⟩
        · rw [arc_initx_x, h2, Function.update_noteq hne]; exact h3
        · intro h
          exact arc_initx_rowcol_other r _ _ _ _ (by rw [h1, h2]; exact hidx i hi)
            (by rw [h1]; exact hsx) (by rw [h2]; exact hne) (h5 h))
  exact ⟨this.2.2.1, this.2.2.2.1, this.2.2.2.2⟩

/-- C10 (amended): after `arc_udbias` in a non-instantaneous ambiguity mode, every
satellite `s` that is not among the epoch's common satellites and whose outage
counter, after this epoch's increment, exceeds `maxout` has ambiguity state
value 0 and lock count `-minlock`; and, when its ambiguity state was non-zero on
entry, every entry of its row and column of `P` is 0. -/
theorem C10_outage_reset (E : Env) (rtk : rtk_t) (tt : ℚ) (obs : Nat → obsd_t)
    (sat iu ir : Nat → Nat) (ns : Nat) (nav : nav_t) (s : Nat)
    (hmode : rtk.opt.modear ≠ ARMODE_INST) (hs1 : 1 ≤ s) (hs2 : s ≤ E.MAXSAT)
    (hnx : NR E rtk.opt + E.MAXSAT ≤ rtk.nx)
    (hsat : ∀ i, i < ns → 1 ≤ sat i ∧ sat i ≤ E.MAXSAT ∧ sat i ≠ s)
    (hex : outage_exceeds ((rtk.ssat (s - 1)).outc 0) rtk.opt.maxout) :
    (arc_udbias E rtk tt obs sat iu ir ns nav).x (IB E s 0 rtk.opt) = 0 ∧
    ((arc_udbias E rtk tt obs sat iu ir ns nav).ssat (s - 1)).lock 0 = - rtk.opt.minlock ∧
    (rtk.x (IB E s 0 rtk.opt) ≠ 0 → ∀ k, k < rtk.nx →
      (arc_udbias E rtk tt obs sat iu ir ns nav).P (IB E s 0 rtk.opt + k * rtk.nx) = 0 ∧
      (arc_udbias E rtk tt obs sat iu ir ns nav).P (k + IB E s 0 rtk.opt * rtk.nx) = 0) := by
  have hidx : ∀ i, 1 ≤ i → i ≤ E.MAXSAT → IB E i 0 rtk.opt < rtk.nx := by
    intro i h1 h2
    unfold IB
    omega
  unfold arc_udbias
  dsimp only
  have f1 := arc_udbias_detslp_frame rtk obs sat iu ir ns
  obtain ⟨f1x, f1P, f1n, f1o, _, f1s⟩ := f1
  have f2 := arc_udbias_outage_reset E (arc_udbias_detslp rtk obs sat iu ir ns) s hs1 hs2
    (by rw [f1o]; exact hmode) (by rw [f1o, f1n]; exact hidx)
    (by rw [(f1s _).1, f1o]; exact hex)
  rw [f1o, f1n, f1x] at f2
  obtain ⟨f2n, f2o, f2x, f2l, f2r⟩ := f2
  have f3 := arc_udbias_slip_other E (arc_udbias_outage E (arc_udbias_detslp rtk obs sat iu ir ns))
    tt sat ns s hs1 (by rw [f2o, f2n]; exact hidx s hs1 hs2)
    (fun i hi => ⟨(hsat i hi).1, (hsat i hi).2.2⟩)
  rw [f2o, f2n] at f3
  generalize arc_udbias_slip E (arc_udbias_outage E (arc_udbias_detslp rtk obs sat iu ir ns))
    tt sat ns = r3 at f3 ⊢
  obtain ⟨f3n, f3o, f3x, f3l, f3r⟩ := f3
  generalize arc_udbias_est E r3 obs sat iu ir ns nav = es
  have f4 := arc_udbias_offset_frame E r3 es
  obtain ⟨f4n, f4o, f4P, f4s, _⟩ := f4
  have f4x := arc_udbias_offset_zero E r3 es s hs1 (by rw [f3o, f3x]; exact f2x)
  rw [f3o] at f4x
  have f5 := arc_udbias_init_other E (arc_udbias_offset E r3 es) es.bias sat ns s hs1
    (by rw [f4o, f4n, f3o, f3n]; exact hidx s hs1 hs2)
    (fun i hi => ⟨(hsat i hi).1, (hsat i hi).2.2⟩)
    (by
      intro i hi
      rw [f4o, f4n, f3o, f3n]
      exact hidx _ (hsat i hi).1 (hsat i hi).2.1)
  rw [f4o, f3o] at f5
  obtain ⟨f5x, f5s, f5r⟩ := f5
  refine ⟨by rw [f5x]; exact f4x, ?_, ?_⟩
  · rw [f5s, f4s, f3l]; exact f2l
  · intro hnz k hk
    have r3z : rowcol_zero r3 (IB E s 0 rtk.opt) := f3r (f2r hnz)
    have r4z : rowcol_zero (arc_udbias_offset E r3 es) (IB E s 0 rtk.opt) :=
      rowcol_zero_congr r3 _ _ f4n f4P r3z
    have r5z := f5r r4z
    have hn5 : (arc_udbias_init E (arc_udbias_offset E r3 es) es.bias sat ns).nx = rtk.nx := by
      have g := forN_inv (fun r : rtk_t => r.nx = rtk.nx) ns
        (fun i r =>
          if es.bias i = 0 ∨ r.x (IB E (sat i) 0 r.opt) ≠ 0 then r
          else arc_initx r (es.bias i) (SQR (r.opt.std 0)) (IB E (sat i) 0 r.opt))
        (arc_udbias_offset E r3 es)
        (by show (arc_udbias_offset E r3 es).nx = rtk.nx; rw [f4n, f3n])
        (by
          intro i r _ h
          dsimp only
          split
          · exact h
          · simp [h])
      exact g
    have := r5z k (by rw [hn5]; exact hk)
    rw [hn5] at this
    exact this

theorem C10_outage_reset_witness :
    (arc_udbias E0 rtk10b 0 obs10 (fun _ => 1) (fun _ => 0) (fun _ => 1) 1 nav0).x
      (IB E0 2 0 rtk10b.opt) = 0 ∧
    ((arc_udbias E0 rtk10b 0 obs10 (fun _ => 1) (fun _ => 0) (fun _ => 1) 1 nav0).ssat
      (2 - 1)).lock 0 = - rtk10b.opt.minlock ∧
    (rtk10b.x (IB E0 2 0 rtk10b.opt) ≠ 0 → ∀ k, k < rtk10b.nx →
      (arc_udbias E0 rtk10b 0 obs10 (fun _ => 1) (fun _ => 0) (fun _ => 1) 1 nav0).P
        (IB E0 2 0 rtk10b.opt + k * rtk10b.nx) = 0 ∧
      (arc_udbias E0 rtk10b 0 obs10 (fun _ => 1) (fun _ => 0) (fun _ => 1) 1 nav0).P
        (k + IB E0 2 0 rtk10b.opt * rtk10b.nx) = 0) :=
  C10_outage_reset E0 rtk10b 0 obs10 (fun _ => 1) (fun _ => 0) (fun _ => 1) 1 nav0 2
    (by decide) (by decide) (by decide) (by decide)
    (by intro i _; exact ⟨(by decide : 1 ≤ 1), (by decide : 1 ≤ E0.MAXSAT), (by decide : 1 ≠ 2)⟩)
    (by decide)

set_option maxRecDepth 4000 in
/-- C10 fails as stated: satellite 2 is not common, the mode is not
instantaneous and its incremented outage counter 11 exceeds `maxout = 5`, but
its ambiguity state is already 0 on entry, so `arc_udbias` does not call
`arc_initx` for it and the diagonal entry of its row of `P` keeps the value 1. -/
theorem C10_counterexample :
    rtk10.opt.modear ≠ ARMODE_INST ∧
    (∀ i, i < 1 → (fun _ : Nat => (1 : Nat)) i ≠ 2) ∧
    outage_exceeds ((rtk10.ssat (2 - 1)).outc 0) rtk10.opt.maxout ∧
    (arc_udbias E0 rtk10 0 obs10 (fun _ => 1) (fun _ => 0) (fun _ => 1) 1 nav0).P
      (IB E0 2 0 rtk10.opt + IB E0 2 0 rtk10.opt * rtk10.nx) = 1 := by
  refine ⟨by decide, by intro i _; exact (by decide : (1 : Nat) ≠ 2), by decide, ?_⟩
  norm_num [arc_udbias, arc_udbias_detslp, arc_udbias_outage, arc_udbias_outage_body,
    arc_udbias_slip, arc_udbias_est, arc_udbias_offset, arc_udbias_init, forN, arc_detslp_ll,
    arc_sdobs, E0, rtk10, rtk0, opt0, obs10, nav0, ssat0, IB, NR, NP, NI, NT, NL,
    outage_exceeds, ARMODE_INST, IONOOPT_BRDC, IONOOPT_EST, TROPOPT_EST, arc_initx,
    Function.update_apply, set_lock, set_outc, set_x, set_P, set_slip, set_half, SQR,
    getbitu, setbitu]

/-! ### Temporal update with zero time step -/

theorem set_P_self (r : rtk_t) (i : Nat) (v : ℚ) (h : v = r.P i) : set_P r i v = r := by
  subst h
  cases r
  simp [set_P]

theorem set_x_self (r : rtk_t) (i : Nat) (v : ℚ) (h : v = r.x i) : set_x r i v = r := by
  subst h
  cases r
  simp [set_x]

theorem forN_id {σ : Type} (n : Nat) (body : Nat → σ → σ) (s : σ)
    (h : ∀ i, i < n → body i s = s) : forN n body s = s := by
  induction n with
  | zero => rfl
  | succ n ih =>
    rw [forN_succ, ih (fun i hi => h i (Nat.lt_succ_of_lt hi))]
    exact h n (Nat.lt_succ_self n)

theorem arc_udpos_static (E : Env) (rtk : rtk_t) (tt : ℚ) (hstat : rtk.opt.mode = PMODE_STATIC)
    (hpos : 0 < E.arc_norm rtk.x 3) : arc_udpos E rtk tt = rtk := by
  have hf : arc_udpos_first E rtk = rtk := by
    unfold arc_udpos_first
    rw [if_neg (not_le.mpr hpos)]
  unfold arc_udpos
  rw [if_neg (by rw [hstat]; decide)]
  dsimp only
  rw [hf, if_pos hstat]

theorem arc_udion_zero (E : Env) (rtk : rtk_t) (bl : ℚ) (sat : Nat → Nat) (ns : Nat)
    (h1 : ∀ i, 1 ≤ i → i ≤ E.MAXSAT → ¬ (rtk.x (II i rtk.opt) ≠ 0 ∧
      (rtk.ssat (i - 1)).outc 0 > GAP_RESION ∧ (rtk.ssat (i - 1)).outc 1 > GAP_RESION))
    (h2 : ∀ k, k < ns → rtk.x (II (sat k) rtk.opt) ≠ 0) :
    arc_udion E rtk 0 bl sat ns = rtk := by
  unfold arc_udion
  dsimp only
  rw [forN_id E.MAXSAT _ rtk (by
    intro i hi
    rw [if_neg (h1 (i + 1) (by omega) (by omega))])]
  apply forN_id
  intro i hi
  dsimp only
  rw [if_neg (h2 i hi)]
  exact set_P_self _ _ _ (by ring)

theorem arc_udtrop_zero (E : Env) (rtk : rtk_t) (htt : rtk.tt = 0)
    (h0 : rtk.x (IT E 0 rtk.opt) ≠ 0) (h1 : rtk.x (IT E 1 rtk.opt) ≠ 0) :
    arc_udtrop E rtk 0 = rtk := by
  unfold arc_udtrop
  apply forN_id
  intro i hi
  have hx : rtk.x (IT E i rtk.opt) ≠ 0 := by
    rcases Nat.lt_succ_iff_lt_or_eq.mp hi with l | e
    · have : i = 0 := by omega
      subst this; exact h0
    · subst e; exact h1
  dsimp only
  rw [if_neg hx]
  have e1 : set_P rtk (IT E i rtk.opt + IT E i rtk.opt * rtk.nx)
      (rtk.P (IT E i rtk.opt + IT E i rtk.opt * rtk.nx) + SQR (rtk.opt.prn 2) * 0) = rtk :=
    set_P_self _ _ _ (by ring)
  rw [e1]
  split
  · apply forN_id
    intro k hk
    dsimp only
    exact set_P_self _ _ _ (by rw [htt]; simp)
  · rfl

/-- The phase-minus-code estimate reads the state vector and the options only. -/
theorem arc_udbias_est_congr (E : Env) (r r' : rtk_t) (obs : Nat → obsd_t)
    (sat iu ir : Nat → Nat) (ns : Nat) (nav : nav_t) (hx : r'.x = r.x) (ho : r'.opt = r.opt) :
    arc_udbias_est E r' obs sat iu ir ns nav = arc_udbias_est E r obs sat iu ir ns nav := by
  unfold arc_udbias_est
  rw [hx, ho]

/-- Without a reset the outage loop keeps the state vector and the covariance;
it never touches the slip bytes. -/
theorem arc_udbias_outage_keep (E : Env) (rtk : rtk_t) (hmode : rtk.opt.modear ≠ ARMODE_INST)
    (hout : ∀ i, 1 ≤ i → i ≤ E.MAXSAT →
      outage_exceeds ((rtk.ssat (i - 1)).outc 0) rtk.opt.maxout → rtk.x (IB E i 0 rtk.opt) = 0) :
    (arc_udbias_outage E rtk).x = rtk.x ∧ (arc_udbias_outage E rtk).P = rtk.P ∧
    (arc_udbias_outage E rtk).nx = rtk.nx ∧ (arc_udbias_outage E rtk).opt = rtk.opt ∧
    (∀ t, ((arc_udbias_outage E rtk).ssat t).slip = (rtk.ssat t).slip) := by
  unfold arc_udbias_outage
  have := forN_inv_idx (fun (n : Nat) (r : rtk_t) => r.x = rtk.x ∧ r.P = rtk.P ∧
    r.nx = rtk.nx ∧ r.opt = rtk.opt ∧ (∀ t, (r.ssat t).slip = (rtk.ssat t).slip) ∧
    (∀ t, n ≤ t → (r.ssat t).outc = (rtk.ssat t).outc)) E.MAXSAT (arc_udbias_outage_body E) rtk
    ⟨rfl, rfl, rfl, rfl, fun _ => rfl, fun _ _ => rfl⟩ (by
      intro i0 r hi0 ⟨g1, g2, g3, g4, g5, g6⟩
      have hx0 : ¬ (outage_exceeds ((r.ssat i0).outc 0) r.opt.maxout ∧
          r.x (IB E (i0 + 1) 0 r.opt) ≠ 0) := by
        rintro ⟨a, b⟩
        rw [g6 i0 le_rfl, g4] at a
        rw [g1, g4] at b
        exact b (hout (i0 + 1) (by omega) (by omega) a)
      have hm : r.opt.modear ≠ ARMODE_INST := by rw [g4]; exact hmode
      unfold arc_udbias_outage_body
      simp only [Nat.add_sub_cancel, set_outc_opt, set_outc_x, hm, false_and, if_false,
        decide_eq_true_eq, ne_eq, not_false_eq_true, true_and]
      have hx0' : ¬ (outage_exceeds ((r.ssat i0).outc 0) r.opt.maxout ∧
          ¬ r.x (IB E (i0 + 1) 0 r.opt) = 0) := hx0
      rw [if_neg hx0']
      simp only [set_outc_opt, hm, not_false_eq_true, true_and]
      split
      · refine ⟨g1, g2, g3, g4, ?_, ?_⟩
        · intro t; simp [g5]
        · intro t ht
          have hne : t ≠ i0 := by omega
          simp [set_outc_ssat_outc, hne]
          exact g6 t (by omega)
      · refine ⟨g1, g2, g3, g4, ?_, ?_⟩
        · intro t; simp [g5]
        · intro t ht
          have hne : t ≠ i0 := by omega
          simp [set_outc_ssat_outc, hne]
          exact g6 t (by omega))
  exact ⟨this.1, this.2.1, this.2.2.1, this.2.2.2.1, this.2.2.2.2.1⟩

/-- With zero time step and no slip flag the slip loop is the identity. -/
theorem arc_udbias_slip_zero (E : Env) (rtk : rtk_t) (sat : Nat → Nat) (ns : Nat)
    (hslip : ∀ k, k < ns → (rtk.ssat (sat k - 1)).slip 0 &&& 1 = 0) :
    arc_udbias_slip E rtk 0 sat ns = rtk := by
  unfold arc_udbias_slip
  apply forN_id
  intro i hi
  dsimp only
  rw [set_P_self rtk _ _ (by ring)]
  rw [if_pos (Or.inr (by rw [hslip i hi]; simp))]

theorem arc_udbias_offset_id (E : Env) (rtk : rtk_t) (es : udbias_est_t)
    (h : es.j = 0 ∨ es.offset = 0) : arc_udbias_offset E rtk es = rtk := by
  unfold arc_udbias_offset
  rcases h with h | h
  · rw [if_neg (by omega)]
  · split
    · apply forN_id
      intro i hi
      dsimp only
      split
      · exact set_x_self _ _ _ (by rw [h]; simp)
      · rfl
    · rfl

theorem arc_udbias_init_id (E : Env) (rtk : rtk_t) (bias : Nat → ℚ) (sat : Nat → Nat) (ns : Nat)
    (h : ∀ k, k < ns → bias k = 0 ∨ rtk.x (IB E (sat k) 0 rtk.opt) ≠ 0) :
    arc_udbias_init E rtk bias sat ns = rtk := by
  unfold arc_udbias_init
  apply forN_id
  intro i hi
  rw [if_pos (h i hi)]

/-- C8 (amended): with time step 0 (`rtk->tt = 0`) the temporal update
`arc_udstate` leaves every entry of `x` and `P` unchanged in static mode with an
initialised position, provided no state is initialised or reset in the epoch:
when the ionosphere is estimated no ionosphere state is deactivated and every
common satellite has an active one; when the troposphere is estimated both
zenith states are active; the ambiguity mode is not instantaneous; every
ambiguity whose incremented outage counter exceeds `maxout` is already 0; no
common satellite has its slip flag set after loss-of-lock detection; the
coherency offset is zero or no common satellite contributes to it; and no
inactive ambiguity of a common satellite has a phase-minus-code seed. -/
theorem C8_zero_step_identity (E : Env) (rtk : rtk_t) (obs : Nat → obsd_t)
    (sat iu ir : Nat → Nat) (ns : Nat) (nav : nav_t)
    (htt : rtk.tt = 0) (hstat : rtk.opt.mode = PMODE_STATIC)
    (hpos : 0 < E.arc_norm rtk.x 3)
    (hion : rtk.opt.ionoopt ≥ IONOOPT_EST →
      (∀ i, 1 ≤ i → i ≤ E.MAXSAT → ¬ (rtk.x (II i rtk.opt) ≠ 0 ∧
        (rtk.ssat (i - 1)).outc 0 > GAP_RESION ∧ (rtk.ssat (i - 1)).outc 1 > GAP_RESION)) ∧
      (∀ k, k < ns → rtk.x (II (sat k) rtk.opt) ≠ 0))
    (htrop : rtk.opt.tropopt ≥ TROPOPT_EST →
      rtk.x (IT E 0 rtk.opt) ≠ 0 ∧ rtk.x (IT E 1 rtk.opt) ≠ 0)
    (hinst : rtk.opt.modear ≠ ARMODE_INST)
    (hout : ∀ i, 1 ≤ i → i ≤ E.MAXSAT →
      outage_exceeds ((rtk.ssat (i - 1)).outc 0) rtk.opt.maxout → rtk.x (IB E i 0 rtk.opt) = 0)
    (hslip : ∀ k, k < ns →
      ((arc_udbias_detslp rtk obs sat iu ir ns).ssat (sat k - 1)).slip 0 &&& 1 = 0)
    (hoff : (arc_udbias_est E rtk obs sat iu ir ns nav).j = 0 ∨
      (arc_udbias_est E rtk obs sat iu ir ns nav).offset = 0)
    (hseed : ∀ k, k < ns → (arc_udbias_est E rtk obs sat iu ir ns nav).bias k = 0 ∨
      rtk.x (IB E (sat k) 0 rtk.opt) ≠ 0) :
    ∀ k, (arc_udstate E rtk obs sat iu ir ns nav).x k = rtk.x k ∧
      (arc_udstate E rtk obs sat iu ir ns nav).P k = rtk.P k := by
  have h1 : arc_udpos E rtk |rtk.tt| = rtk := arc_udpos_static E rtk _ hstat hpos
  unfold arc_udstate
  dsimp only
  rw [h1]
  have h2 : (if rtk.opt.ionoopt ≥ IONOOPT_EST then
      arc_udion E rtk |rtk.tt| (arc_baseline E rtk.x rtk.rb) sat ns else rtk) = rtk := by
    split
    · rename_i h
      rw [htt, abs_zero]
      exact arc_udion_zero E rtk _ sat ns (hion h).1 (hion h).2
    · rfl
  rw [h2]
  have h3 : (if rtk.opt.tropopt ≥ TROPOPT_EST then arc_udtrop E rtk |rtk.tt| else rtk) = rtk := by
    split
    · rename_i h
      rw [htt, abs_zero]
      exact arc_udtrop_zero E rtk htt (htrop h).1 (htrop h).2
    · rfl
  rw [h3, if_pos (by rw [hstat]; decide), htt, abs_zero]
  unfold arc_udbias
  dsimp only
  obtain ⟨f1x, f1P, f1n, f1o, _, f1s⟩ := arc_udbias_detslp_frame rtk obs sat iu ir ns
  obtain ⟨f2x, f2P, f2n, f2o, f2s⟩ := arc_udbias_outage_keep E (arc_udbias_detslp rtk obs sat iu ir ns)
    (by rw [f1o]; exact hinst)
    (by
      intro i hi1 hi2 hex
      rw [(f1s _).1, f1o] at hex
      rw [f1x, f1o]
      exact hout i hi1 hi2 hex)
  rw [arc_udbias_slip_zero E _ sat ns (by
    intro k hk
    rw [f2s]
    exact hslip k hk)]
  have he : arc_udbias_est E (arc_udbias_outage E (arc_udbias_detslp rtk obs sat iu ir ns))
      obs sat iu ir ns nav = arc_udbias_est E rtk obs sat iu ir ns nav :=
    arc_udbias_est_congr E rtk _ obs sat iu ir ns nav (f2x.trans f1x) (f2o.trans f1o)
  rw [he, arc_udbias_offset_id E _ _ hoff, arc_udbias_init_id E _ _ sat ns (by
    intro k hk
    rw [f2x, f1x, f2o, f1o]
    exact hseed k hk)]
  intro k
  rw [f2x, f1x, f2P, f1P]
  exact ⟨rfl, rfl⟩

set_option maxRecDepth 4000 in
/-- The theorem C8 at `rtk8s` with the epoch `obs10`. -/
theorem C8_zero_step_identity_witness :
    (rtk8s.tt = 0 ∧ rtk8s.opt.mode = PMODE_STATIC) ∧
    ∀ k, (arc_udstate E0 rtk8s obs10 (fun _ => 1) (fun _ => 0) (fun _ => 1) 1 nav0).x k =
        rtk8s.x k ∧
      (arc_udstate E0 rtk8s obs10 (fun _ => 1) (fun _ => 0) (fun _ => 1) 1 nav0).P k =
        rtk8s.P k :=
  ⟨⟨rfl, rfl⟩,
  C8_zero_step_identity E0 rtk8s obs10 (fun _ => 1) (fun _ => 0) (fun _ => 1) 1 nav0
    (by rfl) (by rfl)
    (by norm_num [E0, rtk8s, forN])
    (by intro h; exact absurd h (by decide))
    (by intro h; exact absurd h (by decide))
    (by decide)
    (by
      intro i _ _ hex
      have hno : ¬ outage_exceeds ((rtk8s.ssat (i - 1)).outc 0) rtk8s.opt.maxout := by
        show ¬ outage_exceeds 0 5
        decide
      exact absurd hex hno)
    (by
      intro k hk
      have : k = 0 := by omega
      subst this
      norm_num [arc_udbias_detslp, arc_detslp_ll, forN, obs10, rtk8s, rtk0, ssat0, set_slip,
        set_half, getbitu, setbitu, Function.update_apply])
    (by
      right
      norm_num [arc_udbias_est, forN, arc_sdobs, E0, obs10, nav0, rtk8s, IB, NR, NP, NI, NT, NL,
        opt0, rtk0, IONOOPT_EST, IONOOPT_BRDC, TROPOPT_EST])
    (by
      intro k hk
      have : k = 0 := by omega
      subst this
      right
      norm_num [rtk8s, IB, NR, NP, NI, NT, NL, E0, opt0, rtk0, IONOOPT_EST, IONOOPT_BRDC,
        TROPOPT_EST])⟩

/-! ### What `arc_udbias` leaves alone -/

theorem amb_frame_refl (E : Env) (r : rtk_t) : amb_frame E r r :=
  ⟨rfl, rfl, fun _ _ => rfl, fun _ _ => rfl⟩

theorem amb_frame_trans (E : Env) (r0 r1 r2 : rtk_t) (h1 : amb_frame E r0 r1)
    (h2 : amb_frame E r1 r2) : amb_frame E r0 r2 := by
  obtain ⟨a1, a2, a3, a4⟩ := h1
  obtain ⟨b1, b2, b3, b4⟩ := h2
  rw [a2] at b3 b4
  rw [a1] at b4
  exact ⟨b1.trans a1, b2.trans a2, fun k hk => (b3 k hk).trans (a3 k hk),
    fun i hi => (b4 i hi).trans (a4 i hi)⟩

/-- A state with the same `nx`, `opt`, `x`, `P` is inside the frame. -/
theorem amb_frame_of_eq (E : Env) (r r' : rtk_t) (h1 : r'.nx = r.nx) (h2 : r'.opt = r.opt)
    (h3 : r'.x = r.x) (h4 : r'.P = r.P) : amb_frame E r r' :=
  ⟨h1, h2, fun _ _ => by rw [h3], fun _ _ => by rw [h4]⟩

theorem amb_frame_set_x (E : Env) (r : rtk_t) (s : Nat) (v : ℚ) :
    amb_frame E r (set_x r (IB E s 0 r.opt) v) := by
  refine ⟨rfl, rfl, fun k hk => ?_, fun _ _ => rfl⟩
  rw [set_x_x, Function.update_noteq (hk s)]

theorem amb_frame_set_P (E : Env) (r : rtk_t) (s : Nat) (v : ℚ) :
    amb_frame E r (set_P r (IB E s 0 r.opt + IB E s 0 r.opt * r.nx) v) := by
  refine ⟨rfl, rfl, fun _ _ => rfl, fun idx hi => ?_⟩
  rw [set_P_P, Function.update_noteq (hi s (IB E s 0 r.opt)).1]

/-- `arc_initx` at index `j` writes `P` in row `j` and column `j` only. -/
theorem arc_initx_P_frame (r : rtk_t) (xi var : ℚ) (j idx : Nat)
    (h : ∀ m, idx ≠ j + m * r.nx ∧ idx ≠ m + j * r.nx) :
    (arc_initx r xi var j).P idx = r.P idx := by
  unfold arc_initx
  have := forN_inv (fun r' : rtk_t => r'.nx = r.nx ∧ r'.P idx = r.P idx) r.nx
    (fun m r' => set_P (set_P r' (m + j * r'.nx) (if j = m then var else 0))
      (j + m * r'.nx) (if j = m then var else 0)) (set_x r j xi) ⟨rfl, rfl⟩ (by
      intro m r' _ ⟨g1, g2⟩
      refine ⟨g1, ?_⟩
      simp only [set_P_P, set_P_nx, g1]
      rw [Function.update_noteq (h m).1, Function.update_noteq (h m).2]
      exact g2)
  exact this.2

theorem amb_frame_initx (E : Env) (r : rtk_t) (s : Nat) (xi var : ℚ) :
    amb_frame E r (arc_initx r xi var (IB E s 0 r.opt)) := by
  refine ⟨by simp, by simp, fun k hk => ?_, fun idx hi => ?_⟩
  · rw [arc_initx_x, Function.update_noteq (hk s)]
  · exact arc_initx_P_frame r xi var _ idx (fun m => hi s m)

theorem amb_frame_forN (E : Env) (r : rtk_t) (n : Nat) (body : Nat → rtk_t → rtk_t)
    (h : ∀ i r', i < n → amb_frame E r' (body i r')) : amb_frame E r (forN n body r) :=
  forN_inv (fun r' => amb_frame E r r') n body r (amb_frame_refl E r)
    (fun i r' hi hr => amb_frame_trans E r r' _ hr (h i r' hi))

theorem arc_udbias_outage_body_amb (E : Env) (i0 : Nat) (r : rtk_t) :
    amb_frame E r (arc_udbias_outage_body E i0 r) := by
  have a1 : amb_frame E r (set_outc r (i0 + 1 - 1) 0 (((r.ssat (i0 + 1 - 1)).outc 0 + 1) % 2 ^ 32)) :=
    amb_frame_of_eq E r _ rfl rfl rfl rfl
  have a2 : amb_frame E r (arc_initx
      (set_outc r (i0 + 1 - 1) 0 (((r.ssat (i0 + 1 - 1)).outc 0 + 1) % 2 ^ 32)) 0 0
      (IB E (i0 + 1) 0 r.opt)) :=
    amb_frame_trans E r _ _ a1 (amb_frame_initx E _ (i0 + 1) 0 0)
  unfold arc_udbias_outage_body
  dsimp only
  split <;> (try split) <;> (try split) <;>
    first
    | exact a2
    | exact a1

/-- `arc_udbias` changes `x` and `P` at most in the ambiguity states. -/
theorem arc_udbias_amb (E : Env) (rtk : rtk_t) (tt : ℚ) (obs : Nat → obsd_t)
    (sat iu ir : Nat → Nat) (ns : Nat) (nav : nav_t) :
    amb_frame E rtk (arc_udbias E rtk tt obs sat iu ir ns nav) := by
  unfold arc_udbias
  dsimp only
  obtain ⟨f1x, f1P, f1n, f1o, _, _⟩ := arc_udbias_detslp_frame rtk obs sat iu ir ns
  have s1 : amb_frame E rtk (arc_udbias_detslp rtk obs sat iu ir ns) :=
    amb_frame_of_eq E rtk _ f1n f1o f1x f1P
  have s2 : amb_frame E (arc_udbias_detslp rtk obs sat iu ir ns)
      (arc_udbias_outage E (arc_udbias_detslp rtk obs sat iu ir ns)) := by
    unfold arc_udbias_outage
    exact amb_frame_forN E _ _ _ (fun i r' _ => arc_udbias_outage_body_amb E i r')
  refine amb_frame_trans E _ _ _ (amb_frame_trans E _ _ _ s1 s2) ?_
  generalize arc_udbias_outage E (arc_udbias_detslp rtk obs sat iu ir ns) = r2
  have s3 : amb_frame E r2 (arc_udbias_slip E r2 tt sat ns) := by
    unfold arc_udbias_slip
    apply amb_frame_forN
    intro i r' _
    have d := amb_frame_set_P E r' (sat i)
      (r'.P (IB E (sat i) 0 r'.opt + IB E (sat i) 0 r'.opt * r'.nx) +
        r'.opt.prn 0 * r'.opt.prn 0 * tt)
    dsimp only
    split
    · exact d
    · refine amb_frame_trans E _ _ _ d ?_
      refine amb_frame_trans E _ _ _ (amb_frame_set_x E _ (sat i) 0) ?_
      exact amb_frame_of_eq E _ _ rfl rfl rfl rfl
  refine amb_frame_trans E _ _ _ s3 ?_
  generalize arc_udbias_slip E r2 tt sat ns = r3
  generalize arc_udbias_est E r3 obs sat iu ir ns nav = es
  have s4 : amb_frame E r3 (arc_udbias_offset E r3 es) := by
    unfold arc_udbias_offset
    split
    · apply amb_frame_forN
      intro i r' _
      dsimp only
      split
      · exact amb_frame_set_x E r' (i + 1) _
      · exact amb_frame_refl E r'
    · exact amb_frame_refl E r3
  refine amb_frame_trans E _ _ _ s4 ?_
  unfold arc_udbias_init
  apply amb_frame_forN
  intro i r' _
  split
  · exact amb_frame_refl E r'
  · exact amb_frame_initx E r' (sat i) _ _

set_option maxRecDepth 4000 in
/-- C8 fails as stated: in kinematic mode without dynamics (not fixed mode) and
with `tt = 0`, `arc_udpos` re-initialises the position at the single-point
solution `sol.rr`, so `x[0]` changes from 10 to 1 and `P[0]` from 0 to
`VAR_POS = 900`. -/
theorem C8_counterexample :
    rtk8.tt = 0 ∧ rtk8.opt.mode ≠ PMODE_FIXED ∧ rtk8.x 0 = 10 ∧ rtk8.P 0 = 0 ∧
    (arc_udstate E0 rtk8 obs10 (fun _ => 1) (fun _ => 0) (fun _ => 1) 1 nav0).x 0 = 1 ∧
    (arc_udstate E0 rtk8 obs10 (fun _ => 1) (fun _ => 0) (fun _ => 1) 1 nav0).P 0 = 900 := by
  have hpos : arc_udpos E0 rtk8 |rtk8.tt| =
      forN 3 (fun i r => arc_initx r (r.sol.rr i) VAR_POS i) rtk8 := by
    have hn : ¬ E0.arc_norm rtk8.x 3 ≤ 0 := by norm_num [E0, rtk8, forN]
    unfold arc_udpos arc_udpos_first
    rw [if_neg (by decide), if_neg hn]
    dsimp only
    rw [if_neg (by decide), if_pos (by rfl)]
  have hopt : (forN 3 (fun i r => arc_initx r (r.sol.rr i) VAR_POS i) rtk8).opt = rtk8.opt ∧
      (forN 3 (fun i r => arc_initx r (r.sol.rr i) VAR_POS i) rtk8).nx = rtk8.nx := by
    simp [forN]
  have hst : arc_udstate E0 rtk8 obs10 (fun _ => 1) (fun _ => 0) (fun _ => 1) 1 nav0 =
      arc_udbias E0 (forN 3 (fun i r => arc_initx r (r.sol.rr i) VAR_POS i) rtk8) |rtk8.tt|
        obs10 (fun _ => 1) (fun _ => 0) (fun _ => 1) 1 nav0 := by
    unfold arc_udstate
    dsimp only
    have hi : ¬ rtk8.opt.ionoopt ≥ IONOOPT_EST := by decide
    have ht : ¬ rtk8.opt.tropopt ≥ TROPOPT_EST := by decide
    have hm : rtk8.opt.mode > PMODE_DGPS := by decide
    simp only [hpos, hopt.1, hi, ht, hm, if_false, if_true]
  obtain ⟨_, _, fx, fP⟩ := arc_udbias_amb E0
    (forN 3 (fun i r => arc_initx r (r.sol.rr i) VAR_POS i) rtk8) |rtk8.tt|
    obs10 (fun _ => 1) (fun _ => 0) (fun _ => 1) 1 nav0
  have hib : ∀ s, 2 ≤ IB E0 s 0 rtk8.opt := by
    intro s
    have : NR E0 rtk8.opt = 3 := by decide
    unfold IB
    omega
  refine ⟨rfl, by decide, by norm_num [rtk8], rfl, ?_, ?_⟩
  · rw [hst, fx 0 (by
      intro s
      rw [hopt.1]
      have := hib s
      omega)]
    norm_num [forN, rtk8, rtk0, Function.update_apply]
  · rw [hst, fP 0 (by
      intro s m
      rw [hopt.1, hopt.2]
      have := hib s
      have h5 : rtk8.nx = 5 := rfl
      rw [h5]
      omega)]
    have e0 : (0 : Nat) = 0 + 0 * rtk8.nx := by decide
    have n1 : (arc_initx rtk8 (rtk8.sol.rr 0) VAR_POS 0).nx = rtk8.nx := by simp
    have n2 : (arc_initx (arc_initx rtk8 (rtk8.sol.rr 0) VAR_POS 0)
        ((arc_initx rtk8 (rtk8.sol.rr 0) VAR_POS 0).sol.rr 1) VAR_POS 1).nx = rtk8.nx := by simp
    have h5 : rtk8.nx = 5 := rfl
    simp only [forN]
    rw [arc_initx_P_frame _ _ _ 2 0 (by intro m; rw [n2, h5]; omega),
      arc_initx_P_frame _ _ _ 1 0 (by intro m; rw [n1, h5]; omega)]
    have := arc_initx_P rtk8 (rtk8.sol.rr 0) VAR_POS 0 (by decide) 0 0 (by decide) (by decide)
    rw [h5] at this
    simp only [Nat.zero_mul, Nat.add_zero] at this
    rw [this]
    norm_num [VAR_POS, SQR]

/-! ## Ambiguity resolution -/

theorem ssat_only_refl (r : rtk_t) : ssat_only r r :=
  ⟨rfl, rfl, rfl, rfl, rfl, rfl, rfl, rfl⟩

theorem ssat_only_trans {a b c : rtk_t} (h1 : ssat_only a b) (h2 : ssat_only b c) :
    ssat_only a c := by
  obtain ⟨a1, a2, a3, a4, a5, a6, a7, a8⟩ := h1
  obtain ⟨b1, b2, b3, b4, b5, b6, b7, b8⟩ := h2
  exact ⟨b1.trans a1, b2.trans a2, b3.trans a3, b4.trans a4, b5.trans a5, b6.trans a6,
    b7.trans a7, b8.trans a8⟩

theorem ssat_only_ssat (r : rtk_t) (s : Nat → ssat_t) : ssat_only r { r with ssat := s } :=
  ⟨rfl, rfl, rfl, rfl, rfl, rfl, rfl, rfl⟩

theorem arc_ddmat_ref_frame (m f k : Nat) (nofix : Bool) (n : Nat) :
    ∀ (i : Nat) (r : rtk_t), ssat_only r (arc_ddmat_ref m f k nofix n i r).1 := by
  induction n with
  | zero => intro i r; exact ssat_only_refl r
  | succ n ih =>
    intro i r
    unfold arc_ddmat_ref
    dsimp only
    split
    · exact ih _ _
    · split
      · exact ssat_only_ssat _ _
      · exact ssat_only_trans (ssat_only_ssat _ _) (ih _ _)

theorem arc_ddmat_col_frame (m f k : Nat) (nofix : Bool) (i j : Nat) (s : ddmat_t) :
    ssat_only s.rtk (arc_ddmat_col m f k nofix i j s).rtk := by
  unfold arc_ddmat_col
  dsimp only
  split
  · exact ssat_only_refl _
  · split
    · exact ssat_only_ssat _ _
    · exact ssat_only_ssat _ _

theorem arc_ddmat_frame (E : Env) (rtk : rtk_t) (D : Nat → ℚ) :
    ssat_only rtk (arc_ddmat E rtk D).rtk := by
  unfold arc_ddmat
  dsimp only
  refine forN_inv (fun s : ddmat_t => ssat_only rtk s.rtk) _ _ _ ?_ ?_
  · refine forN_inv (fun r : rtk_t => ssat_only rtk r) _ _ _ (ssat_only_refl _) ?_
    intro i r _ h
    exact ssat_only_trans h (ssat_only_ssat _ _)
  · intro m s _ h
    refine forN_inv (fun s : ddmat_t => ssat_only rtk s.rtk) _ _ _ h ?_
    intro f s _ h
    refine forN_inv (fun s : ddmat_t => ssat_only rtk s.rtk) _ _ _ ?_ ?_
    · exact ssat_only_trans h (arc_ddmat_ref_frame _ _ _ _ _ _ _)
    · intro j s _ h
      exact ssat_only_trans h (arc_ddmat_col_frame _ _ _ _ _ _ _)

/-- Entry `(i,j)` of `arc_matmul("NN",n,k,m,...)`. -/
theorem arc_matmul_NN (n k m : Nat) (al be : ℚ) (A B C : Nat → ℚ) (i j : Nat)
    (hi : i < n) (hj : j < k) :
    arc_matmul trans_t.NN n k m al A B be C (i + j * n) =
      al * (Finset.sum (Finset.range m) fun x => A (i + x * n) * B (x + j * m)) +
        be * C (i + j * n) := by
  have hlt : i + j * n < n * k := by
    calc i + j * n < n + j * n := by omega
      _ = n * (j + 1) := by ring
      _ ≤ n * k := Nat.mul_le_mul_left n hj
  have hpos : 0 < n := by omega
  have hm : (i + j * n) % n = i := by
    rw [Nat.add_mul_mod_self_right, Nat.mod_eq_of_lt hi]
  have hd : (i + j * n) / n = j := by
    rw [Nat.add_mul_div_right _ _ hpos, Nat.div_eq_of_lt hi, Nat.zero_add]
  simp only [arc_matmul, if_pos hlt, hm, hd]

/-- Entry `(i,j)` of `arc_matmul("NT",n,k,m,...)`. -/
theorem arc_matmul_NT (n k m : Nat) (al be : ℚ) (A B C : Nat → ℚ) (i j : Nat)
    (hi : i < n) (hj : j < k) :
    arc_matmul trans_t.NT n k m al A B be C (i + j * n) =
      al * (Finset.sum (Finset.range m) fun x => A (i + x * n) * B (j + x * k)) +
        be * C (i + j * n) := by
  have hlt : i + j * n < n * k := by
    calc i + j * n < n + j * n := by omega
      _ = n * (j + 1) := by ring
      _ ≤ n * k := Nat.mul_le_mul_left n hj
  have hpos : 0 < n := by omega
  have hm : (i + j * n) % n = i := by
    rw [Nat.add_mul_mod_self_right, Nat.mod_eq_of_lt hi]
  have hd : (i + j * n) / n = j := by
    rw [Nat.add_mul_div_right _ _ hpos, Nat.div_eq_of_lt hi, Nat.zero_add]
  simp only [arc_matmul, if_pos hlt, hm, hd]

/-- Entry `(i,j)` of `arc_matmul("TN",n,k,m,...)`. -/
theorem arc_matmul_TN (n k m : Nat) (al be : ℚ) (A B C : Nat → ℚ) (i j : Nat)
    (hi : i < n) (hj : j < k) :
    arc_matmul trans_t.TN n k m al A B be C (i + j * n) =
      al * (Finset.sum (Finset.range m) fun x => A (x + i * m) * B (x + j * m)) +
        be * C (i + j * n) := by
  have hlt : i + j * n < n * k := by
    calc i + j * n < n + j * n := by omega
      _ = n * (j + 1) := by ring
      _ ≤ n * k := Nat.mul_le_mul_left n hj
  have hpos : 0 < n := by omega
  have hm : (i + j * n) % n = i := by
    rw [Nat.add_mul_mod_self_right, Nat.mod_eq_of_lt hi]
  have hd : (i + j * n) / n = j := by
    rw [Nat.add_mul_div_right _ _ hpos, Nat.div_eq_of_lt hi, Nat.zero_add]
  simp only [arc_matmul, if_pos hlt, hm, hd]

/-- A loop that writes `f i` to element `off+i` from the array itself. -/
theorem forN_write (n off : Nat) (f : Nat → (Nat → ℚ) → ℚ) (a0 : Nat → ℚ)
    (hf : ∀ i a, (∀ k, n ≤ k ∨ i ≤ k → a (off + k) = a0 (off + k)) → f i a = f i a0) :
    ∀ m, m ≤ n → (∀ k, k < m →
      forN m (fun i a => Function.update a (off + i) (f i a)) a0 (off + k) = f k a0) ∧
      (∀ k, (∀ j, j < m → k ≠ off + j) →
        forN m (fun i a => Function.update a (off + i) (f i a)) a0 k = a0 k) := by
  intro m
  induction m with
  | zero =>
    intro _
    exact ⟨fun k hk => absurd hk (Nat.not_lt_zero k), fun k _ => rfl⟩
  | succ m ih =>
    intro hm
    obtain ⟨ih1, ih2⟩ := ih (Nat.le_of_succ_le hm)
    have hfm : f m (forN m (fun i a => Function.update a (off + i) (f i a)) a0) = f m a0 := by
      apply hf
      intro k hk
      apply ih2
      intro j hj
      omega
    constructor
    · intro k hk
      rw [forN_succ]
      by_cases hkm : k = m
      · subst hkm
        simp only [Function.update_same]
        exact hfm
      · have hne : off + k ≠ off + m := by omega
        simp only [Function.update_noteq hne]
        exact ih1 k (by omega)
    · intro k hk
      rw [forN_succ]
      have hne : k ≠ off + m := hk m (Nat.lt_succ_self m)
      simp only [Function.update_noteq hne]
      exact ih2 k (fun j hj => hk j (Nat.lt_succ_of_lt hj))

/-- Two nested loops that fill the `n`-by-`m` column-major array `Q`. -/
theorem forN_fill (n m : Nat) (f : Nat → Nat → ℚ) (Q0 : Nat → ℚ) (a b : Nat)
    (ha : a < n) (hb : b < m) :
    forN n (fun i Q => forN m (fun j Q => Function.update Q (i + j * n) (f i j)) Q) Q0
      (a + b * n) = f a b := by
  have hn : 0 < n := by omega
  have inner : ∀ (i : Nat) (Q : Nat → ℚ) (l : Nat),
      (∀ j, j < l → forN l (fun j Q => Function.update Q (i + j * n) (f i j)) Q (i + j * n)
        = f i j) ∧
      (∀ k, (∀ j, j < l → k ≠ i + j * n) →
        forN l (fun j Q => Function.update Q (i + j * n) (f i j)) Q k = Q k) := by
    intro i Q l
    induction l with
    | zero => exact ⟨fun j hj => absurd hj (Nat.not_lt_zero j), fun k _ => rfl⟩
    | succ l ih =>
      obtain ⟨ih1, ih2⟩ := ih
      constructor
      · intro j hj
        rw [forN_succ]
        by_cases hjl : j = l
        · subst hjl
          simp only [Function.update_same]
        · have hne : i + j * n ≠ i + l * n := by
            intro h
            have h2 : j * n = l * n := by omega
            exact hjl (Nat.eq_of_mul_eq_mul_right hn h2)
          simp only [Function.update_noteq hne]
          exact ih1 j (by omega)
      · intro k hk
        rw [forN_succ]
        have hne : k ≠ i + l * n := hk l (Nat.lt_succ_self l)
        simp only [Function.update_noteq hne]
        exact ih2 k (fun j hj => hk j (Nat.lt_succ_of_lt hj))
  have outer : ∀ l, l ≤ n → ∀ a b, a < l → b < m →
      forN l (fun i Q => forN m (fun j Q => Function.update Q (i + j * n) (f i j)) Q) Q0
        (a + b * n) = f a b := by
    intro l
    induction l with
    | zero => intro _ a b ha; exact absurd ha (Nat.not_lt_zero a)
    | succ l ih =>
      intro hl a b ha hb
      rw [forN_succ]
      by_cases hal : a = l
      · subst hal
        exact (inner a _ m).1 b hb
      · rw [(inner l _ m).2]
        · exact ih (Nat.le_of_succ_le hl) a b (by omega) hb
        · intro j _ h
          exact hal (flat_inj (by omega) (by omega) h).1
  exact outer n (Nat.le_refl n) a b ha hb

/-- A loop that copies `g i` to element `i`. -/
theorem forN_copy (n : Nat) (g : Nat → ℚ) (a0 : Nat → ℚ) (k : Nat) :
    forN n (fun i a => Function.update a i (g i)) a0 k = if k < n then g k else a0 k := by
  induction n with
  | zero => simp [forN]
  | succ n ih =>
    rw [forN_succ]
    by_cases hk : k = n
    · subst hk
      simp
    · rw [Function.update_noteq hk, ih]
      by_cases hlt : k < n
      · rw [if_pos hlt, if_pos (by omega)]
      · rw [if_neg hlt, if_neg (by omega)]

theorem arc_resamb_in_frame (E : Env) (r : rtk_t) : ssat_only r (arc_resamb_in E r).rtk :=
  arc_ddmat_frame E r _

theorem resamb_y_congr {r0 r : rtk_t} (h : ssat_only r0 r) (D : Nat → ℚ) (nb : Nat)
    (y0 : Nat → ℚ) : resamb_y r D nb y0 = resamb_y r0 D nb y0 := by
  obtain ⟨h1, _, h3, h4, _⟩ := h
  simp only [resamb_y, h1, h3, h4]

theorem resamb_Qy_congr {r0 r : rtk_t} (h : ssat_only r0 r) (D : Nat → ℚ) (nb : Nat)
    (DP0 Qy0 : Nat → ℚ) : resamb_Qy r D nb DP0 Qy0 = resamb_Qy r0 D nb DP0 Qy0 := by
  obtain ⟨_, h2, h3, h4, _⟩ := h
  simp only [resamb_Qy, h2, h3, h4]

/-- The element of `y=D'*x` that `arc_resamb_LAMBDA` computes. -/
theorem resamb_y_apply (r : rtk_t) (D : Nat → ℚ) (nb : Nat) (y0 : Nat → ℚ) (i : Nat)
    (hi : i < r.na + nb) :
    resamb_y r D nb y0 i = Finset.sum (Finset.range r.nx) fun k => D (k + i * r.nx) * r.x k := by
  have h := arc_matmul_TN (r.na + nb) 1 r.nx 1 0 D r.x y0 i 0 hi (by decide)
  simp only [Nat.zero_mul, Nat.add_zero, one_mul, zero_mul, add_zero] at h
  exact h

/-- The element of `Qy=D'*P*D` that `arc_resamb_LAMBDA` computes. -/
theorem resamb_Qy_apply (r : rtk_t) (D : Nat → ℚ) (nb : Nat) (DP0 Qy0 : Nat → ℚ) (i j : Nat)
    (hi : i < r.na + nb) (hj : j < r.na + nb) :
    resamb_Qy r D nb DP0 Qy0 (i + j * (r.na + nb)) =
      Finset.sum (Finset.range r.nx) fun l =>
        (Finset.sum (Finset.range r.nx) fun k => D (k + i * r.nx) * r.P (k + l * r.nx)) *
          D (l + j * r.nx) := by
  unfold resamb_Qy
  rw [arc_matmul_NN _ _ _ _ _ _ _ _ i j hi hj]
  simp only [one_mul, zero_mul, add_zero]
  apply Finset.sum_congr rfl
  intro l hl
  rw [arc_matmul_TN _ _ _ _ _ _ _ _ i l hi (Finset.mem_range.mp hl)]
  simp only [one_mul, zero_mul, add_zero]

/-- The claim's `Dᵀ x` is the array `y` of the code. -/
theorem dd_y_eq (r : rtk_t) (D : Nat → ℚ) (nb : Nat) (y0 : Nat → ℚ)
    (i : Fin (r.na + nb)) :
    dd_y D r.x r.nx (r.na + nb) i = resamb_y r D nb y0 i.val := by
  rw [resamb_y_apply r D nb y0 i.val i.isLt]
  simp only [dd_y, Matrix.mulVec, Matrix.dotProduct, Matrix.transpose_apply, toMat, toVec]
  rw [Finset.sum_range]

/-- The claim's `Dᵀ P D` is the array `Qy` of the code. -/
theorem dd_Qy_eq (r : rtk_t) (D : Nat → ℚ) (nb : Nat) (DP0 Qy0 : Nat → ℚ)
    (i j : Fin (r.na + nb)) :
    dd_Qy D r.P r.nx (r.na + nb) i j =
      resamb_Qy r D nb DP0 Qy0 (i.val + j.val * (r.na + nb)) := by
  rw [resamb_Qy_apply r D nb DP0 Qy0 i.val j.val i.isLt j.isLt]
  simp only [dd_Qy, Matrix.mul_apply, Matrix.transpose_apply, toMat]
  rw [Finset.sum_range]
  apply Finset.sum_congr rfl
  intro l _
  rw [Finset.sum_range]

/-- Element `i` of `arc_matmul("NN",n,1,m,...)`. -/
theorem arc_matmul_NN_vec (n m : Nat) (al be : ℚ) (A B C : Nat → ℚ) (i : Nat) (hi : i < n) :
    arc_matmul trans_t.NN n 1 m al A B be C i =
      al * (Finset.sum (Finset.range m) fun x => A (i + x * n) * B x) + be * C i := by
  have h := arc_matmul_NN n 1 m al be A B C i 0 hi (by decide)
  simp only [Nat.zero_mul, Nat.add_zero] at h
  exact h

/-- The fixed real-parameter state that the accepted branch stores. -/
theorem arc_resamb_fixed_xa (E : Env) (r : rtk_t) (nb : Nat) (y Qb Qab b bias xa : Nat → ℚ)
    (h : (E.arc_matinv Qb nb).1 = 0) (i : Nat) (hi : i < r.na) :
    (arc_resamb_fixed E r nb y Qb Qab b bias xa).rtk.xa i =
      r.x i - Finset.sum (Finset.range nb) fun j => Qab (i + j * r.na) *
        Finset.sum (Finset.range nb) fun k =>
          (E.arc_matinv Qb nb).2 (j + k * nb) * (y (r.na + k) - b k) := by
  unfold arc_resamb_fixed
  simp only [if_pos h]
  rw [arc_matmul_NN_vec _ _ _ _ _ _ _ i hi, forN_copy, if_pos hi]
  have hdb : ∀ j, j ∈ Finset.range nb →
      Qab (i + j * r.na) * arc_matmul trans_t.NN nb 1 nb 1 (E.arc_matinv Qb nb).2
        (fun i => forN nb (fun i y => Function.update y (r.na + i) (y (r.na + i) - b i)) y
          (r.na + i)) 0 (E.arc_mat nb 1) j =
      Qab (i + j * r.na) * Finset.sum (Finset.range nb) fun k =>
          (E.arc_matinv Qb nb).2 (j + k * nb) * (y (r.na + k) - b k) := by
    intro j hj
    rw [arc_matmul_NN_vec _ _ _ _ _ _ _ j (Finset.mem_range.mp hj)]
    simp only [one_mul, zero_mul, add_zero]
    congr 1
    apply Finset.sum_congr rfl
    intro k hk
    have hw := (forN_write nb r.na (fun i a => a (r.na + i) - b i) y
      (fun i a ha => by
        show a (r.na + i) - b i = y (r.na + i) - b i
        rw [ha i (Or.inr (Nat.le_refl i))]) nb (Nat.le_refl nb)).1 k (Finset.mem_range.mp hk)
    rw [hw]
  rw [Finset.sum_congr rfl hdb]
  ring

/-- The fixed covariance that the accepted branch stores. -/
theorem arc_resamb_fixed_Pa (E : Env) (r : rtk_t) (nb : Nat) (y Qb Qab b bias xa : Nat → ℚ)
    (h : (E.arc_matinv Qb nb).1 = 0) (i j : Nat) (hi : i < r.na) (hj : j < r.na) :
    (arc_resamb_fixed E r nb y Qb Qab b bias xa).rtk.Pa (i + j * r.na) =
      r.P (i + j * r.nx) - Finset.sum (Finset.range nb) fun l =>
        (Finset.sum (Finset.range nb) fun k =>
          Qab (i + k * r.na) * (E.arc_matinv Qb nb).2 (k + l * nb)) * Qab (j + l * r.na) := by
  unfold arc_resamb_fixed
  simp only [if_pos h]
  rw [arc_matmul_NT _ _ _ _ _ _ _ _ i j hi hj,
    forN_fill r.na r.na (fun i j => r.P (i + j * r.nx)) r.Pa i j hi hj]
  have hq : ∀ l, l ∈ Finset.range nb →
      arc_matmul trans_t.NN r.na nb nb 1 Qab (E.arc_matinv Qb nb).2 0 (E.arc_mat r.na nb)
        (i + l * r.na) * Qab (j + l * r.na) =
      (Finset.sum (Finset.range nb) fun k =>
          Qab (i + k * r.na) * (E.arc_matinv Qb nb).2 (k + l * nb)) * Qab (j + l * r.na) := by
    intro l hl
    rw [arc_matmul_NN _ _ _ _ _ _ _ _ i l hi (Finset.mem_range.mp hl)]
    simp only [one_mul, zero_mul, add_zero]
  rw [Finset.sum_congr rfl hq]
  ring

/-- Under `resamb_accepts`, `arc_resamb_LAMBDA` is the accepted branch on the locals. -/
theorem arc_resamb_LAMBDA_accepts (E : Env) (rtk : rtk_t) (bias xa : Nat → ℚ)
    (hacc : resamb_accepts E rtk) :
    ∃ r2 : rtk_t, r2.x = rtk.x ∧ r2.P = rtk.P ∧ r2.nx = rtk.nx ∧ r2.na = rtk.na ∧
      arc_resamb_LAMBDA E rtk bias xa =
        arc_resamb_fixed E r2 (resamb_L E rtk).nb (resamb_L E rtk).y (resamb_L E rtk).Qb
          (resamb_L E rtk).Qab (resamb_L E rtk).lam.F bias xa := by
  obtain ⟨hg, hnb, hinfo, htest, _⟩ := hacc
  obtain ⟨f1, f2, f3, f4, f5, _, _, _⟩ := arc_resamb_in_frame E (resamb_rtk0 rtk)
  refine ⟨{ (resamb_L E rtk).rtk with sol := { (resamb_L E rtk).rtk.sol with
      ratio := (if (if (resamb_L E rtk).lam.s 0 > 0 then
          (resamb_L E rtk).lam.s 1 / (resamb_L E rtk).lam.s 0 else 0) > 9999 / 10
        then 9999 / 10
        else (if (resamb_L E rtk).lam.s 0 > 0 then
          (resamb_L E rtk).lam.s 1 / (resamb_L E rtk).lam.s 0 else 0)) } },
    f1, f2, f3, f4, ?_⟩
  have hg2 : ¬ ((resamb_rtk0 rtk).opt.mode ≤ PMODE_DGPS ∨
      (resamb_rtk0 rtk).opt.modear = ARMODE_OFF ∨ (resamb_rtk0 rtk).opt.thresar 0 < 1) := hg
  have hnb2 : ¬ (arc_resamb_in E (resamb_rtk0 rtk)).nb ≤ 0 := Nat.not_le.mpr hnb
  have hinfo2 : (arc_resamb_in E (resamb_rtk0 rtk)).lam.info = 0 := hinfo
  have htest2 : (arc_resamb_in E (resamb_rtk0 rtk)).lam.s 0 ≤ 0 ∨
      (arc_resamb_in E (resamb_rtk0 rtk)).lam.s 1 / (arc_resamb_in E (resamb_rtk0 rtk)).lam.s 0 ≥
        (arc_resamb_in E (resamb_rtk0 rtk)).rtk.opt.thresar 0 := by
    have e : (arc_resamb_in E (resamb_rtk0 rtk)).rtk.opt = rtk.opt := f5
    rw [e]
    exact htest
  unfold arc_resamb_LAMBDA
  simp only [if_neg hg2, if_neg hnb2, if_pos hinfo2, if_pos htest2]
  rfl

theorem resamb_L_y (E : Env) (rtk : rtk_t) (k : Fin (resamb_L E rtk).nb) :
    dd_bfloat (resamb_L E rtk).D rtk.x rtk.nx rtk.na (resamb_L E rtk).nb k =
      (resamb_L E rtk).y (rtk.na + k.val) := by
  have h := dd_y_eq (resamb_rtk0 rtk) (resamb_L E rtk).D (resamb_L E rtk).nb
    (E.arc_mat (rtk.na + (resamb_L E rtk).nb) 1) (Fin.natAdd rtk.na k)
  rw [← resamb_y_congr (arc_resamb_in_frame E (resamb_rtk0 rtk))] at h
  exact h

theorem resamb_L_Qy (E : Env) (rtk : rtk_t) (i j : Fin (rtk.na + (resamb_L E rtk).nb)) :
    dd_Qy (resamb_L E rtk).D rtk.P rtk.nx (rtk.na + (resamb_L E rtk).nb) i j =
      resamb_Qy (resamb_L E rtk).rtk (resamb_L E rtk).D (resamb_L E rtk).nb
        (E.arc_mat (rtk.na + (resamb_L E rtk).nb) rtk.nx)
        (E.arc_mat (rtk.na + (resamb_L E rtk).nb) (rtk.na + (resamb_L E rtk).nb))
        (i.val + j.val * (rtk.na + (resamb_L E rtk).nb)) := by
  have h := dd_Qy_eq (resamb_rtk0 rtk) (resamb_L E rtk).D (resamb_L E rtk).nb
    (E.arc_mat (rtk.na + (resamb_L E rtk).nb) rtk.nx)
    (E.arc_mat (rtk.na + (resamb_L E rtk).nb) (rtk.na + (resamb_L E rtk).nb)) i j
  rw [← resamb_Qy_congr (arc_resamb_in_frame E (resamb_rtk0 rtk))] at h
  exact h

theorem resamb_L_Qb (E : Env) (rtk : rtk_t) (i j : Fin (resamb_L E rtk).nb) :
    dd_Qb (resamb_L E rtk).D rtk.P rtk.nx rtk.na (resamb_L E rtk).nb i j =
      (resamb_L E rtk).Qb (i.val + j.val * (resamb_L E rtk).nb) := by
  have h := forN_fill (resamb_L E rtk).nb (resamb_L E rtk).nb
    (fun i j => resamb_Qy (resamb_L E rtk).rtk (resamb_L E rtk).D (resamb_L E rtk).nb
        (E.arc_mat (rtk.na + (resamb_L E rtk).nb) rtk.nx)
        (E.arc_mat (rtk.na + (resamb_L E rtk).nb) (rtk.na + (resamb_L E rtk).nb))
        (rtk.na + i + (rtk.na + j) * (rtk.na + (resamb_L E rtk).nb)))
    (E.arc_mat (resamb_L E rtk).nb (resamb_L E rtk).nb) i.val j.val i.isLt j.isLt
  refine Eq.trans ?_ h.symm
  exact resamb_L_Qy E rtk (Fin.natAdd rtk.na i) (Fin.natAdd rtk.na j)

theorem resamb_L_Qab (E : Env) (rtk : rtk_t) (i : Fin rtk.na) (j : Fin (resamb_L E rtk).nb) :
    dd_Qab (resamb_L E rtk).D rtk.P rtk.nx rtk.na (resamb_L E rtk).nb i j =
      (resamb_L E rtk).Qab (i.val + j.val * rtk.na) := by
  have h := forN_fill rtk.na (resamb_L E rtk).nb
    (fun i j => resamb_Qy (resamb_L E rtk).rtk (resamb_L E rtk).D (resamb_L E rtk).nb
        (E.arc_mat (rtk.na + (resamb_L E rtk).nb) rtk.nx)
        (E.arc_mat (rtk.na + (resamb_L E rtk).nb) (rtk.na + (resamb_L E rtk).nb))
        (i + (rtk.na + j) * (rtk.na + (resamb_L E rtk).nb)))
    (E.arc_mat rtk.na (resamb_L E rtk).nb) i.val j.val i.isLt j.isLt
  refine Eq.trans ?_ h.symm
  exact resamb_L_Qy E rtk (Fin.castAdd _ i) (Fin.natAdd rtk.na j)

/-- C3: when `arc_resamb_LAMBDA` accepts a fix (ambiguity resolution enabled,
`nb > 0`, `lambda` returned 0, the ratio test passed and `arc_matinv` returned 0
leaving the inverse of `Q_b`), the stored fixed state and covariance are
`xa = x[0..na) - Q_ab Q_b⁻¹ (b_float - b_fix)` and
`Pa = P[0..na,0..na) - Q_ab Q_b⁻¹ Q_abᵀ`, with `b_float` the ambiguity part of
`Dᵀ x`, `Q_b` and `Q_ab` the blocks of `Dᵀ P D` and `b_fix` the first candidate
returned by `lambda`. -/
theorem C3_fixed_solution (E : Env) (rtk : rtk_t) (bias xa : Nat → ℚ) (nx na nb : Nat)
    (hnx : rtk.nx = nx) (hna : rtk.na = na) (hnb : (resamb_L E rtk).nb = nb)
    (hacc : resamb_accepts E rtk)
    (hinv : toMat (resamb_Qbi E rtk) nb nb * dd_Qb (resamb_L E rtk).D rtk.P nx na nb = 1) :
    toVec (arc_resamb_LAMBDA E rtk bias xa).rtk.xa na =
      toVec rtk.x na -
        Matrix.mulVec
          (dd_Qab (resamb_L E rtk).D rtk.P nx na nb * (dd_Qb (resamb_L E rtk).D rtk.P nx na nb)⁻¹)
          (dd_bfloat (resamb_L E rtk).D rtk.x nx na nb - toVec (resamb_L E rtk).lam.F nb) ∧
    toMat (arc_resamb_LAMBDA E rtk bias xa).rtk.Pa na na =
      P_block rtk.P nx na -
        dd_Qab (resamb_L E rtk).D rtk.P nx na nb * (dd_Qb (resamb_L E rtk).D rtk.P nx na nb)⁻¹ *
          Matrix.transpose (dd_Qab (resamb_L E rtk).D rtk.P nx na nb) := by
  subst hnx hna hnb
  obtain ⟨r2, e1, e2, e3, e4, e⟩ := arc_resamb_LAMBDA_accepts E rtk bias xa hacc
  have hmi := hacc.2.2.2.2
  have hI := Matrix.inv_eq_left_inv hinv
  constructor
  · funext i
    have hi : i.val < r2.na := by rw [e4]; exact i.isLt
    rw [e, hI, ← Matrix.mulVec_mulVec]
    simp only [toVec, Pi.sub_apply, Matrix.mulVec, Matrix.dotProduct]
    rw [arc_resamb_fixed_xa E r2 _ _ _ _ _ bias xa hmi i.val hi, e1, e4]
    congr 1
    rw [Finset.sum_range]
    apply Finset.sum_congr rfl
    intro j _
    rw [resamb_L_Qab]
    congr 1
    rw [Finset.sum_range]
    apply Finset.sum_congr rfl
    intro k _
    rw [resamb_L_y]
    rfl
  · funext i j
    have hi : i.val < r2.na := by rw [e4]; exact i.isLt
    have hj : j.val < r2.na := by rw [e4]; exact j.isLt
    rw [e, hI]
    simp only [toMat, P_block, Matrix.sub_apply, Matrix.mul_apply, Matrix.transpose_apply]
    have h := arc_resamb_fixed_Pa E r2 (resamb_L E rtk).nb (resamb_L E rtk).y (resamb_L E rtk).Qb
      (resamb_L E rtk).Qab (resamb_L E rtk).lam.F bias xa hmi i.val j.val hi hj
    rw [e4, e2, e3] at h
    rw [h]
    congr 1
    rw [Finset.sum_range]
    apply Finset.sum_congr rfl
    intro l _
    rw [resamb_L_Qab, Finset.sum_range]
    congr 1
    apply Finset.sum_congr rfl
    intro k _
    rw [resamb_L_Qab]
    rfl


set_option maxRecDepth 8000 in
theorem resamb_L_nb (s0 s1 : ℚ) : (resamb_L (E_lam s0 s1) rtkL).nb = 1 := by
  simp [resamb_L, arc_resamb_in, arc_ddmat, forN, arc_ddmat_ref, arc_ddmat_col, arc_test_sys,
    E_lam, E0, resamb_rtk0, rtkL, rtk0, opt0, ssat0, SYS_GPS, SYS_SBS, SYS_GAL, SYS_CMP,
    Function.update]

set_option maxRecDepth 8000 in
theorem resamb_L_D (s0 s1 : ℚ) : (resamb_L (E_lam s0 s1) rtkL).D =
      Function.update (Function.update (Function.update (Function.update (Function.update
        (arc_zeros 5 5) 0 1) 6 1) 12 1) 18 1) 19 (-1) := by
  simp [resamb_L, arc_resamb_in, arc_ddmat, forN, arc_ddmat_ref, arc_ddmat_col, arc_test_sys,
    E_lam, E0, resamb_rtk0, rtkL, rtk0, opt0, ssat0, SYS_GPS, SYS_SBS, SYS_GAL, SYS_CMP]

theorem resamb_L_lam (s0 s1 : ℚ) : (resamb_L (E_lam s0 s1) rtkL).lam =
    { info := 0, F := fun _ => 1, s := fun k => if k = 0 then s0 else s1 } := by
  simp only [resamb_L, arc_resamb_in, E_lam]


theorem dd_Qb_eq (E : Env) (rtk : rtk_t) (nb : Nat) (hnb : (resamb_L E rtk).nb = nb)
    (i j : Fin nb) :
    dd_Qb (resamb_L E rtk).D rtk.P rtk.nx rtk.na nb i j =
      (resamb_L E rtk).Qb (i.val + j.val * nb) := by
  subst hnb
  exact resamb_L_Qb E rtk i j

set_option maxRecDepth 8000 in
theorem rtkL_Qb (s0 s1 : ℚ) (i j : Fin 1) :
    dd_Qb (resamb_L (E_lam s0 s1) rtkL).D rtkL.P 5 3 1 i j = 2 := by
  rw [resamb_L_D]
  simp only [dd_Qb, dd_Qy, Matrix.mul_apply, Matrix.transpose_apply, toMat, Fin.sum_univ_succ,
    Fin.sum_univ_zero, Fin.coe_natAdd, Fin.val_zero, Fin.val_succ, Fin.val_eq_zero]
  norm_num [Function.update, arc_zeros, rtkL, rtk0]

theorem rtkL_accepts (s0 s1 : ℚ) (h : s0 ≤ 0 ∨ s1 / s0 ≥ 3) :
    resamb_accepts (E_lam s0 s1) rtkL := by
  refine ⟨?_, ?_, ?_, ?_, ?_⟩
  · norm_num [rtkL, rtk0, opt0, PMODE_DGPS, PMODE_KINEMA, ARMODE_OFF]
  · rw [resamb_L_nb]
    decide
  · rw [resamb_L_lam]
  · rw [resamb_L_lam]
    exact h
  · rfl

theorem rtkL_Qb0 (s0 s1 : ℚ) : (resamb_L (E_lam s0 s1) rtkL).Qb 0 = 2 := by
  have h := dd_Qb_eq (E_lam s0 s1) rtkL 1 (resamb_L_nb s0 s1) 0 0
  rw [show rtkL.nx = 5 from rfl, show rtkL.na = 3 from rfl, rtkL_Qb] at h
  simpa using h.symm

theorem rtkL_inv (s0 s1 : ℚ) :
    toMat (resamb_Qbi (E_lam s0 s1) rtkL) 1 1 *
      dd_Qb (resamb_L (E_lam s0 s1) rtkL).D rtkL.P 5 3 1 = 1 := by
  funext i j
  have hi : i = 0 := Subsingleton.elim _ _
  have hj : j = 0 := Subsingleton.elim _ _
  subst hi hj
  have hq : resamb_Qbi (E_lam s0 s1) rtkL 0 = 1 / (resamb_L (E_lam s0 s1) rtkL).Qb 0 := rfl
  simp only [Matrix.mul_apply, Fin.sum_univ_succ, Fin.sum_univ_zero, rtkL_Qb, toMat,
    Fin.val_zero, Nat.zero_mul, Nat.add_zero, hq, rtkL_Qb0]
  norm_num

/-- The theorem C3 at `rtkL`, with the norms 1 and 4 reported by the search. -/
theorem C3_fixed_solution_witness :
    resamb_accepts (E_lam 1 4) rtkL ∧
    (toVec (arc_resamb_LAMBDA (E_lam 1 4) rtkL (fun _ => 0) (fun _ => 0)).rtk.xa 3 =
      toVec rtkL.x 3 -
        Matrix.mulVec
          (dd_Qab (resamb_L (E_lam 1 4) rtkL).D rtkL.P 5 3 1 *
            (dd_Qb (resamb_L (E_lam 1 4) rtkL).D rtkL.P 5 3 1)⁻¹)
          (dd_bfloat (resamb_L (E_lam 1 4) rtkL).D rtkL.x 5 3 1 -
            toVec (resamb_L (E_lam 1 4) rtkL).lam.F 1) ∧
    toMat (arc_resamb_LAMBDA (E_lam 1 4) rtkL (fun _ => 0) (fun _ => 0)).rtk.Pa 3 3 =
      P_block rtkL.P 5 3 -
        dd_Qab (resamb_L (E_lam 1 4) rtkL).D rtkL.P 5 3 1 *
          (dd_Qb (resamb_L (E_lam 1 4) rtkL).D rtkL.P 5 3 1)⁻¹ *
          Matrix.transpose (dd_Qab (resamb_L (E_lam 1 4) rtkL).D rtkL.P 5 3 1)) :=
  ⟨rtkL_accepts 1 4 (Or.inr (by norm_num)),
    C3_fixed_solution (E_lam 1 4) rtkL (fun _ => 0) (fun _ => 0) 5 3 1 rfl rfl
      (resamb_L_nb 1 4) (rtkL_accepts 1 4 (Or.inr (by norm_num))) (rtkL_inv 1 4)⟩

/-- The count that the accepted branch returns. -/
theorem arc_resamb_fixed_nb (E : Env) (r : rtk_t) (nb : Nat) (y Qb Qab b bias xa : Nat → ℚ)
    (h : (E.arc_matinv Qb nb).1 = 0) :
    (arc_resamb_fixed E r nb y Qb Qab b bias xa).nb = nb := by
  unfold arc_resamb_fixed
  simp only [if_pos h]

/-- C4 (amended): for a search result (`lambda` returned 0), `arc_resamb_LAMBDA`
returns a positive ambiguity count only if `s[0] <= 0` or the ratio
`s[1]/s[0]` is at least `thresar[0]`; and for every search result with
`s[0] > 0` and a smaller ratio it returns 0 and leaves `rtk->xa`, `rtk->Pa` and
the array `xa` as they were. -/
theorem C4_ratio_test (E : Env) (rtk : rtk_t) (bias xa : Nat → ℚ)
    (hinfo : (resamb_L E rtk).lam.info = 0) :
    (0 < (arc_resamb_LAMBDA E rtk bias xa).nb →
      (resamb_L E rtk).lam.s 0 ≤ 0 ∨
        (resamb_L E rtk).lam.s 1 / (resamb_L E rtk).lam.s 0 ≥ rtk.opt.thresar 0) ∧
    (0 < (resamb_L E rtk).lam.s 0 →
      (resamb_L E rtk).lam.s 1 / (resamb_L E rtk).lam.s 0 < rtk.opt.thresar 0 →
      (arc_resamb_LAMBDA E rtk bias xa).nb = 0 ∧
      (arc_resamb_LAMBDA E rtk bias xa).rtk.xa = rtk.xa ∧
      (arc_resamb_LAMBDA E rtk bias xa).rtk.Pa = rtk.Pa ∧
      (arc_resamb_LAMBDA E rtk bias xa).xa = xa) := by
  obtain ⟨_, _, _, _, f5, f6, f7, _⟩ := arc_resamb_in_frame E (resamb_rtk0 rtk)
  have hinfo2 : (arc_resamb_in E (resamb_rtk0 rtk)).lam.info = 0 := hinfo
  have hthr : (arc_resamb_in E (resamb_rtk0 rtk)).rtk.opt.thresar 0 = rtk.opt.thresar 0 := by
    rw [f5]
    rfl
  constructor
  · intro hpos
    by_contra hcon
    have htest : ¬ ((arc_resamb_in E (resamb_rtk0 rtk)).lam.s 0 ≤ 0 ∨
        (arc_resamb_in E (resamb_rtk0 rtk)).lam.s 1 /
          (arc_resamb_in E (resamb_rtk0 rtk)).lam.s 0 ≥
          (arc_resamb_in E (resamb_rtk0 rtk)).rtk.opt.thresar 0) := by
      rw [hthr]
      exact hcon
    unfold arc_resamb_LAMBDA at hpos
    simp only [if_pos hinfo2, if_neg htest] at hpos
    split at hpos
    · exact absurd hpos (Nat.lt_irrefl 0)
    · split at hpos
      · exact absurd hpos (Nat.lt_irrefl 0)
      · exact absurd hpos (Nat.lt_irrefl 0)
  · intro h0 hlt
    have htest : ¬ ((arc_resamb_in E (resamb_rtk0 rtk)).lam.s 0 ≤ 0 ∨
        (arc_resamb_in E (resamb_rtk0 rtk)).lam.s 1 /
          (arc_resamb_in E (resamb_rtk0 rtk)).lam.s 0 ≥
          (arc_resamb_in E (resamb_rtk0 rtk)).rtk.opt.thresar 0) := by
      rw [hthr]
      intro h
      rcases h with h | h
      · exact absurd h0 (not_lt.mpr h)
      · exact absurd hlt (not_lt.mpr h)
    unfold arc_resamb_LAMBDA
    simp only [if_pos hinfo2, if_neg htest]
    split
    · exact ⟨rfl, rfl, rfl, rfl⟩
    · split
      · exact ⟨rfl, f6, f7, rfl⟩
      · exact ⟨rfl, f6, f7, rfl⟩

set_option maxRecDepth 8000 in
/-- The theorem C4 at `rtkL`: with the norms 1 and 4 the count 1 is returned and
the ratio 4 is at least the threshold 3; with the norms 1 and 2 the ratio
2 is below the threshold and 0 is returned. -/
theorem C4_ratio_test_witness :
    ((resamb_L (E_lam 1 4) rtkL).lam.info = 0 ∧
      0 < (arc_resamb_LAMBDA (E_lam 1 4) rtkL (fun _ => 0) (fun _ => 0)).nb ∧
      ((resamb_L (E_lam 1 4) rtkL).lam.s 0 ≤ 0 ∨
        (resamb_L (E_lam 1 4) rtkL).lam.s 1 / (resamb_L (E_lam 1 4) rtkL).lam.s 0 ≥
          rtkL.opt.thresar 0)) ∧
    ((resamb_L (E_lam 1 2) rtkL).lam.info = 0 ∧ 0 < (resamb_L (E_lam 1 2) rtkL).lam.s 0 ∧
      (resamb_L (E_lam 1 2) rtkL).lam.s 1 / (resamb_L (E_lam 1 2) rtkL).lam.s 0 <
        rtkL.opt.thresar 0 ∧
      (arc_resamb_LAMBDA (E_lam 1 2) rtkL (fun _ => 0) (fun _ => 0)).nb = 0 ∧
      (arc_resamb_LAMBDA (E_lam 1 2) rtkL (fun _ => 0) (fun _ => 0)).rtk.xa = rtkL.xa ∧
      (arc_resamb_LAMBDA (E_lam 1 2) rtkL (fun _ => 0) (fun _ => 0)).rtk.Pa = rtkL.Pa ∧
      (arc_resamb_LAMBDA (E_lam 1 2) rtkL (fun _ => 0) (fun _ => 0)).xa = fun _ => 0) := by
  have hnb : 0 < (arc_resamb_LAMBDA (E_lam 1 4) rtkL (fun _ => 0) (fun _ => 0)).nb := by
    have hacc := rtkL_accepts 1 4 (Or.inr (by norm_num))
    obtain ⟨r2, _, _, _, _, e⟩ :=
      arc_resamb_LAMBDA_accepts (E_lam 1 4) rtkL (fun _ => 0) (fun _ => 0) hacc
    rw [e, arc_resamb_fixed_nb _ _ _ _ _ _ _ _ _ hacc.2.2.2.2, resamb_L_nb]
    decide
  have h0 : (resamb_L (E_lam 1 4) rtkL).lam.info = 0 := by rw [resamb_L_lam]
  have h1 : (resamb_L (E_lam 1 2) rtkL).lam.info = 0 := by rw [resamb_L_lam]
  have h2 : 0 < (resamb_L (E_lam 1 2) rtkL).lam.s 0 := by
    rw [resamb_L_lam]
    norm_num
  have h3 : (resamb_L (E_lam 1 2) rtkL).lam.s 1 / (resamb_L (E_lam 1 2) rtkL).lam.s 0 <
      rtkL.opt.thresar 0 := by
    rw [resamb_L_lam]
    norm_num [rtkL, rtk0, opt0]
  exact ⟨⟨h0, hnb, (C4_ratio_test (E_lam 1 4) rtkL (fun _ => 0) (fun _ => 0) h0).1 hnb⟩,
    h1, h2, h3, (C4_ratio_test (E_lam 1 2) rtkL (fun _ => 0) (fun _ => 0) h1).2 h2 h3⟩


theorem dd_Qab_eq (E : Env) (rtk : rtk_t) (nb : Nat) (hnb : (resamb_L E rtk).nb = nb)
    (i : Fin rtk.na) (j : Fin nb) :
    dd_Qab (resamb_L E rtk).D rtk.P rtk.nx rtk.na nb i j =
      (resamb_L E rtk).Qab (i.val + j.val * rtk.na) := by
  subst hnb
  exact resamb_L_Qab E rtk i j

theorem dd_bfloat_eq (E : Env) (rtk : rtk_t) (nb : Nat) (hnb : (resamb_L E rtk).nb = nb)
    (k : Fin nb) :
    dd_bfloat (resamb_L E rtk).D rtk.x rtk.nx rtk.na nb k =
      (resamb_L E rtk).y (rtk.na + k.val) := by
  subst hnb
  exact resamb_L_y E rtk k

set_option maxRecDepth 8000 in
theorem rtkL_Qab0 (s0 s1 : ℚ) : (resamb_L (E_lam s0 s1) rtkL).Qab 0 = 1 / 2 := by
  have h : dd_Qab (resamb_L (E_lam s0 s1) rtkL).D rtkL.P 5 3 1 0 0 =
      (resamb_L (E_lam s0 s1) rtkL).Qab (0 + 0 * 3) :=
    dd_Qab_eq (E_lam s0 s1) rtkL 1 (resamb_L_nb s0 s1) ⟨0, by decide⟩ 0
  simp only [Nat.zero_mul, Nat.add_zero] at h
  rw [← h, resamb_L_D]
  simp only [dd_Qab, dd_Qy, Matrix.mul_apply, Matrix.transpose_apply, toMat, Fin.sum_univ_succ,
    Fin.sum_univ_zero, Fin.coe_natAdd, Fin.coe_castAdd, Fin.val_zero, Fin.val_succ,
    Fin.val_eq_zero]
  norm_num [Function.update, arc_zeros, rtkL, rtk0]

set_option maxRecDepth 8000 in
theorem rtkL_y3 (s0 s1 : ℚ) : (resamb_L (E_lam s0 s1) rtkL).y 3 = -1 := by
  have h : dd_bfloat (resamb_L (E_lam s0 s1) rtkL).D rtkL.x 5 3 1 0 =
      (resamb_L (E_lam s0 s1) rtkL).y (3 + 0) :=
    dd_bfloat_eq (E_lam s0 s1) rtkL 1 (resamb_L_nb s0 s1) 0
  simp only [Nat.add_zero] at h
  rw [← h, resamb_L_D]
  simp only [dd_bfloat, dd_y, Matrix.mulVec, Matrix.dotProduct, Matrix.transpose_apply, toMat,
    toVec, Fin.sum_univ_succ, Fin.sum_univ_zero, Fin.coe_natAdd, Fin.val_zero, Fin.val_succ,
    Fin.val_eq_zero]
  norm_num [Function.update, arc_zeros, rtkL, rtk0]

theorem arc_resamb_fixed_sol (E : Env) (r : rtk_t) (nb : Nat) (y Qb Qab b bias xa : Nat → ℚ) :
    (arc_resamb_fixed E r nb y Qb Qab b bias xa).rtk.sol = r.sol := by
  unfold arc_resamb_fixed
  dsimp only
  split <;> rfl

/-- The ratio that `arc_resamb_LAMBDA` records when it accepts. -/
theorem arc_resamb_LAMBDA_ratio (E : Env) (rtk : rtk_t) (bias xa : Nat → ℚ)
    (hacc : resamb_accepts E rtk) :
    (arc_resamb_LAMBDA E rtk bias xa).rtk.sol.ratio =
      (if (if (resamb_L E rtk).lam.s 0 > 0 then
          (resamb_L E rtk).lam.s 1 / (resamb_L E rtk).lam.s 0 else 0) > 9999 / 10
        then 9999 / 10
        else (if (resamb_L E rtk).lam.s 0 > 0 then
          (resamb_L E rtk).lam.s 1 / (resamb_L E rtk).lam.s 0 else 0)) := by
  obtain ⟨hg, hnb, hinfo, htest, _⟩ := hacc
  obtain ⟨_, _, _, _, f5, _, _, _⟩ := arc_resamb_in_frame E (resamb_rtk0 rtk)
  have hg2 : ¬ ((resamb_rtk0 rtk).opt.mode ≤ PMODE_DGPS ∨
      (resamb_rtk0 rtk).opt.modear = ARMODE_OFF ∨ (resamb_rtk0 rtk).opt.thresar 0 < 1) := hg
  have hnb2 : ¬ (arc_resamb_in E (resamb_rtk0 rtk)).nb ≤ 0 := Nat.not_le.mpr hnb
  have hinfo2 : (arc_resamb_in E (resamb_rtk0 rtk)).lam.info = 0 := hinfo
  have htest2 : (arc_resamb_in E (resamb_rtk0 rtk)).lam.s 0 ≤ 0 ∨
      (arc_resamb_in E (resamb_rtk0 rtk)).lam.s 1 / (arc_resamb_in E (resamb_rtk0 rtk)).lam.s 0 ≥
        (arc_resamb_in E (resamb_rtk0 rtk)).rtk.opt.thresar 0 := by
    have e : (arc_resamb_in E (resamb_rtk0 rtk)).rtk.opt = rtk.opt := f5
    rw [e]
    exact htest
  unfold arc_resamb_LAMBDA
  simp only [if_neg hg2, if_neg hnb2, if_pos hinfo2, if_pos htest2, arc_resamb_fixed_sol]
  rfl

/-- C4, counterexample: `lambda` reports success with the squared norms
`s = (0,0)` and the threshold `thresar[0]` is 3; the test
`s[0]<=0.0||s[1]/s[0]>=opt->thresar[0]` passes on its first disjunct, so
`arc_resamb_LAMBDA` returns the count 1, records the ratio 0 and writes the
fixed state (`xa[0]` becomes 1/2), although no ratio of at least 3 exists. -/
theorem C4_counterexample :
    (resamb_L (E_lam 0 0) rtkL).lam.info = 0 ∧
    (resamb_L (E_lam 0 0) rtkL).lam.s 0 = 0 ∧ (resamb_L (E_lam 0 0) rtkL).lam.s 1 = 0 ∧
    rtkL.opt.thresar 0 = 3 ∧
    ¬ ((resamb_L (E_lam 0 0) rtkL).lam.s 1 / (resamb_L (E_lam 0 0) rtkL).lam.s 0 ≥
      rtkL.opt.thresar 0) ∧
    (arc_resamb_LAMBDA (E_lam 0 0) rtkL (fun _ => 0) (fun _ => 0)).nb = 1 ∧
    (arc_resamb_LAMBDA (E_lam 0 0) rtkL (fun _ => 0) (fun _ => 0)).rtk.sol.ratio = 0 ∧
    rtkL.xa 0 = 0 ∧
    (arc_resamb_LAMBDA (E_lam 0 0) rtkL (fun _ => 0) (fun _ => 0)).rtk.xa 0 = 1 / 2 := by
  have hacc := rtkL_accepts 0 0 (Or.inl (le_refl 0))
  obtain ⟨r2, e1, _, _, e4, e⟩ :=
    arc_resamb_LAMBDA_accepts (E_lam 0 0) rtkL (fun _ => 0) (fun _ => 0) hacc
  have hthr : rtkL.opt.thresar 0 = 3 := rfl
  have hna : r2.na = 3 := e4
  have hx : r2.x 0 = 0 := by
    rw [e1]
    norm_num [rtkL]
  have hq : (E_lam 0 0).arc_matinv (resamb_L (E_lam 0 0) rtkL).Qb 1 =
      (0, fun k => if k = 0 then 1 / (resamb_L (E_lam 0 0) rtkL).Qb 0
        else (resamb_L (E_lam 0 0) rtkL).Qb k) := rfl
  refine ⟨by rw [resamb_L_lam], by rw [resamb_L_lam]; rfl, by rw [resamb_L_lam]; rfl, hthr,
    ?_, ?_, ?_, rfl, ?_⟩
  · rw [resamb_L_lam, hthr]
    norm_num
  · rw [e, arc_resamb_fixed_nb _ _ _ _ _ _ _ _ _ hacc.2.2.2.2, resamb_L_nb]
  · rw [arc_resamb_LAMBDA_ratio _ _ _ _ hacc, resamb_L_lam]
    norm_num
  · rw [e, arc_resamb_fixed_xa _ _ _ _ _ _ _ _ _ hacc.2.2.2.2 0 (by rw [hna]; decide)]
    simp only [resamb_L_nb, hna, hx, Finset.sum_range_one, Nat.zero_mul, Nat.add_zero, hq,
      if_true, rtkL_Qab0, rtkL_Qb0, rtkL_y3, resamb_L_lam]
    norm_num

/-! ## Relative positioning -/

/-- What `arc_relpos` has changed in the control struct when the base-station
residuals are done: the members `sys`, `vsat`, `snr` of the tracks only. -/
theorem arc_relpos_base_frame (E : Env) (rtk : rtk_t) (obs : Nat → obsd_t) (nu nr : Nat)
    (nav : nav_t) :
    (arc_relpos_base E rtk obs nu nr nav).rtk.x = rtk.x ∧
    (arc_relpos_base E rtk obs nu nr nav).rtk.P = rtk.P ∧
    (arc_relpos_base E rtk obs nu nr nav).rtk.nx = rtk.nx ∧
    (arc_relpos_base E rtk obs nu nr nav).rtk.opt = rtk.opt ∧
    (arc_relpos_base E rtk obs nu nr nav).rtk.sol = rtk.sol ∧
    (arc_relpos_base E rtk obs nu nr nav).rtk.rb = rtk.rb ∧
    (arc_relpos_base E rtk obs nu nr nav).rtk.tt = rtk.tt ∧
    (∀ i, ((arc_relpos_base E rtk obs nu nr nav).rtk.ssat i).outc = (rtk.ssat i).outc) ∧
    (∀ i, i < E.MAXSAT →
      ((arc_relpos_base E rtk obs nu nr nav).rtk.ssat i).sys = E.satsys (i + 1)) := by
  unfold arc_relpos_base
  dsimp only
  have h := forN_inv_idx (fun (n : Nat) (r : rtk_t) => r.x = rtk.x ∧ r.P = rtk.P ∧
      r.nx = rtk.nx ∧ r.opt = rtk.opt ∧ r.sol = rtk.sol ∧ r.rb = rtk.rb ∧ r.tt = rtk.tt ∧
      (∀ i, (r.ssat i).outc = (rtk.ssat i).outc) ∧
      (∀ i, i < n → (r.ssat i).sys = E.satsys (i + 1))) E.MAXSAT
    (fun i r =>
      { r with ssat := (Function.update r.ssat i
          { r.ssat i with sys := E.satsys (i + 1)
                          vsat := Function.update (r.ssat i).vsat 0 0
                          snr := Function.update (r.ssat i).snr 0 0 }) }) rtk
    ⟨rfl, rfl, rfl, rfl, rfl, rfl, rfl, fun _ => rfl, fun i hi => absurd hi (Nat.not_lt_zero i)⟩
    (by
      intro i r _ ⟨h1, h2, h3, h4, h5, h6, h7, h8, h9⟩
      refine ⟨h1, h2, h3, h4, h5, h6, h7, ?_, ?_⟩
      · intro k
        by_cases hk : k = i
        · subst hk
          simp only [Function.update_same]
          exact h8 k
        · simp only [Function.update_noteq hk]
          exact h8 k
      · intro k hk
        by_cases hki : k = i
        · subst hki
          simp only [Function.update_same]
        · simp only [Function.update_noteq hki]
          exact h9 k (by omega))
  exact h

/-- The loop of `arc_selsat` records nothing when every base-side elevation is
below the mask. -/
theorem arc_selsat_loop_low (obs : Nat → obsd_t) (azel : Nat → ℚ) (nu nr : Nat) (elmin : ℚ)
    (hlow : ∀ j, nu ≤ j → j < nu + nr → azel (1 + j * 2) < elmin) (i j : Nat) (o : selsat_t)
    (hj : nu ≤ j) : (arc_selsat_loop obs azel nu nr elmin i j o).k = o.k := by
  induction i, j, o using arc_selsat_loop.induct obs azel nu nr elmin with
  | case1 i j o hc hlt ih =>
    rw [arc_selsat_loop, if_pos hc, if_pos hlt]
    exact ih hj
  | case2 i j o hc hlt hgt ih =>
    rw [arc_selsat_loop, if_pos hc, if_neg hlt, if_pos hgt]
    exact ih (by omega)
  | case3 i j o hc hlt hgt hel ih =>
    exact absurd hel (not_le.mpr (hlow j hj hc.2))
  | case4 i j o hc hlt hgt hel ih =>
    rw [arc_selsat_loop, if_pos hc, if_neg hlt, if_neg hgt, if_neg hel]
    exact ih (by omega)
  | case5 i j o hc =>
    rw [arc_selsat_loop, if_neg hc]

/-- With every base-side elevation below `elmin`, `arc_relpos` selects no common
satellite. -/
theorem arc_relpos_sel_low (E : Env) (rtk : rtk_t) (obs : Nat → obsd_t) (nu nr : Nat)
    (nav : nav_t)
    (hlow : ∀ j, nu ≤ j → j < nu + nr →
      (arc_relpos_base E rtk obs nu nr nav).azel (1 + j * 2) < rtk.opt.elmin) :
    (arc_relpos_sel E rtk obs nu nr nav).k = 0 := by
  unfold arc_relpos_sel arc_selsat
  exact arc_selsat_loop_low obs _ nu nr _ hlow 0 nu _ (Nat.le_refl nu)

/-- Without a common satellite `arc_relpos` returns 0 with the control struct
as it is after the base-station residuals. -/
theorem arc_relpos_no_common (E : Env) (st : intpres_static_t) (rtk : rtk_t)
    (obs : Nat → obsd_t) (nu nr : Nat) (nav : nav_t)
    (h : (arc_relpos_sel E rtk obs nu nr nav).k = 0) :
    (arc_relpos E st rtk obs nu nr nav).ret = 0 ∧
    (arc_relpos E st rtk obs nu nr nav).rtk = (arc_relpos_base E rtk obs nu nr nav).rtk := by
  have hk : (arc_relpos_sel E rtk obs nu nr nav).k ≤ 0 := by rw [h]
  by_cases hb : (arc_relpos_base E rtk obs nu nr nav).ret = 0
  · have e : arc_relpos E st rtk obs nu nr nav =
        { ret := 0, rtk := (arc_relpos_base E rtk obs nu nr nav).rtk, st := st } := by
      delta arc_relpos
      exact if_pos hb
    rw [e]
    exact ⟨rfl, rfl⟩
  · have e : arc_relpos E st rtk obs nu nr nav =
        { ret := 0, rtk := (arc_relpos_base E rtk obs nu nr nav).rtk,
          st := (arc_relpos_intp E st rtk obs nu nr nav).st } := by
      delta arc_relpos
      exact (if_neg hb).trans (if_pos hk)
    rw [e]
    exact ⟨rfl, rfl⟩

/-- C6: when no satellite is selected as common, in particular when every
base-side elevation is below `elmin`, `arc_relpos` returns 0 and leaves the
state vector `x` and the covariance `P` exactly as they were on entry. -/
theorem C6_no_common_satellite (E : Env) (st : intpres_static_t) (rtk : rtk_t)
    (obs : Nat → obsd_t) (nu nr : Nat) (nav : nav_t)
    (h : (arc_relpos_sel E rtk obs nu nr nav).k = 0 ∨
      ∀ j, nu ≤ j → j < nu + nr →
        (arc_relpos_base E rtk obs nu nr nav).azel (1 + j * 2) < rtk.opt.elmin) :
    (arc_relpos E st rtk obs nu nr nav).ret = 0 ∧
    (arc_relpos E st rtk obs nu nr nav).rtk.x = rtk.x ∧
    (arc_relpos E st rtk obs nu nr nav).rtk.P = rtk.P := by
  have hk : (arc_relpos_sel E rtk obs nu nr nav).k = 0 := by
    rcases h with h | h
    · exact h
    · exact arc_relpos_sel_low E rtk obs nu nr nav h
  obtain ⟨hr, he⟩ := arc_relpos_no_common E st rtk obs nu nr nav hk
  obtain ⟨hx, hP, _⟩ := arc_relpos_base_frame E rtk obs nu nr nav
  rw [he]
  exact ⟨hr, hx, hP⟩

/-- The elevations that `arc_zdres` leaves stay below a bound on the initial
array and the results of `satazel`. -/
theorem arc_zdres_azel_lt (E : Env) (base : Nat) (obs : Nat → obsd_t) (n : Nat)
    (rs dts : Nat → ℚ) (svh : Nat → Int) (nav : nav_t) (rr : Nat → ℚ) (opt : prcopt_t)
    (index : Nat) (y e azel : Nat → ℚ) (c : ℚ) (h0 : ∀ k, azel k < c)
    (hsat : ∀ p e a k, (E.satazel p e a).2 k < c) :
    ∀ k, (arc_zdres E base obs n rs dts svh nav rr opt index y e azel).azel k < c := by
  unfold arc_zdres
  dsimp only
  split
  · exact h0
  · refine forN_inv (fun s : zdres_t => ∀ k, s.azel k < c) _ _ _ h0 ?_
    intro i s _ hs
    unfold arc_zdres_obs
    lift_lets
    intro nf g e1 s1 a azel1 s2 r1 zhd r2 ic dant ys
    have ha : ∀ k, azel1 k < c := by
      intro k
      show (if i * 2 ≤ k ∧ k < i * 2 + 2 then a.2 (k - i * 2) else s.azel k) < c
      split
      · exact hsat _ _ _ _
      · exact hs k
    split
    · exact hs
    · split
      · exact ha
      · split
        · exact ha
        · split
          · exact ha
          · exact ha

/-- See `arc_zdres_azel_lt`: the array `azel` of `arc_relpos` starts from zeros. -/
theorem arc_relpos_base_azel_lt (E : Env) (rtk : rtk_t) (obs : Nat → obsd_t) (nu nr : Nat)
    (nav : nav_t) (c : ℚ) (hc : 0 < c) (hsat : ∀ p e a k, (E.satazel p e a).2 k < c) :
    ∀ k, (arc_relpos_base E rtk obs nu nr nav).azel k < c := by
  intro k
  unfold arc_relpos_base
  dsimp only
  unfold splice
  split
  · exact arc_zdres_azel_lt E _ _ _ _ _ _ _ _ _ _ _ _ _ c (fun _ => hc) hsat _
  · exact hc

theorem E_low_azel (rtk : rtk_t) (obs : Nat → obsd_t) (nu nr : Nat) (nav : nav_t) :
    ∀ k, (arc_relpos_base E_low rtk obs nu nr nav).azel k < 1 / 4 := by
  apply arc_relpos_base_azel_lt E_low rtk obs nu nr nav (1 / 4) (by norm_num)
  intro p e a k
  show (if k = 1 then (1 / 10 : ℚ) else 0) < 1 / 4
  split <;> norm_num

/-- The theorem C6 at an epoch with satellite 1 seen at elevation 1/10 by both
stations, the mask being 1/4. -/
theorem C6_no_common_satellite_witness :
    (∀ j, 1 ≤ j → j < 1 + 1 →
      (arc_relpos_base E_low rtk8 obs10 1 1 nav0).azel (1 + j * 2) < rtk8.opt.elmin) ∧
    (arc_relpos E_low st0 rtk8 obs10 1 1 nav0).ret = 0 ∧
    (arc_relpos E_low st0 rtk8 obs10 1 1 nav0).rtk.x = rtk8.x ∧
    (arc_relpos E_low st0 rtk8 obs10 1 1 nav0).rtk.P = rtk8.P :=
  ⟨fun j _ _ => E_low_azel rtk8 obs10 1 1 nav0 _,
    C6_no_common_satellite E_low st0 rtk8 obs10 1 1 nav0
      (Or.inr (fun j _ _ => E_low_azel rtk8 obs10 1 1 nav0 _))⟩

/-- C7 (amended): in an epoch in which `arc_relpos` finds no common satellite,
in particular when every base-side elevation is below `elmin`, the outage
counter of every satellite slot is left as it was on entry. -/
theorem C7_outage_unchanged (E : Env) (st : intpres_static_t) (rtk : rtk_t)
    (obs : Nat → obsd_t) (nu nr : Nat) (nav : nav_t)
    (h : (arc_relpos_sel E rtk obs nu nr nav).k = 0 ∨
      ∀ j, nu ≤ j → j < nu + nr →
        (arc_relpos_base E rtk obs nu nr nav).azel (1 + j * 2) < rtk.opt.elmin) :
    ∀ i f, ((arc_relpos E st rtk obs nu nr nav).rtk.ssat i).outc f = (rtk.ssat i).outc f := by
  have hk : (arc_relpos_sel E rtk obs nu nr nav).k = 0 := by
    rcases h with h | h
    · exact h
    · exact arc_relpos_sel_low E rtk obs nu nr nav h
  obtain ⟨_, he⟩ := arc_relpos_no_common E st rtk obs nu nr nav hk
  obtain ⟨_, _, _, _, _, _, _, ho, _⟩ := arc_relpos_base_frame E rtk obs nu nr nav
  intro i f
  rw [he, ho i]

/-- The theorem C7 at the epoch of the C6 witness, every counter being 10 on
entry. -/
theorem C7_outage_unchanged_witness :
    (∀ j, 1 ≤ j → j < 1 + 1 →
      (arc_relpos_base E_low rtk10 obs10 1 1 nav0).azel (1 + j * 2) < rtk10.opt.elmin) ∧
    ∀ i f, ((arc_relpos E_low st0 rtk10 obs10 1 1 nav0).rtk.ssat i).outc f =
      (rtk10.ssat i).outc f :=
  ⟨fun j _ _ => E_low_azel rtk10 obs10 1 1 nav0 _,
    C7_outage_unchanged E_low st0 rtk10 obs10 1 1 nav0
      (Or.inr (fun j _ _ => E_low_azel rtk10 obs10 1 1 nav0 _))⟩

/-- C7 fails as stated: satellite 1 is seen at elevation 1/10, below the mask
1/4, by both stations (every entry of `azel` is below the mask); `arc_relpos`
returns 0 before `arc_udstate` is called, and every outage counter is 10 after
the epoch as it was before, not 11. -/
theorem C7_counterexample :
    (∀ k, (arc_relpos_base E_low rtk10 obs10 1 1 nav0).azel k < rtk10.opt.elmin) ∧
    (arc_relpos E_low st0 rtk10 obs10 1 1 nav0).ret = 0 ∧
    (∀ i f, (rtk10.ssat i).outc f = 10) ∧
    (∀ i f, ((arc_relpos E_low st0 rtk10 obs10 1 1 nav0).rtk.ssat i).outc f = 10) ∧
    ¬ (∀ i f, ((arc_relpos E_low st0 rtk10 obs10 1 1 nav0).rtk.ssat i).outc f =
      ((rtk10.ssat i).outc f + 1) % 2 ^ 32) := by
  have hk : (arc_relpos_sel E_low rtk10 obs10 1 1 nav0).k = 0 :=
    arc_relpos_sel_low E_low rtk10 obs10 1 1 nav0 (fun j _ _ => E_low_azel rtk10 obs10 1 1 nav0 _)
  obtain ⟨hr, he⟩ := arc_relpos_no_common E_low st0 rtk10 obs10 1 1 nav0 hk
  obtain ⟨_, _, _, _, _, _, _, ho, _⟩ := arc_relpos_base_frame E_low rtk10 obs10 1 1 nav0
  have h10 : ∀ i f, ((arc_relpos E_low st0 rtk10 obs10 1 1 nav0).rtk.ssat i).outc f = 10 := by
    intro i f
    rw [he, ho i]
    rfl
  refine ⟨E_low_azel rtk10 obs10 1 1 nav0, hr, fun _ _ => rfl, h10, ?_⟩
  intro hall
  have h := hall 0 0
  rw [h10 0 0] at h
  have e : (rtk10.ssat 0).outc 0 = 10 := rfl
  rw [e] at h
  exact absurd h (by decide)

/-! ## Measurement update -/

theorem arc_ddres_pair_frame (E : Env) (nav : nav_t) (dt : ℚ) (x : Nat → ℚ) (sat : Nat → Nat)
    (y e azel : Nat → ℚ) (iu ir : Nat → Nat) (bl : ℚ) (a : ddres_atm_t) (m f i j : Nat)
    (s : ddres_t) :
    ssat_only s.rtk (arc_ddres_pair E nav dt x sat y e azel iu ir bl a m f i j s).rtk := by
  unfold arc_ddres_pair
  lift_lets
  intros
  split
  · exact ssat_only_refl _
  · split
    · exact ssat_only_refl _
    · split
      · exact ssat_only_refl _
      · split
        · exact ssat_only_refl _
        · split
          · split
            · exact ssat_only_ssat _ _
            · exact ssat_only_ssat _ _
          · show ssat_only s.rtk (if _ then _ else _)
            split
            · exact ssat_only_ssat _ _
            · exact ssat_only_ssat _ _

theorem arc_ddres_group_frame (E : Env) (nav : nav_t) (dt : ℚ) (x : Nat → ℚ) (sat : Nat → Nat)
    (y e azel : Nat → ℚ) (iu ir : Nat → Nat) (ns : Nat) (bl : ℚ) (a : ddres_atm_t) (m f : Nat)
    (s : ddres_t) :
    ssat_only s.rtk (arc_ddres_group E nav dt x sat y e azel iu ir ns bl a m f s).rtk := by
  unfold arc_ddres_group
  dsimp only
  split
  · exact ssat_only_refl _
  · exact forN_inv (fun t : ddres_t => ssat_only s.rtk t.rtk) _ _ _ (ssat_only_refl _)
      (fun j t _ ht => ssat_only_trans ht (arc_ddres_pair_frame _ _ _ _ _ _ _ _ _ _ _ _ _ _ _ _ _))

/-- `arc_ddres` writes the satellite tracks only. -/
theorem arc_ddres_frame (E : Env) (rtk : rtk_t) (nav : nav_t) (dt : ℚ) (x : Nat → ℚ)
    (P : Option (Nat → ℚ)) (sat : Nat → Nat) (y e azel : Nat → ℚ) (iu ir : Nat → Nat) (ns : Nat)
    (v : Nat → ℚ) (H R : Option (Nat → ℚ)) (vflg : Nat → Nat) :
    ssat_only rtk (arc_ddres E rtk nav dt x P sat y e azel iu ir ns v H R vflg).rtk := by
  unfold arc_ddres
  lift_lets
  intro nf opt bl rtk0 a f0 s1 c s1c s2
  have h0 : ssat_only rtk rtk0 :=
    forN_inv (fun r : rtk_t => ssat_only rtk r) _ _ _ (ssat_only_refl _)
      (fun i r _ h => ssat_only_trans h (ssat_only_ssat _ _))
  have h1 : ssat_only rtk s1.rtk := by
    refine forN_inv (fun t : ddres_t => ssat_only rtk t.rtk) _ _ _ h0 ?_
    intro m t _ ht
    refine forN_inv (fun t : ddres_t => ssat_only rtk t.rtk) _ _ _ ht ?_
    intro k t _ ht
    exact ssat_only_trans ht (arc_ddres_group_frame _ _ _ _ _ _ _ _ _ _ _ _ _ _ _ _)
  have h2 : s2.rtk = s1.rtk := by
    show (if _ then (if _ then _ else _) else s1 : ddres_t).rtk = s1.rtk
    split
    · split
      · rfl
      · rfl
    · rfl
  split
  · show ssat_only rtk s2.rtk
    rw [h2]
    exact h1
  · rw [h2]
    exact h1

/-- The measurement-update loop of `arc_relpos` writes the satellite tracks only,
and a filter error ends it with `stat=SOLQ_NONE`. -/
theorem arc_relpos_iter_spec (E : Env) (obs : Nat → obsd_t) (nu : Nat) (nav : nav_t)
    (rs dts : Nat → ℚ) (svh : Nat → Int) (sat iu ir : Nat → Nat) (ns : Nat) (dt : ℚ) (n : Nat) :
    ∀ s : relpos_t,
      ssat_only s.rtk (arc_relpos_iter E obs nu nav rs dts svh sat iu ir ns dt n s).rtk ∧
      ((∀ c, s.info = some c → c = 0) → ∀ c,
        (arc_relpos_iter E obs nu nav rs dts svh sat iu ir ns dt n s).info = some c → c ≠ 0 →
        (arc_relpos_iter E obs nu nav rs dts svh sat iu ir ns dt n s).stat = SOLQ_NONE) := by
  induction n with
  | zero =>
    intro s
    exact ⟨ssat_only_refl _, fun h c hc hne => absurd (h c hc) hne⟩
  | succ n ih =>
    intro s
    unfold arc_relpos_iter
    lift_lets
    intro z s1
    split
    · exact ⟨ssat_only_refl _, fun _ _ _ _ => rfl⟩
    · intro d s2
      have hd : ssat_only s.rtk d.rtk := arc_ddres_frame _ _ _ _ _ _ _ _ _ _ _ _ _ _ _ _ _
      split
      · exact ⟨hd, fun _ _ _ _ => rfl⟩
      · intro Pp fl s3
        split
        · exact ⟨hd, fun _ _ _ _ => rfl⟩
        · rename_i hfl
          obtain ⟨i1, i2⟩ := ih s3
          refine ⟨ssat_only_trans hd i1, fun _ => i2 ?_⟩
          intro c hc
          have : fl.info = c := Option.some.inj hc
          rw [← this]
          exact not_not.mp hfl

theorem arc_relpos_float_none (E : Env) (obs : Nat → obsd_t) (nu : Nat) (nav : nav_t)
    (rs dts : Nat → ℚ) (svh : Nat → Int) (sat iu ir : Nat → Nat) (ns : Nat) (dt : ℚ)
    (s : relpos_t) (h : s.stat = SOLQ_NONE) :
    arc_relpos_float E obs nu nav rs dts svh sat iu ir ns dt s = s := by
  delta arc_relpos_float
  exact if_pos h

theorem arc_relpos_fix_none (E : Env) (obs : Nat → obsd_t) (nu : Nat) (nav : nav_t)
    (rs dts : Nat → ℚ) (svh : Nat → Int) (sat iu ir : Nat → Nat) (ns : Nat) (dt : ℚ)
    (s : relpos_t) (h : s.stat = SOLQ_NONE) :
    arc_relpos_fix E obs nu nav rs dts svh sat iu ir ns dt s = s := by
  delta arc_relpos_fix
  exact if_pos h

/-- Saving the solution status does not touch `x` and `P`. -/
theorem arc_relpos_save_frame (E : Env) (obs : Nat → obsd_t) (n : Nat) (sat iu : Nat → Nat)
    (ns : Nat) (rtk : rtk_t) (stat : Int) :
    (arc_relpos_save E obs n sat iu ns rtk stat).x = rtk.x ∧
    (arc_relpos_save E obs n sat iu ns rtk stat).P = rtk.P := by
  unfold arc_relpos_save
  lift_lets
  intro nf src1 r1 r2 r3 r4 src2
  have h1 : r1.x = rtk.x ∧ r1.P = rtk.P := by
    show (if _ then _ else _ : rtk_t).x = rtk.x ∧ (if _ then _ else _ : rtk_t).P = rtk.P
    split
    · exact ⟨rfl, rfl⟩
    · exact ⟨rfl, rfl⟩
  have h2 : r2.x = rtk.x ∧ r2.P = rtk.P := by
    refine forN_inv (fun r : rtk_t => r.x = rtk.x ∧ r.P = rtk.P) _ _ _ h1 ?_
    intro i r _ hr
    refine forN_inv (fun r : rtk_t => r.x = rtk.x ∧ r.P = rtk.P) _ _ _ hr ?_
    intro j r _ hr
    dsimp only
    split
    · exact hr
    · exact hr
  have h3 : r3.x = rtk.x ∧ r3.P = rtk.P := by
    refine forN_inv (fun r : rtk_t => r.x = rtk.x ∧ r.P = rtk.P) _ _ _ h2 ?_
    intro i r _ hr
    exact forN_inv (fun r : rtk_t => r.x = rtk.x ∧ r.P = rtk.P) _ _ _ hr
      (fun j r _ hr => hr)
  have h4 : r4.x = rtk.x ∧ r4.P = rtk.P := by
    refine forN_inv (fun r : rtk_t => r.x = rtk.x ∧ r.P = rtk.P) _ _ _ h3 ?_
    intro i r _ hr
    exact forN_inv (fun r : rtk_t => r.x = rtk.x ∧ r.P = rtk.P) _ _ _ hr
      (fun j r _ hr => hr)
  split
  · exact h4
  · exact h4

/-- What `arc_relpos` retains when the measurement update ends with a filter
error: the state and covariance of the temporal update. -/
theorem arc_relpos_filter_error (E : Env) (st : intpres_static_t) (rtk : rtk_t)
    (obs : Nat → obsd_t) (nu nr : Nat) (nav : nav_t)
    (hceres : rtk.opt.ceres = 0)
    (hb : (arc_relpos_base E rtk obs nu nr nav).ret ≠ 0)
    (hk : 0 < (arc_relpos_sel E rtk obs nu nr nav).k)
    (c : Int) (hc : c ≠ 0) (hinfo : (arc_relpos_meas E st rtk obs nu nr nav).info = some c) :
    (arc_relpos E st rtk obs nu nr nav).ret = 0 ∧
    (arc_relpos E st rtk obs nu nr nav).rtk.x = (arc_relpos_ud E rtk obs nu nr nav).x ∧
    (arc_relpos E st rtk obs nu nr nav).rtk.P = (arc_relpos_ud E rtk obs nu nr nav).P := by
  have hm : ∃ (niter : Nat) (s0 : relpos_t), s0.rtk = arc_relpos_ud E rtk obs nu nr nav ∧
      s0.info = none ∧
      arc_relpos_meas E st rtk obs nu nr nav =
        arc_relpos_iter E obs nu nav (arc_relpos_base E rtk obs nu nr nav).sp.rs
          (arc_relpos_base E rtk obs nu nr nav).sp.dts (arc_relpos_base E rtk obs nu nr nav).sp.svh
          (arc_relpos_sel E rtk obs nu nr nav).sat (arc_relpos_sel E rtk obs nu nr nav).iu
          (arc_relpos_sel E rtk obs nu nr nav).ir (arc_relpos_sel E rtk obs nu nr nav).k
          (arc_relpos_intp E st rtk obs nu nr nav).ret niter s0 := by
    refine ⟨?niter, ?s0, ?h1, ?h2, ?h3⟩
    case h3 =>
      delta arc_relpos_meas
      exact if_pos hceres
    case h1 => rfl
    case h2 => rfl
  obtain ⟨niter, s0, hs0, hi0, hm⟩ := hm
  have hmeas : (arc_relpos_meas E st rtk obs nu nr nav).stat = SOLQ_NONE ∧
      ssat_only (arc_relpos_ud E rtk obs nu nr nav)
        (arc_relpos_meas E st rtk obs nu nr nav).rtk := by
    rw [hm] at hinfo ⊢
    obtain ⟨i1, i2⟩ := arc_relpos_iter_spec E obs nu nav
      (arc_relpos_base E rtk obs nu nr nav).sp.rs
      (arc_relpos_base E rtk obs nu nr nav).sp.dts (arc_relpos_base E rtk obs nu nr nav).sp.svh
      (arc_relpos_sel E rtk obs nu nr nav).sat (arc_relpos_sel E rtk obs nu nr nav).iu
      (arc_relpos_sel E rtk obs nu nr nav).ir (arc_relpos_sel E rtk obs nu nr nav).k
      (arc_relpos_intp E st rtk obs nu nr nav).ret niter s0
    rw [hs0] at i1
    refine ⟨i2 ?_ c hinfo hc, i1⟩
    intro c h
    rw [hi0] at h
    exact Option.noConfusion h
  obtain ⟨hs, hf⟩ := hmeas
  have hk2 : ¬ (arc_relpos_sel E rtk obs nu nr nav).k ≤ 0 := Nat.not_le.mpr hk
  have e : arc_relpos E st rtk obs nu nr nav =
      { ret := 0,
        rtk := arc_relpos_save E obs (nu + nr) (arc_relpos_sel E rtk obs nu nr nav).sat
          (arc_relpos_sel E rtk obs nu nr nav).iu (arc_relpos_sel E rtk obs nu nr nav).k
          (arc_relpos_meas E st rtk obs nu nr nav).rtk SOLQ_NONE,
        st := (arc_relpos_intp E st rtk obs nu nr nav).st } := by
    delta arc_relpos
    refine (if_neg hb).trans ((if_neg hk2).trans ?_)
    show ({ ret := _, rtk := _, st := _ } : relpos_ret_t) = _
    rw [arc_relpos_float_none _ _ _ _ _ _ _ _ _ _ _ _ _ hs,
      arc_relpos_fix_none _ _ _ _ _ _ _ _ _ _ _ _ _ hs, hs]
    rfl
  obtain ⟨sx, sP⟩ := arc_relpos_save_frame E obs (nu + nr) (arc_relpos_sel E rtk obs nu nr nav).sat
    (arc_relpos_sel E rtk obs nu nr nav).iu (arc_relpos_sel E rtk obs nu nr nav).k
    (arc_relpos_meas E st rtk obs nu nr nav).rtk SOLQ_NONE
  rw [e]
  exact ⟨rfl, sx.trans hf.1, sP.trans hf.2.1⟩

/-! ### What the temporal update leaves alone -/

theorem sys_frame_refl (r : rtk_t) : sys_frame r r := ⟨rfl, rfl, rfl, rfl, fun _ => rfl⟩

theorem sys_frame_trans {a b c : rtk_t} (h1 : sys_frame a b) (h2 : sys_frame b c) :
    sys_frame a c := by
  obtain ⟨a1, a2, a3, a4, a5⟩ := h1
  obtain ⟨b1, b2, b3, b4, b5⟩ := h2
  exact ⟨b1.trans a1, b2.trans a2, b3.trans a3, b4.trans a4, fun i => (b5 i).trans (a5 i)⟩

theorem sys_frame_set_outc (r : rtk_t) (s f v : Nat) : sys_frame r (set_outc r s f v) :=
  ⟨rfl, rfl, rfl, rfl, fun i => set_outc_ssat_sys r s f v i⟩

theorem sys_frame_set_lock (r : rtk_t) (s f : Nat) (v : Int) : sys_frame r (set_lock r s f v) :=
  ⟨rfl, rfl, rfl, rfl, fun i => set_lock_ssat_sys r s f v i⟩

theorem sys_frame_set_slip (r : rtk_t) (s f v : Nat) : sys_frame r (set_slip r s f v) :=
  ⟨rfl, rfl, rfl, rfl, fun i => set_slip_ssat_sys r s f v i⟩

theorem sys_frame_set_half (r : rtk_t) (s f v : Nat) : sys_frame r (set_half r s f v) :=
  ⟨rfl, rfl, rfl, rfl, fun i => set_half_ssat_sys r s f v i⟩

theorem sys_frame_set_x (r : rtk_t) (i : Nat) (v : ℚ) : sys_frame r (set_x r i v) :=
  ⟨rfl, rfl, rfl, rfl, fun _ => rfl⟩

theorem sys_frame_set_P (r : rtk_t) (i : Nat) (v : ℚ) : sys_frame r (set_P r i v) :=
  ⟨rfl, rfl, rfl, rfl, fun _ => rfl⟩

theorem sys_frame_initx (r : rtk_t) (xi var : ℚ) (i : Nat) : sys_frame r (arc_initx r xi var i) :=
  ⟨arc_initx_opt r xi var i, arc_initx_nx r xi var i, arc_initx_rb r xi var i,
    arc_initx_sol r xi var i, fun k => by rw [arc_initx_ssat]⟩

theorem sys_frame_forN (r : rtk_t) (n : Nat) (body : Nat → rtk_t → rtk_t)
    (h : ∀ i t, i < n → sys_frame t (body i t)) : sys_frame r (forN n body r) :=
  forN_inv (fun t : rtk_t => sys_frame r t) n body r (sys_frame_refl r)
    (fun i t hi ht => sys_frame_trans ht (h i t hi))

theorem arc_udpos_sys (E : Env) (rtk : rtk_t) (tt : ℚ) : sys_frame rtk (arc_udpos E rtk tt) := by
  have hf : sys_frame rtk (arc_udpos_first E rtk) := by
    unfold arc_udpos_first
    split
    · dsimp only
      split
      · refine sys_frame_forN _ _ _ (fun i t _ => sys_frame_initx _ _ _ _) |> sys_frame_trans ?_
        refine sys_frame_forN _ _ _ (fun i t _ => sys_frame_initx _ _ _ _) |> sys_frame_trans ?_
        exact sys_frame_forN _ _ _ (fun i t _ => sys_frame_initx _ _ _ _)
      · exact sys_frame_forN _ _ _ (fun i t _ => sys_frame_initx _ _ _ _)
    · exact sys_frame_refl _
  unfold arc_udpos
  split
  · exact sys_frame_forN _ _ _ (fun i t _ => sys_frame_initx _ _ _ _)
  · dsimp only
    split
    · exact hf
    · split
      · exact sys_frame_trans hf (sys_frame_forN _ _ _ (fun i t _ => sys_frame_initx _ _ _ _))
      · split
        · refine sys_frame_trans hf ?_
          refine sys_frame_forN _ _ _ (fun i t _ => sys_frame_initx _ _ _ _) |> sys_frame_trans ?_
          refine sys_frame_forN _ _ _ (fun i t _ => sys_frame_initx _ _ _ _) |> sys_frame_trans ?_
          exact sys_frame_forN _ _ _ (fun i t _ => sys_frame_initx _ _ _ _)
        · exact sys_frame_trans hf ⟨rfl, rfl, rfl, rfl, fun _ => rfl⟩

theorem arc_udion_sys (E : Env) (rtk : rtk_t) (tt bl : ℚ) (sat : Nat → Nat) (ns : Nat) :
    sys_frame rtk (arc_udion E rtk tt bl sat ns) := by
  unfold arc_udion
  dsimp only
  refine sys_frame_trans (sys_frame_forN _ _ _ ?_) (sys_frame_forN _ _ _ ?_)
  · intro i t _
    dsimp only
    split
    · exact sys_frame_set_x _ _ _
    · exact sys_frame_refl _
  · intro i t _
    dsimp only
    split
    · exact sys_frame_initx _ _ _ _
    · exact sys_frame_set_P _ _ _

theorem arc_udtrop_sys (E : Env) (rtk : rtk_t) (tt : ℚ) :
    sys_frame rtk (arc_udtrop E rtk tt) := by
  unfold arc_udtrop
  apply sys_frame_forN
  intro i t _
  dsimp only
  split
  · split
    · exact sys_frame_trans (sys_frame_initx _ _ _ _)
        (sys_frame_forN _ _ _ (fun k t _ => sys_frame_initx _ _ _ _))
    · exact sys_frame_initx _ _ _ _
  · split
    · exact sys_frame_trans (sys_frame_set_P _ _ _)
        (sys_frame_forN _ _ _ (fun k t _ => sys_frame_set_P _ _ _))
    · exact sys_frame_set_P _ _ _

theorem arc_detslp_ll_sys (rtk : rtk_t) (obs : Nat → obsd_t) (i rcv : Nat) :
    sys_frame rtk (arc_detslp_ll rtk obs i rcv) := by
  unfold arc_detslp_ll
  dsimp only
  split
  · exact sys_frame_refl _
  · refine sys_frame_trans (sys_frame_trans ?_ (sys_frame_set_slip _ _ _ _))
      (sys_frame_set_half _ _ _ _)
    split
    · exact sys_frame_set_slip _ _ _ _
    · exact sys_frame_set_slip _ _ _ _

theorem arc_udbias_sys (E : Env) (rtk : rtk_t) (tt : ℚ) (obs : Nat → obsd_t)
    (sat iu ir : Nat → Nat) (ns : Nat) (nav : nav_t) :
    sys_frame rtk (arc_udbias E rtk tt obs sat iu ir ns nav) := by
  unfold arc_udbias
  dsimp only
  have h1 : ∀ r, sys_frame r (arc_udbias_detslp r obs sat iu ir ns) := by
    intro r
    unfold arc_udbias_detslp
    apply sys_frame_forN
    intro i t _
    exact sys_frame_trans (sys_frame_trans (sys_frame_trans (sys_frame_set_slip _ _ _ _)
      (arc_detslp_ll_sys _ _ _ _)) (arc_detslp_ll_sys _ _ _ _)) (sys_frame_set_half _ _ _ _)
  have h2 : ∀ r, sys_frame r (arc_udbias_outage E r) := by
    intro r
    unfold arc_udbias_outage
    apply sys_frame_forN
    intro i t _
    unfold arc_udbias_outage_body
    lift_lets
    intro f i1 reset r1 r2
    have ha : sys_frame t r2 := by
      show sys_frame t (if _ then _ else if _ then _ else _)
      split
      · exact sys_frame_trans (sys_frame_set_outc _ _ _ _) (sys_frame_initx _ _ _ _)
      · split
        · exact sys_frame_trans (sys_frame_set_outc _ _ _ _) (sys_frame_initx _ _ _ _)
        · exact sys_frame_set_outc _ _ _ _
    split
    · exact sys_frame_trans ha (sys_frame_set_lock _ _ _ _)
    · exact ha
  have h3 : ∀ r, sys_frame r (arc_udbias_slip E r tt sat ns) := by
    intro r
    unfold arc_udbias_slip
    apply sys_frame_forN
    intro i t _
    dsimp only
    split
    · exact sys_frame_set_P _ _ _
    · exact sys_frame_trans (sys_frame_trans (sys_frame_set_P _ _ _) (sys_frame_set_x _ _ _))
        (sys_frame_set_lock _ _ _ _)
  have h4 : ∀ r s, sys_frame r (arc_udbias_offset E r s) := by
    intro r s
    unfold arc_udbias_offset
    dsimp only
    split
    · apply sys_frame_forN
      intro i t _
      dsimp only
      split
      · exact sys_frame_set_x _ _ _
      · exact sys_frame_refl _
    · exact sys_frame_refl _
  have h5 : ∀ r b, sys_frame r (arc_udbias_init E r b sat ns) := by
    intro r b
    unfold arc_udbias_init
    apply sys_frame_forN
    intro i t _
    dsimp only
    split
    · exact sys_frame_refl _
    · exact sys_frame_initx _ _ _ _
  exact sys_frame_trans (sys_frame_trans (sys_frame_trans (sys_frame_trans (h1 _) (h2 _)) (h3 _))
    (h4 _ _)) (h5 _ _)

/-- The temporal update keeps the options, the dimension, the base position,
the solution and the satellite systems. -/
theorem arc_udstate_sys (E : Env) (rtk : rtk_t) (obs : Nat → obsd_t) (sat iu ir : Nat → Nat)
    (ns : Nat) (nav : nav_t) : sys_frame rtk (arc_udstate E rtk obs sat iu ir ns nav) := by
  unfold arc_udstate
  lift_lets
  intro tt r1 r2 r3
  have h1 : sys_frame rtk r1 := arc_udpos_sys E rtk tt
  have h2 : sys_frame rtk r2 := by
    show sys_frame rtk (if _ then arc_udion E r1 tt _ sat ns else r1)
    split
    · exact sys_frame_trans h1 (arc_udion_sys _ _ _ _ _ _)
    · exact h1
  have h3 : sys_frame rtk r3 := by
    show sys_frame rtk (if _ then arc_udtrop E r2 tt else r2)
    split
    · exact sys_frame_trans h2 (arc_udtrop_sys _ _ _)
    · exact h2
  show sys_frame rtk (if _ then arc_udbias E r3 tt obs sat iu ir ns nav else r3)
  split
  · exact sys_frame_trans h3 (arc_udbias_sys _ _ _ _ _ _ _ _ _)
  · exact h3

/-- `arc_zdres` returns 0 exactly when the receiver position is missing. -/
theorem arc_zdres_ret (E : Env) (base : Nat) (obs : Nat → obsd_t) (n : Nat)
    (rs dts : Nat → ℚ) (svh : Nat → Int) (nav : nav_t) (rr : Nat → ℚ) (opt : prcopt_t)
    (index : Nat) (y e azel : Nat → ℚ) :
    (arc_zdres E base obs n rs dts svh nav rr opt index y e azel).ret =
      if E.arc_norm rr 3 ≤ 0 then 0 else 1 := by
  unfold arc_zdres
  dsimp only
  split
  · rfl
  · refine forN_inv (fun s : zdres_t => s.ret = 1) _ _ _ rfl ?_
    intro i s _ hs
    unfold arc_zdres_obs
    lift_lets
    intros
    split
    · exact hs
    · split
      · exact hs
      · split
        · exact hs
        · split
          · exact hs
          · exact hs

set_option maxRecDepth 8000 in
theorem baseF_azel :
    (arc_relpos_base E_fail rtkF obsF 2 2 nav0).azel 5 = 1 ∧
    (arc_relpos_base E_fail rtkF obsF 2 2 nav0).azel 7 = 1 := by
  constructor <;>
  norm_num [arc_relpos_base, arc_zdres, arc_zdres_obs, arc_zdres_sat, forN, splice, arc_zeros,
    E_fail, E0, rtkF, rtk8, rtk0, opt0, obsF, nav0]

set_option maxRecDepth 8000 in
theorem baseF_y :
    (arc_relpos_base E_fail rtkF obsF 2 2 nav0).y 4 = 4 ∧
    (arc_relpos_base E_fail rtkF obsF 2 2 nav0).y 5 = 6 ∧
    (arc_relpos_base E_fail rtkF obsF 2 2 nav0).y 6 = 4 ∧
    (arc_relpos_base E_fail rtkF obsF 2 2 nav0).y 7 = 6 := by
  refine ⟨?_, ?_, ?_, ?_⟩ <;>
  norm_num [arc_relpos_base, arc_zdres, arc_zdres_obs, arc_zdres_sat, forN, splice, arc_zeros,
    E_fail, E0, rtkF, rtk8, rtk0, opt0, obsF, nav0, Function.update]

/-- One pass of the loop of `arc_selsat` at a common satellite above the mask. -/
theorem arc_selsat_loop_match (obs : Nat → obsd_t) (azel : Nat → ℚ) (nu nr : Nat) (elmin : ℚ)
    (i j : Nat) (o : selsat_t) (hc : i < nu ∧ j < nu + nr) (heq : (obs i).sat = (obs j).sat)
    (hel : azel (1 + j * 2) ≥ elmin) :
    arc_selsat_loop obs azel nu nr elmin i j o =
      arc_selsat_loop obs azel nu nr elmin (i + 1) (j + 1)
        { sat := Function.update o.sat o.k (obs i).sat
          iu := Function.update o.iu o.k i
          ir := Function.update o.ir o.k j
          k := o.k + 1 } := by
  rw [arc_selsat_loop, if_pos hc, if_neg (by omega), if_neg (by omega), if_pos hel]

/-- The loop of `arc_selsat` past the end of one of the lists. -/
theorem arc_selsat_loop_done (obs : Nat → obsd_t) (azel : Nat → ℚ) (nu nr : Nat) (elmin : ℚ)
    (i j : Nat) (o : selsat_t) (hc : ¬ (i < nu ∧ j < nu + nr)) :
    arc_selsat_loop obs azel nu nr elmin i j o = o := by
  rw [arc_selsat_loop, if_neg hc]

theorem selF :
    (arc_relpos_sel E_fail rtkF obsF 2 2 nav0).k = 2 ∧
    (arc_relpos_sel E_fail rtkF obsF 2 2 nav0).sat 0 = 1 ∧
    (arc_relpos_sel E_fail rtkF obsF 2 2 nav0).sat 1 = 2 ∧
    (arc_relpos_sel E_fail rtkF obsF 2 2 nav0).iu 0 = 0 ∧
    (arc_relpos_sel E_fail rtkF obsF 2 2 nav0).iu 1 = 1 ∧
    (arc_relpos_sel E_fail rtkF obsF 2 2 nav0).ir 0 = 2 ∧
    (arc_relpos_sel E_fail rtkF obsF 2 2 nav0).ir 1 = 3 := by
  have h5 := baseF_azel.1
  have h7 := baseF_azel.2
  have he : rtkF.opt.elmin = 1 / 4 := rfl
  unfold arc_relpos_sel arc_selsat
  rw [he]
  generalize (arc_relpos_base E_fail rtkF obsF 2 2 nav0).azel = az at h5 h7
  rw [arc_selsat_loop_match obsF az 2 2 (1 / 4) 0 2 _ (by decide) (by decide)
      (by rw [h5]; norm_num),
    arc_selsat_loop_match obsF az 2 2 (1 / 4) 1 3 _ (by decide) (by decide)
      (by rw [h7]; norm_num),
    arc_selsat_loop_done obsF az 2 2 (1 / 4) 2 4 _ (by decide)]
  simp [obsF]

/-! ### Number of double differences -/

theorem sys_frame_upd (r : rtk_t) (ss : Nat → ssat_t)
    (h : ∀ k, (ss k).sys = (r.ssat k).sys) : sys_frame r { r with ssat := ss } :=
  ⟨rfl, rfl, rfl, rfl, h⟩

theorem sys_update (g : Nat → ssat_t) (a : Nat) (v : ssat_t) (h : v.sys = (g a).sys) (k : Nat) :
    (Function.update g a v k).sys = (g k).sys := by
  by_cases hk : k = a
  · subst hk
    rw [Function.update_same, h]
  · rw [Function.update_noteq hk]

/-- One pass of the loop "make double difference" of `arc_ddres`: it keeps the
options and the satellite systems, never decreases `nv`, and adds one
residual for a valid pair when the innovation test is switched off. -/
theorem arc_ddres_pair_spec (E : Env) (nav : nav_t) (dt : ℚ) (x : Nat → ℚ) (sat : Nat → Nat)
    (y e azel : Nat → ℚ) (iu ir : Nat → Nat) (bl : ℚ) (a : ddres_atm_t) (m f i j : Nat)
    (s : ddres_t) :
    sys_frame s.rtk (arc_ddres_pair E nav dt x sat y e azel iu ir bl a m f i j s).rtk ∧
    s.nv ≤ (arc_ddres_pair E nav dt x sat y e azel iu ir bl a m f i j s).nv ∧
    (i ≠ j → arc_test_sys (s.rtk.ssat (sat j - 1)).sys m = true →
      arc_validobs (iu j) (ir j) f 1 y = true →
      0 < nav.lam (sat i - 1) (f % 1) → 0 < nav.lam (sat j - 1) (f % 1) →
      s.rtk.opt.maxinno ≤ 0 →
      (arc_ddres_pair E nav dt x sat y e azel iu ir bl a m f i j s).nv = s.nv + 1) := by
  unfold arc_ddres_pair
  lift_lets
  intro nf rtk opt nx sysi sysj ff lami lamj nv H0 v0 H1 fi fj didxi didxj v1 H2 trop v2 H3 v3 H4
    ssj rtk1 s1 si' ssat1' sj' ssat2 Rj1 Ri1 fv sj ssat1 si rtk2
  have f1 : sys_frame s.rtk rtk1 := by
    apply sys_frame_upd
    intro k
    apply sys_update
    show (if _ then _ else _ : ssat_t).sys = _
    split <;> rfl
  have f2 : sys_frame s.rtk { rtk1 with ssat := ssat2 } := by
    refine sys_frame_trans f1 (sys_frame_upd rtk1 ssat2 ?_)
    intro k
    have e1 : ∀ k, (ssat1' k).sys = (rtk1.ssat k).sys := by
      intro k
      show (Function.update rtk1.ssat _ _ k).sys = _
      exact sys_update _ _ _ (by rfl) k
    have e2 : (ssat2 k).sys = (ssat1' k).sys := by
      show (Function.update ssat1' _ _ k).sys = _
      exact sys_update _ _ _ (by rfl) k
    rw [e2, e1]
  have f3 : sys_frame s.rtk rtk2 := by
    show sys_frame s.rtk (if _ then rtk1 else _)
    split
    · exact f1
    · refine sys_frame_trans f1 (sys_frame_upd rtk1 _ ?_)
      intro k
      have e1 : ∀ k, (ssat1 k).sys = (rtk1.ssat k).sys := by
        intro k
        show (Function.update rtk1.ssat _ _ k).sys = _
        exact sys_update _ _ _ (by rfl) k
      rw [sys_update _ _ _ (by rfl) k, e1]
  split
  · exact ⟨sys_frame_refl _, Nat.le_refl _, fun h => absurd (by assumption) h⟩
  · split
    · rename_i hts
      exact ⟨sys_frame_refl _, Nat.le_refl _, fun _ h => absurd hts (by rw [h]; decide)⟩
    · split
      · rename_i hvo
        exact ⟨sys_frame_refl _, Nat.le_refl _, fun _ _ h => absurd hvo (by rw [h]; decide)⟩
      · split
        · rename_i hl
          refine ⟨sys_frame_refl _, Nat.le_refl _, fun _ _ _ hi hj => ?_⟩
          rcases hl with hl | hl
          · exact absurd hi (not_lt.mpr hl)
          · exact absurd hj (not_lt.mpr hl)
        · split
          · rename_i hin
            have hno : ∀ q : s.rtk.opt.maxinno ≤ 0, False :=
              fun q => absurd hin.2.1 (not_lt.mpr q)
            split
            · exact ⟨f2, Nat.le_refl _, fun _ _ _ _ _ q => (hno q).elim⟩
            · exact ⟨f1, Nat.le_refl _, fun _ _ _ _ _ q => (hno q).elim⟩
          · exact ⟨f3, Nat.le_succ _, fun _ _ _ _ _ _ => rfl⟩

/-- The search of the reference satellite succeeds when every common satellite
is valid. -/
theorem arc_ddres_ref_some (rtk : rtk_t) (sat iu ir : Nat → Nat) (ns : Nat) (y azel : Nat → ℚ)
    (m f : Nat) (hns : 0 < ns)
    (hv : ∀ j, j < ns → arc_test_sys (rtk.ssat (sat j - 1)).sys m = true ∧
      arc_validobs (iu j) (ir j) f 1 y = true) :
    ∃ i, i < ns ∧ arc_ddres_ref rtk sat iu ir ns y azel m f 1 = some i := by
  unfold arc_ddres_ref
  have h := forN_inv_idx (fun (k : Nat) (o : Option Nat) => k ≤ ns →
      ((k = 0 ∧ o = none) ∨ ∃ i, i < k ∧ o = some i)) ns
    (fun j i =>
      let sysi := (rtk.ssat (sat j - 1)).sys
      if arc_test_sys sysi m = false then i
      else if arc_validobs (iu j) (ir j) f 1 y = false then i
      else
        match i with
        | none => some j
        | some i0 => if azel (1 + iu j * 2) ≥ azel (1 + iu i0 * 2) then some j else some i0)
    none (fun _ => Or.inl ⟨rfl, rfl⟩)
    (by
      intro k o hk ih _
      obtain ⟨t1, t2⟩ := hv k hk
      dsimp only
      rw [if_neg (by rw [t1]; decide), if_neg (by rw [t2]; decide)]
      right
      rcases ih (Nat.le_of_lt hk) with ⟨_, ho⟩ | ⟨i, hi, ho⟩
      · subst ho
        exact ⟨k, Nat.lt_succ_self k, rfl⟩
      · subst ho
        dsimp only
        split
        · exact ⟨k, Nat.lt_succ_self k, rfl⟩
        · exact ⟨i, Nat.lt_succ_of_lt hi, rfl⟩)
  rcases h (Nat.le_refl ns) with ⟨h0, _⟩ | h1
  · omega
  · exact h1

/-- The first pass of a loop with a non-decreasing measure is a lower bound for
the measure after the loop. -/
theorem forN_first_le {σ : Type} (g : σ → Nat) (n : Nat) (body : Nat → σ → σ) (s : σ)
    (hmono : ∀ i t, g t ≤ g (body i t)) (hn : 0 < n) : g (body 0 s) ≤ g (forN n body s) := by
  induction n with
  | zero => exact absurd hn (Nat.lt_irrefl 0)
  | succ n ih =>
    rw [forN_succ]
    rcases Nat.eq_zero_or_pos n with h0 | hpos
    · subst h0
      exact Nat.le_refl _
    · exact Nat.le_trans (ih hpos) (hmono n _)

/-- One pass of the loops over system and channel of `arc_ddres`: it keeps the
options and the satellite systems, never decreases `nv`, and adds at least
one residual when all of at least two common satellites are valid and the
innovation test is switched off. -/
theorem arc_ddres_group_spec (E : Env) (nav : nav_t) (dt : ℚ) (x : Nat → ℚ) (sat : Nat → Nat)
    (y e azel : Nat → ℚ) (iu ir : Nat → Nat) (ns : Nat) (bl : ℚ) (a : ddres_atm_t) (m f : Nat)
    (s : ddres_t) :
    sys_frame s.rtk (arc_ddres_group E nav dt x sat y e azel iu ir ns bl a m f s).rtk ∧
    s.nv ≤ (arc_ddres_group E nav dt x sat y e azel iu ir ns bl a m f s).nv ∧
    (2 ≤ ns →
      (∀ j, j < ns → arc_test_sys (s.rtk.ssat (sat j - 1)).sys m = true ∧
        arc_validobs (iu j) (ir j) f 1 y = true ∧ 0 < nav.lam (sat j - 1) (f % 1)) →
      s.rtk.opt.maxinno ≤ 0 →
      s.nv + 1 ≤ (arc_ddres_group E nav dt x sat y e azel iu ir ns bl a m f s).nv) := by
  unfold arc_ddres_group
  dsimp only
  split
  · rename_i hnone
    refine ⟨sys_frame_refl _, Nat.le_refl _, fun hns hv _ => ?_⟩
    obtain ⟨i, _, hi⟩ := arc_ddres_ref_some s.rtk sat iu ir ns y azel m f (by omega)
      (fun j hj => ⟨(hv j hj).1, (hv j hj).2.1⟩)
    rw [hnone] at hi
    exact Option.noConfusion hi
  · rename_i i hsome
    have key : ∀ j0 : Nat,
        sys_frame s.rtk (forN ns
          (fun j s => arc_ddres_pair E nav dt x sat y e azel iu ir bl a m f i j s) s).rtk ∧
        s.nv ≤ (forN ns
          (fun j s => arc_ddres_pair E nav dt x sat y e azel iu ir bl a m f i j s) s).nv ∧
        (j0 < ns → i ≠ j0 →
          (∀ j, j < ns → arc_test_sys (s.rtk.ssat (sat j - 1)).sys m = true ∧
            arc_validobs (iu j) (ir j) f 1 y = true ∧ 0 < nav.lam (sat j - 1) (f % 1)) →
          i < ns → s.rtk.opt.maxinno ≤ 0 →
          s.nv + 1 ≤ (forN ns
            (fun j s => arc_ddres_pair E nav dt x sat y e azel iu ir bl a m f i j s) s).nv) := by
      intro j0
      have h := forN_inv_idx (fun (k : Nat) (t : ddres_t) =>
          sys_frame s.rtk t.rtk ∧ s.nv ≤ t.nv ∧
          (j0 < k → i ≠ j0 →
            (∀ j, j < ns → arc_test_sys (s.rtk.ssat (sat j - 1)).sys m = true ∧
              arc_validobs (iu j) (ir j) f 1 y = true ∧ 0 < nav.lam (sat j - 1) (f % 1)) →
            i < ns → s.rtk.opt.maxinno ≤ 0 → s.nv + 1 ≤ t.nv)) ns
        (fun j s => arc_ddres_pair E nav dt x sat y e azel iu ir bl a m f i j s) s
        ⟨sys_frame_refl _, Nat.le_refl _, fun h => absurd h (Nat.not_lt_zero j0)⟩
        (by
          intro k t hk ⟨t1, t2, t3⟩
          obtain ⟨p1, p2, p3⟩ := arc_ddres_pair_spec E nav dt x sat y e azel iu ir bl a m f i k t
          refine ⟨sys_frame_trans t1 p1, Nat.le_trans t2 p2, ?_⟩
          intro hj0 hne hv hi hinno
          rcases Nat.lt_succ_iff_lt_or_eq.mp hj0 with hlt | heq
          · exact Nat.le_trans (t3 hlt hne hv hi hinno) p2
          · subst heq
            obtain ⟨v1, v2, v3⟩ := hv j0 hk
            have e := p3 hne (by rw [t1.2.2.2.2]; exact v1) v2 (hv i hi).2.2 v3
              (by rw [t1.1]; exact hinno)
            rw [e]
            exact Nat.succ_le_succ t2)
      exact ⟨h.1, h.2.1, fun hj0 => h.2.2 hj0⟩
    refine ⟨(key 0).1, (key 0).2.1, fun hns hv hinno => ?_⟩
    obtain ⟨i', hi', href⟩ := arc_ddres_ref_some s.rtk sat iu ir ns y azel m f (by omega)
      (fun j hj => ⟨(hv j hj).1, (hv j hj).2.1⟩)
    rw [hsome] at href
    have hii : i = i' := Option.some.inj href
    subst hii
    by_cases h0 : i = 0
    · exact (key 1).2.2 (by omega) (by omega) hv hi' hinno
    · exact (key 0).2.2 (by omega) h0 hv hi' hinno

/-- `arc_ddres` returns at least one residual when all of at least two common
satellites are valid GPS satellites, in a carrier-phase mode with the innovation
test switched off. -/
theorem arc_ddres_nv_pos (E : Env) (rtk : rtk_t) (nav : nav_t) (dt : ℚ) (x : Nat → ℚ)
    (P : Option (Nat → ℚ)) (sat : Nat → Nat) (y e azel : Nat → ℚ) (iu ir : Nat → Nat) (ns : Nat)
    (v : Nat → ℚ) (H R : Option (Nat → ℚ)) (vflg : Nat → Nat)
    (hmode : rtk.opt.mode > PMODE_DGPS) (hinno : rtk.opt.maxinno ≤ 0) (hns : 2 ≤ ns)
    (hv : ∀ j, j < ns → arc_test_sys (rtk.ssat (sat j - 1)).sys 0 = true ∧
      arc_validobs (iu j) (ir j) 0 1 y = true ∧ 0 < nav.lam (sat j - 1) 0) :
    1 ≤ (arc_ddres E rtk nav dt x P sat y e azel iu ir ns v H R vflg).nv := by
  unfold arc_ddres
  lift_lets
  intro nf opt bl rtk0 a f0 s1 c s1c s2
  have h0 : sys_frame rtk rtk0 := by
    apply sys_frame_forN
    intro i t _
    apply sys_frame_upd
    intro k
    exact sys_update _ _ _ (by rfl) k
  have hf0 : f0 = 0 := if_pos hmode
  have hmono : ∀ (m : Nat) (t : ddres_t), t.nv ≤
      (forN (nf * 2 - f0)
        (fun k s => arc_ddres_group E nav dt x sat y e azel iu ir ns bl a m (f0 + k) s) t).nv := by
    intro m t
    exact forN_inv (fun u : ddres_t => t.nv ≤ u.nv) _ _ _ (Nat.le_refl _)
      (fun k u _ hu => Nat.le_trans hu (arc_ddres_group_spec _ _ _ _ _ _ _ _ _ _ _ _ _ _ _ _).2.1)
  have h1 : 1 ≤ s1.nv := by
    refine Nat.le_trans ?_ (forN_first_le (fun t : ddres_t => t.nv) 4 _ _ hmono (by decide))
    have hpos : 0 < nf * 2 - f0 := by
      rw [hf0]
      decide
    refine Nat.le_trans ?_ (forN_first_le (fun t : ddres_t => t.nv) (nf * 2 - f0) _ _
      (fun k u => (arc_ddres_group_spec _ _ _ _ _ _ _ _ _ _ _ _ _ _ _ _).2.1) hpos)
    have hg := (arc_ddres_group_spec E nav dt x sat y e azel iu ir ns bl a 0 (f0 + 0)
      { rtk := rtk0, v := v, H := H, R := R, Ri := E.arc_mat (ns * nf * 2 + 2) 1,
        Rj := E.arc_mat (ns * nf * 2 + 2) 1, vflg := vflg, nv := 0, nb := fun _ => 0,
        b := 0 }).2.2 hns
      (by
        intro j hj
        obtain ⟨v1, v2, v3⟩ := hv j hj
        rw [hf0]
        refine ⟨?_, v2, v3⟩
        show arc_test_sys (rtk0.ssat (sat j - 1)).sys 0 = true
        rw [h0.2.2.2.2]
        exact v1)
      (by
        show rtk0.opt.maxinno ≤ 0
        rw [h0.1]
        exact hinno)
    exact hg
  have h2 : s1.nv ≤ s2.nv := by
    show s1.nv ≤ (if _ then (if _ then _ else _) else s1 : ddres_t).nv
    split
    · split
      · exact Nat.le_succ _
      · exact Nat.le_refl _
    · exact Nat.le_refl _
  split
  · exact Nat.le_trans h1 h2
  · exact Nat.le_trans h1 h2

theorem arc_udpos_first_sys (E : Env) (rtk : rtk_t) : sys_frame rtk (arc_udpos_first E rtk) := by
  unfold arc_udpos_first
  split
  · dsimp only
    split
    · refine sys_frame_forN _ _ _ (fun i t _ => sys_frame_initx _ _ _ _) |> sys_frame_trans ?_
      refine sys_frame_forN _ _ _ (fun i t _ => sys_frame_initx _ _ _ _) |> sys_frame_trans ?_
      exact sys_frame_forN _ _ _ (fun i t _ => sys_frame_initx _ _ _ _)
    · exact sys_frame_forN _ _ _ (fun i t _ => sys_frame_initx _ _ _ _)
  · exact sys_frame_refl _

/-- In kinematic mode without dynamics and without estimated atmosphere, the
temporal update sets `x[0]` to the single-point solution `sol.rr[0]`. -/
theorem arc_udstate_kinematic_x0 (E : Env) (rtk : rtk_t) (obs : Nat → obsd_t)
    (sat iu ir : Nat → Nat) (ns : Nat) (nav : nav_t)
    (hmode : rtk.opt.mode = PMODE_KINEMA) (hdyn : rtk.opt.dynamics = 0)
    (hion : ¬ rtk.opt.ionoopt ≥ IONOOPT_EST) (htrop : ¬ rtk.opt.tropopt ≥ TROPOPT_EST) :
    (arc_udstate E rtk obs sat iu ir ns nav).x 0 = rtk.sol.rr 0 := by
  have hfirst := arc_udpos_first_sys E rtk
  have hpos : arc_udpos E rtk |rtk.tt| =
      forN 3 (fun i r => arc_initx r (r.sol.rr i) VAR_POS i) (arc_udpos_first E rtk) := by
    unfold arc_udpos
    rw [if_neg (by rw [hmode]; decide)]
    dsimp only
    rw [if_neg (by rw [hfirst.1, hmode]; decide), if_pos (by rw [hfirst.1, hdyn])]
  have hx : (arc_udpos E rtk |rtk.tt|).x 0 = rtk.sol.rr 0 := by
    rw [hpos]
    simp only [forN, arc_initx_x, arc_initx_sol]
    rw [Function.update_noteq (by decide), Function.update_noteq (by decide),
      Function.update_same, hfirst.2.2.2.1]
  have hsys := arc_udpos_sys E rtk |rtk.tt|
  unfold arc_udstate
  lift_lets
  intro tt r1 r2 r3
  have e2 : r2 = r1 := if_neg (by
    show ¬ (arc_udpos E rtk |rtk.tt|).opt.ionoopt ≥ IONOOPT_EST
    rw [hsys.1]
    exact hion)
  have e3 : r3 = r1 := by
    show (if r2.opt.tropopt ≥ TROPOPT_EST then arc_udtrop E r2 tt else r2) = r1
    rw [e2]
    exact if_neg (by
      show ¬ (arc_udpos E rtk |rtk.tt|).opt.tropopt ≥ TROPOPT_EST
      rw [hsys.1]
      exact htrop)
  show (if r3.opt.mode > PMODE_DGPS then arc_udbias E r3 tt obs sat iu ir ns nav else r3).x 0 = _
  rw [e3]
  have hm : r1.opt.mode > PMODE_DGPS := by
    show (arc_udpos E rtk |rtk.tt|).opt.mode > PMODE_DGPS
    rw [hsys.1, hmode]
    decide
  rw [if_pos hm]
  obtain ⟨_, _, fx, _⟩ := arc_udbias_amb E r1 tt obs sat iu ir ns nav
  rw [fx 0 (by
    intro s
    unfold IB NR NP
    split <;> omega)]
  exact hx

/-- A pass of the measurement-update loop that reaches `arc_filter` records the
error code that the filter returns. -/
theorem arc_relpos_iter_error (E : Env) (obs : Nat → obsd_t) (nu : Nat) (nav : nav_t)
    (rs dts : Nat → ℚ) (svh : Nat → Int) (sat iu ir : Nat → Nat) (ns : Nat) (dt : ℚ) (n : Nat)
    (s : relpos_t) (c : Int) (hc : c ≠ 0)
    (hf : ∀ x P H v R n m, (E.arc_filter x P H v R n m).info = c)
    (hz : ¬ E.arc_norm s.xp 3 ≤ 0)
    (hmode : s.rtk.opt.mode > PMODE_DGPS) (hinno : s.rtk.opt.maxinno ≤ 0) (hns : 2 ≤ ns)
    (hv : ∀ j, j < ns → arc_test_sys (s.rtk.ssat (sat j - 1)).sys 0 = true ∧
      arc_validobs (iu j) (ir j) 0 1
        (arc_zdres E 0 obs nu rs dts svh nav s.xp s.rtk.opt 0 s.y s.e s.azel).y = true ∧
      0 < nav.lam (sat j - 1) 0) :
    (arc_relpos_iter E obs nu nav rs dts svh sat iu ir ns dt (n + 1) s).info = some c := by
  unfold arc_relpos_iter
  lift_lets
  intro z s1 d s2 Pp fl s3
  have hzr : ¬ z.ret = 0 := by
    show ¬ (arc_zdres E 0 obs nu rs dts svh nav s.xp s.rtk.opt 0 s.y s.e s.azel).ret = 0
    rw [arc_zdres_ret, if_neg hz]
    decide
  rw [if_neg hzr]
  have hnv : ¬ d.nv < 1 := by
    have := arc_ddres_nv_pos E s1.rtk nav dt s1.xp (some s1.Pp) sat s1.y s1.e s1.azel iu ir ns
      s1.v (some s1.H) (some s1.R) s1.vflg hmode hinno hns hv
    exact Nat.not_lt.mpr this
  rw [if_neg hnv]
  have hfl : fl.info ≠ 0 := by
    show (E.arc_filter _ _ _ _ _ _ _).info ≠ 0
    rw [hf]
    exact hc
  rw [if_pos hfl]
  show some fl.info = some c
  exact congrArg some (hf _ _ _ _ _ _ _)

set_option maxRecDepth 8000 in
theorem roverF_y (xp : Nat → ℚ) (hn : ¬ E_fail.arc_norm xp 3 ≤ 0) (rs dts : Nat → ℚ)
    (svh : Nat → Int) (hd : ∀ k, dts k = 0) (yin e azel : Nat → ℚ) :
    (arc_zdres E_fail 0 obsF 2 rs dts svh nav0 xp rtkF.opt 0 yin e azel).y 0 = 4 ∧
    (arc_zdres E_fail 0 obsF 2 rs dts svh nav0 xp rtkF.opt 0 yin e azel).y 2 = 4 ∧
    (arc_zdres E_fail 0 obsF 2 rs dts svh nav0 xp rtkF.opt 0 yin e azel).y 4 = yin 4 ∧
    (arc_zdres E_fail 0 obsF 2 rs dts svh nav0 xp rtkF.opt 0 yin e azel).y 6 = yin 6 := by
  unfold arc_zdres
  dsimp only
  rw [if_neg hn]
  refine ⟨?_, ?_, ?_, ?_⟩ <;>
  norm_num [arc_zdres_obs, arc_zdres_sat, forN, E_fail, E0, rtkF, rtk8, rtk0, opt0, obsF, nav0,
    Function.update, hd]

/-- The return value of the base-station residuals in `arc_relpos`. -/
theorem arc_relpos_base_ret (E : Env) (rtk : rtk_t) (obs : Nat → obsd_t) (nu nr : Nat)
    (nav : nav_t) :
    (arc_relpos_base E rtk obs nu nr nav).ret = if E.arc_norm rtk.rb 3 ≤ 0 then 0 else 1 := by
  have hrb := (arc_relpos_base_frame E rtk obs nu nr nav).2.2.2.2.2.1
  show (arc_zdres E 1 _ nr _ _ _ nav (arc_relpos_base E rtk obs nu nr nav).rtk.rb rtk.opt 1
    _ _ _).ret = _
  rw [arc_zdres_ret, hrb]

/-- The working state with which the measurement-update loop of `arc_relpos`
starts. -/
theorem arc_relpos_meas_iter (E : Env) (st : intpres_static_t) (rtk : rtk_t)
    (obs : Nat → obsd_t) (nu nr : Nat) (nav : nav_t) (hceres : rtk.opt.ceres = 0) :
    ∃ s0 : relpos_t, s0.rtk = arc_relpos_ud E rtk obs nu nr nav ∧
      s0.xp = arc_matcpy (E.arc_mat (arc_relpos_ud E rtk obs nu nr nav).nx 1)
        (arc_relpos_ud E rtk obs nu nr nav).x (arc_relpos_ud E rtk obs nu nr nav).nx 1 ∧
      s0.y = splice (arc_relpos_base E rtk obs nu nr nav).y (nu * 1 * 2)
        (arc_relpos_intp E st rtk obs nu nr nav).y ∧
      s0.e = (arc_relpos_base E rtk obs nu nr nav).e ∧
      s0.azel = (arc_relpos_base E rtk obs nu nr nav).azel ∧
      arc_relpos_meas E st rtk obs nu nr nav =
        arc_relpos_iter E obs nu nav (arc_relpos_base E rtk obs nu nr nav).sp.rs
          (arc_relpos_base E rtk obs nu nr nav).sp.dts (arc_relpos_base E rtk obs nu nr nav).sp.svh
          (arc_relpos_sel E rtk obs nu nr nav).sat (arc_relpos_sel E rtk obs nu nr nav).iu
          (arc_relpos_sel E rtk obs nu nr nav).ir (arc_relpos_sel E rtk obs nu nr nav).k
          (arc_relpos_intp E st rtk obs nu nr nav).ret
          (rtk.opt.niter + (if rtk.opt.mode = PMODE_MOVEB ∧ rtk.opt.baseline 0 > 0 then 2 else 0))
          s0 := by
  refine ⟨?s0, ?h1, ?h2, ?h3, ?h4, ?h5, ?h6⟩
  case h6 =>
    delta arc_relpos_meas
    exact if_pos hceres
  case h1 => rfl
  case h2 => rfl
  case h3 => rfl
  case h4 => rfl
  case h5 => rfl

theorem E_fail_norm_pos (a : Nat → ℚ) (h : a 0 ≠ 0) : ¬ E_fail.arc_norm a 3 ≤ 0 := by
  show ¬ (0 + |a 0| + |a 1| + |a 2| : ℚ) ≤ 0
  have h0 : 0 < |a 0| := abs_pos.mpr h
  have h1 : 0 ≤ |a 1| := abs_nonneg _
  have h2 : 0 ≤ |a 2| := abs_nonneg _
  intro hle
  linarith

/-- The epoch `obsF` with the failing filter: the base-station residuals are
computed, two common satellites are selected, and the measurement update ends
with the error 1 of `arc_filter`. -/
theorem relposF_facts :
    (arc_relpos_base E_fail rtkF obsF 2 2 nav0).ret ≠ 0 ∧
    0 < (arc_relpos_sel E_fail rtkF obsF 2 2 nav0).k ∧
    (arc_relpos_meas E_fail st0 rtkF obsF 2 2 nav0).info = some 1 := by
  have hb : (arc_relpos_base E_fail rtkF obsF 2 2 nav0).ret ≠ 0 := by
    rw [arc_relpos_base_ret, if_neg (E_fail_norm_pos _ (by norm_num [rtkF, rtk8, rtk0]))]
    decide
  obtain ⟨k2, s0', s1', u0, u1, r0, r1⟩ := selF
  obtain ⟨bx, bP, bnx, bopt, bsol, brb, btt, bout, bsys⟩ :=
    arc_relpos_base_frame E_fail rtkF obsF 2 2 nav0
  have hsys : sys_frame (arc_relpos_base E_fail rtkF obsF 2 2 nav0).rtk
      (arc_relpos_ud E_fail rtkF obsF 2 2 nav0) := arc_udstate_sys _ _ _ _ _ _ _ _
  obtain ⟨uopt, unx, _, _, usys⟩ := hsys
  have hopt : (arc_relpos_ud E_fail rtkF obsF 2 2 nav0).opt = rtkF.opt := uopt.trans bopt
  have hx0 : (arc_relpos_ud E_fail rtkF obsF 2 2 nav0).x 0 = 1 := by
    have h := arc_udstate_kinematic_x0 E_fail (arc_relpos_base E_fail rtkF obsF 2 2 nav0).rtk
      obsF (arc_relpos_sel E_fail rtkF obsF 2 2 nav0).sat
      (arc_relpos_sel E_fail rtkF obsF 2 2 nav0).iu (arc_relpos_sel E_fail rtkF obsF 2 2 nav0).ir
      (arc_relpos_sel E_fail rtkF obsF 2 2 nav0).k nav0
      (by rw [bopt]; rfl) (by rw [bopt]; rfl) (by rw [bopt]; decide) (by rw [bopt]; decide)
    rw [bsol] at h
    rw [show (arc_relpos_ud E_fail rtkF obsF 2 2 nav0).x 0 = _ from h]
    norm_num [rtkF, rtk8, rtk0]
  refine ⟨hb, by rw [k2]; decide, ?_⟩
  obtain ⟨s0, e1, e2, e3, e4, e5, e6⟩ :=
    arc_relpos_meas_iter E_fail st0 rtkF obsF 2 2 nav0 rfl
  have hn : rtkF.opt.niter +
      (if rtkF.opt.mode = PMODE_MOVEB ∧ rtkF.opt.baseline 0 > 0 then 2 else 0) = 0 + 1 := by
    rw [if_neg (fun h => absurd h.1 (by decide))]
    rfl
  rw [e6, hn]
  have hnx : (arc_relpos_ud E_fail rtkF obsF 2 2 nav0).nx = 5 := unx.trans bnx
  have hxp : ¬ E_fail.arc_norm s0.xp 3 ≤ 0 := by
    apply E_fail_norm_pos
    rw [e2, hnx]
    show (if 0 < 5 * 1 then (arc_relpos_ud E_fail rtkF obsF 2 2 nav0).x 0 else _) ≠ 0
    rw [if_pos (by decide), hx0]
    norm_num
  have hdts : ∀ k, (arc_relpos_base E_fail rtkF obsF 2 2 nav0).sp.dts k = 0 := fun _ => rfl
  have hy4 : s0.y 4 = 4 := by
    rw [e3]
    exact baseF_y.1
  have hy6 : s0.y 6 = 4 := by
    rw [e3]
    exact baseF_y.2.2.1
  obtain ⟨z0, z2, z4, z6⟩ := roverF_y s0.xp hxp (arc_relpos_base E_fail rtkF obsF 2 2 nav0).sp.rs
    (arc_relpos_base E_fail rtkF obsF 2 2 nav0).sp.dts
    (arc_relpos_base E_fail rtkF obsF 2 2 nav0).sp.svh hdts s0.y s0.e s0.azel
  rw [hy4] at z4
  rw [hy6] at z6
  have ho : s0.rtk.opt = rtkF.opt := by rw [e1]; exact hopt
  apply arc_relpos_iter_error E_fail obsF 2 nav0 _ _ _ _ _ _ _ _ 0 s0 1 (by decide)
    (fun _ _ _ _ _ _ _ => rfl) hxp (by rw [ho]; decide) (by rw [ho]; exact le_refl 0)
    (by rw [k2])
  intro j hj
  rw [k2] at hj
  have hgps : ∀ i, i < 2 → (s0.rtk.ssat i).sys = SYS_GPS := by
    intro i hi
    rw [e1, usys i, bsys i hi]
    rfl
  rw [ho]
  rcases Nat.lt_succ_iff_lt_or_eq.mp hj with hlt | heq
  · have hj0 : j = 0 := by omega
    subst hj0
    rw [s0', u0, r0, hgps 0 (by decide)]
    refine ⟨rfl, ?_, by norm_num [nav0]⟩
    unfold arc_validobs
    simp only [Nat.zero_add, Nat.zero_mul, Nat.mul_one, Nat.one_mul, z0, z4]
    norm_num
  · subst heq
    rw [s1', u1, r1, hgps 1 (by decide)]
    refine ⟨rfl, ?_, by norm_num [nav0]⟩
    unfold arc_validobs
    simp only [Nat.zero_add, Nat.one_mul, Nat.mul_one, z2, z6]
    norm_num

theorem relposF_x0 : (arc_relpos_ud E_fail rtkF obsF 2 2 nav0).x 0 = 1 := by
  obtain ⟨_, _, _, bopt, bsol, _⟩ := arc_relpos_base_frame E_fail rtkF obsF 2 2 nav0
  have h := arc_udstate_kinematic_x0 E_fail (arc_relpos_base E_fail rtkF obsF 2 2 nav0).rtk
    obsF (arc_relpos_sel E_fail rtkF obsF 2 2 nav0).sat
    (arc_relpos_sel E_fail rtkF obsF 2 2 nav0).iu (arc_relpos_sel E_fail rtkF obsF 2 2 nav0).ir
    (arc_relpos_sel E_fail rtkF obsF 2 2 nav0).k nav0
    (by rw [bopt]; rfl) (by rw [bopt]; rfl) (by rw [bopt]; decide) (by rw [bopt]; decide)
  rw [bsol] at h
  rw [show (arc_relpos_ud E_fail rtkF obsF 2 2 nav0).x 0 = _ from h]
  norm_num [rtkF, rtk8, rtk0]

/-- C5 (amended): when the Kalman measurement update of `arc_relpos` fails (the
loop over `niter` ends with a non-zero error code of `arc_filter`), `arc_relpos`
returns 0 and the retained state `x` and covariance `P` are those that the
temporal update `arc_udstate` of this epoch has left; the measurement update is
not applied. -/
theorem C5_filter_error_keeps_prediction (E : Env) (st : intpres_static_t) (rtk : rtk_t)
    (obs : Nat → obsd_t) (nu nr : Nat) (nav : nav_t)
    (hceres : rtk.opt.ceres = 0)
    (hb : (arc_relpos_base E rtk obs nu nr nav).ret ≠ 0)
    (hk : 0 < (arc_relpos_sel E rtk obs nu nr nav).k)
    (c : Int) (hc : c ≠ 0) (hinfo : (arc_relpos_meas E st rtk obs nu nr nav).info = some c) :
    (arc_relpos E st rtk obs nu nr nav).ret = 0 ∧
    (arc_relpos E st rtk obs nu nr nav).rtk.x = (arc_relpos_ud E rtk obs nu nr nav).x ∧
    (arc_relpos E st rtk obs nu nr nav).rtk.P = (arc_relpos_ud E rtk obs nu nr nav).P :=
  arc_relpos_filter_error E st rtk obs nu nr nav hceres hb hk c hc hinfo

/-- The theorem C5 at the epoch `obsF` with a filter that reports the error 1. -/
theorem C5_filter_error_keeps_prediction_witness :
    (arc_relpos_meas E_fail st0 rtkF obsF 2 2 nav0).info = some 1 ∧
    (arc_relpos E_fail st0 rtkF obsF 2 2 nav0).ret = 0 ∧
    (arc_relpos E_fail st0 rtkF obsF 2 2 nav0).rtk.x =
      (arc_relpos_ud E_fail rtkF obsF 2 2 nav0).x ∧
    (arc_relpos E_fail st0 rtkF obsF 2 2 nav0).rtk.P =
      (arc_relpos_ud E_fail rtkF obsF 2 2 nav0).P :=
  ⟨relposF_facts.2.2,
    C5_filter_error_keeps_prediction E_fail st0 rtkF obsF 2 2 nav0 rfl relposF_facts.1
      relposF_facts.2.1 1 (by decide) relposF_facts.2.2⟩

/-- C5 fails as stated: in kinematic mode, with two common satellites and a
filter that returns the error 1, `arc_relpos` returns 0 and retains `x[0] = 1`,
the value that the temporal update has seeded from `sol.rr[0]`, while `x[0]` was
10 at the start of the epoch. -/
theorem C5_counterexample :
    (∀ x P H v R n m, (E_fail.arc_filter x P H v R n m).info = 1) ∧
    (arc_relpos_meas E_fail st0 rtkF obsF 2 2 nav0).info = some 1 ∧
    (arc_relpos E_fail st0 rtkF obsF 2 2 nav0).ret = 0 ∧
    rtkF.x 0 = 10 ∧
    (arc_relpos E_fail st0 rtkF obsF 2 2 nav0).rtk.x 0 = 1 := by
  obtain ⟨hr, hx, _⟩ := arc_relpos_filter_error E_fail st0 rtkF obsF 2 2 nav0 rfl
    relposF_facts.1 relposF_facts.2.1 1 (by decide) relposF_facts.2.2
  refine ⟨fun _ _ _ _ _ _ _ => rfl, relposF_facts.2.2, hr, by norm_num [rtkF, rtk8], ?_⟩
  rw [hx]
  exact relposF_x0

/-! ## Claims on the double-differenced residuals -/

/-- C20: for each family `m` and channel `f`, the search of `arc_ddres` selects
a reference satellite whenever at least one common satellite of the family has
valid residuals at both stations, and the rover-side elevation of the selected
reference is at least that of every such satellite. -/
theorem C20_reference_highest (rtk : rtk_t) (sat iu ir : Nat → Nat) (ns : Nat)
    (y azel : Nat → ℚ) (m f nf : Nat)
    (h : ∃ j, j < ns ∧ arc_test_sys (rtk.ssat (sat j - 1)).sys m = true ∧
      arc_validobs (iu j) (ir j) f nf y = true) :
    ∃ i, arc_ddres_ref rtk sat iu ir ns y azel m f nf = some i ∧ i < ns ∧
      arc_test_sys (rtk.ssat (sat i - 1)).sys m = true ∧
      arc_validobs (iu i) (ir i) f nf y = true ∧
      ∀ j, j < ns → arc_test_sys (rtk.ssat (sat j - 1)).sys m = true →
        arc_validobs (iu j) (ir j) f nf y = true →
        azel (1 + iu i * 2) ≥ azel (1 + iu j * 2) := by
  unfold arc_ddres_ref
  have hinv := forN_inv_idx (fun (k : Nat) (o : Option Nat) =>
      (o = none ∧ ∀ j, j < k → ¬ (arc_test_sys (rtk.ssat (sat j - 1)).sys m = true ∧
        arc_validobs (iu j) (ir j) f nf y = true)) ∨
      (∃ i, o = some i ∧ i < k ∧ arc_test_sys (rtk.ssat (sat i - 1)).sys m = true ∧
        arc_validobs (iu i) (ir i) f nf y = true ∧
        ∀ j, j < k → arc_test_sys (rtk.ssat (sat j - 1)).sys m = true →
          arc_validobs (iu j) (ir j) f nf y = true →
          azel (1 + iu i * 2) ≥ azel (1 + iu j * 2))) ns
    (fun j i =>
      let sysi := (rtk.ssat (sat j - 1)).sys
      if arc_test_sys sysi m = false then i
      else if arc_validobs (iu j) (ir j) f nf y = false then i
      else
        match i with
        | none => some j
        | some i0 => if azel (1 + iu j * 2) ≥ azel (1 + iu i0 * 2) then some j else some i0)
    none (Or.inl ⟨rfl, fun j hj => absurd hj (Nat.not_lt_zero j)⟩)
    (by
      intro k o _ ih
      dsimp only
      by_cases h1 : arc_test_sys (rtk.ssat (sat k - 1)).sys m = false
      · rw [if_pos h1]
        rcases ih with ⟨ho, hn⟩ | ⟨i, ho, hi, v1, v2, hmax⟩
        · left
          refine ⟨ho, fun j hj => ?_⟩
          rcases Nat.lt_succ_iff_lt_or_eq.mp hj with hlt | heq
          · exact hn j hlt
          · subst heq
            intro hv
            rw [h1] at hv
            exact absurd hv.1 (by decide)
        · right
          refine ⟨i, ho, Nat.lt_succ_of_lt hi, v1, v2, fun j hj w1 w2 => ?_⟩
          rcases Nat.lt_succ_iff_lt_or_eq.mp hj with hlt | heq
          · exact hmax j hlt w1 w2
          · subst heq
            rw [h1] at w1
            exact absurd w1 (by decide)
      · rw [if_neg h1]
        by_cases h2 : arc_validobs (iu k) (ir k) f nf y = false
        · rw [if_pos h2]
          rcases ih with ⟨ho, hn⟩ | ⟨i, ho, hi, v1, v2, hmax⟩
          · left
            refine ⟨ho, fun j hj => ?_⟩
            rcases Nat.lt_succ_iff_lt_or_eq.mp hj with hlt | heq
            · exact hn j hlt
            · subst heq
              intro hv
              rw [h2] at hv
              exact absurd hv.2 (by decide)
          · right
            refine ⟨i, ho, Nat.lt_succ_of_lt hi, v1, v2, fun j hj w1 w2 => ?_⟩
            rcases Nat.lt_succ_iff_lt_or_eq.mp hj with hlt | heq
            · exact hmax j hlt w1 w2
            · subst heq
              rw [h2] at w2
              exact absurd w2 (by decide)
        · rw [if_neg h2]
          have t1 : arc_test_sys (rtk.ssat (sat k - 1)).sys m = true := by
            cases hb : arc_test_sys (rtk.ssat (sat k - 1)).sys m
            · exact absurd hb h1
            · rfl
          have t2 : arc_validobs (iu k) (ir k) f nf y = true := by
            cases hb : arc_validobs (iu k) (ir k) f nf y
            · exact absurd hb h2
            · rfl
          right
          rcases ih with ⟨ho, hn⟩ | ⟨i, ho, hi, v1, v2, hmax⟩
          · subst ho
            refine ⟨k, rfl, Nat.lt_succ_self k, t1, t2, fun j hj w1 w2 => ?_⟩
            rcases Nat.lt_succ_iff_lt_or_eq.mp hj with hlt | heq
            · exact absurd ⟨w1, w2⟩ (hn j hlt)
            · subst heq
              exact le_refl _
          · subst ho
            dsimp only
            by_cases hge : azel (1 + iu k * 2) ≥ azel (1 + iu i * 2)
            · rw [if_pos hge]
              refine ⟨k, rfl, Nat.lt_succ_self k, t1, t2, fun j hj w1 w2 => ?_⟩
              rcases Nat.lt_succ_iff_lt_or_eq.mp hj with hlt | heq
              · exact le_trans (hmax j hlt w1 w2) hge
              · subst heq
                exact le_refl _
            · rw [if_neg hge]
              refine ⟨i, rfl, Nat.lt_succ_of_lt hi, v1, v2, fun j hj w1 w2 => ?_⟩
              rcases Nat.lt_succ_iff_lt_or_eq.mp hj with hlt | heq
              · exact hmax j hlt w1 w2
              · subst heq
                exact le_of_lt (not_le.mp hge))
  rcases hinv with ⟨_, hn⟩ | ⟨i, ho, hi, v1, v2, hmax⟩
  · obtain ⟨j, hj, hv⟩ := h
    exact absurd hv (hn j hj)
  · exact ⟨i, ho, hi, v1, v2, hmax⟩

theorem valid_w (j : Nat) :
    arc_test_sys (rtkL.ssat (sat_w j - 1)).sys 0 = true ∧
    arc_validobs j (ir_w j) 0 1 (fun _ => 1) = true := by
  constructor
  · rfl
  · simp [arc_validobs]

/-- The theorem C20 at two valid GPS satellites. -/
theorem C20_reference_highest_witness :
    (∃ j, j < 2 ∧ arc_test_sys (rtkL.ssat (sat_w j - 1)).sys 0 = true ∧
      arc_validobs j (ir_w j) 0 1 (fun _ => 1) = true) ∧
    ∃ i, arc_ddres_ref rtkL sat_w (fun j => j) ir_w 2 (fun _ => 1) azel_w 0 0 1 = some i ∧ i < 2 ∧
      arc_test_sys (rtkL.ssat (sat_w i - 1)).sys 0 = true ∧
      arc_validobs i (ir_w i) 0 1 (fun _ => 1) = true ∧
      ∀ j, j < 2 → arc_test_sys (rtkL.ssat (sat_w j - 1)).sys 0 = true →
        arc_validobs j (ir_w j) 0 1 (fun _ => 1) = true →
        azel_w (1 + i * 2) ≥ azel_w (1 + j * 2) :=
  ⟨⟨0, by decide, valid_w 0⟩,
    C20_reference_highest rtkL sat_w (fun j => j) ir_w 2 (fun _ => 1) azel_w 0 0 1
      ⟨0, by decide, valid_w 0⟩⟩

/-- C16: when `arc_intpres` (and likewise `ARC_ObservationModel::IntPres`) is
called while a base epoch is cached (`nb > 0`) and the cached base epoch has the
time of the current base epoch, every entry of `y` is unchanged and the
returned time deviation is `tt = timediff(time,obs[0].time)`. -/
theorem C16_intpres_same_epoch (E : Env) (st : intpres_static_t) (time : gtime_t)
    (obs : Nat → obsd_t) (n : Nat) (nav : nav_t) (rtk : rtk_t) (m_Opt : prcopt_t)
    (rb y : Nat → ℚ) (_hnb : 0 < st.nb) (htime : (st.obsb 0).time = (obs 0).time) :
    ((arc_intpres E st time obs n nav rtk y).y = y ∧
      (arc_intpres E st time obs n nav rtk y).ret = E.timediff time (obs 0).time) ∧
    ((IntPres E st time obs n nav m_Opt rb y).y = y ∧
      (IntPres E st time obs n nav m_Opt rb y).ret = E.timediff time (obs 0).time) := by
  constructor
  · unfold arc_intpres
    lift_lets
    intros
    split
    · exact ⟨rfl, rfl⟩
    · rw [if_pos (Or.inr (congrArg (E.timediff time) htime))]
      exact ⟨rfl, rfl⟩
  · unfold IntPres
    lift_lets
    intros
    split
    · exact ⟨rfl, rfl⟩
    · rw [if_pos (Or.inr (congrArg (E.timediff time) htime))]
      exact ⟨rfl, rfl⟩

/-- The theorem C16 with the cached epoch `obs10` and the current epoch
`obs10`. -/
theorem C16_intpres_same_epoch_witness :
    (0 < st1.nb ∧ (st1.obsb 0).time = (obs10 0).time) ∧
    ((arc_intpres E0 st1 ⟨5, 0⟩ obs10 1 nav0 rtk0 (fun _ => 1)).y = (fun _ => 1) ∧
      (arc_intpres E0 st1 ⟨5, 0⟩ obs10 1 nav0 rtk0 (fun _ => 1)).ret =
        E0.timediff ⟨5, 0⟩ (obs10 0).time) ∧
    ((IntPres E0 st1 ⟨5, 0⟩ obs10 1 nav0 opt0 rtk0.rb (fun _ => 1)).y = (fun _ => 1) ∧
      (IntPres E0 st1 ⟨5, 0⟩ obs10 1 nav0 opt0 rtk0.rb (fun _ => 1)).ret =
        E0.timediff ⟨5, 0⟩ (obs10 0).time) :=
  ⟨⟨by decide, rfl⟩,
    C16_intpres_same_epoch E0 st1 ⟨5, 0⟩ obs10 1 nav0 rtk0 opt0 rtk0.rb (fun _ => 1)
      (by decide) rfl⟩

/-! ## Baseline constraint and measurement covariance -/

theorem forN3_row (c : Nat) (g : Nat → ℚ) (H0 : Nat → ℚ) :
    (∀ i, i < 3 → forN 3 (fun i H => Function.update H (i + c) (g i)) H0 (i + c) = g i) ∧
    (∀ k, (∀ i, i < 3 → k ≠ i + c) →
      forN 3 (fun i H => Function.update H (i + c) (g i)) H0 k = H0 k) := by
  have e : forN 3 (fun i H => Function.update H (i + c) (g i)) H0 =
      Function.update (Function.update (Function.update H0 (0 + c) (g 0)) (1 + c) (g 1))
        (2 + c) (g 2) := rfl
  rw [e]
  constructor
  · intro i hi
    rcases (by omega : i = 0 ∨ i = 1 ∨ i = 2) with h | h | h
    · subst h
      rw [Function.update_noteq (by omega), Function.update_noteq (by omega),
        Function.update_same]
    · subst h
      rw [Function.update_noteq (by omega), Function.update_same]
    · subst h
      rw [Function.update_same]
  · intro k hk
    rw [Function.update_noteq (hk 2 (by decide)), Function.update_noteq (hk 1 (by decide)),
      Function.update_noteq (hk 0 (by decide))]

theorem arc_constbl_accept (E : Env) (rtk : rtk_t) (x : Nat → ℚ) (P : Option (Nat → ℚ))
    (v : Nat → ℚ) (H : Option (Nat → ℚ)) (Ri Rj : Nat → ℚ) (index : Nat)
    (h1 : ¬ rtk.opt.baseline 0 ≤ 0)
    (h2 : ¬ constbl_var rtk P > 1 / 10 * (1 / 10) * constbl_bb E rtk x * constbl_bb E rtk x) :
    arc_constbl E rtk x P v H Ri Rj index =
      { ret := 1
        v := Function.update v index (rtk.opt.baseline 0 - constbl_bb E rtk x)
        H := H.map (fun H => forN 3 (fun i H => Function.update H (i + index * rtk.nx)
          ((x i - (rtk.rb i + rtk.rb (i + 3) * rtk.sol.age)) / constbl_bb E rtk x)) H)
        Ri := Function.update Ri index 0
        Rj := Function.update Rj index (SQR (rtk.opt.baseline 1)) } := by
  delta arc_constbl
  exact (if_neg h1).trans (if_neg h2)

theorem arc_constbl_reject (E : Env) (rtk : rtk_t) (x : Nat → ℚ) (P : Option (Nat → ℚ))
    (v : Nat → ℚ) (H : Option (Nat → ℚ)) (Ri Rj : Nat → ℚ) (index : Nat)
    (h : rtk.opt.baseline 0 ≤ 0 ∨
      constbl_var rtk P > 1 / 10 * (1 / 10) * constbl_bb E rtk x * constbl_bb E rtk x) :
    arc_constbl E rtk x P v H Ri Rj index = { ret := 0, v := v, H := H, Ri := Ri, Rj := Rj } := by
  by_cases h1 : rtk.opt.baseline 0 ≤ 0
  · delta arc_constbl
    exact if_pos h1
  · rcases h with h | h
    · exact absurd h h1
    · delta arc_constbl
      exact (if_neg h1).trans (if_pos h)

/-- C17 (amended): `arc_constbl` appends the baseline-length constraint (returns
1) exactly when the nominal length `baseline[0]` is `> 0` and `var` is not above
`0.01*bb^2` (`var = 0.01*bb^2` is accepted), where `bb` is the norm of
`x_rov - x_base` and `var` the mean of the three position variances (`0` without
`P`); when it appends, `v[index] = baseline[0] - bb`, the row `index` of `H`
holds `b/bb` in the three position columns and is otherwise unchanged,
`Ri[index] = 0` and `Rj[index] = baseline[1]^2`; when it returns 0 it writes
nothing to `v`, `H`, `Ri` or `Rj`. -/
theorem C17_constbl (E : Env) (rtk : rtk_t) (x : Nat → ℚ) (P : Option (Nat → ℚ))
    (v : Nat → ℚ) (H : Option (Nat → ℚ)) (Ri Rj : Nat → ℚ) (index : Nat) :
    ((arc_constbl E rtk x P v H Ri Rj index).ret = 1 ↔
      (rtk.opt.baseline 0 > 0 ∧ constbl_var rtk P ≤ 1 / 100 * constbl_bb E rtk x ^ 2)) ∧
    ((arc_constbl E rtk x P v H Ri Rj index).ret = 1 →
      (arc_constbl E rtk x P v H Ri Rj index).v =
        Function.update v index (rtk.opt.baseline 0 - constbl_bb E rtk x) ∧
      (∀ H0, H = some H0 → ∃ H1, (arc_constbl E rtk x P v H Ri Rj index).H = some H1 ∧
        (∀ i, i < 3 → H1 (i + index * rtk.nx) =
          (x i - (rtk.rb i + rtk.rb (i + 3) * rtk.sol.age)) / constbl_bb E rtk x) ∧
        (∀ k, (∀ i, i < 3 → k ≠ i + index * rtk.nx) → H1 k = H0 k)) ∧
      (H = none → (arc_constbl E rtk x P v H Ri Rj index).H = none) ∧
      (arc_constbl E rtk x P v H Ri Rj index).Ri = Function.update Ri index 0 ∧
      (arc_constbl E rtk x P v H Ri Rj index).Rj =
        Function.update Rj index (SQR (rtk.opt.baseline 1))) ∧
    ((arc_constbl E rtk x P v H Ri Rj index).ret ≠ 1 →
      (arc_constbl E rtk x P v H Ri Rj index).ret = 0 ∧
      (arc_constbl E rtk x P v H Ri Rj index).v = v ∧
      (arc_constbl E rtk x P v H Ri Rj index).H = H ∧
      (arc_constbl E rtk x P v H Ri Rj index).Ri = Ri ∧
      (arc_constbl E rtk x P v H Ri Rj index).Rj = Rj) := by
  by_cases hacc : rtk.opt.baseline 0 ≤ 0 ∨
      constbl_var rtk P > 1 / 10 * (1 / 10) * constbl_bb E rtk x * constbl_bb E rtk x
  · rw [arc_constbl_reject E rtk x P v H Ri Rj index hacc]
    have h01 : ¬ ((0 : Int) = 1) := by decide
    refine ⟨⟨fun h => absurd h h01, fun h => ?_⟩, fun h => absurd h h01,
      fun _ => ⟨rfl, rfl, rfl, rfl, rfl⟩⟩
    exfalso
    rcases hacc with h1 | h2
    · exact absurd h.1 (not_lt.mpr h1)
    · have := h.2
      nlinarith
  · have h1 : ¬ rtk.opt.baseline 0 ≤ 0 := fun h => hacc (Or.inl h)
    have h2 : ¬ constbl_var rtk P >
        1 / 10 * (1 / 10) * constbl_bb E rtk x * constbl_bb E rtk x := fun h => hacc (Or.inr h)
    rw [arc_constbl_accept E rtk x P v H Ri Rj index h1 h2]
    refine ⟨⟨fun _ => ⟨not_le.mp h1, ?_⟩, fun _ => rfl⟩, fun _ => ⟨rfl, ?_, ?_, rfl, rfl⟩,
      fun h => absurd rfl h⟩
    · have := not_lt.mp h2
      nlinarith
    · intro H0 hH
      subst hH
      exact ⟨_, rfl, forN3_row (index * rtk.nx) _ H0⟩
    · intro hH
      subst hH
      rfl

theorem rtkC_bb : constbl_bb E0 rtkC xC = 10 := by
  norm_num [constbl_bb, E0, rtkC, rtk0, xC, forN]

theorem rtkC_var : constbl_var rtkC (some PC) = 1 := by
  norm_num [constbl_var, rtkC, rtk0, PC, forN]

/-- C17, counterexample to the claim as stated: with `bb = 10` and `var = 1` the
linearisation error `var/bb^2` is equal to `0.01`, not below it, and
`arc_constbl` appends the constraint. -/
theorem C17_counterexample :
    (arc_constbl E0 rtkC xC (some PC) (fun _ => 0) none (fun _ => 0) (fun _ => 0) 0).ret = 1 ∧
    rtkC.opt.baseline 0 > 0 ∧
    ¬ (constbl_var rtkC (some PC) / constbl_bb E0 rtkC xC ^ 2 < 1 / 100) := by
  refine ⟨?_, by norm_num [rtkC], ?_⟩
  · rw [arc_constbl_accept E0 rtkC xC (some PC) _ _ _ _ 0 (by norm_num [rtkC])
      (by rw [rtkC_bb, rtkC_var]; norm_num)]
  · rw [rtkC_bb, rtkC_var]
    norm_num

/-- The theorem C17 at `bb = 10`, `var = 1`: the constraint is appended. -/
theorem C17_constbl_witness :
    (rtkC.opt.baseline 0 > 0 ∧ constbl_var rtkC (some PC) ≤ 1 / 100 * constbl_bb E0 rtkC xC ^ 2) ∧
    (arc_constbl E0 rtkC xC (some PC) (fun _ => 0) none (fun _ => 0) (fun _ => 0) 0).ret = 1 :=
  ⟨⟨by norm_num [rtkC], by rw [rtkC_bb, rtkC_var]; norm_num⟩,
    (C17_constbl E0 rtkC xC (some PC) (fun _ => 0) none (fun _ => 0) (fun _ => 0) 0).1.mpr
      ⟨by norm_num [rtkC], by rw [rtkC_bb, rtkC_var]; norm_num⟩⟩

theorem forN_upd_inj (m : Nat) (ix : Nat → Nat) (g : Nat → ℚ) (Q0 : Nat → ℚ)
    (hinj : ∀ i i2, i < m → i2 < m → ix i = ix i2 → i = i2) :
    (∀ a, a < m → forN m (fun i Q => Function.update Q (ix i) (g i)) Q0 (ix a) = g a) ∧
    (∀ k, (∀ i, i < m → k ≠ ix i) →
      forN m (fun i Q => Function.update Q (ix i) (g i)) Q0 k = Q0 k) := by
  induction m with
  | zero => exact ⟨fun a ha => absurd ha (Nat.not_lt_zero a), fun _ _ => rfl⟩
  | succ m ih =>
    obtain ⟨ih1, ih2⟩ := ih (fun i i2 hi hi2 => hinj i i2 (Nat.lt_succ_of_lt hi)
      (Nat.lt_succ_of_lt hi2))
    constructor
    · intro a ha
      rw [forN_succ]
      rcases Nat.lt_succ_iff_lt_or_eq.mp ha with hlt | heq
      · have hne : ix a ≠ ix m := fun h => by
          have := hinj a m ha (Nat.lt_succ_self m) h
          omega
        rw [Function.update_noteq hne]
        exact ih1 a hlt
      · subst heq
        rw [Function.update_same]
    · intro k hk
      rw [forN_succ, Function.update_noteq (hk m (Nat.lt_succ_self m))]
      exact ih2 k (fun i hi => hk i (Nat.lt_succ_of_lt hi))

theorem forN_fill_inj (m : Nat) (idx : Nat → Nat → Nat) (f : Nat → Nat → ℚ) (Q0 : Nat → ℚ)
    (hinj : ∀ i j i2 j2, i < m → j < m → i2 < m → j2 < m → idx i j = idx i2 j2 →
      i = i2 ∧ j = j2) :
    ∀ l, l ≤ m →
    (∀ a b, a < l → b < m →
      forN l (fun i Q => forN m (fun j Q => Function.update Q (idx i j) (f i j)) Q) Q0
        (idx a b) = f a b) ∧
    (∀ k, (∀ i j, i < l → j < m → k ≠ idx i j) →
      forN l (fun i Q => forN m (fun j Q => Function.update Q (idx i j) (f i j)) Q) Q0 k
        = Q0 k) := by
  intro l
  induction l with
  | zero =>
    intro _
    exact ⟨fun a b ha _ => absurd ha (Nat.not_lt_zero a), fun _ _ => rfl⟩
  | succ l ih =>
    intro hl
    have hlm : l < m := hl
    obtain ⟨ih1, ih2⟩ := ih (Nat.le_of_lt hlm)
    have hin := fun Q => forN_upd_inj m (idx l) (f l) Q
      (fun i i2 hi hi2 h => (hinj l i l i2 hlm hi hlm hi2 h).2)
    constructor
    · intro a b ha hb
      rw [forN_succ]
      rcases Nat.lt_succ_iff_lt_or_eq.mp ha with hlt | heq
      · rw [(hin _).2 (idx a b) (fun i hi h => by
          have := (hinj a b l i (Nat.lt_trans hlt hlm) hb hlm hi h).1
          omega)]
        exact ih1 a b hlt hb
      · subst heq
        exact (hin _).1 b hb
    · intro k hk
      rw [forN_succ, (hin _).2 k (fun i hi => hk l i (Nat.lt_succ_self l) hi)]
      exact ih2 k (fun i j hi hj => hk i j (Nat.lt_succ_of_lt hi) hj)

theorem ddcov_off_mono (nb : Nat → Nat) (b c : Nat) (h : b ≤ c) :
    ddcov_off nb b ≤ ddcov_off nb c := by
  induction c with
  | zero =>
    have : b = 0 := by omega
    subst this
    exact Nat.le_refl _
  | succ c ih =>
    rcases Nat.lt_succ_iff_lt_or_eq.mp (Nat.lt_succ_of_le h) with hlt | heq
    · exact Nat.le_trans (ih (Nat.lt_succ_iff.mp hlt)) (Nat.le_add_right _ _)
    · subst heq
      exact Nat.le_refl _

theorem ddcov_off_lt (nb : Nat → Nat) (b n i : Nat) (hb : b < n) (hi : i < nb b) :
    ddcov_off nb b + i < ddcov_off nb n := by
  have h1 : ddcov_off nb (b + 1) ≤ ddcov_off nb n := ddcov_off_mono nb (b + 1) n hb
  have h2 : ddcov_off nb (b + 1) = ddcov_off nb b + nb b := rfl
  omega

theorem ddcov_off_disj (nb : Nat → Nat) (b c i j : Nat) (hbc : b < c) (hi : i < nb b) :
    ddcov_off nb b + i < ddcov_off nb c + j := by
  have h1 : ddcov_off nb (b + 1) ≤ ddcov_off nb c := ddcov_off_mono nb (b + 1) c hbc
  have h2 : ddcov_off nb (b + 1) = ddcov_off nb b + nb b := rfl
  omega

/-- The loop over the blocks of `arc_ddcov` after `l` blocks. -/
theorem arc_ddcov_loop (nb : Nat → Nat) (n : Nat) (Ri Rj : Nat → ℚ) (nv : Nat)
    (R0 : Nat → ℚ) (hsum : ddcov_off nb n = nv) :
    ∀ l, l ≤ n →
    (forN l
      (fun b (s : Nat × (Nat → ℚ)) =>
        (s.1 + nb b,
          forN (nb b) (fun i R => forN (nb b) (fun j R =>
            Function.update R (s.1 + i + (s.1 + j) * nv)
              (Ri (s.1 + i) + (if i = j then Rj (s.1 + i) else 0))) R) s.2))
      (0, R0)).1 = ddcov_off nb l ∧
    (∀ c i j, c < l → i < nb c → j < nb c →
      (forN l
        (fun b (s : Nat × (Nat → ℚ)) =>
          (s.1 + nb b,
            forN (nb b) (fun i R => forN (nb b) (fun j R =>
              Function.update R (s.1 + i + (s.1 + j) * nv)
                (Ri (s.1 + i) + (if i = j then Rj (s.1 + i) else 0))) R) s.2))
        (0, R0)).2 (ddcov_off nb c + i + (ddcov_off nb c + j) * nv) =
        Ri (ddcov_off nb c + i) + (if i = j then Rj (ddcov_off nb c + i) else 0)) ∧
    (∀ k, (∀ c i j, c < l → i < nb c → j < nb c →
        k ≠ ddcov_off nb c + i + (ddcov_off nb c + j) * nv) →
      (forN l
        (fun b (s : Nat × (Nat → ℚ)) =>
          (s.1 + nb b,
            forN (nb b) (fun i R => forN (nb b) (fun j R =>
              Function.update R (s.1 + i + (s.1 + j) * nv)
                (Ri (s.1 + i) + (if i = j then Rj (s.1 + i) else 0))) R) s.2))
        (0, R0)).2 k = R0 k) := by
  intro l
  induction l with
  | zero =>
    intro _
    exact ⟨rfl, fun c i j hc _ _ => absurd hc (Nat.not_lt_zero c), fun _ _ => rfl⟩
  | succ l ih =>
    intro hl
    have hln : l < n := hl
    obtain ⟨ih1, ih2, ih3⟩ := ih (Nat.le_of_lt hln)
    rw [forN_succ]
    dsimp only
    rw [ih1]
    have hfill := forN_fill_inj (nb l)
      (fun i j => ddcov_off nb l + i + (ddcov_off nb l + j) * nv)
      (fun i j => Ri (ddcov_off nb l + i) + (if i = j then Rj (ddcov_off nb l + i) else 0))
      (forN l
        (fun b (s : Nat × (Nat → ℚ)) =>
          (s.1 + nb b,
            forN (nb b) (fun i R => forN (nb b) (fun j R =>
              Function.update R (s.1 + i + (s.1 + j) * nv)
                (Ri (s.1 + i) + (if i = j then Rj (s.1 + i) else 0))) R) s.2))
        (0, R0)).2
      (fun i j i2 j2 hi _ hi2 _ h => by
        have h1 : ddcov_off nb l + i < nv := hsum ▸ ddcov_off_lt nb l n i hln hi
        have h2 : ddcov_off nb l + i2 < nv := hsum ▸ ddcov_off_lt nb l n i2 hln hi2
        have := flat_inj h1 h2 h
        omega)
      (nb l) (Nat.le_refl _)
    refine ⟨rfl, ?_, ?_⟩
    · intro c i j hc hi hj
      rcases Nat.lt_succ_iff_lt_or_eq.mp hc with hlt | heq
      · rw [hfill.2 _ (fun i2 j2 hi2 _ h => by
          have h1 : ddcov_off nb c + i < nv :=
            hsum ▸ ddcov_off_lt nb c n i (Nat.lt_trans hlt hln) hi
          have h2 : ddcov_off nb l + i2 < nv := hsum ▸ ddcov_off_lt nb l n i2 hln hi2
          have h3 := (flat_inj h1 h2 h).1
          have h4 := ddcov_off_disj nb c l i i2 hlt hi
          omega)]
        exact ih2 c i j hlt hi hj
      · subst heq
        exact hfill.1 i j hi hj
    · intro k hk
      rw [hfill.2 k (fun i j hi hj => hk l i j (Nat.lt_succ_self l) hi hj)]
      exact ih3 k (fun c i j hc hi hj => hk c i j (Nat.lt_succ_of_lt hc) hi hj)

/-- C13: for block sizes `nb[0..n)` whose sum is `nv`, `arc_ddcov` produces an
`nv x nv` matrix `R` that is block-diagonal: inside block `b` (starting at offset
`k_b`) the entry in row `k_b+i` and column `k_b+j` is `Ri[k_b+i] + Rj[k_b+i]` on
the diagonal (`i = j`) and `Ri[k_b+i]` off the diagonal, and every entry whose
row and column lie in different blocks is `0`. -/
theorem C13_ddcov_block_diagonal (nb : Nat → Nat) (n : Nat) (Ri Rj : Nat → ℚ) (nv : Nat)
    (R : Nat → ℚ) (hsum : ddcov_off nb n = nv) :
    (∀ b i j, b < n → i < nb b → j < nb b →
      arc_ddcov nb n Ri Rj nv R (ddcov_off nb b + i + (ddcov_off nb b + j) * nv) =
        if i = j then Ri (ddcov_off nb b + i) + Rj (ddcov_off nb b + i)
        else Ri (ddcov_off nb b + i)) ∧
    (∀ b c i j, b < n → c < n → b ≠ c → i < nb b → j < nb c →
      arc_ddcov nb n Ri Rj nv R (ddcov_off nb b + i + (ddcov_off nb c + j) * nv) = 0) := by
  obtain ⟨_, h2, h3⟩ := arc_ddcov_loop nb n Ri Rj nv
    (forN (nv * nv) (fun i R => Function.update R i 0) R) hsum n (Nat.le_refl n)
  constructor
  · intro b i j hb hi hj
    unfold arc_ddcov
    rw [h2 b i j hb hi hj]
    by_cases hij : i = j
    · rw [if_pos hij, if_pos hij]
    · rw [if_neg hij, if_neg hij, add_zero]
  · intro b c i j hb hc hbc hi hj
    unfold arc_ddcov
    have hp : ddcov_off nb b + i < nv := hsum ▸ ddcov_off_lt nb b n i hb hi
    have hq : ddcov_off nb c + j < nv := hsum ▸ ddcov_off_lt nb c n j hc hj
    rw [h3 _ (fun d i2 j2 hd hi2 hj2 h => by
      have hp2 : ddcov_off nb d + i2 < nv :=
        hsum ▸ ddcov_off_lt nb d n i2 hd hi2
      have h4 := flat_inj hp hp2 h
      rcases Nat.lt_trichotomy b d with hlt | heq | hgt
      · have := ddcov_off_disj nb b d i i2 hlt hi
        omega
      · subst heq
        rcases Nat.lt_or_gt_of_ne hbc with hlt | hgt
        · have := ddcov_off_disj nb b c j2 j hlt hj2
          omega
        · have := ddcov_off_disj nb c b j j2 hgt hj
          omega
      · have := ddcov_off_disj nb d b i2 i hgt hi2
        omega)]
    rw [forN_copy, if_pos (flat_lt hp hq)]

/-- The theorem C13 at two blocks of sizes 2 and 1 (`nv = 3`). -/
theorem C13_ddcov_block_diagonal_witness :
    ddcov_off nb_w 2 = 3 ∧
    (∀ b i j, b < 2 → i < nb_w b → j < nb_w b →
      arc_ddcov nb_w 2 (fun k => k + 1) (fun _ => 10) 3 (fun _ => 7)
          (ddcov_off nb_w b + i + (ddcov_off nb_w b + j) * 3) =
        if i = j then ((ddcov_off nb_w b + i : Nat) : ℚ) + 1 + 10
        else ((ddcov_off nb_w b + i : Nat) : ℚ) + 1) ∧
    (∀ b c i j, b < 2 → c < 2 → b ≠ c → i < nb_w b → j < nb_w c →
      arc_ddcov nb_w 2 (fun k => k + 1) (fun _ => 10) 3 (fun _ => 7)
        (ddcov_off nb_w b + i + (ddcov_off nb_w c + j) * 3) = 0) :=
  ⟨rfl, C13_ddcov_block_diagonal nb_w 2 (fun k => k + 1) (fun _ => 10) 3 (fun _ => 7) rfl⟩

/-! ## Satellite positions of the observation model -/

theorem ComputeSatPos_pos_none (SatList : Nat → Int) (SatPos : Nat → ℚ) (j : Nat) (hj : j < 6) :
    ∀ (fuel i : Nat) (m : Int → ℚ), ComputeSatPos_pos SatList SatPos fuel i j m = none := by
  intro fuel
  induction fuel with
  | zero => intro i m; rfl
  | succ fuel ih =>
    intro i m
    rw [ComputeSatPos_pos, if_pos hj]
    exact ih (i + 1) _

theorem ComputeSatPos_loop_none (SatList : Nat → Int) (N : Nat) (SatPos SatClk Var : Nat → ℚ)
    (Svh : Nat → Int) :
    ∀ (fuel i : Nat) (s : satstore_t), (∃ k, i ≤ k ∧ k < N ∧ SatList k ≠ 0) →
      ComputeSatPos_loop SatList N SatPos SatClk Var Svh fuel i s = none := by
  intro fuel
  induction fuel with
  | zero => intro i s _; rfl
  | succ fuel ih =>
    intro i s h
    obtain ⟨k, hik, hkN, hk⟩ := h
    rw [ComputeSatPos_loop, if_pos (Nat.lt_of_le_of_lt hik hkN)]
    by_cases hi : SatList i ≠ 0
    · rw [if_pos hi, ComputeSatPos_pos_none SatList SatPos 0 (by decide) fuel i s.m_SatPos]
    · rw [if_neg hi]
      have hne : i ≠ k := fun e => hi (e ▸ hk)
      exact ih (i + 1) s ⟨k, by omega, hkN, hk⟩

/-- C19, the code at two rover and two base observations with
`SatList = 3,7,3,7`: for every bound on the number of loop iterations
`ComputeSatPos` has not returned (the loop `for (int j=0;j<6;i++)` never leaves
`j = 0`). -/
theorem C19_ComputeSatPos_diverges :
    ∀ fuel, ComputeSatPos E0 fuel ⟨0, 0⟩ obs_w1 2 2 nav0 opt0 SatList_w store0 = none := by
  intro fuel
  unfold ComputeSatPos
  exact ComputeSatPos_loop_none SatList_w 4 _ _ _ _ fuel 0 store0
    ⟨0, Nat.le_refl 0, by decide, by decide⟩

/-! ## Cycle-slip reset of the phase biases -/

theorem arc_udbias_outage_body_slip (E : Env) (i0 : Nat) (r : rtk_t) (t : Nat) :
    ((arc_udbias_outage_body E i0 r).ssat t).slip = (r.ssat t).slip := by
  unfold arc_udbias_outage_body
  dsimp only
  split <;> (try split) <;> (try split) <;>
    simp [(arc_initx_frame _ _ _ _).2.2.2.1]

theorem arc_udbias_outage_slip (E : Env) (rtk : rtk_t) (t : Nat) :
    ((arc_udbias_outage E rtk).ssat t).slip = (rtk.ssat t).slip := by
  unfold arc_udbias_outage
  exact forN_inv (fun r : rtk_t => (r.ssat t).slip = (rtk.ssat t).slip) _ _ _ rfl
    (fun i r _ h => (arc_udbias_outage_body_slip E i r t).trans h)

/-- The slip loop of `arc_udbias`: a common satellite with the slip flag set has
its ambiguity set to 0 and its lock count to `-minlock`; `P` is changed on the
diagonal only. -/
theorem arc_udbias_slip_spec (E : Env) (rtk : rtk_t) (tt : ℚ) (sat : Nat → Nat) (ns k : Nat)
    (hmode : rtk.opt.modear ≠ ARMODE_INST) (hk : k < ns)
    (hslip : (rtk.ssat (sat k - 1)).slip 0 &&& 1 ≠ 0)
    (hidx : ∀ i, i < ns → IB E (sat i) 0 rtk.opt < rtk.nx) :
    (arc_udbias_slip E rtk tt sat ns).nx = rtk.nx ∧
    (arc_udbias_slip E rtk tt sat ns).opt = rtk.opt ∧
    (arc_udbias_slip E rtk tt sat ns).x (IB E (sat k) 0 rtk.opt) = 0 ∧
    ((arc_udbias_slip E rtk tt sat ns).ssat (sat k - 1)).lock 0 = - rtk.opt.minlock ∧
    (∀ a b, a < rtk.nx → b < rtk.nx → a ≠ b →
      (arc_udbias_slip E rtk tt sat ns).P (a + b * rtk.nx) = rtk.P (a + b * rtk.nx)) := by
  unfold arc_udbias_slip
  have main := forN_inv_idx (fun (n : Nat) (r : rtk_t) =>
      r.nx = rtk.nx ∧ r.opt = rtk.opt ∧ (∀ t, (r.ssat t).slip = (rtk.ssat t).slip) ∧
      (k < n → r.x (IB E (sat k) 0 rtk.opt) = 0 ∧
        (r.ssat (sat k - 1)).lock 0 = - rtk.opt.minlock) ∧
      (∀ a b, a < rtk.nx → b < rtk.nx → a ≠ b → r.P (a + b * rtk.nx) = rtk.P (a + b * rtk.nx)))
    ns
    (fun i r =>
      let j := IB E (sat i) 0 r.opt
      let r1 := set_P r (j + j * r.nx) (r.P (j + j * r.nx) + r.opt.prn 0 * r.opt.prn 0 * tt)
      let slip := (r1.ssat (sat i - 1)).slip 0
      if r1.opt.modear = ARMODE_INST ∨ ¬ (slip &&& 1 ≠ 0) then r1
      else set_lock (set_x r1 j 0) (sat i - 1) 0 (- r1.opt.minlock)) rtk
    ⟨rfl, rfl, fun _ => rfl, fun h => absurd h (Nat.not_lt_zero k), fun _ _ _ _ _ => rfl⟩ (by
      intro i r hi ⟨g1, g2, g3, g4, g5⟩
      dsimp only
      have hP : ∀ a b, a < rtk.nx → b < rtk.nx → a ≠ b →
          Function.update r.P (IB E (sat i) 0 r.opt + IB E (sat i) 0 r.opt * r.nx)
            (r.P (IB E (sat i) 0 r.opt + IB E (sat i) 0 r.opt * r.nx) +
              r.opt.prn 0 * r.opt.prn 0 * tt) (a + b * rtk.nx) = rtk.P (a + b * rtk.nx) := by
        intro a b ha hb hab
        rw [g1, g2]
        have hne : a + b * rtk.nx ≠ IB E (sat i) 0 rtk.opt + IB E (sat i) 0 rtk.opt * rtk.nx :=
          fun h => by
            have := flat_inj ha (hidx i hi) h
            omega
        rw [Function.update_noteq hne]
        exact g5 a b ha hb hab
      by_cases hc : (set_P r (IB E (sat i) 0 r.opt + IB E (sat i) 0 r.opt * r.nx)
            (r.P (IB E (sat i) 0 r.opt + IB E (sat i) 0 r.opt * r.nx) +
              r.opt.prn 0 * r.opt.prn 0 * tt)).opt.modear = ARMODE_INST ∨
          ¬ (((set_P r (IB E (sat i) 0 r.opt + IB E (sat i) 0 r.opt * r.nx)
            (r.P (IB E (sat i) 0 r.opt + IB E (sat i) 0 r.opt * r.nx) +
              r.opt.prn 0 * r.opt.prn 0 * tt)).ssat (sat i - 1)).slip 0 &&& 1 ≠ 0)
      · rw [if_pos hc]
        refine ⟨g1, g2, g3, ?_, hP⟩
        intro hkn
        rcases Nat.lt_succ_iff_lt_or_eq.mp hkn with hlt | heq
        · exact g4 hlt
        · subst heq
          exfalso
          rcases hc with h | h
          · exact hmode (g2 ▸ h)
          · apply h
            show (r.ssat (sat k - 1)).slip 0 &&& 1 ≠ 0
            rw [g3]
            exact hslip
      · rw [if_neg hc]
        refine ⟨g1, g2, ?_, ?_, hP⟩
        · intro t
          simp [g3]
        · intro hkn
          simp only [set_lock_x, set_x_x, set_P_x, set_lock_ssat_lock, set_P_opt, g2]
          constructor
          · by_cases hj : IB E (sat k) 0 rtk.opt = IB E (sat i) 0 rtk.opt
            · rw [hj, Function.update_same]
            · rw [Function.update_noteq hj]
              rcases Nat.lt_succ_iff_lt_or_eq.mp hkn with hlt | heq
              · exact (g4 hlt).1
              · subst heq
                exact absurd rfl hj
          · by_cases hs : sat k - 1 = sat i - 1
            · simp [hs]
            · rcases Nat.lt_succ_iff_lt_or_eq.mp hkn with hlt | heq
              · simp [hs]
                exact (g4 hlt).2
              · subst heq
                exact absurd rfl hs)
  exact ⟨main.1, main.2.1, (main.2.2.2.1 hk).1, (main.2.2.2.1 hk).2, main.2.2.2.2⟩

theorem arc_udbias_outage_nx_opt (E : Env) (rtk : rtk_t) :
    (arc_udbias_outage E rtk).nx = rtk.nx ∧ (arc_udbias_outage E rtk).opt = rtk.opt := by
  unfold arc_udbias_outage
  exact forN_inv (fun r : rtk_t => r.nx = rtk.nx ∧ r.opt = rtk.opt) _ _ _ ⟨rfl, rfl⟩
    (fun i r _ h => ⟨(arc_udbias_outage_body_frame E i r).1.trans h.1,
      (arc_udbias_outage_body_frame E i r).2.1.trans h.2⟩)

theorem arc_udbias_slip_reset (E : Env) (rtk : rtk_t) (tt : ℚ) (obs : Nat → obsd_t)
    (sat iu ir : Nat → Nat) (ns : Nat) (nav : nav_t) (k : Nat)
    (hmode : rtk.opt.modear ≠ ARMODE_INST) (hk : k < ns) (hsat : 1 ≤ sat k)
    (hidx : ∀ i, i < ns → IB E (sat i) 0 rtk.opt < rtk.nx)
    (hslip : ((arc_udbias_detslp rtk obs sat iu ir ns).ssat (sat k - 1)).slip 0 &&& 1 ≠ 0) :
    (arc_udbias_slip E (arc_udbias_outage E (arc_udbias_detslp rtk obs sat iu ir ns)) tt sat ns).x
        (IB E (sat k) 0 rtk.opt) = 0 ∧
    (arc_udbias_offset E
        (arc_udbias_slip E (arc_udbias_outage E (arc_udbias_detslp rtk obs sat iu ir ns)) tt sat ns)
        (arc_udbias_est E
          (arc_udbias_slip E (arc_udbias_outage E (arc_udbias_detslp rtk obs sat iu ir ns))
            tt sat ns) obs sat iu ir ns nav)).x (IB E (sat k) 0 rtk.opt) = 0 ∧
    ((arc_udbias_offset E
        (arc_udbias_slip E (arc_udbias_outage E (arc_udbias_detslp rtk obs sat iu ir ns)) tt sat ns)
        (arc_udbias_est E
          (arc_udbias_slip E (arc_udbias_outage E (arc_udbias_detslp rtk obs sat iu ir ns))
            tt sat ns) obs sat iu ir ns nav)).ssat (sat k - 1)).lock 0 = - rtk.opt.minlock ∧
    (∀ a b, a < rtk.nx → b < rtk.nx → a ≠ b →
      (arc_udbias_offset E
        (arc_udbias_slip E (arc_udbias_outage E (arc_udbias_detslp rtk obs sat iu ir ns)) tt sat ns)
        (arc_udbias_est E
          (arc_udbias_slip E (arc_udbias_outage E (arc_udbias_detslp rtk obs sat iu ir ns))
            tt sat ns) obs sat iu ir ns nav)).P (a + b * rtk.nx) =
      (arc_udbias_outage E (arc_udbias_detslp rtk obs sat iu ir ns)).P (a + b * rtk.nx)) := by
  obtain ⟨_, _, d3, d4, _, _⟩ := arc_udbias_detslp_frame rtk obs sat iu ir ns
  have o1 : (arc_udbias_outage E (arc_udbias_detslp rtk obs sat iu ir ns)).nx = rtk.nx := by
    rw [(arc_udbias_outage_nx_opt E _).1, d3]
  have o2 : (arc_udbias_outage E (arc_udbias_detslp rtk obs sat iu ir ns)).opt = rtk.opt := by
    rw [(arc_udbias_outage_nx_opt E _).2, d4]
  obtain ⟨s1, s2, s3, s4, s5⟩ := arc_udbias_slip_spec E
    (arc_udbias_outage E (arc_udbias_detslp rtk obs sat iu ir ns)) tt sat ns k
    (by rw [o2]; exact hmode) hk
    (by rw [arc_udbias_outage_slip]; exact hslip)
    (by rw [o1, o2]; exact hidx)
  rw [o2] at s3 s4
  rw [o1] at s5
  obtain ⟨f1, f2, f3, f4, _⟩ := arc_udbias_offset_frame E
    (arc_udbias_slip E (arc_udbias_outage E (arc_udbias_detslp rtk obs sat iu ir ns)) tt sat ns)
    (arc_udbias_est E
      (arc_udbias_slip E (arc_udbias_outage E (arc_udbias_detslp rtk obs sat iu ir ns))
        tt sat ns) obs sat iu ir ns nav)
  refine ⟨s3, ?_, ?_, ?_⟩
  · have := arc_udbias_offset_zero E
      (arc_udbias_slip E (arc_udbias_outage E (arc_udbias_detslp rtk obs sat iu ir ns)) tt sat ns)
      (arc_udbias_est E
        (arc_udbias_slip E (arc_udbias_outage E (arc_udbias_detslp rtk obs sat iu ir ns))
          tt sat ns) obs sat iu ir ns nav) (sat k) hsat (by rw [s2, o2]; exact s3)
    rw [s2, o2] at this
    exact this
  · rw [f4]
    exact s4
  · intro a b ha hb hab
    rw [f3]
    exact s5 a b ha hb hab

/-- C11 (amended): in `arc_udbias` (non-instantaneous mode), for every common
satellite whose slip flag (bit 0 of `slip`) is set after loss-of-lock detection,
the ambiguity is reset before phase-minus-code seeding: its state value is 0 and
its lock count is `-minlock`, after the slip loop and still after the offset
correction.  Its row and column of `P` are not zeroed by this reset: the slip
loop and the offset correction leave every off-diagonal entry of `P`. -/
theorem C11_slip_reset (E : Env) (rtk : rtk_t) (tt : ℚ) (obs : Nat → obsd_t)
    (sat iu ir : Nat → Nat) (ns : Nat) (nav : nav_t) (k : Nat)
    (hmode : rtk.opt.modear ≠ ARMODE_INST) (hk : k < ns) (hsat : 1 ≤ sat k)
    (hidx : ∀ i, i < ns → IB E (sat i) 0 rtk.opt < rtk.nx)
    (hslip : ((arc_udbias_detslp rtk obs sat iu ir ns).ssat (sat k - 1)).slip 0 &&& 1 ≠ 0) :
    (arc_udbias_slip E (arc_udbias_outage E (arc_udbias_detslp rtk obs sat iu ir ns)) tt sat ns).x
        (IB E (sat k) 0 rtk.opt) = 0 ∧
    (arc_udbias_offset E
        (arc_udbias_slip E (arc_udbias_outage E (arc_udbias_detslp rtk obs sat iu ir ns)) tt sat ns)
        (arc_udbias_est E
          (arc_udbias_slip E (arc_udbias_outage E (arc_udbias_detslp rtk obs sat iu ir ns))
            tt sat ns) obs sat iu ir ns nav)).x (IB E (sat k) 0 rtk.opt) = 0 ∧
    ((arc_udbias_offset E
        (arc_udbias_slip E (arc_udbias_outage E (arc_udbias_detslp rtk obs sat iu ir ns)) tt sat ns)
        (arc_udbias_est E
          (arc_udbias_slip E (arc_udbias_outage E (arc_udbias_detslp rtk obs sat iu ir ns))
            tt sat ns) obs sat iu ir ns nav)).ssat (sat k - 1)).lock 0 = - rtk.opt.minlock ∧
    (∀ a b, a < rtk.nx → b < rtk.nx → a ≠ b →
      (arc_udbias_offset E
        (arc_udbias_slip E (arc_udbias_outage E (arc_udbias_detslp rtk obs sat iu ir ns)) tt sat ns)
        (arc_udbias_est E
          (arc_udbias_slip E (arc_udbias_outage E (arc_udbias_detslp rtk obs sat iu ir ns))
            tt sat ns) obs sat iu ir ns nav)).P (a + b * rtk.nx) =
      (arc_udbias_outage E (arc_udbias_detslp rtk obs sat iu ir ns)).P (a + b * rtk.nx)) :=
  arc_udbias_slip_reset E rtk tt obs sat iu ir ns nav k hmode hk hsat hidx hslip

theorem rtk11_slip :
    ((arc_udbias_detslp rtk11 obs11 (fun _ => 2) (fun _ => 0) (fun _ => 1) 1).ssat
      ((fun _ => 2) 0 - 1)).slip 0 &&& 1 ≠ 0 := by
  decide

theorem rtk11_idx : ∀ i, i < 1 → IB E0 ((fun _ => 2) i) 0 rtk11.opt < rtk11.nx := by
  intro i _
  show IB E0 2 0 rtk11.opt < rtk11.nx
  decide

/-- The theorem C11 at satellite 2 with the loss-of-lock bit set by the rover. -/
theorem C11_slip_reset_witness :
    (rtk11.opt.modear ≠ ARMODE_INST ∧
      ((arc_udbias_detslp rtk11 obs11 (fun _ => 2) (fun _ => 0) (fun _ => 1) 1).ssat
        ((fun _ => 2) 0 - 1)).slip 0 &&& 1 ≠ 0) ∧
    (arc_udbias_slip E0
        (arc_udbias_outage E0 (arc_udbias_detslp rtk11 obs11 (fun _ => 2) (fun _ => 0)
          (fun _ => 1) 1)) 1 (fun _ => 2) 1).x (IB E0 ((fun _ => 2) 0) 0 rtk11.opt) = 0 ∧
    (arc_udbias_offset E0
        (arc_udbias_slip E0 (arc_udbias_outage E0 (arc_udbias_detslp rtk11 obs11 (fun _ => 2)
          (fun _ => 0) (fun _ => 1) 1)) 1 (fun _ => 2) 1)
        (arc_udbias_est E0
          (arc_udbias_slip E0 (arc_udbias_outage E0 (arc_udbias_detslp rtk11 obs11 (fun _ => 2)
            (fun _ => 0) (fun _ => 1) 1)) 1 (fun _ => 2) 1)
          obs11 (fun _ => 2) (fun _ => 0) (fun _ => 1) 1 nav0)).x
        (IB E0 ((fun _ => 2) 0) 0 rtk11.opt) = 0 ∧
    ((arc_udbias_offset E0
        (arc_udbias_slip E0 (arc_udbias_outage E0 (arc_udbias_detslp rtk11 obs11 (fun _ => 2)
          (fun _ => 0) (fun _ => 1) 1)) 1 (fun _ => 2) 1)
        (arc_udbias_est E0
          (arc_udbias_slip E0 (arc_udbias_outage E0 (arc_udbias_detslp rtk11 obs11 (fun _ => 2)
            (fun _ => 0) (fun _ => 1) 1)) 1 (fun _ => 2) 1)
          obs11 (fun _ => 2) (fun _ => 0) (fun _ => 1) 1 nav0)).ssat
        ((fun _ => 2) 0 - 1)).lock 0 = - rtk11.opt.minlock ∧
    (∀ a b, a < rtk11.nx → b < rtk11.nx → a ≠ b →
      (arc_udbias_offset E0
        (arc_udbias_slip E0 (arc_udbias_outage E0 (arc_udbias_detslp rtk11 obs11 (fun _ => 2)
          (fun _ => 0) (fun _ => 1) 1)) 1 (fun _ => 2) 1)
        (arc_udbias_est E0
          (arc_udbias_slip E0 (arc_udbias_outage E0 (arc_udbias_detslp rtk11 obs11 (fun _ => 2)
            (fun _ => 0) (fun _ => 1) 1)) 1 (fun _ => 2) 1)
          obs11 (fun _ => 2) (fun _ => 0) (fun _ => 1) 1 nav0)).P (a + b * rtk11.nx) =
      (arc_udbias_outage E0 (arc_udbias_detslp rtk11 obs11 (fun _ => 2) (fun _ => 0)
        (fun _ => 1) 1)).P (a + b * rtk11.nx)) :=
  ⟨⟨by decide, rtk11_slip⟩,
    C11_slip_reset E0 rtk11 1 obs11 (fun _ => 2) (fun _ => 0) (fun _ => 1) 1 nav0 0
      (by decide) (by decide) (by decide) rtk11_idx rtk11_slip⟩

theorem rtk11_outage_P :
    (arc_udbias_outage E0 (arc_udbias_detslp rtk11 obs11 (fun _ => 2) (fun _ => 0)
      (fun _ => 1) 1)).P = rtk11.P := by
  obtain ⟨_, d2, _, d4, _, d6⟩ :=
    arc_udbias_detslp_frame rtk11 obs11 (fun _ => 2) (fun _ => 0) (fun _ => 1) 1
  have h := arc_udbias_outage_keep E0
    (arc_udbias_detslp rtk11 obs11 (fun _ => 2) (fun _ => 0) (fun _ => 1) 1)
    (by rw [d4]; decide)
    (by
      intro i _ _ hex
      rw [(d6 (i - 1)).1, d4] at hex
      exact absurd hex (show ¬ outage_exceeds 0 5 by decide))
  rw [h.2.1, d2]

/-- C11, counterexample to the claim as stated: the rover reports loss of lock
for satellite 2, whose ambiguity (state 4) is 7 and is correlated with state 3.
Before the seeding the state value is 0 and the lock count `-minlock`, but the
entry of `P` in the row of the ambiguity and column 3 is still 1. -/
theorem C11_counterexample :
    rtk11.opt.modear ≠ ARMODE_INST ∧
    ((arc_udbias_detslp rtk11 obs11 (fun _ => 2) (fun _ => 0) (fun _ => 1) 1).ssat 1).slip 0
      &&& 1 ≠ 0 ∧
    IB E0 2 0 rtk11.opt = 4 ∧
    (arc_udbias_offset E0
        (arc_udbias_slip E0 (arc_udbias_outage E0 (arc_udbias_detslp rtk11 obs11 (fun _ => 2)
          (fun _ => 0) (fun _ => 1) 1)) 1 (fun _ => 2) 1)
        (arc_udbias_est E0
          (arc_udbias_slip E0 (arc_udbias_outage E0 (arc_udbias_detslp rtk11 obs11 (fun _ => 2)
            (fun _ => 0) (fun _ => 1) 1)) 1 (fun _ => 2) 1)
          obs11 (fun _ => 2) (fun _ => 0) (fun _ => 1) 1 nav0)).x 4 = 0 ∧
    (arc_udbias_offset E0
        (arc_udbias_slip E0 (arc_udbias_outage E0 (arc_udbias_detslp rtk11 obs11 (fun _ => 2)
          (fun _ => 0) (fun _ => 1) 1)) 1 (fun _ => 2) 1)
        (arc_udbias_est E0
          (arc_udbias_slip E0 (arc_udbias_outage E0 (arc_udbias_detslp rtk11 obs11 (fun _ => 2)
            (fun _ => 0) (fun _ => 1) 1)) 1 (fun _ => 2) 1)
          obs11 (fun _ => 2) (fun _ => 0) (fun _ => 1) 1 nav0)).P (4 + 3 * 5) = 1 := by
  obtain ⟨_, h2, _, h4⟩ := arc_udbias_slip_reset E0 rtk11 1 obs11 (fun _ => 2) (fun _ => 0)
    (fun _ => 1) 1 nav0 0 (by decide) (by decide) (by decide) rtk11_idx rtk11_slip
  refine ⟨by decide, rtk11_slip, by decide, h2, ?_⟩
  have := h4 4 3 (by decide) (by decide) (by decide)
  rw [rtk11_outage_P] at this
  rw [show rtk11.nx = 5 from rfl] at this
  rw [this]
  norm_num [rtk11]

/-! ## Double-differenced residual and its row of the design matrix -/

/-- A row of `H` after the zero fill of its `nx` columns and the three
position partials. -/
theorem ddres_row (Hs : Nat → ℚ) (off nx : Nat) (g : Nat → ℚ) (k : Nat) (hk : k < nx) :
    forN 3 (fun k H => Function.update H (off + k) (g k))
      (forN nx (fun k H => Function.update H (off + k) 0) Hs) (off + k) =
      if k < 3 then g k else 0 := by
  have z := forN_write nx off (fun _ _ => 0) Hs (fun _ _ _ => rfl) nx (Nat.le_refl nx)
  have p := forN_write 3 off (fun k _ => g k)
    (forN nx (fun k H => Function.update H (off + k) 0) Hs) (fun _ _ _ => rfl) 3 (Nat.le_refl 3)
  by_cases h3 : k < 3
  · rw [if_pos h3]
    exact p.1 k h3
  · rw [if_neg h3, p.2 (off + k) (fun j hj => by omega)]
    exact z.1 k hk

theorem IB_ge (E : Env) (opt : prcopt_t) (s f : Nat) (hs : 1 ≤ s) : 3 ≤ IB E s f opt := by
  unfold IB NR NP
  split <;> omega

theorem IB_ne (E : Env) (opt : prcopt_t) (s t f : Nat) (hs : 1 ≤ s) (ht : 1 ≤ t) (hne : s ≠ t) :
    IB E s f opt ≠ IB E t f opt := by
  unfold IB
  omega

/-- An accepted pair of `arc_ddres` without ionosphere and troposphere
estimation: the residual and the row of `H`. -/
theorem arc_ddres_pair_accepted (E : Env) (nav : nav_t) (dt : ℚ) (x : Nat → ℚ)
    (sat : Nat → Nat) (y e azel : Nat → ℚ) (iu ir : Nat → Nat) (bl : ℚ) (a : ddres_atm_t)
    (m f i j : Nat) (s : ddres_t) (Hs : Nat → ℚ)
    (hion : s.rtk.opt.ionoopt ≠ IONOOPT_EST)
    (htrop : s.rtk.opt.tropopt ≠ TROPOPT_EST ∧ s.rtk.opt.tropopt ≠ TROPOPT_ESTG)
    (hH : s.H = some Hs) (hsat : 1 ≤ sat i ∧ 1 ≤ sat j ∧ sat i ≠ sat j) :
    (arc_ddres_pair E nav dt x sat y e azel iu ir bl a m f i j s).nv = s.nv + 1 →
    (arc_ddres_pair E nav dt x sat y e azel iu ir bl a m f i j s).v s.nv =
      (y (f + iu i * 1 * 2) - y (f + ir i * 1 * 2)) -
      (y (f + iu j * 1 * 2) - y (f + ir j * 1 * 2)) -
      (if f < 1 then nav.lam (sat i - 1) (f % 1) * x (IB E (sat i) f s.rtk.opt) -
        nav.lam (sat j - 1) (f % 1) * x (IB E (sat j) f s.rtk.opt) else 0) ∧
    ∃ H1, (arc_ddres_pair E nav dt x sat y e azel iu ir bl a m f i j s).H = some H1 ∧
      ∀ k, k < s.rtk.nx → H1 (s.nv * s.rtk.nx + k) =
        if k < 3 then - e (k + iu i * 3) + e (k + iu j * 3)
        else if f < 1 ∧ k = IB E (sat i) f s.rtk.opt then nav.lam (sat i - 1) (f % 1)
        else if f < 1 ∧ k = IB E (sat j) f s.rtk.opt then - nav.lam (sat j - 1) (f % 1)
        else 0 := by
  unfold arc_ddres_pair
  lift_lets
  intro nf rtk opt nx sysi sysj ff lami lamj nv H0 v0 H1 fi fj didxi didxj v1 H2 trop v2 H3 v3 H4
    ssj rtk1 s1 si' ssat1' sj' ssat2 Rj1 Ri1 fv sj ssat1 si rtk2
  have hno : ∀ t : ddres_t, t.nv = s.nv → t.nv = s.nv + 1 → False := fun t h1 h2 => by omega
  by_cases c1 : i = j
  · rw [if_pos c1]
    exact fun h => (hno s rfl h).elim
  rw [if_neg c1]
  by_cases c2 : arc_test_sys sysj m = false
  · rw [if_pos c2]
    exact fun h => (hno s rfl h).elim
  rw [if_neg c2]
  by_cases c3 : arc_validobs (iu j) (ir j) f nf y = false
  · rw [if_pos c3]
    exact fun h => (hno s rfl h).elim
  rw [if_neg c3]
  by_cases c4 : lami ≤ 0 ∨ lamj ≤ 0
  · rw [if_pos c4]
    exact fun h => (hno s rfl h).elim
  rw [if_neg c4]
  by_cases c5 : opt.ceres = 0 ∧ opt.maxinno > 0 ∧ |v3| > opt.maxinno
  · rw [if_pos c5]
    intro h
    exfalso
    by_cases c6 : f < nf
    · rw [if_pos c6] at h
      exact hno _ rfl h
    · rw [if_neg c6] at h
      exact hno _ rfl h
  rw [if_neg c5]
  intro _
  have htr : trop = false := by
    show decide (opt.tropopt = TROPOPT_EST ∨ opt.tropopt = TROPOPT_ESTG) = false
    rw [decide_eq_false_iff_not]
    rintro (h | h)
    · exact htrop.1 h
    · exact htrop.2 h
  have hv1 : v1 = v0 := if_neg hion
  have hv2 : v2 = v0 := by
    show (if trop = true then _ else v1) = v0
    rw [htr]
    exact hv1
  have hH2 : H2 = H1 := if_neg hion
  have hH3 : H3 = H1 := by
    show (if trop = true then _ else H2) = H1
    rw [htr]
    exact hH2
  have hH1 : H1 = some (forN 3 (fun k H =>
      Function.update H (nv * nx + k) (- e (k + iu i * 3) + e (k + iu j * 3)))
      (forN nx (fun k H => Function.update H (nv * nx + k) 0) Hs)) := by
    show Option.map _ (Option.map _ s.H) = _
    rw [hH]
    rfl
  have hrow := ddres_row Hs (nv * nx) nx (fun k => - e (k + iu i * 3) + e (k + iu j * 3))
  constructor
  · show Function.update s.v nv v3 nv = _
    rw [Function.update_same]
    show (if f < nf then v2 - (lami * x (IB E (sat i) f opt) - lamj * x (IB E (sat j) f opt))
      else v2) = _
    rw [hv2]
    by_cases c6 : f < 1
    · rw [if_pos c6, if_pos c6]
    · rw [if_neg c6, if_neg c6, sub_zero]
  · show ∃ H1, H4 = some H1 ∧ _
    by_cases c6 : f < 1
    · have hH4 : H4 = some (Function.update (Function.update
          (forN 3 (fun k H =>
            Function.update H (nv * nx + k) (- e (k + iu i * 3) + e (k + iu j * 3)))
            (forN nx (fun k H => Function.update H (nv * nx + k) 0) Hs))
          (nv * nx + IB E (sat i) f opt) lami) (nv * nx + IB E (sat j) f opt) (- lamj)) := by
        show (if f < nf then _ else H3) = _
        rw [if_pos c6, hH3, hH1]
        rfl
      refine ⟨_, hH4, ?_⟩
      · intro k hk
        have gi := IB_ge E opt (sat i) f hsat.1
        have gj := IB_ge E opt (sat j) f hsat.2.1
        have gne := IB_ne E opt (sat i) (sat j) f hsat.1 hsat.2.1 hsat.2.2
        have hoff : nv * nx = s.nv * s.rtk.nx := rfl
        have ei : IB E (sat i) f opt = IB E (sat i) f s.rtk.opt := rfl
        have ej : IB E (sat j) f opt = IB E (sat j) f s.rtk.opt := rfl
        by_cases k3 : k < 3
        · rw [if_pos k3, Function.update_noteq (by omega), Function.update_noteq (by omega)]
          rw [hrow k hk, if_pos k3]
        · rw [if_neg k3]
          by_cases ki : k = IB E (sat i) f s.rtk.opt
          · rw [if_pos ⟨c6, ki⟩, ki, Function.update_noteq (fun h => gne (by omega)),
              Function.update_same]
          · rw [if_neg (fun h => ki h.2)]
            by_cases kj : k = IB E (sat j) f s.rtk.opt
            · rw [if_pos ⟨c6, kj⟩, kj, Function.update_same]
            · rw [if_neg (fun h => kj h.2), Function.update_noteq (fun h => kj (by omega)),
                Function.update_noteq (fun h => ki (by omega)), hrow k hk, if_neg k3]
    · have hH4 : H4 = some (forN 3 (fun k H =>
          Function.update H (nv * nx + k) (- e (k + iu i * 3) + e (k + iu j * 3)))
          (forN nx (fun k H => Function.update H (nv * nx + k) 0) Hs)) := by
        show (if f < nf then _ else H3) = _
        rw [if_neg c6, hH3, hH1]
      refine ⟨_, hH4, ?_⟩
      · intro k hk
        rw [hrow k hk]
        by_cases k3 : k < 3
        · rw [if_pos k3, if_pos k3]
        · rw [if_neg k3, if_neg k3, if_neg (fun h => c6 h.1), if_neg (fun h => c6 h.1)]

/-- C12: in `arc_ddres` with ionosphere and troposphere estimation disabled, for
every accepted pair (the measurement count `nv` is incremented) of reference
satellite `i` and satellite `j` on a phase channel (`f < nf = 1`) the residual
is `v = (y_rover[i] - y_base[i]) - (y_rover[j] - y_base[j])
- (lambda_i*x[IB(i)] - lambda_j*x[IB(j)])` and its row of `H` is `-e_i + e_j` in
the three rover-position columns, `+lambda_i` in the ambiguity column of `i`,
`-lambda_j` in the ambiguity column of `j` and 0 in every other column; on a code
channel the ambiguity term and the ambiguity columns are absent. -/
theorem C12_ddres_pair (E : Env) (nav : nav_t) (dt : ℚ) (x : Nat → ℚ)
    (sat : Nat → Nat) (y e azel : Nat → ℚ) (iu ir : Nat → Nat) (bl : ℚ) (a : ddres_atm_t)
    (m f i j : Nat) (s : ddres_t) (Hs : Nat → ℚ)
    (hion : s.rtk.opt.ionoopt ≠ IONOOPT_EST)
    (htrop : s.rtk.opt.tropopt ≠ TROPOPT_EST ∧ s.rtk.opt.tropopt ≠ TROPOPT_ESTG)
    (hH : s.H = some Hs) (hsat : 1 ≤ sat i ∧ 1 ≤ sat j ∧ sat i ≠ sat j)
    (hacc : (arc_ddres_pair E nav dt x sat y e azel iu ir bl a m f i j s).nv = s.nv + 1) :
    (arc_ddres_pair E nav dt x sat y e azel iu ir bl a m f i j s).v s.nv =
      (y (f + iu i * 1 * 2) - y (f + ir i * 1 * 2)) -
      (y (f + iu j * 1 * 2) - y (f + ir j * 1 * 2)) -
      (if f < 1 then nav.lam (sat i - 1) (f % 1) * x (IB E (sat i) f s.rtk.opt) -
        nav.lam (sat j - 1) (f % 1) * x (IB E (sat j) f s.rtk.opt) else 0) ∧
    ∃ H1, (arc_ddres_pair E nav dt x sat y e azel iu ir bl a m f i j s).H = some H1 ∧
      ∀ k, k < s.rtk.nx → H1 (s.nv * s.rtk.nx + k) =
        if k < 3 then - e (k + iu i * 3) + e (k + iu j * 3)
        else if f < 1 ∧ k = IB E (sat i) f s.rtk.opt then nav.lam (sat i - 1) (f % 1)
        else if f < 1 ∧ k = IB E (sat j) f s.rtk.opt then - nav.lam (sat j - 1) (f % 1)
        else 0 :=
  arc_ddres_pair_accepted E nav dt x sat y e azel iu ir bl a m f i j s Hs hion htrop hH hsat hacc

theorem s12_accepted :
    (arc_ddres_pair E0 nav0 0 rtk12.x sat_w (fun k => (k : ℚ) + 1) (fun k => (k : ℚ))
      (fun _ => 1) (fun j => j) ir_w 0 atm0 0 0 0 1 s12).nv = s12.nv + 1 :=
  (arc_ddres_pair_spec E0 nav0 0 rtk12.x sat_w (fun k => (k : ℚ) + 1) (fun k => (k : ℚ))
    (fun _ => 1) (fun j => j) ir_w 0 atm0 0 0 0 1 s12).2.2 (by decide) rfl
    (by
      have h0 : ((0 : ℕ) : ℚ) = 0 := Nat.cast_zero
      norm_num [arc_validobs, ir_w]) (by norm_num [nav0]) (by norm_num [nav0])
    (by norm_num [s12, rtk12])

/-- The theorem C12 at the phase pair of the reference satellite 1 and
satellite 2. -/
theorem C12_ddres_pair_witness :
    (s12.rtk.opt.ionoopt ≠ IONOOPT_EST ∧
      (s12.rtk.opt.tropopt ≠ TROPOPT_EST ∧ s12.rtk.opt.tropopt ≠ TROPOPT_ESTG) ∧
      s12.H = some (fun _ => 7) ∧ (1 ≤ sat_w 0 ∧ 1 ≤ sat_w 1 ∧ sat_w 0 ≠ sat_w 1) ∧
      (arc_ddres_pair E0 nav0 0 rtk12.x sat_w (fun k => (k : ℚ) + 1) (fun k => (k : ℚ))
        (fun _ => 1) (fun j => j) ir_w 0 atm0 0 0 0 1 s12).nv = s12.nv + 1) ∧
    ((arc_ddres_pair E0 nav0 0 rtk12.x sat_w (fun k => (k : ℚ) + 1) (fun k => (k : ℚ))
        (fun _ => 1) (fun j => j) ir_w 0 atm0 0 0 0 1 s12).v s12.nv =
      (((fun k : Nat => (k : ℚ) + 1) (0 + 0 * 1 * 2) -
          (fun k : Nat => (k : ℚ) + 1) (0 + ir_w 0 * 1 * 2)) -
        ((fun k : Nat => (k : ℚ) + 1) (0 + 1 * 1 * 2) -
          (fun k : Nat => (k : ℚ) + 1) (0 + ir_w 1 * 1 * 2)) -
        (if 0 < 1 then nav0.lam (sat_w 0 - 1) (0 % 1) * rtk12.x (IB E0 (sat_w 0) 0 s12.rtk.opt) -
          nav0.lam (sat_w 1 - 1) (0 % 1) * rtk12.x (IB E0 (sat_w 1) 0 s12.rtk.opt) else 0)) ∧
    ∃ H1, (arc_ddres_pair E0 nav0 0 rtk12.x sat_w (fun k => (k : ℚ) + 1) (fun k => (k : ℚ))
        (fun _ => 1) (fun j => j) ir_w 0 atm0 0 0 0 1 s12).H = some H1 ∧
      ∀ k, k < s12.rtk.nx → H1 (s12.nv * s12.rtk.nx + k) =
        if k < 3 then - (fun k : Nat => (k : ℚ)) (k + 0 * 3) + (fun k : Nat => (k : ℚ)) (k + 1 * 3)
        else if 0 < 1 ∧ k = IB E0 (sat_w 0) 0 s12.rtk.opt then nav0.lam (sat_w 0 - 1) (0 % 1)
        else if 0 < 1 ∧ k = IB E0 (sat_w 1) 0 s12.rtk.opt then - nav0.lam (sat_w 1 - 1) (0 % 1)
        else 0) :=
  ⟨⟨by decide, ⟨by decide, by decide⟩, rfl, by decide, s12_accepted⟩,
    C12_ddres_pair E0 nav0 0 rtk12.x sat_w (fun k => (k : ℚ) + 1) (fun k => (k : ℚ))
      (fun _ => 1) (fun j => j) ir_w 0 atm0 0 0 0 1 s12 (fun _ => 7) (by decide)
      ⟨by decide, by decide⟩ rfl (by decide) s12_accepted⟩

/-! ## Holding the fixed ambiguities -/

theorem holdamb_sel_iff (rtk : rtk_t) (m f i : Nat) :
    holdamb_sel rtk m f i = true ↔
      ¬ (arc_test_sys (rtk.ssat i).sys m = false ∨ (rtk.ssat i).fix f ≠ 2 ∨
        (rtk.ssat i).azel 1 < rtk.opt.elmaskhold) := by
  unfold holdamb_sel
  simp only [Bool.and_eq_true, decide_eq_true_eq, not_or, Bool.not_eq_false, ne_eq, not_not]
  tauto

theorem holdamb_range_succ (p : Nat → Bool) (n : Nat) :
    (List.range (n + 1)).filter p =
      (List.range n).filter p ++ (if p n = true then [n] else []) := by
  rw [List.range_succ, List.filter_append]
  by_cases h : p n = true
  · simp [h]
  · simp [h]

/-- The marking loop of `arc_holdamb`. -/
theorem arc_holdamb_mark_spec (E : Env) (m f : Nat) (rtk : rtk_t) (index : Nat → Nat) :
    holdamb_mark_inv E m f rtk E.MAXSAT (arc_holdamb_mark E m f rtk index) := by
  unfold arc_holdamb_mark
  refine forN_inv_idx (holdamb_mark_inv E m f rtk) E.MAXSAT _ _ ?_ ?_
  · refine ⟨rfl, rfl, rfl, rfl, fun i => ⟨rfl, rfl, fun g => ?_⟩, rfl, fun t ht => ?_⟩
    · rw [if_neg (fun h => Nat.not_lt_zero i h.2.1)]
    · exact absurd ht (Nat.not_lt_zero t)
  · intro k r _ ⟨g1, g2, g3, g4, g5, g6, g7⟩
    unfold holdamb_mark_inv
    dsimp only
    have hfix : (r.1.ssat k).fix f = (rtk.ssat k).fix f := by
      rw [(g5 k).2.2 f, if_neg (fun h => Nat.lt_irrefl k h.2.1)]
    have hc : (arc_test_sys (r.1.ssat k).sys m = false ∨ (r.1.ssat k).fix f ≠ 2 ∨
        (r.1.ssat k).azel 1 < r.1.opt.elmaskhold) ↔ ¬ holdamb_sel rtk m f k = true := by
      rw [holdamb_sel_iff, not_not, (g5 k).1, hfix, (g5 k).2.1, g4]
    rw [holdamb_range_succ]
    by_cases c : arc_test_sys (r.1.ssat k).sys m = false ∨ (r.1.ssat k).fix f ≠ 2 ∨
        (r.1.ssat k).azel 1 < r.1.opt.elmaskhold
    · have hs := hc.mp c
      rw [if_pos c, if_neg hs, List.append_nil]
      refine ⟨g1, g2, g3, g4, fun i => ⟨(g5 i).1, (g5 i).2.1, fun g => ?_⟩, g6, g7⟩
      rw [(g5 i).2.2 g]
      by_cases hi : g = f ∧ i < k ∧ holdamb_sel rtk m f i = true
      · rw [if_pos hi, if_pos ⟨hi.1, Nat.lt_succ_of_lt hi.2.1, hi.2.2⟩]
      · rw [if_neg hi, if_neg]
        rintro ⟨a, b, c2⟩
        rcases Nat.lt_succ_iff_lt_or_eq.mp b with hlt | heq
        · exact hi ⟨a, hlt, c2⟩
        · subst heq
          exact hs c2
    · have hs : holdamb_sel rtk m f k = true := not_not.mp (fun h => c (hc.mpr h))
      rw [if_neg c, if_pos hs]
      refine ⟨g1, g2, g3, g4, fun i => ?_, ?_, fun t ht => ?_⟩
      · by_cases hik : i = k
        · subst hik
          simp only [Function.update_same]
          refine ⟨(g5 i).1, (g5 i).2.1, fun g => ?_⟩
          by_cases hg : g = f
          · subst hg
            rw [Function.update_same, if_pos ⟨rfl, Nat.lt_succ_self i, hs⟩]
          · rw [Function.update_noteq hg, (g5 i).2.2 g, if_neg (fun h => hg h.1),
              if_neg (fun h => hg h.1)]
        · simp only [Function.update_noteq hik]
          refine ⟨(g5 i).1, (g5 i).2.1, fun g => ?_⟩
          rw [(g5 i).2.2 g]
          by_cases hi : g = f ∧ i < k ∧ holdamb_sel rtk m f i = true
          · rw [if_pos hi, if_pos ⟨hi.1, Nat.lt_succ_of_lt hi.2.1, hi.2.2⟩]
          · rw [if_neg hi, if_neg]
            rintro ⟨a, b, c2⟩
            rcases Nat.lt_succ_iff_lt_or_eq.mp b with hlt | heq
            · exact hi ⟨a, hlt, c2⟩
            · exact hik heq
      · show r.2.n + 1 = _
        rw [List.length_append, g6]
        rfl
      · have ht2 : t < r.2.n + 1 := ht
        show Function.update r.2.index r.2.n (IB E (k + 1) f r.1.opt) t = _
        rcases Nat.lt_succ_iff_lt_or_eq.mp ht2 with hlt | heq
        · rw [Function.update_noteq (Nat.ne_of_lt hlt), g7 t hlt,
            List.getD_append _ _ _ _ (by rw [← g6]; exact hlt)]
        · rw [heq, Function.update_same, g4,
            List.getD_append_right _ _ _ _ (by rw [← g6])]
          rw [g6, Nat.sub_self]
          rfl

/-- The constraint loop of `arc_holdamb` for a list `ix` of `n` distinct
ambiguity indices below `nx`. -/
theorem arc_holdamb_rows_spec (xa : Nat → ℚ) (ix : Nat → Nat) (n : Nat) (s : holdamb_t)
    (hix : ∀ t, t < n → ix t < s.rtk.nx) (hne : ∀ t, 0 < t → t < n → ix t ≠ ix 0) :
    (arc_holdamb_rows xa ix n s).rtk = s.rtk ∧
    (arc_holdamb_rows xa ix n s).index = s.index ∧
    (arc_holdamb_rows xa ix n s).nv = s.nv + (n - 1) ∧
    (∀ t, t < n - 1 → (arc_holdamb_rows xa ix n s).v (s.nv + t) =
      (xa (ix 0) - xa (ix (t + 1))) - (s.rtk.x (ix 0) - s.rtk.x (ix (t + 1)))) ∧
    (∀ k, k < s.nv → (arc_holdamb_rows xa ix n s).v k = s.v k) ∧
    (∀ c t, c < s.rtk.nx → (arc_holdamb_rows xa ix n s).H (c + t * s.rtk.nx) =
      if s.nv ≤ t ∧ t < s.nv + (n - 1) then
        (if c = ix 0 then 1 else if c = ix (t - s.nv + 1) then -1 else s.H (c + t * s.rtk.nx))
      else s.H (c + t * s.rtk.nx)) := by
  unfold arc_holdamb_rows
  refine forN_inv_idx (fun (l : Nat) (r : holdamb_t) =>
    r.rtk = s.rtk ∧ r.index = s.index ∧ r.nv = s.nv + l ∧
    (∀ t, t < l → r.v (s.nv + t) =
      (xa (ix 0) - xa (ix (t + 1))) - (s.rtk.x (ix 0) - s.rtk.x (ix (t + 1)))) ∧
    (∀ k, k < s.nv → r.v k = s.v k) ∧
    (∀ c t, c < s.rtk.nx → r.H (c + t * s.rtk.nx) =
      if s.nv ≤ t ∧ t < s.nv + l then
        (if c = ix 0 then 1 else if c = ix (t - s.nv + 1) then -1 else s.H (c + t * s.rtk.nx))
      else s.H (c + t * s.rtk.nx))) (n - 1) _ s ?_ ?_
  · refine ⟨rfl, rfl, rfl, fun t ht => absurd ht (Nat.not_lt_zero t), fun _ _ => rfl,
      fun c t _ => ?_⟩
    rw [if_neg (fun h => by omega)]
  · intro l r hl ⟨g1, g2, g3, g4, g5, g6⟩
    dsimp only
    have h0 : ix 0 < s.rtk.nx := hix 0 (by omega)
    have h1 : ix (l + 1) < s.rtk.nx := hix (l + 1) (by omega)
    have h10 : ix (l + 1) ≠ ix 0 := hne (l + 1) (by omega) (by omega)
    refine ⟨g1, g2, by rw [g3]; rfl, fun t ht => ?_, fun k hk => ?_, fun c t hc => ?_⟩
    · rcases Nat.lt_succ_iff_lt_or_eq.mp ht with hlt | heq
      · rw [g3, Function.update_noteq (by omega)]
        exact g4 t hlt
      · subst heq
        rw [g3, Function.update_same, g1]
    · rw [g3, Function.update_noteq (by omega)]
      exact g5 k hk
    · rw [g1, g3]
      by_cases ht : t = s.nv + l
      · subst ht
        rw [if_pos ⟨by omega, by omega⟩]
        have e1 : s.nv + l - s.nv + 1 = l + 1 := by omega
        rw [e1]
        by_cases c1 : c = ix (l + 1)
        · subst c1
          rw [Function.update_same, if_neg h10, if_pos rfl]
        · rw [Function.update_noteq (fun h => c1 (flat_inj hc h1 h).1)]
          by_cases c0 : c = ix 0
          · subst c0
            rw [Function.update_same, if_pos rfl]
          · rw [Function.update_noteq (fun h => c0 (flat_inj hc h0 h).1), if_neg c0, if_neg c1,
              g6 c _ hc, if_neg (fun h => by omega)]
      · rw [Function.update_noteq (fun h => ht (flat_inj hc h1 h).2),
          Function.update_noteq (fun h => ht (flat_inj hc h0 h).2), g6 c t hc]
        by_cases hr : s.nv ≤ t ∧ t < s.nv + l
        · have hr2 : s.nv ≤ t ∧ t < s.nv + (l + 1) := ⟨hr.1, by omega⟩
          rw [if_pos hr, if_pos hr2]
        · have hr2 : ¬ (s.nv ≤ t ∧ t < s.nv + (l + 1)) := fun h => hr ⟨h.1, by omega⟩
          rw [if_neg hr, if_neg hr2]


theorem arc_test_sys_unique (sys m m2 : Nat) (h1 : arc_test_sys sys m = true)
    (h2 : arc_test_sys sys m2 = true) : m = m2 := by
  unfold arc_test_sys at h1 h2
  split at h1
  · simp_all
  · split at h1
    · simp_all
    · split at h1
      · simp_all
      · split at h1
        · simp_all
        · exact absurd h1 (by decide)

theorem holdamb_sel_sys (rtk : rtk_t) (m f i : Nat) (h : holdamb_sel rtk m f i = true) :
    arc_test_sys (rtk.ssat i).sys m = true := by
  unfold holdamb_sel at h
  simp only [Bool.and_eq_true] at h
  exact h.1.1

theorem holdamb_list_mem (E : Env) (rtk : rtk_t) (m f t : Nat)
    (ht : t < (holdamb_list E rtk m f).length) :
    (holdamb_list E rtk m f).getD t 0 < E.MAXSAT := by
  rw [List.getD_eq_getElem _ _ ht]
  have hm := @List.getElem_mem _ (holdamb_list E rtk m f) t ht
  unfold holdamb_list at hm
  rw [List.mem_filter, List.mem_range] at hm
  exact hm.1

theorem holdamb_list_ne (E : Env) (rtk : rtk_t) (m f t : Nat) (h0 : 0 < t)
    (ht : t < (holdamb_list E rtk m f).length) :
    (holdamb_list E rtk m f).getD t 0 ≠ (holdamb_list E rtk m f).getD 0 0 := by
  have hnd : (holdamb_list E rtk m f).Nodup := (List.nodup_range E.MAXSAT).filter _
  rw [List.getD_eq_getElem _ _ ht, List.getD_eq_getElem _ _ (Nat.lt_trans h0 ht)]
  intro h
  have := (List.Nodup.getElem_inj_iff hnd).mp h
  omega

theorem holdamb_off_mono (E : Env) (rtk : rtk_t) (a b : Nat) (h : a ≤ b) :
    holdamb_off E rtk a ≤ holdamb_off E rtk b := by
  induction b with
  | zero =>
    have : a = 0 := by omega
    subst this
    exact Nat.le_refl _
  | succ b ih =>
    rcases Nat.lt_succ_iff_lt_or_eq.mp (Nat.lt_succ_of_le h) with hlt | heq
    · exact Nat.le_trans (ih (Nat.lt_succ_iff.mp hlt)) (Nat.le_add_right _ _)
    · subst heq
      exact Nat.le_refl _

theorem holdamb_off_lt (E : Env) (rtk : rtk_t) (m2 m t : Nat) (hm : m2 < m)
    (ht : t + 1 < (holdamb_list E rtk m2 0).length) :
    holdamb_off E rtk m2 + t < holdamb_off E rtk m := by
  have h1 := holdamb_off_mono E rtk (m2 + 1) m hm
  have h2 : holdamb_off E rtk (m2 + 1) =
      holdamb_off E rtk m2 + ((holdamb_list E rtk m2 0).length - 1) := rfl
  omega

theorem holdamb_sel_congr (E : Env) (rtk : rtk_t) (xa : Nat → ℚ) (m : Nat) (s : holdamb_t)
    (h : holdamb_inv E rtk xa m s) (i : Nat) (hi : i < E.MAXSAT) :
    holdamb_sel s.rtk m 0 i = holdamb_sel rtk m 0 i := by
  obtain ⟨_, _, _, g4, g5, _, _, _⟩ := h
  unfold holdamb_sel
  rw [(g5 i).1, (g5 i).2.1, g4]
  by_cases hm : (0 = 0 ∧ i < E.MAXSAT ∧ ∃ m2, m2 < m ∧ holdamb_sel rtk m2 0 i = true)
  · obtain ⟨_, _, m2, hm2, hs⟩ := hm
    have hf := ((g5 i).2.2 0).1 ⟨rfl, hi, m2, hm2, hs⟩
    have ts : arc_test_sys (rtk.ssat i).sys m = false := by
      cases hb : arc_test_sys (rtk.ssat i).sys m
      · rfl
      · have := arc_test_sys_unique _ _ _ hb (holdamb_sel_sys rtk m2 0 i hs)
        omega
    rw [ts, hf]
    simp
  · rw [((g5 i).2.2 0).2 hm]

theorem holdamb_list_congr (E : Env) (rtk : rtk_t) (xa : Nat → ℚ) (m : Nat) (s : holdamb_t)
    (h : holdamb_inv E rtk xa m s) :
    (List.range E.MAXSAT).filter (holdamb_sel s.rtk m 0) = holdamb_list E rtk m 0 := by
  unfold holdamb_list
  apply List.filter_congr
  intro i hi
  exact holdamb_sel_congr E rtk xa m s h i (List.mem_range.mp hi)

/-- One family of `arc_holdamb` keeps the invariant of the loop over the
families. -/
theorem arc_holdamb_group_step (E : Env) (rtk : rtk_t) (xa : Nat → ℚ) (m : Nat) (s : holdamb_t)
    (hidx : ∀ i, i < E.MAXSAT → IB E (i + 1) 0 rtk.opt < rtk.nx)
    (h : holdamb_inv E rtk xa m s) :
    holdamb_inv E rtk xa (m + 1) (arc_holdamb_group E xa m 0 s) := by
  have hL := holdamb_list_congr E rtk xa m s h
  have hS := holdamb_sel_congr E rtk xa m s h
  obtain ⟨g1, g2, g3, g4, g5, g6, g7, g8⟩ := h
  have mk := arc_holdamb_mark_spec E m 0 s.rtk s.index
  unfold holdamb_mark_inv at mk
  rw [hL] at mk
  obtain ⟨k1, k2, k3, k4, k5, k6, k7⟩ := mk
  have hix : ∀ t, t < (arc_holdamb_mark E m 0 s.rtk s.index).2.n →
      (arc_holdamb_mark E m 0 s.rtk s.index).2.index t < rtk.nx := by
    intro t ht
    rw [k7 t ht, g4]
    exact hidx _ (holdamb_list_mem E rtk m 0 t (by rw [← k6]; exact ht))
  have hne : ∀ t, 0 < t → t < (arc_holdamb_mark E m 0 s.rtk s.index).2.n →
      (arc_holdamb_mark E m 0 s.rtk s.index).2.index t ≠
        (arc_holdamb_mark E m 0 s.rtk s.index).2.index 0 := by
    intro t h0 ht
    rw [k7 t ht, k7 0 (Nat.lt_trans h0 ht)]
    intro he
    have := IB_inj E s.rtk.opt _ _ (Nat.succ_le_succ (Nat.zero_le _))
      (Nat.succ_le_succ (Nat.zero_le _)) he
    exact holdamb_list_ne E rtk m 0 t h0 (by rw [← k6]; exact ht) (Nat.succ_injective this)
  have rows := arc_holdamb_rows_spec xa (arc_holdamb_mark E m 0 s.rtk s.index).2.index
    (arc_holdamb_mark E m 0 s.rtk s.index).2.n
    { s with rtk := (arc_holdamb_mark E m 0 s.rtk s.index).1,
             index := (arc_holdamb_mark E m 0 s.rtk s.index).2.index }
    (fun t ht => by
      show _ < (arc_holdamb_mark E m 0 s.rtk s.index).1.nx
      rw [k3, g3]
      exact hix t ht) hne
  obtain ⟨r1, _, r3, r4, r5, r6⟩ := rows
  have enx : (arc_holdamb_mark E m 0 s.rtk s.index).1.nx = rtk.nx := k3.trans g3
  have r4b : ∀ t, t < (arc_holdamb_mark E m 0 s.rtk s.index).2.n - 1 →
      (arc_holdamb_group E xa m 0 s).v (s.nv + t) =
      (xa ((arc_holdamb_mark E m 0 s.rtk s.index).2.index 0) -
        xa ((arc_holdamb_mark E m 0 s.rtk s.index).2.index (t + 1))) -
      (rtk.x ((arc_holdamb_mark E m 0 s.rtk s.index).2.index 0) -
        rtk.x ((arc_holdamb_mark E m 0 s.rtk s.index).2.index (t + 1))) := by
    intro t ht
    have h4 : (arc_holdamb_group E xa m 0 s).v (s.nv + t) =
      (xa ((arc_holdamb_mark E m 0 s.rtk s.index).2.index 0) -
        xa ((arc_holdamb_mark E m 0 s.rtk s.index).2.index (t + 1))) -
      ((arc_holdamb_mark E m 0 s.rtk s.index).1.x
          ((arc_holdamb_mark E m 0 s.rtk s.index).2.index 0) -
        (arc_holdamb_mark E m 0 s.rtk s.index).1.x
          ((arc_holdamb_mark E m 0 s.rtk s.index).2.index (t + 1))) := r4 t ht
    rw [k1, g1] at h4
    exact h4
  have r6b : ∀ c t, c < rtk.nx → (arc_holdamb_group E xa m 0 s).H (c + t * rtk.nx) =
      if s.nv ≤ t ∧ t < s.nv + ((arc_holdamb_mark E m 0 s.rtk s.index).2.n - 1) then
        (if c = (arc_holdamb_mark E m 0 s.rtk s.index).2.index 0 then 1
         else if c = (arc_holdamb_mark E m 0 s.rtk s.index).2.index (t - s.nv + 1) then -1
         else s.H (c + t * rtk.nx))
      else s.H (c + t * rtk.nx) := by
    intro c t hc
    have h6 : (arc_holdamb_group E xa m 0 s).H
        (c + t * (arc_holdamb_mark E m 0 s.rtk s.index).1.nx) =
      if s.nv ≤ t ∧ t < s.nv + ((arc_holdamb_mark E m 0 s.rtk s.index).2.n - 1) then
        (if c = (arc_holdamb_mark E m 0 s.rtk s.index).2.index 0 then 1
         else if c = (arc_holdamb_mark E m 0 s.rtk s.index).2.index (t - s.nv + 1) then -1
         else s.H (c + t * (arc_holdamb_mark E m 0 s.rtk s.index).1.nx))
      else s.H (c + t * (arc_holdamb_mark E m 0 s.rtk s.index).1.nx) :=
      r6 c t (by show c < (arc_holdamb_mark E m 0 s.rtk s.index).1.nx; rw [enx]; exact hc)
    rw [enx] at h6
    exact h6
  have r3b : (arc_holdamb_group E xa m 0 s).nv =
      s.nv + ((arc_holdamb_mark E m 0 s.rtk s.index).2.n - 1) := r3
  have r5b : ∀ k, k < s.nv → (arc_holdamb_group E xa m 0 s).v k = s.v k := r5
  have r1b : (arc_holdamb_group E xa m 0 s).rtk = (arc_holdamb_mark E m 0 s.rtk s.index).1 := r1
  refine ⟨?_, ?_, ?_, ?_, ?_, ?_, ?_, ?_⟩
  · rw [r1b, k1, g1]
  · rw [r1b, k2, g2]
  · rw [r1b, enx]
  · rw [r1b, k4, g4]
  · intro i
    rw [r1b]
    refine ⟨(k5 i).1.trans (g5 i).1, (k5 i).2.1.trans (g5 i).2.1, fun g => ⟨?_, ?_⟩⟩
    · rintro ⟨hg, hi, m2, hm2, hs⟩
      rw [(k5 i).2.2 g]
      by_cases hc : g = 0 ∧ i < E.MAXSAT ∧ holdamb_sel s.rtk m 0 i = true
      · rw [if_pos hc]
      · rw [if_neg hc]
        rcases Nat.lt_succ_iff_lt_or_eq.mp hm2 with hlt | heq
        · exact ((g5 i).2.2 g).1 ⟨hg, hi, m2, hlt, hs⟩
        · subst heq
          exact absurd ⟨hg, hi, (hS i hi).trans hs⟩ hc
    · intro hn
      rw [(k5 i).2.2 g]
      have hc : ¬ (g = 0 ∧ i < E.MAXSAT ∧ holdamb_sel s.rtk m 0 i = true) := by
        rintro ⟨hg, hi, hs⟩
        exact hn ⟨hg, hi, m, Nat.lt_succ_self m, (hS i hi).symm.trans hs⟩
      rw [if_neg hc]
      exact ((g5 i).2.2 g).2 (fun ⟨hg, hi, m2, hm2, hs⟩ =>
        hn ⟨hg, hi, m2, Nat.lt_succ_of_lt hm2, hs⟩)
  · rw [r3b, k6, g6]
    rfl
  · intro m2 t hm2 ht
    rcases Nat.lt_succ_iff_lt_or_eq.mp hm2 with hlt | heq
    · have hlt2 := holdamb_off_lt E rtk m2 m t hlt ht
      rw [← g6] at hlt2
      refine ⟨?_, fun c hc => ?_⟩
      · rw [r5b _ hlt2]
        exact (g7 m2 t hlt ht).1
      · rw [r6b c _ hc, if_neg (fun hh => by omega)]
        exact (g7 m2 t hlt ht).2 c hc
    · subst heq
      have htn : t < (arc_holdamb_mark E m2 0 s.rtk s.index).2.n - 1 := by
        rw [k6]
        omega
      have e0 := k7 0 (by omega)
      have e1 := k7 (t + 1) (by omega)
      rw [g4] at e0 e1
      rw [← g6]
      refine ⟨?_, fun c hc => ?_⟩
      · rw [r4b t htn, e0, e1]
      · rw [r6b c _ hc, if_pos ⟨by omega, by omega⟩, g8 c _ hc (by omega)]
        have e2 : s.nv + t - s.nv + 1 = t + 1 := by omega
        rw [e2, e0, e1]
  · intro c t hc ht
    rw [r3b] at ht
    rw [r6b c t hc, if_neg (fun hh => by omega)]
    exact g8 c t hc (by omega)

theorem arc_holdamb_constr_inv (E : Env) (rtk : rtk_t) (xa : Nat → ℚ) (hnf : NF rtk.opt = 1)
    (hidx : ∀ i, i < E.MAXSAT → IB E (i + 1) 0 rtk.opt < rtk.nx) :
    holdamb_inv E rtk xa 4 (arc_holdamb_constr E rtk xa) := by
  unfold arc_holdamb_constr
  dsimp only
  rw [hnf]
  refine forN_inv_idx (holdamb_inv E rtk xa) 4 _ _ ?_ ?_
  · refine ⟨rfl, rfl, rfl, rfl, fun i => ⟨rfl, rfl, fun g => ⟨?_, fun _ => rfl⟩⟩, rfl, ?_,
      fun _ _ _ _ => rfl⟩
    · rintro ⟨_, _, m2, hm2, _⟩
      exact absurd hm2 (Nat.not_lt_zero m2)
    · intro m2 t hm2
      exact absurd hm2 (Nat.not_lt_zero m2)
  · intro m s _ h
    exact arc_holdamb_group_step E rtk xa m s hidx h

theorem arc_holdamb_R (nv i j : Nat) (hi : i < nv) (hj : j < nv) :
    forN nv (fun i R => Function.update R (i + i * nv) VAR_HOLDAMB) (arc_zeros nv nv)
      (i + j * nv) = if i = j then 1 / 1000 else 0 := by
  have h := forN_upd_inj nv (fun i => i + i * nv) (fun _ => VAR_HOLDAMB) (arc_zeros nv nv)
    (fun a b ha hb hab => (flat_inj ha hb hab).1)
  by_cases hij : i = j
  · subst hij
    rw [if_pos rfl]
    exact h.1 i hi
  · rw [if_neg hij, h.2 _ (fun k hk he => hij (by
      have := flat_inj hi hk he
      omega))]
    rfl

/-- C18: for a single-frequency configuration (`NF = 1`), `arc_holdamb` marks, for
each constellation family `m`, the satellites with fix status 2 and elevation
`>= elmaskhold` as held (`fix = 3`) and, with `holdamb_list` the list of these
satellites in increasing satellite number, builds for every listed satellite `k`
other than the first (`ref`) one pseudo-measurement
`v = (xa[ref] - xa[k]) - (x[ref] - x[k])` whose row of `H` is `+1` at the
ambiguity of `ref`, `-1` at the ambiguity of `k` and `0` elsewhere (the rows of
family `m` start at `holdamb_off m`); the covariance passed to `arc_filter` is
`VAR_HOLDAMB = 0.001` times the identity. -/
theorem C18_holdamb (E : Env) (rtk : rtk_t) (xa : Nat → ℚ) (hnf : NF rtk.opt = 1)
    (hidx : ∀ i, i < E.MAXSAT → IB E (i + 1) 0 rtk.opt < rtk.nx) :
    (∀ i m, i < E.MAXSAT → m < 4 → holdamb_sel rtk m 0 i = true →
      ((arc_holdamb_constr E rtk xa).rtk.ssat i).fix 0 = 3) ∧
    (arc_holdamb_constr E rtk xa).nv = holdamb_off E rtk 4 ∧
    (∀ m t, m < 4 → t + 1 < (holdamb_list E rtk m 0).length →
      (arc_holdamb_constr E rtk xa).v (holdamb_off E rtk m + t) =
        (xa (IB E ((holdamb_list E rtk m 0).getD 0 0 + 1) 0 rtk.opt) -
          xa (IB E ((holdamb_list E rtk m 0).getD (t + 1) 0 + 1) 0 rtk.opt)) -
        (rtk.x (IB E ((holdamb_list E rtk m 0).getD 0 0 + 1) 0 rtk.opt) -
          rtk.x (IB E ((holdamb_list E rtk m 0).getD (t + 1) 0 + 1) 0 rtk.opt)) ∧
      ∀ c, c < rtk.nx →
        (arc_holdamb_constr E rtk xa).H (c + (holdamb_off E rtk m + t) * rtk.nx) =
          if c = IB E ((holdamb_list E rtk m 0).getD 0 0 + 1) 0 rtk.opt then 1
          else if c = IB E ((holdamb_list E rtk m 0).getD (t + 1) 0 + 1) 0 rtk.opt then -1
          else 0) ∧
    ((arc_holdamb_constr E rtk xa).nv > 0 → ∃ R : Nat → ℚ,
      (∀ i j, i < (arc_holdamb_constr E rtk xa).nv → j < (arc_holdamb_constr E rtk xa).nv →
        R (i + j * (arc_holdamb_constr E rtk xa).nv) = if i = j then 1 / 1000 else 0) ∧
      (arc_holdamb E rtk xa).x =
        (E.arc_filter (arc_holdamb_constr E rtk xa).rtk.x (arc_holdamb_constr E rtk xa).rtk.P
          (arc_holdamb_constr E rtk xa).H (arc_holdamb_constr E rtk xa).v R
          (arc_holdamb_constr E rtk xa).rtk.nx (arc_holdamb_constr E rtk xa).nv).x ∧
      (arc_holdamb E rtk xa).P =
        (E.arc_filter (arc_holdamb_constr E rtk xa).rtk.x (arc_holdamb_constr E rtk xa).rtk.P
          (arc_holdamb_constr E rtk xa).H (arc_holdamb_constr E rtk xa).v R
          (arc_holdamb_constr E rtk xa).rtk.nx (arc_holdamb_constr E rtk xa).nv).P) := by
  obtain ⟨_, _, _, _, g5, g6, g7, _⟩ := arc_holdamb_constr_inv E rtk xa hnf hidx
  refine ⟨fun i m hi hm hs => ((g5 i).2.2 0).1 ⟨rfl, hi, m, hm, hs⟩, g6,
    fun m t hm ht => g7 m t hm ht, fun hnv => ?_⟩
  refine ⟨forN (arc_holdamb_constr E rtk xa).nv
    (fun i R => Function.update R (i + i * (arc_holdamb_constr E rtk xa).nv) VAR_HOLDAMB)
    (arc_zeros (arc_holdamb_constr E rtk xa).nv (arc_holdamb_constr E rtk xa).nv),
    fun i j hi hj => arc_holdamb_R _ i j hi hj, ?_, ?_⟩
  · unfold arc_holdamb
    dsimp only
    rw [if_pos hnv]
  · unfold arc_holdamb
    dsimp only
    rw [if_pos hnv]

theorem rtk18_list : holdamb_list E0 rtk18 0 0 = [0, 1] := by
  norm_num [holdamb_list, holdamb_sel, arc_test_sys, List.range_succ, List.filter_cons,
    E0, rtk18, rtkL, rtk0, opt0, SYS_GPS]

theorem rtk18_idx : ∀ i, i < E0.MAXSAT → IB E0 (i + 1) 0 rtk18.opt < rtk18.nx := by
  intro i hi
  have h2 : i < 2 := hi
  rcases (by omega : i = 0 ∨ i = 1) with h | h <;> subst h <;> decide

/-- The theorem C18 at two fixed GPS satellites: one constraint, of satellite 2
against the reference satellite 1. -/
theorem C18_holdamb_witness :
    (NF rtk18.opt = 1 ∧ (∀ i, i < E0.MAXSAT → IB E0 (i + 1) 0 rtk18.opt < rtk18.nx)) ∧
    holdamb_list E0 rtk18 0 0 = [0, 1] ∧
    (∀ i m, i < E0.MAXSAT → m < 4 → holdamb_sel rtk18 m 0 i = true →
      ((arc_holdamb_constr E0 rtk18 xa18).rtk.ssat i).fix 0 = 3) ∧
    (arc_holdamb_constr E0 rtk18 xa18).nv = holdamb_off E0 rtk18 4 ∧
    (∀ m t, m < 4 → t + 1 < (holdamb_list E0 rtk18 m 0).length →
      (arc_holdamb_constr E0 rtk18 xa18).v (holdamb_off E0 rtk18 m + t) =
        (xa18 (IB E0 ((holdamb_list E0 rtk18 m 0).getD 0 0 + 1) 0 rtk18.opt) -
          xa18 (IB E0 ((holdamb_list E0 rtk18 m 0).getD (t + 1) 0 + 1) 0 rtk18.opt)) -
        (rtk18.x (IB E0 ((holdamb_list E0 rtk18 m 0).getD 0 0 + 1) 0 rtk18.opt) -
          rtk18.x (IB E0 ((holdamb_list E0 rtk18 m 0).getD (t + 1) 0 + 1) 0 rtk18.opt)) ∧
      ∀ c, c < rtk18.nx →
        (arc_holdamb_constr E0 rtk18 xa18).H (c + (holdamb_off E0 rtk18 m + t) * rtk18.nx) =
          if c = IB E0 ((holdamb_list E0 rtk18 m 0).getD 0 0 + 1) 0 rtk18.opt then 1
          else if c = IB E0 ((holdamb_list E0 rtk18 m 0).getD (t + 1) 0 + 1) 0 rtk18.opt then -1
          else 0) :=
  ⟨⟨by decide, rtk18_idx⟩, rtk18_list,
    (C18_holdamb E0 rtk18 xa18 (by decide) rtk18_idx).1,
    (C18_holdamb E0 rtk18 xa18 (by decide) rtk18_idx).2.1,
    (C18_holdamb E0 rtk18 xa18 (by decide) rtk18_idx).2.2.1⟩

/-! ## The fixed solution in the reported result -/

theorem arc_holdamb_mark_ssat (E : Env) (m f : Nat) (rtk : rtk_t) (index : Nat → Nat) :
    ssat_only rtk (arc_holdamb_mark E m f rtk index).1 := by
  unfold arc_holdamb_mark
  refine forN_inv (fun ri : rtk_t × index_t => ssat_only rtk ri.1) _ _ _ (ssat_only_refl _) ?_
  intro i ri _ h
  dsimp only
  split
  · exact h
  · exact ssat_only_trans h (ssat_only_ssat _ _)

theorem arc_holdamb_rows_rtk (xa : Nat → ℚ) (ix : Nat → Nat) (n : Nat) (s : holdamb_t) :
    (arc_holdamb_rows xa ix n s).rtk = s.rtk := by
  unfold arc_holdamb_rows
  exact forN_inv (fun r : holdamb_t => r.rtk = s.rtk) _ _ _ rfl (fun _ _ _ h => h)

theorem arc_holdamb_constr_ssat (E : Env) (rtk : rtk_t) (xa : Nat → ℚ) :
    ssat_only rtk (arc_holdamb_constr E rtk xa).rtk := by
  unfold arc_holdamb_constr
  dsimp only
  refine forN_inv (fun s : holdamb_t => ssat_only rtk s.rtk) _ _ _ (ssat_only_refl _) ?_
  intro m s _ h
  refine forN_inv (fun s : holdamb_t => ssat_only rtk s.rtk) _ _ _ h ?_
  intro f s _ h
  unfold arc_holdamb_group
  dsimp only
  rw [arc_holdamb_rows_rtk]
  exact ssat_only_trans h (arc_holdamb_mark_ssat E m f s.rtk s.index)

/-- `arc_holdamb` leaves the fixed solution `xa`, `Pa` and the dimensions. -/
theorem arc_holdamb_frame (E : Env) (rtk : rtk_t) (xa : Nat → ℚ) :
    (arc_holdamb E rtk xa).xa = rtk.xa ∧ (arc_holdamb E rtk xa).Pa = rtk.Pa ∧
    (arc_holdamb E rtk xa).na = rtk.na ∧ (arc_holdamb E rtk xa).sol = rtk.sol := by
  obtain ⟨_, _, _, h4, _, h6, h7, h8⟩ := arc_holdamb_constr_ssat E rtk xa
  unfold arc_holdamb
  dsimp only
  split
  · exact ⟨h6, h7, h4, h8⟩
  · exact ⟨h6, h7, h4, h8⟩

/-- The fixed-solution stage of `arc_relpos` when `arc_resamb_LAMBDA` returns a
count above 1 and the residuals of the fixed solution can be formed. -/
theorem arc_relpos_fix_accepts (E : Env) (obs : Nat → obsd_t) (nu : Nat) (nav : nav_t)
    (rs dts : Nat → ℚ) (svh : Nat → Int) (sat iu ir : Nat → Nat) (ns : Nat) (dt : ℚ)
    (s : relpos_t) (hstat : s.stat ≠ SOLQ_NONE)
    (hnb : (arc_resamb_LAMBDA E s.rtk s.bias s.xa).nb > 1)
    (hz : (arc_zdres E 0 obs nu rs dts svh nav (arc_resamb_LAMBDA E s.rtk s.bias s.xa).xa
      (arc_resamb_LAMBDA E s.rtk s.bias s.xa).rtk.opt 0 s.y s.e s.azel).ret ≠ 0) :
    (arc_relpos_fix E obs nu nav rs dts svh sat iu ir ns dt s).stat = SOLQ_FIX ∧
    (arc_relpos_fix E obs nu nav rs dts svh sat iu ir ns dt s).rtk.xa =
      (arc_resamb_LAMBDA E s.rtk s.bias s.xa).rtk.xa ∧
    (arc_relpos_fix E obs nu nav rs dts svh sat iu ir ns dt s).rtk.Pa =
      (arc_resamb_LAMBDA E s.rtk s.bias s.xa).rtk.Pa ∧
    (arc_relpos_fix E obs nu nav rs dts svh sat iu ir ns dt s).rtk.na =
      (arc_resamb_LAMBDA E s.rtk s.bias s.xa).rtk.na := by
  unfold arc_relpos_fix
  lift_lets
  intro ra s1 z s2 d s3 src r1 r2
  rw [if_neg hstat, if_pos hnb, if_neg hz]
  have hv : arc_valpos s3.rtk s3.v s3.R s3.vflg s3.nv E.ARC_SOLVALTHRES ≠ 0 := by
    unfold arc_valpos
    decide
  rw [if_pos hv]
  have hd : ssat_only ra.rtk d.rtk := arc_ddres_frame E _ nav dt _ none sat _ _ _ iu ir ns _ none _ _
  obtain ⟨_, _, _, d4, _, d6, d7, _⟩ := hd
  have hr1 : r1.xa = ra.rtk.xa ∧ r1.Pa = ra.rtk.Pa ∧ r1.na = ra.rtk.na := ⟨d6, d7, d4⟩
  have hr2 : r2.xa = ra.rtk.xa ∧ r2.Pa = ra.rtk.Pa ∧ r2.na = ra.rtk.na := by
    show (if _ then arc_holdamb E r1 s3.xa else r1 : rtk_t).xa = _ ∧
      (if _ then arc_holdamb E r1 s3.xa else r1 : rtk_t).Pa = _ ∧
      (if _ then arc_holdamb E r1 s3.xa else r1 : rtk_t).na = _
    split
    · obtain ⟨a1, a2, a3, _⟩ := arc_holdamb_frame E r1 s3.xa
      exact ⟨a1.trans hr1.1, a2.trans hr1.2.1, a3.trans hr1.2.2⟩
    · exact hr1
  exact ⟨rfl, hr2.1, hr2.2.1, hr2.2.2⟩

/-- The fixed-solution stage of `arc_relpos` when `arc_resamb_LAMBDA` returns a
count of at most 1: the status is left. -/
theorem arc_relpos_fix_single (E : Env) (obs : Nat → obsd_t) (nu : Nat) (nav : nav_t)
    (rs dts : Nat → ℚ) (svh : Nat → Int) (sat iu ir : Nat → Nat) (ns : Nat) (dt : ℚ)
    (s : relpos_t) (hstat : s.stat ≠ SOLQ_NONE)
    (hnb : ¬ (arc_resamb_LAMBDA E s.rtk s.bias s.xa).nb > 1) :
    (arc_relpos_fix E obs nu nav rs dts svh sat iu ir ns dt s).stat = s.stat ∧
    (arc_relpos_fix E obs nu nav rs dts svh sat iu ir ns dt s).rtk =
      (arc_resamb_LAMBDA E s.rtk s.bias s.xa).rtk := by
  unfold arc_relpos_fix
  lift_lets
  intro ra s1 z s2 d s3 src r1 r2
  rw [if_neg hstat, if_neg hnb]
  exact ⟨rfl, rfl⟩

/-- Saving the solution: the reported position and covariance come from `xa`,
`Pa` when the status is fix and from `x`, `P` otherwise; the reported status is
the status when it is not `SOLQ_NONE`. -/
theorem arc_relpos_save_sol (E : Env) (obs : Nat → obsd_t) (n : Nat) (sat iu : Nat → Nat)
    (ns : Nat) (rtk : rtk_t) (stat : Int) (hs : stat ≠ SOLQ_NONE) :
    (arc_relpos_save E obs n sat iu ns rtk stat).sol.stat = stat ∧
    (arc_relpos_save E obs n sat iu ns rtk stat).sol.rr =
      (fun i => if i < 3 then (if stat = SOLQ_FIX then rtk.xa i else rtk.x i)
        else rtk.sol.rr i) ∧
    (arc_relpos_save E obs n sat iu ns rtk stat).sol.qr =
      (if stat = SOLQ_FIX then
        (fun i => if i < 3 then rtk.Pa (i + i * rtk.na)
          else if i = 3 then rtk.Pa 1
          else if i = 4 then rtk.Pa (1 + 2 * rtk.na)
          else if i = 5 then rtk.Pa 2 else rtk.sol.qr i)
       else
        (fun i => if i < 3 then rtk.P (i + i * rtk.nx)
          else if i = 3 then rtk.P 1
          else if i = 4 then rtk.P (1 + 2 * rtk.nx)
          else if i = 5 then rtk.P 2 else rtk.sol.qr i)) := by
  unfold arc_relpos_save
  lift_lets
  intro nf src1 r1 r2 r3 r4 src2
  rw [if_pos hs]
  have h1 : r1.sol.rr = (fun i => if i < 3 then (if stat = SOLQ_FIX then rtk.xa i else rtk.x i)
        else rtk.sol.rr i) ∧
      r1.sol.qr = (if stat = SOLQ_FIX then
        (fun i => if i < 3 then rtk.Pa (i + i * rtk.na)
          else if i = 3 then rtk.Pa 1
          else if i = 4 then rtk.Pa (1 + 2 * rtk.na)
          else if i = 5 then rtk.Pa 2 else rtk.sol.qr i)
       else
        (fun i => if i < 3 then rtk.P (i + i * rtk.nx)
          else if i = 3 then rtk.P 1
          else if i = 4 then rtk.P (1 + 2 * rtk.nx)
          else if i = 5 then rtk.P 2 else rtk.sol.qr i)) := by
    by_cases hf : stat = SOLQ_FIX
    · have e : r1 = _ := if_pos hf
      rw [e]
      simp only [if_pos hf, and_self]
    · have e : r1 = _ := if_neg hf
      rw [e]
      simp only [if_neg hf, and_self]
  have h2 : r2.sol = r1.sol := by
    refine forN_inv (fun r : rtk_t => r.sol = r1.sol) _ _ _ rfl ?_
    intro i r _ hr
    refine forN_inv (fun r : rtk_t => r.sol = r1.sol) _ _ _ hr ?_
    intro j r _ hr
    dsimp only
    split
    · exact hr
    · exact hr
  have h3 : r3.sol = r1.sol := by
    refine forN_inv (fun r : rtk_t => r.sol = r1.sol) _ _ _ h2 ?_
    intro i r _ hr
    exact forN_inv (fun r : rtk_t => r.sol = r1.sol) _ _ _ hr (fun j r _ hr => hr)
  have h4 : r4.sol = r1.sol := by
    refine forN_inv (fun r : rtk_t => r.sol = r1.sol) _ _ _ h3 ?_
    intro i r _ hr
    exact forN_inv (fun r : rtk_t => r.sol = r1.sol) _ _ _ hr (fun j r _ hr => hr)
  refine ⟨rfl, ?_, ?_⟩
  · show r4.sol.rr = _
    rw [h4]
    exact h1.1
  · show r4.sol.qr = _
    rw [h4]
    exact h1.2

theorem NR_le_IB (E : Env) (opt : prcopt_t) (s f : Nat) (hs : 1 ≤ s) : NR E opt ≤ IB E s f opt := by
  unfold IB
  omega

/-- The list of ambiguity indices built by `arc_restamb` holds indices from `NR`
on. -/
theorem arc_restamb_index_ge (E : Env) (rtk : rtk_t) (m f : Nat) (index : Nat → Nat) :
    ∀ t, t < (forN E.MAXSAT
        (fun i (ix : index_t) =>
          if arc_test_sys (rtk.ssat i).sys m = false ∨ (rtk.ssat i).fix f ≠ 2 then ix
          else { index := Function.update ix.index ix.n (IB E (i + 1) f rtk.opt), n := ix.n + 1 })
        { index := index, n := 0 }).n →
      NR E rtk.opt ≤ (forN E.MAXSAT
        (fun i (ix : index_t) =>
          if arc_test_sys (rtk.ssat i).sys m = false ∨ (rtk.ssat i).fix f ≠ 2 then ix
          else { index := Function.update ix.index ix.n (IB E (i + 1) f rtk.opt), n := ix.n + 1 })
        { index := index, n := 0 }).index t := by
  refine forN_inv (fun ix : index_t => ∀ t, t < ix.n → NR E rtk.opt ≤ ix.index t) _ _ _
    (fun t ht => absurd ht (Nat.not_lt_zero t)) ?_
  intro i ix _ h
  dsimp only
  split
  · exact h
  · intro t ht
    have ht2 : t < ix.n + 1 := ht
    show NR E rtk.opt ≤ Function.update ix.index ix.n (IB E (i + 1) f rtk.opt) t
    rcases Nat.lt_succ_iff_lt_or_eq.mp ht2 with hlt | heq
    · rw [Function.update_noteq (Nat.ne_of_lt hlt)]
      exact h t hlt
    · rw [heq, Function.update_same]
      exact NR_le_IB E rtk.opt (i + 1) f (Nat.succ_le_succ (Nat.zero_le i))

/-- `arc_restamb` leaves the first `na` elements of `xa` equal to `rtk->xa` (the
restored ambiguities are written from index `NR` on). -/
theorem arc_restamb_pos (E : Env) (rtk : rtk_t) (bias xa : Nat → ℚ) (i : Nat)
    (hi : i < rtk.na) (hna : rtk.na ≤ NR E rtk.opt) :
    arc_restamb E rtk bias xa i = rtk.xa i := by
  unfold arc_restamb
  have h1 : forN rtk.na (fun i xa => Function.update xa i (rtk.xa i))
      (forN rtk.nx (fun i xa => Function.update xa i (rtk.x i)) xa) i = rtk.xa i := by
    rw [forN_copy, if_pos hi]
  refine forN_inv (fun s : restamb_t => s.xa i = rtk.xa i) _ _ _ h1 ?_
  intro m s _ hs
  refine forN_inv (fun s : restamb_t => s.xa i = rtk.xa i) _ _ _ hs ?_
  intro f s _ hs
  dsimp only
  have hge := arc_restamb_index_ge E rtk m f s.index
  split
  · exact hs
  · rename_i hn
    refine forN_inv (fun s : restamb_t => s.xa i = rtk.xa i) _ _ _ ?_ ?_
    · show Function.update s.xa _ _ i = _
      rw [Function.update_noteq (by
        have := hge 0 (by omega)
        omega)]
      exact hs
    · intro i0 s2 hi0 hs2
      show Function.update s2.xa _ _ i = _
      rw [Function.update_noteq (by
        have := hge (i0 + 1) (by omega)
        omega)]
      exact hs2

/-- `arc_relpos` after the float solution: the fixed-solution stage, the saved
solution and the return value. -/
theorem arc_relpos_after_float (E : Env) (st : intpres_static_t) (rtk : rtk_t)
    (obs : Nat → obsd_t) (nu nr : Nat) (nav : nav_t)
    (hb : (arc_relpos_base E rtk obs nu nr nav).ret ≠ 0)
    (hk : 0 < (arc_relpos_sel E rtk obs nu nr nav).k) :
    arc_relpos E st rtk obs nu nr nav =
      { ret := if (arc_relpos_fix E obs nu nav (arc_relpos_base E rtk obs nu nr nav).sp.rs
            (arc_relpos_base E rtk obs nu nr nav).sp.dts
            (arc_relpos_base E rtk obs nu nr nav).sp.svh
            (arc_relpos_sel E rtk obs nu nr nav).sat (arc_relpos_sel E rtk obs nu nr nav).iu
            (arc_relpos_sel E rtk obs nu nr nav).ir (arc_relpos_sel E rtk obs nu nr nav).k
            (arc_relpos_intp E st rtk obs nu nr nav).ret
            (arc_relpos_fl E st rtk obs nu nr nav)).stat ≠ SOLQ_NONE then 1 else 0
        rtk := arc_relpos_save E obs (nu + nr) (arc_relpos_sel E rtk obs nu nr nav).sat
          (arc_relpos_sel E rtk obs nu nr nav).iu (arc_relpos_sel E rtk obs nu nr nav).k
          (arc_relpos_fix E obs nu nav (arc_relpos_base E rtk obs nu nr nav).sp.rs
            (arc_relpos_base E rtk obs nu nr nav).sp.dts
            (arc_relpos_base E rtk obs nu nr nav).sp.svh
            (arc_relpos_sel E rtk obs nu nr nav).sat (arc_relpos_sel E rtk obs nu nr nav).iu
            (arc_relpos_sel E rtk obs nu nr nav).ir (arc_relpos_sel E rtk obs nu nr nav).k
            (arc_relpos_intp E st rtk obs nu nr nav).ret
            (arc_relpos_fl E st rtk obs nu nr nav)).rtk
          (arc_relpos_fix E obs nu nav (arc_relpos_base E rtk obs nu nr nav).sp.rs
            (arc_relpos_base E rtk obs nu nr nav).sp.dts
            (arc_relpos_base E rtk obs nu nr nav).sp.svh
            (arc_relpos_sel E rtk obs nu nr nav).sat (arc_relpos_sel E rtk obs nu nr nav).iu
            (arc_relpos_sel E rtk obs nu nr nav).ir (arc_relpos_sel E rtk obs nu nr nav).k
            (arc_relpos_intp E st rtk obs nu nr nav).ret
            (arc_relpos_fl E st rtk obs nu nr nav)).stat
        st := (arc_relpos_intp E st rtk obs nu nr nav).st } := by
  have hk2 : ¬ (arc_relpos_sel E rtk obs nu nr nav).k ≤ 0 := by omega
  delta arc_relpos
  exact (if_neg hb).trans (if_neg hk2)

/-- A fixed solution validated with a count above 1 is the reported solution
(stage `arc_relpos_fix` followed by `arc_relpos_save`). -/
theorem arc_relpos_fix_report (E : Env) (obs : Nat → obsd_t) (n nu : Nat) (nav : nav_t)
    (rs dts : Nat → ℚ) (svh : Nat → Int) (sat iu ir : Nat → Nat) (ns : Nat) (dt : ℚ)
    (s : relpos_t) (hstat : s.stat ≠ SOLQ_NONE)
    (hnb : (arc_resamb_LAMBDA E s.rtk s.bias s.xa).nb > 1)
    (hz : (arc_zdres E 0 obs nu rs dts svh nav (arc_resamb_LAMBDA E s.rtk s.bias s.xa).xa
      (arc_resamb_LAMBDA E s.rtk s.bias s.xa).rtk.opt 0 s.y s.e s.azel).ret ≠ 0) :
    (arc_relpos_fix E obs nu nav rs dts svh sat iu ir ns dt s).stat = SOLQ_FIX ∧
    (arc_relpos_save E obs n sat iu ns
      (arc_relpos_fix E obs nu nav rs dts svh sat iu ir ns dt s).rtk
      (arc_relpos_fix E obs nu nav rs dts svh sat iu ir ns dt s).stat).sol.stat = SOLQ_FIX ∧
    (∀ i, i < 3 →
      (arc_relpos_save E obs n sat iu ns
        (arc_relpos_fix E obs nu nav rs dts svh sat iu ir ns dt s).rtk
        (arc_relpos_fix E obs nu nav rs dts svh sat iu ir ns dt s).stat).sol.rr i =
        (arc_resamb_LAMBDA E s.rtk s.bias s.xa).rtk.xa i ∧
      (arc_relpos_save E obs n sat iu ns
        (arc_relpos_fix E obs nu nav rs dts svh sat iu ir ns dt s).rtk
        (arc_relpos_fix E obs nu nav rs dts svh sat iu ir ns dt s).stat).sol.qr i =
        (arc_resamb_LAMBDA E s.rtk s.bias s.xa).rtk.Pa
          (i + i * (arc_resamb_LAMBDA E s.rtk s.bias s.xa).rtk.na)) ∧
    (arc_relpos_save E obs n sat iu ns
      (arc_relpos_fix E obs nu nav rs dts svh sat iu ir ns dt s).rtk
      (arc_relpos_fix E obs nu nav rs dts svh sat iu ir ns dt s).stat).sol.qr 3 =
      (arc_resamb_LAMBDA E s.rtk s.bias s.xa).rtk.Pa 1 ∧
    (arc_relpos_save E obs n sat iu ns
      (arc_relpos_fix E obs nu nav rs dts svh sat iu ir ns dt s).rtk
      (arc_relpos_fix E obs nu nav rs dts svh sat iu ir ns dt s).stat).sol.qr 4 =
      (arc_resamb_LAMBDA E s.rtk s.bias s.xa).rtk.Pa
        (1 + 2 * (arc_resamb_LAMBDA E s.rtk s.bias s.xa).rtk.na) ∧
    (arc_relpos_save E obs n sat iu ns
      (arc_relpos_fix E obs nu nav rs dts svh sat iu ir ns dt s).rtk
      (arc_relpos_fix E obs nu nav rs dts svh sat iu ir ns dt s).stat).sol.qr 5 =
      (arc_resamb_LAMBDA E s.rtk s.bias s.xa).rtk.Pa 2 := by
  obtain ⟨f1, f2, f3, f4⟩ :=
    arc_relpos_fix_accepts E obs nu nav rs dts svh sat iu ir ns dt s hstat hnb hz
  have hne : (arc_relpos_fix E obs nu nav rs dts svh sat iu ir ns dt s).stat ≠ SOLQ_NONE := by
    rw [f1]
    decide
  obtain ⟨g1, g2, g3⟩ := arc_relpos_save_sol E obs n sat iu ns
    (arc_relpos_fix E obs nu nav rs dts svh sat iu ir ns dt s).rtk
    (arc_relpos_fix E obs nu nav rs dts svh sat iu ir ns dt s).stat hne
  rw [if_pos f1] at g3
  refine ⟨f1, g1.trans f1, fun i hi => ⟨?_, ?_⟩, ?_, ?_, ?_⟩
  · rw [g2]
    simp only [if_pos hi, if_pos f1, f2]
  · rw [g3]
    simp only [if_pos hi, f3, f4]
  · rw [g3]
    simp [f3]
  · rw [g3]
    simp [f3, f4]
  · rw [g3]
    simp [f3]

/-- C15 (amended): whenever `arc_resamb_LAMBDA` validates a fixed solution in an
epoch with a usable float solution and returns a count of at least 2 (the test
is `arc_resamb_LAMBDA(rtk,bias,xa)>1`), and the residuals of the fixed solution
can be formed, `arc_relpos` sets the status fix, reports it, and the reported
position and covariance are taken from the fixed solution `xa`/`Pa`.  Stated for
the stages of `arc_relpos` after the float solution, from an arbitrary working
state `s`. -/
theorem C15_fixed_solution_reported (E : Env) (obs : Nat → obsd_t) (n nu : Nat) (nav : nav_t)
    (rs dts : Nat → ℚ) (svh : Nat → Int) (sat iu ir : Nat → Nat) (ns : Nat) (dt : ℚ)
    (s : relpos_t) (hstat : s.stat ≠ SOLQ_NONE)
    (hnb : (arc_resamb_LAMBDA E s.rtk s.bias s.xa).nb > 1)
    (hz : (arc_zdres E 0 obs nu rs dts svh nav (arc_resamb_LAMBDA E s.rtk s.bias s.xa).xa
      (arc_resamb_LAMBDA E s.rtk s.bias s.xa).rtk.opt 0 s.y s.e s.azel).ret ≠ 0) :
    (arc_relpos_fix E obs nu nav rs dts svh sat iu ir ns dt s).stat = SOLQ_FIX ∧
    (arc_relpos_save E obs n sat iu ns
      (arc_relpos_fix E obs nu nav rs dts svh sat iu ir ns dt s).rtk
      (arc_relpos_fix E obs nu nav rs dts svh sat iu ir ns dt s).stat).sol.stat = SOLQ_FIX ∧
    (∀ i, i < 3 →
      (arc_relpos_save E obs n sat iu ns
        (arc_relpos_fix E obs nu nav rs dts svh sat iu ir ns dt s).rtk
        (arc_relpos_fix E obs nu nav rs dts svh sat iu ir ns dt s).stat).sol.rr i =
        (arc_resamb_LAMBDA E s.rtk s.bias s.xa).rtk.xa i ∧
      (arc_relpos_save E obs n sat iu ns
        (arc_relpos_fix E obs nu nav rs dts svh sat iu ir ns dt s).rtk
        (arc_relpos_fix E obs nu nav rs dts svh sat iu ir ns dt s).stat).sol.qr i =
        (arc_resamb_LAMBDA E s.rtk s.bias s.xa).rtk.Pa
          (i + i * (arc_resamb_LAMBDA E s.rtk s.bias s.xa).rtk.na)) ∧
    (arc_relpos_save E obs n sat iu ns
      (arc_relpos_fix E obs nu nav rs dts svh sat iu ir ns dt s).rtk
      (arc_relpos_fix E obs nu nav rs dts svh sat iu ir ns dt s).stat).sol.qr 3 =
      (arc_resamb_LAMBDA E s.rtk s.bias s.xa).rtk.Pa 1 ∧
    (arc_relpos_save E obs n sat iu ns
      (arc_relpos_fix E obs nu nav rs dts svh sat iu ir ns dt s).rtk
      (arc_relpos_fix E obs nu nav rs dts svh sat iu ir ns dt s).stat).sol.qr 4 =
      (arc_resamb_LAMBDA E s.rtk s.bias s.xa).rtk.Pa
        (1 + 2 * (arc_resamb_LAMBDA E s.rtk s.bias s.xa).rtk.na) ∧
    (arc_relpos_save E obs n sat iu ns
      (arc_relpos_fix E obs nu nav rs dts svh sat iu ir ns dt s).rtk
      (arc_relpos_fix E obs nu nav rs dts svh sat iu ir ns dt s).stat).sol.qr 5 =
      (arc_resamb_LAMBDA E s.rtk s.bias s.xa).rtk.Pa 2 :=
  arc_relpos_fix_report E obs n nu nav rs dts svh sat iu ir ns dt s hstat hnb hz

/-- The fixed solution in the result of `arc_relpos`: when the epoch reaches the
float solution (`arc_relpos_fl`) with a status other than `SOLQ_NONE`,
`arc_resamb_LAMBDA` returns a count above 1 and the residuals of the fixed
solution can be formed, `arc_relpos` returns 1 with the solution status fix and
the position of the fixed solution. -/
theorem arc_relpos_fixed (E : Env) (st : intpres_static_t) (rtk : rtk_t)
    (obs : Nat → obsd_t) (nu nr : Nat) (nav : nav_t)
    (hb : (arc_relpos_base E rtk obs nu nr nav).ret ≠ 0)
    (hk : 0 < (arc_relpos_sel E rtk obs nu nr nav).k)
    (hstat : (arc_relpos_fl E st rtk obs nu nr nav).stat ≠ SOLQ_NONE)
    (hnb : (arc_resamb_LAMBDA E (arc_relpos_fl E st rtk obs nu nr nav).rtk
      (arc_relpos_fl E st rtk obs nu nr nav).bias (arc_relpos_fl E st rtk obs nu nr nav).xa).nb > 1)
    (hz : (arc_zdres E 0 obs nu (arc_relpos_base E rtk obs nu nr nav).sp.rs
      (arc_relpos_base E rtk obs nu nr nav).sp.dts (arc_relpos_base E rtk obs nu nr nav).sp.svh nav
      (arc_resamb_LAMBDA E (arc_relpos_fl E st rtk obs nu nr nav).rtk
        (arc_relpos_fl E st rtk obs nu nr nav).bias (arc_relpos_fl E st rtk obs nu nr nav).xa).xa
      (arc_resamb_LAMBDA E (arc_relpos_fl E st rtk obs nu nr nav).rtk
        (arc_relpos_fl E st rtk obs nu nr nav).bias
        (arc_relpos_fl E st rtk obs nu nr nav).xa).rtk.opt 0
      (arc_relpos_fl E st rtk obs nu nr nav).y (arc_relpos_fl E st rtk obs nu nr nav).e
      (arc_relpos_fl E st rtk obs nu nr nav).azel).ret ≠ 0) :
    (arc_relpos E st rtk obs nu nr nav).ret = 1 ∧
    (arc_relpos E st rtk obs nu nr nav).rtk.sol.stat = SOLQ_FIX ∧
    ∀ i, i < 3 → (arc_relpos E st rtk obs nu nr nav).rtk.sol.rr i =
      (arc_resamb_LAMBDA E (arc_relpos_fl E st rtk obs nu nr nav).rtk
        (arc_relpos_fl E st rtk obs nu nr nav).bias
        (arc_relpos_fl E st rtk obs nu nr nav).xa).rtk.xa i := by
  obtain ⟨f1, f2, f3, _⟩ := arc_relpos_fix_report E obs (nu + nr) nu nav
    (arc_relpos_base E rtk obs nu nr nav).sp.rs (arc_relpos_base E rtk obs nu nr nav).sp.dts
    (arc_relpos_base E rtk obs nu nr nav).sp.svh (arc_relpos_sel E rtk obs nu nr nav).sat
    (arc_relpos_sel E rtk obs nu nr nav).iu (arc_relpos_sel E rtk obs nu nr nav).ir
    (arc_relpos_sel E rtk obs nu nr nav).k (arc_relpos_intp E st rtk obs nu nr nav).ret
    (arc_relpos_fl E st rtk obs nu nr nav) hstat hnb hz
  rw [arc_relpos_after_float E st rtk obs nu nr nav hb hk]
  refine ⟨?_, f2, fun i hi => (f3 i hi).1⟩
  show (if _ then (1 : Int) else (0 : Int)) = (1 : Int)
  rw [if_pos (by rw [f1]; decide)]

theorem arc_resamb_fixed_local (E : Env) (r : rtk_t) (nb : Nat) (y Qb Qab b bias xa : Nat → ℚ)
    (h : (E.arc_matinv Qb nb).1 = 0) (hna : r.na ≤ NR E r.opt) (i : Nat) (hi : i < r.na) :
    (arc_resamb_fixed E r nb y Qb Qab b bias xa).xa i =
      (arc_resamb_fixed E r nb y Qb Qab b bias xa).rtk.xa i := by
  unfold arc_resamb_fixed
  simp only [if_pos h]
  exact arc_restamb_pos E _ _ _ i hi hna

theorem arc_resamb_fixed_x (E : Env) (r : rtk_t) (nb : Nat) (y Qb Qab b bias xa : Nat → ℚ) :
    (arc_resamb_fixed E r nb y Qb Qab b bias xa).rtk.x = r.x ∧
    (arc_resamb_fixed E r nb y Qb Qab b bias xa).rtk.opt = r.opt := by
  unfold arc_resamb_fixed
  dsimp only
  split <;> exact ⟨rfl, rfl⟩

/-- Under `resamb_accepts`, `arc_resamb_LAMBDA` is the accepted branch on a control
struct with the state, the dimension `na` and the options of `rtk`. -/
theorem arc_resamb_LAMBDA_accepts_opt (E : Env) (rtk : rtk_t) (bias xa : Nat → ℚ)
    (hacc : resamb_accepts E rtk) :
    ∃ r2 : rtk_t, r2.x = rtk.x ∧ r2.na = rtk.na ∧ r2.opt = rtk.opt ∧
      arc_resamb_LAMBDA E rtk bias xa =
        arc_resamb_fixed E r2 (resamb_L E rtk).nb (resamb_L E rtk).y (resamb_L E rtk).Qb
          (resamb_L E rtk).Qab (resamb_L E rtk).lam.F bias xa := by
  obtain ⟨hg, hnb, hinfo, htest, _⟩ := hacc
  obtain ⟨f1, _, _, f4, f5, _, _, _⟩ := arc_resamb_in_frame E (resamb_rtk0 rtk)
  refine ⟨{ (resamb_L E rtk).rtk with sol := { (resamb_L E rtk).rtk.sol with
      ratio := (if (if (resamb_L E rtk).lam.s 0 > 0 then
          (resamb_L E rtk).lam.s 1 / (resamb_L E rtk).lam.s 0 else 0) > 9999 / 10
        then 9999 / 10
        else (if (resamb_L E rtk).lam.s 0 > 0 then
          (resamb_L E rtk).lam.s 1 / (resamb_L E rtk).lam.s 0 else 0)) } },
    f1, f4, f5, ?_⟩
  have hg2 : ¬ ((resamb_rtk0 rtk).opt.mode ≤ PMODE_DGPS ∨
      (resamb_rtk0 rtk).opt.modear = ARMODE_OFF ∨ (resamb_rtk0 rtk).opt.thresar 0 < 1) := hg
  have hnb2 : ¬ (arc_resamb_in E (resamb_rtk0 rtk)).nb ≤ 0 := Nat.not_le.mpr hnb
  have hinfo2 : (arc_resamb_in E (resamb_rtk0 rtk)).lam.info = 0 := hinfo
  have htest2 : (arc_resamb_in E (resamb_rtk0 rtk)).lam.s 0 ≤ 0 ∨
      (arc_resamb_in E (resamb_rtk0 rtk)).lam.s 1 / (arc_resamb_in E (resamb_rtk0 rtk)).lam.s 0 ≥
        (arc_resamb_in E (resamb_rtk0 rtk)).rtk.opt.thresar 0 := by
    have e : (arc_resamb_in E (resamb_rtk0 rtk)).rtk.opt = rtk.opt := f5
    rw [e]
    exact htest
  unfold arc_resamb_LAMBDA
  simp only [if_neg hg2, if_neg hnb2, if_pos hinfo2, if_pos htest2]
  rfl

/-- The 1-norm of `E0` is positive when the first element is not zero. -/
theorem norm1_pos (a : Nat → ℚ) (h : a 0 ≠ 0) :
    ¬ forN 3 (fun i s => s + |a i|) (0 : ℚ) ≤ 0 := by
  have e : forN 3 (fun i s => s + |a i|) (0 : ℚ) = 0 + |a 0| + |a 1| + |a 2| := rfl
  rw [e]
  have h0 := abs_pos.mpr h
  have h1 := abs_nonneg (a 1)
  have h2 := abs_nonneg (a 2)
  linarith

set_option maxRecDepth 8000 in
theorem rtk15_nb : (resamb_L E3 rtk15).nb = 2 := by
  simp [resamb_L, arc_resamb_in, arc_ddmat, forN, arc_ddmat_ref, arc_ddmat_col, arc_test_sys,
    E3, E0, resamb_rtk0, rtk15, rtk0, opt0, ssat0, SYS_GPS, SYS_SBS, SYS_GAL, SYS_CMP,
    Function.update]

theorem rtk15_lam : (resamb_L E3 rtk15).lam.info = 0 ∧
    (resamb_L E3 rtk15).lam.s = (fun k => if k = 0 then 1 else 4) ∧
    (resamb_L E3 rtk15).lam.F = (fun i => (resamb_L E3 rtk15).y (3 + i)) :=
  ⟨rfl, rfl, rfl⟩

theorem rtk15_accepts : resamb_accepts E3 rtk15 := by
  refine ⟨?_, ?_, rtk15_lam.1, ?_, rfl⟩
  · norm_num [rtk15, rtk0, opt0, PMODE_DGPS, PMODE_KINEMA, ARMODE_OFF]
  · rw [rtk15_nb]
    decide
  · right
    rw [rtk15_lam.2.1]
    norm_num [rtk15, rtk0, opt0]

/-- At `rtk15` the search returns the float ambiguities, so the fixed position
is the float position `(10,10,10)`; two double differences are fixed. -/
theorem rtk15_resamb (bias xa : Nat → ℚ) :
    (arc_resamb_LAMBDA E3 rtk15 bias xa).nb = 2 ∧
    (∀ i, i < 3 → (arc_resamb_LAMBDA E3 rtk15 bias xa).rtk.xa i = 10) ∧
    (∀ i, i < 3 → (arc_resamb_LAMBDA E3 rtk15 bias xa).xa i = 10) := by
  have hacc := rtk15_accepts
  obtain ⟨r2, e1, e2, e3, e⟩ := arc_resamb_LAMBDA_accepts_opt E3 rtk15 bias xa hacc
  have hna : r2.na = 3 := e2
  have hxa : ∀ i, i < 3 → (arc_resamb_LAMBDA E3 rtk15 bias xa).rtk.xa i = 10 := by
    intro i hi
    rw [e, arc_resamb_fixed_xa _ _ _ _ _ _ _ _ _ hacc.2.2.2.2 i (by rw [hna]; exact hi)]
    have hz : ∀ k, (resamb_L E3 rtk15).y (r2.na + k) - (resamb_L E3 rtk15).lam.F k = 0 := by
      intro k
      rw [rtk15_lam.2.2, hna]
      exact sub_self _
    simp only [hz, mul_zero, Finset.sum_const_zero, sub_zero, e1]
    rcases (by omega : i = 0 ∨ i = 1 ∨ i = 2) with h | h | h <;> subst h <;> norm_num [rtk15]
  refine ⟨?_, hxa, ?_⟩
  · rw [e, arc_resamb_fixed_nb _ _ _ _ _ _ _ _ _ hacc.2.2.2.2, rtk15_nb]
  · intro i hi
    rw [← hxa i hi, e]
    exact arc_resamb_fixed_local _ _ _ _ _ _ _ _ _ hacc.2.2.2.2
      (by rw [hna, e3]; decide) i (by rw [hna]; exact hi)

theorem rtk15_zdres (obs : Nat → obsd_t) (nu : Nat) (nav : nav_t) (rs dts : Nat → ℚ)
    (svh : Nat → Int) :
    (arc_zdres E3 0 obs nu rs dts svh nav
      (arc_resamb_LAMBDA E3 (s_float rtk15).rtk (s_float rtk15).bias (s_float rtk15).xa).xa
      (arc_resamb_LAMBDA E3 (s_float rtk15).rtk (s_float rtk15).bias (s_float rtk15).xa).rtk.opt 0
      (s_float rtk15).y (s_float rtk15).e (s_float rtk15).azel).ret ≠ 0 := by
  rw [arc_zdres_ret]
  have h0 := (rtk15_resamb (s_float rtk15).bias (s_float rtk15).xa).2.2 0 (by decide)
  have hn : ¬ E3.arc_norm
      (arc_resamb_LAMBDA E3 (s_float rtk15).rtk (s_float rtk15).bias (s_float rtk15).xa).xa 3 ≤ 0 :=
    norm1_pos _ (by
      show (arc_resamb_LAMBDA E3 rtk15 (s_float rtk15).bias (s_float rtk15).xa).xa 0 ≠ 0
      rw [h0]
      norm_num)
  rw [if_neg hn]
  decide

/-- The theorem C15 at three tracked GPS satellites: `arc_resamb_LAMBDA` returns
the count 2, the status becomes fix and the reported position is the fixed
position `(10,10,10)`. -/
theorem C15_fixed_solution_reported_witness :
    ((s_float rtk15).stat ≠ SOLQ_NONE ∧
      (arc_resamb_LAMBDA E3 (s_float rtk15).rtk (s_float rtk15).bias (s_float rtk15).xa).nb > 1 ∧
      (arc_zdres E3 0 obsF 2 (fun _ => 0) (fun _ => 0) (fun _ => 0) nav0
        (arc_resamb_LAMBDA E3 (s_float rtk15).rtk (s_float rtk15).bias (s_float rtk15).xa).xa
        (arc_resamb_LAMBDA E3 (s_float rtk15).rtk (s_float rtk15).bias
          (s_float rtk15).xa).rtk.opt 0
        (s_float rtk15).y (s_float rtk15).e (s_float rtk15).azel).ret ≠ 0) ∧
    (arc_relpos_fix E3 obsF 2 nav0 (fun _ => 0) (fun _ => 0) (fun _ => 0) sat_w (fun j => j)
      ir_w 3 0 (s_float rtk15)).stat = SOLQ_FIX ∧
    (arc_relpos_save E3 obsF 4 sat_w (fun j => j) 3
      (arc_relpos_fix E3 obsF 2 nav0 (fun _ => 0) (fun _ => 0) (fun _ => 0) sat_w (fun j => j)
        ir_w 3 0 (s_float rtk15)).rtk
      (arc_relpos_fix E3 obsF 2 nav0 (fun _ => 0) (fun _ => 0) (fun _ => 0) sat_w (fun j => j)
        ir_w 3 0 (s_float rtk15)).stat).sol.stat = SOLQ_FIX ∧
    (arc_relpos_save E3 obsF 4 sat_w (fun j => j) 3
      (arc_relpos_fix E3 obsF 2 nav0 (fun _ => 0) (fun _ => 0) (fun _ => 0) sat_w (fun j => j)
        ir_w 3 0 (s_float rtk15)).rtk
      (arc_relpos_fix E3 obsF 2 nav0 (fun _ => 0) (fun _ => 0) (fun _ => 0) sat_w (fun j => j)
        ir_w 3 0 (s_float rtk15)).stat).sol.rr 0 =
      (arc_resamb_LAMBDA E3 (s_float rtk15).rtk (s_float rtk15).bias (s_float rtk15).xa).rtk.xa 0 :=
  ⟨⟨by decide,
      by rw [show (s_float rtk15).rtk = rtk15 from rfl, (rtk15_resamb _ _).1]; decide,
      rtk15_zdres obsF 2 nav0 _ _ _⟩,
    (C15_fixed_solution_reported E3 obsF 4 2 nav0 (fun _ => 0) (fun _ => 0) (fun _ => 0) sat_w
      (fun j => j) ir_w 3 0 (s_float rtk15) (by decide)
      (by rw [show (s_float rtk15).rtk = rtk15 from rfl, (rtk15_resamb _ _).1]; decide)
      (rtk15_zdres obsF 2 nav0 _ _ _)).1,
    (C15_fixed_solution_reported E3 obsF 4 2 nav0 (fun _ => 0) (fun _ => 0) (fun _ => 0) sat_w
      (fun j => j) ir_w 3 0 (s_float rtk15) (by decide)
      (by rw [show (s_float rtk15).rtk = rtk15 from rfl, (rtk15_resamb _ _).1]; decide)
      (rtk15_zdres obsF 2 nav0 _ _ _)).2.1,
    ((C15_fixed_solution_reported E3 obsF 4 2 nav0 (fun _ => 0) (fun _ => 0) (fun _ => 0) sat_w
      (fun j => j) ir_w 3 0 (s_float rtk15) (by decide)
      (by rw [show (s_float rtk15).rtk = rtk15 from rfl, (rtk15_resamb _ _).1]; decide)
      (rtk15_zdres obsF 2 nav0 _ _ _)).2.2.1 0 (by decide)).1⟩

/-- At `rtkL` (two satellites) with a search result of ratio 4: one double
difference is fixed, the fixed position has the first coordinate 1/2 and the
float position is zero. -/
theorem rtkL_resamb (bias xa : Nat → ℚ) :
    (arc_resamb_LAMBDA (E_lam 1 4) rtkL bias xa).nb = 1 ∧
    (arc_resamb_LAMBDA (E_lam 1 4) rtkL bias xa).rtk.xa 0 = 1 / 2 ∧
    (arc_resamb_LAMBDA (E_lam 1 4) rtkL bias xa).xa 0 = 1 / 2 ∧
    (arc_resamb_LAMBDA (E_lam 1 4) rtkL bias xa).rtk.x 0 = 0 := by
  have hacc := rtkL_accepts 1 4 (Or.inr (by norm_num))
  obtain ⟨r2, e1, e2, e3, e⟩ := arc_resamb_LAMBDA_accepts_opt (E_lam 1 4) rtkL bias xa hacc
  have hna : r2.na = 3 := e2
  have hx : r2.x 0 = 0 := by
    rw [e1]
    norm_num [rtkL]
  have hq : (E_lam 1 4).arc_matinv (resamb_L (E_lam 1 4) rtkL).Qb 1 =
      (0, fun k => if k = 0 then 1 / (resamb_L (E_lam 1 4) rtkL).Qb 0
        else (resamb_L (E_lam 1 4) rtkL).Qb k) := rfl
  have hxa : (arc_resamb_LAMBDA (E_lam 1 4) rtkL bias xa).rtk.xa 0 = 1 / 2 := by
    rw [e, arc_resamb_fixed_xa _ _ _ _ _ _ _ _ _ hacc.2.2.2.2 0 (by rw [hna]; decide)]
    simp only [resamb_L_nb, hna, hx, Finset.sum_range_one, Nat.zero_mul, Nat.add_zero, hq,
      if_true, rtkL_Qab0, rtkL_Qb0, rtkL_y3, resamb_L_lam]
    norm_num
  refine ⟨?_, hxa, ?_, ?_⟩
  · rw [e, arc_resamb_fixed_nb _ _ _ _ _ _ _ _ _ hacc.2.2.2.2, resamb_L_nb]
  · rw [← hxa, e]
    exact arc_resamb_fixed_local _ _ _ _ _ _ _ _ _ hacc.2.2.2.2
      (by rw [hna, e3]; decide) 0 (by rw [hna]; decide)
  · rw [e, (arc_resamb_fixed_x _ _ _ _ _ _ _ _ _).1]
    exact hx

/-- C15, counterexample to the claim as stated: with two tracked satellites
`arc_resamb_LAMBDA` validates a fixed solution (ratio 4, threshold 3) and returns
the count 1, and the residuals of the fixed solution can be formed (`arc_zdres`
at `xa` returns non-zero); the status stays float and the reported position is
the float position 0, not the fixed position 1/2. -/
theorem C15_counterexample :
    (s_float rtkL).stat ≠ SOLQ_NONE ∧
    (resamb_L (E_lam 1 4) rtkL).lam.s 1 / (resamb_L (E_lam 1 4) rtkL).lam.s 0 ≥
      rtkL.opt.thresar 0 ∧
    (arc_resamb_LAMBDA (E_lam 1 4) (s_float rtkL).rtk (s_float rtkL).bias (s_float rtkL).xa).nb
      = 1 ∧
    (arc_zdres (E_lam 1 4) 0 obsF 2 (fun _ => 0) (fun _ => 0) (fun _ => 0) nav0
      (arc_resamb_LAMBDA (E_lam 1 4) (s_float rtkL).rtk (s_float rtkL).bias (s_float rtkL).xa).xa
      (arc_resamb_LAMBDA (E_lam 1 4) (s_float rtkL).rtk (s_float rtkL).bias
        (s_float rtkL).xa).rtk.opt 0
      (s_float rtkL).y (s_float rtkL).e (s_float rtkL).azel).ret ≠ 0 ∧
    (arc_resamb_LAMBDA (E_lam 1 4) (s_float rtkL).rtk (s_float rtkL).bias
      (s_float rtkL).xa).rtk.xa 0 = 1 / 2 ∧
    (arc_relpos_fix (E_lam 1 4) obsF 2 nav0 (fun _ => 0) (fun _ => 0) (fun _ => 0) sat_w
      (fun j => j) ir_w 2 0 (s_float rtkL)).stat = SOLQ_FLOAT ∧
    (arc_relpos_save (E_lam 1 4) obsF 4 sat_w (fun j => j) 2
      (arc_relpos_fix (E_lam 1 4) obsF 2 nav0 (fun _ => 0) (fun _ => 0) (fun _ => 0) sat_w
        (fun j => j) ir_w 2 0 (s_float rtkL)).rtk
      (arc_relpos_fix (E_lam 1 4) obsF 2 nav0 (fun _ => 0) (fun _ => 0) (fun _ => 0) sat_w
        (fun j => j) ir_w 2 0 (s_float rtkL)).stat).sol.stat = SOLQ_FLOAT ∧
    (arc_relpos_save (E_lam 1 4) obsF 4 sat_w (fun j => j) 2
      (arc_relpos_fix (E_lam 1 4) obsF 2 nav0 (fun _ => 0) (fun _ => 0) (fun _ => 0) sat_w
        (fun j => j) ir_w 2 0 (s_float rtkL)).rtk
      (arc_relpos_fix (E_lam 1 4) obsF 2 nav0 (fun _ => 0) (fun _ => 0) (fun _ => 0) sat_w
        (fun j => j) ir_w 2 0 (s_float rtkL)).stat).sol.rr 0 = 0 := by
  obtain ⟨k1, k2, k3, k4⟩ := rtkL_resamb (s_float rtkL).bias (s_float rtkL).xa
  have hs : (s_float rtkL).stat ≠ SOLQ_NONE := by decide
  have hnb : ¬ (arc_resamb_LAMBDA (E_lam 1 4) (s_float rtkL).rtk (s_float rtkL).bias
      (s_float rtkL).xa).nb > 1 := by
    rw [show (s_float rtkL).rtk = rtkL from rfl, k1]
    decide
  obtain ⟨f1, f2⟩ := arc_relpos_fix_single (E_lam 1 4) obsF 2 nav0 (fun _ => 0) (fun _ => 0)
    (fun _ => 0) sat_w (fun j => j) ir_w 2 0 (s_float rtkL) hs hnb
  have hst : (arc_relpos_fix (E_lam 1 4) obsF 2 nav0 (fun _ => 0) (fun _ => 0) (fun _ => 0) sat_w
      (fun j => j) ir_w 2 0 (s_float rtkL)).stat = SOLQ_FLOAT := f1
  obtain ⟨g1, g2, _⟩ := arc_relpos_save_sol (E_lam 1 4) obsF 4 sat_w (fun j => j) 2
    (arc_relpos_fix (E_lam 1 4) obsF 2 nav0 (fun _ => 0) (fun _ => 0) (fun _ => 0) sat_w
      (fun j => j) ir_w 2 0 (s_float rtkL)).rtk
    (arc_relpos_fix (E_lam 1 4) obsF 2 nav0 (fun _ => 0) (fun _ => 0) (fun _ => 0) sat_w
      (fun j => j) ir_w 2 0 (s_float rtkL)).stat (by rw [hst]; decide)
  refine ⟨hs, ?_, k1, ?_, k2, hst, g1.trans hst, ?_⟩
  · rw [resamb_L_lam]
    norm_num [rtkL, rtk0, opt0]
  · rw [arc_zdres_ret]
    have hn : ¬ (E_lam 1 4).arc_norm
        (arc_resamb_LAMBDA (E_lam 1 4) (s_float rtkL).rtk (s_float rtkL).bias
          (s_float rtkL).xa).xa 3 ≤ 0 :=
      norm1_pos _ (by
        show (arc_resamb_LAMBDA (E_lam 1 4) rtkL (s_float rtkL).bias (s_float rtkL).xa).xa 0 ≠ 0
        rw [k3]
        norm_num)
    rw [if_neg hn]
    decide
  · rw [g2]
    have hnf : ¬ (arc_relpos_fix (E_lam 1 4) obsF 2 nav0 (fun _ => 0) (fun _ => 0) (fun _ => 0)
        sat_w (fun j => j) ir_w 2 0 (s_float rtkL)).stat = SOLQ_FIX := by
      rw [hst]
      decide
    simp only [if_neg hnf, f2]
    exact k4

/-! ## Constellation families -/

/-- C22, the code at GLONASS and QZSS: `arc_test_sys` has no case for these
systems and returns 0 for every family, in particular for GLONASS with `m = 1`
and for QZSS with `m = 0`; GPS and SBAS are in family 0, Galileo in family 2 and
BeiDou in family 3. -/
theorem C22_test_sys_families :
    arc_test_sys SYS_GLO 1 = false ∧ arc_test_sys SYS_QZS 0 = false ∧
    (∀ m, arc_test_sys SYS_GLO m = false ∧ arc_test_sys SYS_QZS m = false) ∧
    (∀ m, (arc_test_sys SYS_GPS m = true ↔ m = 0) ∧ (arc_test_sys SYS_SBS m = true ↔ m = 0) ∧
      (arc_test_sys SYS_GAL m = true ↔ m = 2) ∧ (arc_test_sys SYS_CMP m = true ↔ m = 3)) := by
  refine ⟨rfl, rfl, fun m => ⟨rfl, rfl⟩, fun m => ?_⟩
  simp [arc_test_sys, SYS_GPS, SYS_SBS, SYS_GAL, SYS_CMP]

/-! ## Baseline constraint at zero length -/

/-- C30, the code at a rover position equal to the base position, nominal
baseline length 10 and no covariance (`P` absent, so `var = 0`): `arc_constbl`
accepts the constraint and the baseline length `bb` by which `b` is divided is
0. -/
theorem C30_constbl_zero_length :
    (arc_constbl E0 rtkC xB none (fun _ => 0) (some (fun _ => 0)) (fun _ => 0) (fun _ => 0) 0).ret
      = 1 ∧
    constbl_bb E0 rtkC xB = 0 ∧ rtkC.opt.baseline 0 > 0 := by
  have hb : constbl_bb E0 rtkC xB = 0 := by
    norm_num [constbl_bb, E0, rtkC, rtk0, xB, forN]
  refine ⟨?_, hb, by norm_num [rtkC]⟩
  rw [arc_constbl_accept E0 rtkC xB none _ _ _ _ 0 (by norm_num [rtkC])
    (by rw [hb]; norm_num [constbl_var])]

/-! ## The reference index of the transformation matrix -/

set_option maxRecDepth 8000 in
theorem rtk14_ref : (arc_ddmat_ref 0 0 rtk14.na false E0.MAXSAT rtk14.na rtk14).2 = 5 := by
  simp [arc_ddmat_ref, arc_test_sys, E0, rtk14, rtk0, opt0, ssat0, SYS_GPS]

set_option maxRecDepth 8000 in
theorem rtk14_fix : ((arc_ddmat E0 rtk14 (fun _ => 0)).rtk.ssat 0).fix 0 = 2 := by
  simp [arc_ddmat, forN, arc_ddmat_ref, arc_ddmat_col, arc_test_sys,
    E0, rtk14, rtk0, opt0, ssat0, SYS_GPS, SYS_SBS, SYS_GAL, SYS_CMP]

set_option maxRecDepth 8000 in
theorem rtk14_D20 : (arc_ddmat E0 rtk14 (fun _ => 0)).nb = 1 ∧
    (arc_ddmat E0 rtk14 (fun _ => 0)).D (5 + (3 + 0) * 5) = 1 := by
  constructor
  · simp [arc_ddmat, forN, arc_ddmat_ref, arc_ddmat_col, arc_test_sys,
      E0, rtk14, rtk0, opt0, ssat0, SYS_GPS, SYS_SBS, SYS_GAL, SYS_CMP]
  · simp [arc_ddmat, forN, arc_ddmat_ref, arc_ddmat_col, arc_test_sys,
      E0, rtk14, rtk0, opt0, ssat0, SYS_GPS, SYS_SBS, SYS_GAL, SYS_CMP]

/-- C29, the code at a family without a reference: one active GPS ambiguity
(state 3 of `nx = 5`, `na = 3`) whose half-cycle flag is not valid.  The first
loop ends with `i = 5`, which is not an ambiguity index (`i = na+MAXSAT = nx`);
the second loop still writes a column (`D[i+(na+nb)*nx]` at `i = 5`), increases
`nb` to 1 and marks satellite 1 as fixed. -/
theorem C29_ddmat_reference_out_of_range :
    (arc_ddmat_ref 0 0 rtk14.na false E0.MAXSAT rtk14.na rtk14).2 = 5 ∧
    ¬ (5 < rtk14.na + E0.MAXSAT) ∧ rtk14.na + E0.MAXSAT = rtk14.nx ∧
    (arc_ddmat E0 rtk14 (fun _ => 0)).nb = 1 ∧
    (arc_ddmat E0 rtk14 (fun _ => 0)).D (5 + (3 + 0) * 5) = 1 ∧
    ((arc_ddmat E0 rtk14 (fun _ => 0)).rtk.ssat 0).fix 0 = 2 :=
  ⟨rtk14_ref, by decide, rfl, rtk14_D20.1, rtk14_D20.2, rtk14_fix⟩

/-! ## Restored ambiguities against the transformation matrix -/

set_option maxRecDepth 8000 in
theorem rtk28_ddmat :
    (arc_ddmat E0 rtk28 (fun _ => 0)).nb = 1 ∧
    (arc_ddmat E0 rtk28 (fun _ => 0)).D =
      Function.update (Function.update (Function.update (Function.update (Function.update
        (fun _ => 0) 0 1) 6 1) 12 1) 19 1) 18 (-1) := by
  simp [arc_ddmat, forN, arc_ddmat_ref, arc_ddmat_col, arc_test_sys,
    E0, rtk28, rtk0, opt0, ssat0, SYS_GPS, SYS_SBS, SYS_GAL, SYS_CMP]

set_option maxRecDepth 8000 in
theorem rtk28_restamb :
    arc_restamb E0 (arc_ddmat E0 rtk28 (fun _ => 0)).rtk (fun _ => 7) (fun _ => 0) 3 = 1 ∧
    arc_restamb E0 (arc_ddmat E0 rtk28 (fun _ => 0)).rtk (fun _ => 7) (fun _ => 0) 4 = -6 := by
  constructor
  · norm_num [arc_restamb, arc_ddmat, forN, arc_ddmat_ref, arc_ddmat_col, arc_test_sys, IB, NR, NP,
      NI, NT, NL, NF, E0, rtk28, rtk0, opt0, ssat0, SYS_GPS, SYS_SBS, SYS_GAL, SYS_CMP,
      IONOOPT_IFLC, IONOOPT_EST, IONOOPT_BRDC, TROPOPT_EST, TROPOPT_ESTG, Function.update]
  · norm_num [arc_restamb, arc_ddmat, forN, arc_ddmat_ref, arc_ddmat_col, arc_test_sys, IB, NR, NP,
      NI, NT, NL, NF, E0, rtk28, rtk0, opt0, ssat0, SYS_GPS, SYS_SBS, SYS_GAL, SYS_CMP,
      IONOOPT_IFLC, IONOOPT_EST, IONOOPT_BRDC, TROPOPT_EST, TROPOPT_ESTG, Function.update]

/-- C28, the code at two GPS satellites of which the first has no valid
half-cycle flag: `arc_ddmat` takes satellite 2 (row 4) as reference and returns
one column, with `+1` at row 4 and `-1` at row 3; `arc_restamb`, run with
`bias[0] = 7`, takes the first fixed satellite (row 3) as reference, so
`xa[3] = x[3] = 1` and `xa[4] = xa[3] - bias[0] = -6`: the difference
`xa[4] - xa[3]` is `-7`, not `bias[0]`, and `xa[4]` is not the float value
`x[4] = 2`. -/
theorem C28_restamb_reference_mismatch :
    (arc_ddmat E0 rtk28 (fun _ => 0)).nb = 1 ∧
    (arc_ddmat E0 rtk28 (fun _ => 0)).D (4 + (3 + 0) * 5) = 1 ∧
    (arc_ddmat E0 rtk28 (fun _ => 0)).D (3 + (3 + 0) * 5) = -1 ∧
    arc_restamb E0 (arc_ddmat E0 rtk28 (fun _ => 0)).rtk (fun _ => 7) (fun _ => 0) 4 -
      arc_restamb E0 (arc_ddmat E0 rtk28 (fun _ => 0)).rtk (fun _ => 7) (fun _ => 0) 3 = -7 ∧
    arc_restamb E0 (arc_ddmat E0 rtk28 (fun _ => 0)).rtk (fun _ => 7) (fun _ => 0) 4 = -6 ∧
    rtk28.x 4 = 2 := by
  obtain ⟨h1, h2⟩ := rtk28_ddmat
  obtain ⟨r3, r4⟩ := rtk28_restamb
  refine ⟨h1, ?_, ?_, ?_, r4, by norm_num [rtk28]⟩
  · rw [h2]
    norm_num [Function.update]
  · rw [h2]
    norm_num [Function.update]
  · rw [r3, r4]
    norm_num

/-! ## Deactivation of ionosphere states -/

theorem II_ne (opt : prcopt_t) (s t : Nat) (hs : 1 ≤ s) (hne : t ≠ s) : II t opt ≠ II s opt := by
  unfold II NP
  split <;> omega

/-- The first loop of `arc_udion`: a slot whose two outage counters exceed
`GAP_RESION` has the ionosphere state 0 afterwards. -/
theorem arc_udion_first (E : Env) (rtk : rtk_t) (s : Nat) (hs1 : 1 ≤ s) (hs2 : s ≤ E.MAXSAT)
    (h0 : (rtk.ssat (s - 1)).outc 0 > GAP_RESION) (h1 : (rtk.ssat (s - 1)).outc 1 > GAP_RESION) :
    (forN E.MAXSAT
      (fun i0 r =>
        let i := i0 + 1
        let j := II i r.opt
        if r.x j ≠ 0 ∧ (r.ssat (i - 1)).outc 0 > GAP_RESION ∧ (r.ssat (i - 1)).outc 1 > GAP_RESION
        then set_x r j 0 else r) rtk).opt = rtk.opt ∧
    (forN E.MAXSAT
      (fun i0 r =>
        let i := i0 + 1
        let j := II i r.opt
        if r.x j ≠ 0 ∧ (r.ssat (i - 1)).outc 0 > GAP_RESION ∧ (r.ssat (i - 1)).outc 1 > GAP_RESION
        then set_x r j 0 else r) rtk).x (II s rtk.opt) = 0 := by
  have main := forN_inv_idx (fun (n : Nat) (r : rtk_t) =>
      r.opt = rtk.opt ∧ r.ssat = rtk.ssat ∧ (s - 1 < n → r.x (II s rtk.opt) = 0)) E.MAXSAT
    (fun i0 r =>
      let i := i0 + 1
      let j := II i r.opt
      if r.x j ≠ 0 ∧ (r.ssat (i - 1)).outc 0 > GAP_RESION ∧ (r.ssat (i - 1)).outc 1 > GAP_RESION
      then set_x r j 0 else r) rtk
    ⟨rfl, rfl, fun h => absurd h (Nat.not_lt_zero _)⟩ (by
      intro n r _ ⟨g1, g2, g3⟩
      dsimp only
      by_cases c : r.x (II (n + 1) r.opt) ≠ 0 ∧ (r.ssat (n + 1 - 1)).outc 0 > GAP_RESION ∧
          (r.ssat (n + 1 - 1)).outc 1 > GAP_RESION
      · rw [if_pos c]
        refine ⟨g1, g2, fun hn => ?_⟩
        show Function.update r.x (II (n + 1) r.opt) 0 (II s rtk.opt) = 0
        by_cases e : s = n + 1
        · subst e
          rw [g1, Function.update_same]
        · rw [g1, Function.update_noteq (II_ne rtk.opt s (n + 1) hs1 (fun h => e h.symm)).symm]
          exact g3 (by omega)
      · rw [if_neg c]
        refine ⟨g1, g2, fun hn => ?_⟩
        by_cases e : s = n + 1
        · subst e
          by_contra hx
          apply c
          rw [g1, g2]
          exact ⟨hx, h0, h1⟩
        · exact g3 (by omega))
  exact ⟨main.1, main.2.2 (by omega)⟩

/-- The deactivation test of `arc_udion`: a satellite that is not among the
common satellites and whose outage counters of the frequency slots 0 and 1 both
exceed `GAP_RESION` has the ionosphere state 0 afterwards. -/
theorem arc_udion_both_counters (E : Env) (rtk : rtk_t) (tt bl : ℚ) (sat : Nat → Nat) (ns s : Nat)
    (hs1 : 1 ≤ s) (hs2 : s ≤ E.MAXSAT) (hsat : ∀ i, i < ns → sat i ≠ s)
    (h0 : (rtk.ssat (s - 1)).outc 0 > GAP_RESION) (h1 : (rtk.ssat (s - 1)).outc 1 > GAP_RESION) :
    (arc_udion E rtk tt bl sat ns).x (II s rtk.opt) = 0 := by
  obtain ⟨f1, f2⟩ := arc_udion_first E rtk s hs1 hs2 h0 h1
  unfold arc_udion
  dsimp only
  have main := forN_inv_idx (fun (n : Nat) (r : rtk_t) =>
      r.opt = rtk.opt ∧ r.x (II s rtk.opt) = 0) ns
    (fun i r =>
      let j := II (sat i) r.opt
      if r.x j = 0 then
        arc_initx r (1 / 1000000) (SQR (r.opt.std 1 * bl / 10000)) j
      else
        let el := (r.ssat (sat i - 1)).azel 1
        let fact := E.cos el
        set_P r (j + j * r.nx) (r.P (j + j * r.nx) + SQR (r.opt.prn 1 * bl / 10000 * fact) * tt))
    _ ⟨f1, f2⟩ (by
      intro n r hn ⟨g1, g2⟩
      dsimp only
      split
      · refine ⟨(arc_initx_opt _ _ _ _).trans g1, ?_⟩
        rw [arc_initx_x, g1,
          Function.update_noteq (II_ne rtk.opt s (sat n) hs1 (hsat n hn)).symm]
        exact g2
      · exact ⟨g1, g2⟩)
  exact main.2

/-! ## The reference ambiguity of the transformation matrix -/

theorem ddmat_ref_ok_fix (r : rtk_t) (m f k : Nat) (nofix : Bool) (s : Nat) (fx : Nat → Nat)
    (j : Nat) :
    ddmat_ref_ok { r with ssat := Function.update r.ssat s { r.ssat s with fix := fx } }
      m f k nofix j ↔ ddmat_ref_ok r m f k nofix j := by
  unfold ddmat_ref_ok
  by_cases h : j - k = s
  · subst h
    simp only [Function.update_same]
  · simp only [Function.update_noteq h]

/-- The reference search of `arc_ddmat` from index `i` over `n` slots: either no
index passes the test and the result is `i+n`, or the result is the first index
that passes it. -/
theorem arc_ddmat_ref_first (m f k : Nat) (nofix : Bool) (n : Nat) :
    ∀ (i : Nat) (r : rtk_t),
      ((arc_ddmat_ref m f k nofix n i r).2 = i + n ∧
        ∀ j, i ≤ j → j < i + n → ¬ ddmat_ref_ok r m f k nofix j) ∨
      (i ≤ (arc_ddmat_ref m f k nofix n i r).2 ∧ (arc_ddmat_ref m f k nofix n i r).2 < i + n ∧
        ddmat_ref_ok r m f k nofix (arc_ddmat_ref m f k nofix n i r).2 ∧
        ∀ j, i ≤ j → j < (arc_ddmat_ref m f k nofix n i r).2 → ¬ ddmat_ref_ok r m f k nofix j) := by
  induction n with
  | zero =>
    intro i r
    left
    exact ⟨rfl, fun j h1 h2 => by omega⟩
  | succ n ih =>
    intro i r
    rw [arc_ddmat_ref]
    by_cases c1 : r.x i = 0 ∨ arc_test_sys (r.ssat (i - k)).sys m = false ∨
        (r.ssat (i - k)).vsat f = 0 ∨ (r.ssat (i - k)).half f = 0
    · rw [if_pos c1]
      have hni : ¬ ddmat_ref_ok r m f k nofix i := fun h => h.1 c1
      rcases ih (i + 1) r with ⟨e, hn⟩ | ⟨a, b, c, d⟩
      · left
        refine ⟨by rw [e]; omega, fun j h1 h2 => ?_⟩
        rcases Nat.eq_or_lt_of_le h1 with h | h
        · exact h ▸ hni
        · exact hn j h (by omega)
      · right
        refine ⟨by omega, by omega, c, fun j h1 h2 => ?_⟩
        rcases Nat.eq_or_lt_of_le h1 with h | h
        · exact h ▸ hni
        · exact d j h h2
    · rw [if_neg c1]
      by_cases c2 : (r.ssat (i - k)).lock f > 0 ∧ ¬ ((r.ssat (i - k)).slip f &&& 2 ≠ 0) ∧
          (r.ssat (i - k)).azel 1 ≥ r.opt.elmaskar ∧ nofix = false
      · rw [if_pos c2]
        right
        exact ⟨Nat.le_refl i, by omega, ⟨c1, c2⟩, fun j h1 h2 => by omega⟩
      · rw [if_neg c2]
        have hni : ¬ ddmat_ref_ok r m f k nofix i := fun h => c2 h.2
        have hc := ddmat_ref_ok_fix r m f k nofix (i - k)
          (Function.update (r.ssat (i - k)).fix f 1)
        have hih := ih (i + 1)
          { r with ssat := Function.update r.ssat (i - k) { r.ssat (i - k) with fix := Function.update (r.ssat (i - k)).fix f 1 } }
        rcases hih with ⟨e, hn⟩ | ⟨a, b, c, d⟩
        · left
          refine ⟨e.trans (by omega), fun j h1 h2 => ?_⟩
          rcases Nat.eq_or_lt_of_le h1 with h | h
          · exact h ▸ hni
          · exact fun hk => hn j h (by omega) ((hc j).mpr hk)
        · right
          refine ⟨Nat.le_of_succ_le a, lt_of_lt_of_eq b (by omega), (hc _).mp c,
            fun j h1 h2 => ?_⟩
          rcases Nat.eq_or_lt_of_le h1 with h | h
          · exact h ▸ hni
          · exact fun hk => d j h h2 ((hc j).mpr hk)

/-- C21 (amended): in `arc_ddmat` the reference ambiguity chosen for a
constellation family (the index `i` that the second loop uses for the `+1`) is
the first one in satellite order, i.e. that of the lowest-numbered satellite,
among the family's ambiguities that pass the reference test; elevations are
compared with the mask `elmaskar` only. -/
theorem C21_ddmat_reference_first (E : Env) (r : rtk_t) (m f k : Nat) (nofix : Bool)
    (h : ∃ j, k ≤ j ∧ j < k + E.MAXSAT ∧ ddmat_ref_ok r m f k nofix j) :
    k ≤ (arc_ddmat_ref m f k nofix E.MAXSAT k r).2 ∧
    (arc_ddmat_ref m f k nofix E.MAXSAT k r).2 < k + E.MAXSAT ∧
    ddmat_ref_ok r m f k nofix (arc_ddmat_ref m f k nofix E.MAXSAT k r).2 ∧
    ∀ j, k ≤ j → j < k + E.MAXSAT → ddmat_ref_ok r m f k nofix j →
      (arc_ddmat_ref m f k nofix E.MAXSAT k r).2 ≤ j := by
  rcases arc_ddmat_ref_first m f k nofix E.MAXSAT k r with ⟨_, hn⟩ | ⟨a, b, c, d⟩
  · obtain ⟨j, h1, h2, h3⟩ := h
    exact absurd h3 (hn j h1 h2)
  · refine ⟨a, b, c, fun j h1 _ h3 => ?_⟩
    by_contra hlt
    exact d j h1 (by omega) h3

theorem rtk21_ok (j : Nat) (h1 : 3 ≤ j) (h2 : j < 5) : ddmat_ref_ok rtk21 0 0 3 false j := by
  rcases (by omega : j = 3 ∨ j = 4) with h | h <;> subst h <;>
    norm_num [ddmat_ref_ok, arc_test_sys, rtk21, rtkL, rtk0, opt0, ssat0, SYS_GPS]

/-- The theorem C21 at two eligible GPS satellites. -/
theorem C21_ddmat_reference_first_witness :
    (∃ j, 3 ≤ j ∧ j < 3 + E0.MAXSAT ∧ ddmat_ref_ok rtk21 0 0 3 false j) ∧
    3 ≤ (arc_ddmat_ref 0 0 3 false E0.MAXSAT 3 rtk21).2 ∧
    (arc_ddmat_ref 0 0 3 false E0.MAXSAT 3 rtk21).2 < 3 + E0.MAXSAT ∧
    ddmat_ref_ok rtk21 0 0 3 false (arc_ddmat_ref 0 0 3 false E0.MAXSAT 3 rtk21).2 ∧
    ∀ j, 3 ≤ j → j < 3 + E0.MAXSAT → ddmat_ref_ok rtk21 0 0 3 false j →
      (arc_ddmat_ref 0 0 3 false E0.MAXSAT 3 rtk21).2 ≤ j :=
  ⟨⟨3, by decide, by decide, rtk21_ok 3 (by decide) (by decide)⟩,
    C21_ddmat_reference_first E0 rtk21 0 0 3 false
      ⟨3, by decide, by decide, rtk21_ok 3 (by decide) (by decide)⟩⟩

set_option maxRecDepth 8000 in
theorem rtk21_ddmat :
    (arc_ddmat E0 rtk21 (fun _ => 0)).nb = 1 ∧
    (arc_ddmat E0 rtk21 (fun _ => 0)).D =
      Function.update (Function.update (Function.update (Function.update (Function.update
        (fun _ => 0) 0 1) 6 1) 12 1) 18 1) 19 (-1) := by
  simp [arc_ddmat, forN, arc_ddmat_ref, arc_ddmat_col, arc_test_sys,
    E0, rtk21, rtkL, rtk0, opt0, ssat0, SYS_GPS, SYS_SBS, SYS_GAL, SYS_CMP]

/-- C21, counterexample to the claim as stated: two GPS satellites, both eligible
for ambiguity resolution, satellite 1 at the elevation 1/2 and satellite 2 at
the elevation 1.  The column of `D` has the `+1` in row 3, the ambiguity of
satellite 1, which is not the highest-elevation satellite. -/
theorem C21_counterexample :
    ddmat_ref_ok rtk21 0 0 3 false 3 ∧ ddmat_ref_ok rtk21 0 0 3 false 4 ∧
    (rtk21.ssat 0).azel 1 < (rtk21.ssat 1).azel 1 ∧
    (arc_ddmat E0 rtk21 (fun _ => 0)).nb = 1 ∧
    (arc_ddmat E0 rtk21 (fun _ => 0)).D (3 + 3 * 5) = 1 ∧
    (arc_ddmat E0 rtk21 (fun _ => 0)).D (4 + 3 * 5) = -1 := by
  obtain ⟨h1, h2⟩ := rtk21_ddmat
  refine ⟨rtk21_ok 3 (by decide) (by decide), rtk21_ok 4 (by decide) (by decide),
    by norm_num [rtk21], h1, ?_, ?_⟩
  · rw [h2]
    norm_num [Function.update]
  · rw [h2]
    norm_num [Function.update]

/-! ## The innovation test of the double-difference loop -/

theorem forN_low (c n : Nat) (body : Nat → (Nat → ℚ) → (Nat → ℚ))
    (hb : ∀ k H t, t < c → body k H t = H t) (H : Nat → ℚ) (t : Nat) (ht : t < c) :
    forN n body H t = H t := by
  induction n with
  | zero => rfl
  | succ n ih =>
    rw [forN_succ, hb n _ t ht, ih]

theorem map_low (c : Nat) (Hs : Nat → ℚ) (A : Option (Nat → ℚ)) (g : (Nat → ℚ) → (Nat → ℚ))
    (hA : ∃ H1, A = some H1 ∧ ∀ t, t < c → H1 t = Hs t)
    (hg : ∀ H t, t < c → g H t = H t) :
    ∃ H1, A.map g = some H1 ∧ ∀ t, t < c → H1 t = Hs t := by
  obtain ⟨H1, e, h⟩ := hA
  refine ⟨g H1, by rw [e]; rfl, fun t ht => ?_⟩
  rw [hg H1 t ht, h t ht]

theorem vsat_update (g : Nat → ssat_t) (a : Nat) (v : ssat_t) (h : v.vsat = (g a).vsat) (k : Nat) :
    (Function.update g a v k).vsat = (g k).vsat := by
  by_cases hk : k = a
  · subst hk
    rw [Function.update_same, h]
  · rw [Function.update_noteq hk]

/-- A valid candidate pair of `arc_ddres` that fails the innovation test. -/
theorem arc_ddres_pair_rejected (E : Env) (nav : nav_t) (dt : ℚ) (x : Nat → ℚ)
    (sat : Nat → Nat) (y e azel : Nat → ℚ) (iu ir : Nat → Nat) (bl : ℚ) (a : ddres_atm_t)
    (m f i j : Nat) (s : ddres_t)
    (hij : i ≠ j) (hsys : arc_test_sys (s.rtk.ssat (sat j - 1)).sys m = true)
    (hval : arc_validobs (iu j) (ir j) f 1 y = true)
    (hli : 0 < nav.lam (sat i - 1) (f % 1)) (hlj : 0 < nav.lam (sat j - 1) (f % 1))
    (hce : s.rtk.opt.ceres = 0) (hmax : s.rtk.opt.maxinno > 0)
    (hsat : 1 ≤ sat i ∧ 1 ≤ sat j ∧ sat i ≠ sat j) :
    |(arc_ddres_pair E nav dt x sat y e azel iu ir bl a m f i j s).v s.nv| > s.rtk.opt.maxinno →
    (arc_ddres_pair E nav dt x sat y e azel iu ir bl a m f i j s).nv = s.nv ∧
    (arc_ddres_pair E nav dt x sat y e azel iu ir bl a m f i j s).nb = s.nb ∧
    (arc_ddres_pair E nav dt x sat y e azel iu ir bl a m f i j s).b = s.b ∧
    (arc_ddres_pair E nav dt x sat y e azel iu ir bl a m f i j s).vflg = s.vflg ∧
    (arc_ddres_pair E nav dt x sat y e azel iu ir bl a m f i j s).Ri = s.Ri ∧
    (arc_ddres_pair E nav dt x sat y e azel iu ir bl a m f i j s).Rj = s.Rj ∧
    (arc_ddres_pair E nav dt x sat y e azel iu ir bl a m f i j s).R = s.R ∧
    (∀ k, k < s.nv →
      (arc_ddres_pair E nav dt x sat y e azel iu ir bl a m f i j s).v k = s.v k) ∧
    (∀ Hs, s.H = some Hs →
      ∃ H1, (arc_ddres_pair E nav dt x sat y e azel iu ir bl a m f i j s).H = some H1 ∧
        ∀ t, t < s.nv * s.rtk.nx → H1 t = Hs t) ∧
    (∀ k, ((arc_ddres_pair E nav dt x sat y e azel iu ir bl a m f i j s).rtk.ssat k).vsat =
      (s.rtk.ssat k).vsat) ∧
    ((arc_ddres_pair E nav dt x sat y e azel iu ir bl a m f i j s).rtk.ssat (sat i - 1)).rejc f =
      (if f < 1 then ((s.rtk.ssat (sat i - 1)).rejc f + 1) % 2 ^ 32
       else (s.rtk.ssat (sat i - 1)).rejc f) ∧
    ((arc_ddres_pair E nav dt x sat y e azel iu ir bl a m f i j s).rtk.ssat (sat j - 1)).rejc f =
      (if f < 1 then ((s.rtk.ssat (sat j - 1)).rejc f + 1) % 2 ^ 32
       else (s.rtk.ssat (sat j - 1)).rejc f) ∧
    (¬ f < 1 → ∀ k,
      ((arc_ddres_pair E nav dt x sat y e azel iu ir bl a m f i j s).rtk.ssat k).rejc =
        (s.rtk.ssat k).rejc) := by
  unfold arc_ddres_pair
  lift_lets
  intro nf rtk opt nx sysi sysj ff lami lamj nv H0 v0 H1 fi fj didxi didxj v1 H2 trop v2 H3 v3 H4
    ssj rtk1 s1 si' ssat1' sj' ssat2 Rj1 Ri1 fv sj ssat1 si rtk2
  have c2 : ¬ (arc_test_sys sysj m = false) := by
    show ¬ (arc_test_sys (s.rtk.ssat (sat j - 1)).sys m = false)
    rw [hsys]
    exact Bool.noConfusion
  have c3 : ¬ (arc_validobs (iu j) (ir j) f nf y = false) := by
    show ¬ (arc_validobs (iu j) (ir j) f 1 y = false)
    rw [hval]
    exact Bool.noConfusion
  have c4 : ¬ (lami ≤ 0 ∨ lamj ≤ 0) := by
    rintro (h | h)
    · exact absurd hli (not_lt.mpr h)
    · exact absurd hlj (not_lt.mpr h)
  rw [if_neg hij, if_neg c2, if_neg c3, if_neg c4]
  by_cases c5 : opt.ceres = 0 ∧ opt.maxinno > 0 ∧ |v3| > opt.maxinno
  swap
  · rw [if_neg c5]
    intro hv
    exfalso
    apply c5
    refine ⟨hce, hmax, ?_⟩
    have e : Function.update s.v nv v3 nv = v3 := Function.update_same _ _ _
    rw [← e]
    exact hv
  rw [if_pos c5]
  intro _
  have hne : sat i - 1 ≠ sat j - 1 := by omega
  have hlowH : ∀ Hs, s.H = some Hs →
      ∃ H1, H4 = some H1 ∧ ∀ t, t < s.nv * s.rtk.nx → H1 t = Hs t := by
    intro Hs hH
    have hoff : nv * nx = s.nv * s.rtk.nx := rfl
    have h0 : ∃ H1, H0 = some H1 ∧ ∀ t, t < s.nv * s.rtk.nx → H1 t = Hs t :=
      map_low _ Hs s.H _ ⟨Hs, hH, fun _ _ => rfl⟩ (fun H t ht =>
        forN_low _ _ _ (fun k H t ht => Function.update_noteq (by omega) _ _) H t ht)
    have h1 : ∃ H, H1 = some H ∧ ∀ t, t < s.nv * s.rtk.nx → H t = Hs t :=
      map_low _ Hs H0 _ h0 (fun H t ht =>
        forN_low _ _ _ (fun k H t ht => Function.update_noteq (by omega) _ _) H t ht)
    have h2 : ∃ H, H2 = some H ∧ ∀ t, t < s.nv * s.rtk.nx → H t = Hs t := by
      show ∃ H, (if opt.ionoopt = IONOOPT_EST then _ else H1) = some H ∧ _
      split
      · exact map_low _ Hs H1 _ h1 (fun H t ht => by
          rw [Function.update_noteq (by omega), Function.update_noteq (by omega)])
      · exact h1
    have h3 : ∃ H, H3 = some H ∧ ∀ t, t < s.nv * s.rtk.nx → H t = Hs t := by
      show ∃ H, (if trop = true then _ else H2) = some H ∧ _
      split
      · exact map_low _ Hs H2 _ h2 (fun H t ht =>
          forN_low _ _ _ (fun k H t ht => by
            rw [Function.update_noteq (by omega), Function.update_noteq (by omega)]) H t ht)
      · exact h2
    show ∃ H, (if f < nf then _ else H3) = some H ∧ _
    split
    · exact map_low _ Hs H3 _ h3 (fun H t ht => by
        rw [Function.update_noteq (by omega), Function.update_noteq (by omega)])
    · exact h3
  have hvs1 : ∀ k, (rtk1.ssat k).vsat = (s.rtk.ssat k).vsat := by
    intro k
    apply vsat_update
    show (if _ then _ else _ : ssat_t).vsat = _
    split <;> rfl
  have hrj1 : ∀ k, (rtk1.ssat k).rejc = (s.rtk.ssat k).rejc := by
    intro k
    show (Function.update s.rtk.ssat (sat j - 1) _ k).rejc = _
    by_cases hk : k = sat j - 1
    · subst hk
      rw [Function.update_same]
      show (if _ then _ else _ : ssat_t).rejc = _
      split <;> rfl
    · rw [Function.update_noteq hk]
  have hlowv : ∀ k, k < s.nv → Function.update s.v nv v3 k = s.v k := fun k hk =>
    Function.update_noteq (Nat.ne_of_lt hk) _ _
  by_cases c6 : f < 1
  · rw [if_pos c6, if_pos c6, if_pos c6]
    refine ⟨rfl, rfl, rfl, rfl, rfl, rfl, rfl, hlowv, hlowH, ?_, ?_, ?_, fun h => absurd c6 h⟩
    · intro k
      show (Function.update ssat1' (sat j - 1) _ k).vsat = _
      rw [vsat_update _ _ _ (by rfl)]
      show (Function.update rtk1.ssat (sat i - 1) _ k).vsat = _
      rw [vsat_update _ _ _ (by rfl)]
      exact hvs1 k
    · show (Function.update ssat1' (sat j - 1) _ (sat i - 1)).rejc f = _
      rw [Function.update_noteq hne]
      show (Function.update rtk1.ssat (sat i - 1) _ (sat i - 1)).rejc f = _
      rw [Function.update_same]
      show Function.update (rtk1.ssat (sat i - 1)).rejc f _ f = _
      rw [Function.update_same, hrj1]
    · show (Function.update ssat1' (sat j - 1) _ (sat j - 1)).rejc f = _
      rw [Function.update_same]
      show Function.update (ssat1' (sat j - 1)).rejc f _ f = _
      rw [Function.update_same]
      have e : ssat1' (sat j - 1) = rtk1.ssat (sat j - 1) := Function.update_noteq hne.symm _ _
      show ((ssat1' (sat j - 1)).rejc f + 1) % 2 ^ 32 = _
      rw [e, hrj1]
  · rw [if_neg c6, if_neg c6, if_neg c6]
    refine ⟨rfl, rfl, rfl, rfl, rfl, rfl, rfl, hlowv, hlowH, hvs1, ?_, ?_, fun _ => hrj1⟩
    · exact congrFun (hrj1 _) f
    · exact congrFun (hrj1 _) f

set_option maxRecDepth 8000 in
theorem s23_v_phase :
    (arc_ddres_pair E0 nav0 0 rtkL.x sat_w y23 (fun k => (k : ℚ)) (fun _ => 1) (fun j => j) ir_w
      0 atm0 0 0 0 1 s23).v 0 = 161 := by
  have h0 : ((0 : ℕ) : ℚ) = 0 := Nat.cast_zero
  norm_num [arc_ddres_pair, arc_test_sys, arc_validobs, s23, s12, rtkL, rtk0, opt0, nav0, sat_w,
    ir_w, y23, atm0, E0, IB, NR, NP, NI, NT, NL, SYS_GPS, SYS_SBS, SYS_GAL, SYS_CMP, IONOOPT_EST,
    IONOOPT_BRDC, TROPOPT_EST, TROPOPT_ESTG, PMODE_KINEMA, PMODE_DGPS]

set_option maxRecDepth 8000 in
theorem s23_v_code :
    (arc_ddres_pair E0 nav0 0 rtkL.x sat_w y23 (fun k => (k : ℚ)) (fun _ => 1) (fun j => j) ir_w
      0 atm0 0 1 0 1 s23).v 0 = 160 := by
  have h0 : ((0 : ℕ) : ℚ) = 0 := Nat.cast_zero
  norm_num [arc_ddres_pair, arc_test_sys, arc_validobs, s23, s12, rtkL, rtk0, opt0, nav0, sat_w,
    ir_w, y23, atm0, E0, IB, NR, NP, NI, NT, NL, SYS_GPS, SYS_SBS, SYS_GAL, SYS_CMP, IONOOPT_EST,
    IONOOPT_BRDC, TROPOPT_EST, TROPOPT_ESTG, PMODE_KINEMA, PMODE_DGPS]

/-- C23 (amended): in the Kalman path of `arc_ddres` (`ceres = 0`) with
`maxinno > 0`, a valid candidate pair of reference `i` and satellite `j`, in
either channel, whose residual (the value left in `v[nv]`) satisfies
`|v| > maxinno` is dropped: the number of residuals `nv`, the block counts
`nb`, the flags `vflg`, the variances `Ri`, `Rj` and `R`, the residuals and
the rows of `H` below `nv`, and every valid-data flag are as before.  The
rejection counters `rejc[f]` of both satellites are incremented by one (modulo
`2^32`) when the pair is on the phase channel (`f < nf = 1`); on the code
channel no rejection counter changes. -/
theorem C23_ddres_innovation_gate (E : Env) (nav : nav_t) (dt : ℚ) (x : Nat → ℚ)
    (sat : Nat → Nat) (y e azel : Nat → ℚ) (iu ir : Nat → Nat) (bl : ℚ) (a : ddres_atm_t)
    (m f i j : Nat) (s : ddres_t)
    (hij : i ≠ j) (hsys : arc_test_sys (s.rtk.ssat (sat j - 1)).sys m = true)
    (hval : arc_validobs (iu j) (ir j) f 1 y = true)
    (hli : 0 < nav.lam (sat i - 1) (f % 1)) (hlj : 0 < nav.lam (sat j - 1) (f % 1))
    (hce : s.rtk.opt.ceres = 0) (hmax : s.rtk.opt.maxinno > 0)
    (hsat : 1 ≤ sat i ∧ 1 ≤ sat j ∧ sat i ≠ sat j)
    (hv : |(arc_ddres_pair E nav dt x sat y e azel iu ir bl a m f i j s).v s.nv| >
      s.rtk.opt.maxinno) :
    (arc_ddres_pair E nav dt x sat y e azel iu ir bl a m f i j s).nv = s.nv ∧
    (arc_ddres_pair E nav dt x sat y e azel iu ir bl a m f i j s).nb = s.nb ∧
    (arc_ddres_pair E nav dt x sat y e azel iu ir bl a m f i j s).b = s.b ∧
    (arc_ddres_pair E nav dt x sat y e azel iu ir bl a m f i j s).vflg = s.vflg ∧
    (arc_ddres_pair E nav dt x sat y e azel iu ir bl a m f i j s).Ri = s.Ri ∧
    (arc_ddres_pair E nav dt x sat y e azel iu ir bl a m f i j s).Rj = s.Rj ∧
    (arc_ddres_pair E nav dt x sat y e azel iu ir bl a m f i j s).R = s.R ∧
    (∀ k, k < s.nv →
      (arc_ddres_pair E nav dt x sat y e azel iu ir bl a m f i j s).v k = s.v k) ∧
    (∀ Hs, s.H = some Hs →
      ∃ H1, (arc_ddres_pair E nav dt x sat y e azel iu ir bl a m f i j s).H = some H1 ∧
        ∀ t, t < s.nv * s.rtk.nx → H1 t = Hs t) ∧
    (∀ k, ((arc_ddres_pair E nav dt x sat y e azel iu ir bl a m f i j s).rtk.ssat k).vsat =
      (s.rtk.ssat k).vsat) ∧
    ((arc_ddres_pair E nav dt x sat y e azel iu ir bl a m f i j s).rtk.ssat (sat i - 1)).rejc f =
      (if f < 1 then ((s.rtk.ssat (sat i - 1)).rejc f + 1) % 2 ^ 32
       else (s.rtk.ssat (sat i - 1)).rejc f) ∧
    ((arc_ddres_pair E nav dt x sat y e azel iu ir bl a m f i j s).rtk.ssat (sat j - 1)).rejc f =
      (if f < 1 then ((s.rtk.ssat (sat j - 1)).rejc f + 1) % 2 ^ 32
       else (s.rtk.ssat (sat j - 1)).rejc f) ∧
    (¬ f < 1 → ∀ k,
      ((arc_ddres_pair E nav dt x sat y e azel iu ir bl a m f i j s).rtk.ssat k).rejc =
        (s.rtk.ssat k).rejc) :=
  arc_ddres_pair_rejected E nav dt x sat y e azel iu ir bl a m f i j s hij hsys hval hli hlj hce
    hmax hsat hv

theorem s23_valid (f : Nat) (hf : f < 2) :
    arc_test_sys (s23.rtk.ssat (sat_w 1 - 1)).sys 0 = true ∧
    arc_validobs ((fun j : Nat => j) 1) (ir_w 1) f 1 y23 = true ∧
    0 < nav0.lam (sat_w 0 - 1) (f % 1) ∧ 0 < nav0.lam (sat_w 1 - 1) (f % 1) ∧
    s23.rtk.opt.ceres = 0 ∧ s23.rtk.opt.maxinno > 0 ∧
    (1 ≤ sat_w 0 ∧ 1 ≤ sat_w 1 ∧ sat_w 0 ≠ sat_w 1) := by
  have h0 : ((0 : ℕ) : ℚ) = 0 := Nat.cast_zero
  rcases (by omega : f = 0 ∨ f = 1) with h | h <;> subst h <;>
    norm_num [arc_test_sys, arc_validobs, s23, s12, rtkL, rtk0, opt0, nav0, sat_w, ir_w, y23,
      SYS_GPS]

theorem s23_gate_phase :
    |(arc_ddres_pair E0 nav0 0 rtkL.x sat_w y23 (fun k => (k : ℚ)) (fun _ => 1) (fun j => j) ir_w
      0 atm0 0 0 0 1 s23).v s23.nv| > s23.rtk.opt.maxinno := by
  have e : s23.nv = 0 := rfl
  rw [e, s23_v_phase]
  norm_num [s23, s12, rtkL, rtk0, opt0]

theorem s23_gate_code :
    |(arc_ddres_pair E0 nav0 0 rtkL.x sat_w y23 (fun k => (k : ℚ)) (fun _ => 1) (fun j => j) ir_w
      0 atm0 0 1 0 1 s23).v s23.nv| > s23.rtk.opt.maxinno := by
  have e : s23.nv = 0 := rfl
  rw [e, s23_v_code]
  norm_num [s23, s12, rtkL, rtk0, opt0]

/-- The theorem C23 at the phase pair of satellites 1 and 2 with the residual
161 and `maxinno = 30`: the pair is dropped and both rejection counters go from
0 to 1. -/
theorem C23_ddres_innovation_gate_witness :
    ((0 : Nat) ≠ 1 ∧ arc_test_sys (s23.rtk.ssat (sat_w 1 - 1)).sys 0 = true ∧
      arc_validobs ((fun j : Nat => j) 1) (ir_w 1) 0 1 y23 = true ∧
      0 < nav0.lam (sat_w 0 - 1) (0 % 1) ∧ 0 < nav0.lam (sat_w 1 - 1) (0 % 1) ∧
      s23.rtk.opt.ceres = 0 ∧ s23.rtk.opt.maxinno > 0 ∧
      (1 ≤ sat_w 0 ∧ 1 ≤ sat_w 1 ∧ sat_w 0 ≠ sat_w 1) ∧
      |(arc_ddres_pair E0 nav0 0 rtkL.x sat_w y23 (fun k => (k : ℚ)) (fun _ => 1) (fun j => j)
        ir_w 0 atm0 0 0 0 1 s23).v s23.nv| > s23.rtk.opt.maxinno) ∧
    (arc_ddres_pair E0 nav0 0 rtkL.x sat_w y23 (fun k => (k : ℚ)) (fun _ => 1) (fun j => j) ir_w
      0 atm0 0 0 0 1 s23).nv = 0 ∧
    ((arc_ddres_pair E0 nav0 0 rtkL.x sat_w y23 (fun k => (k : ℚ)) (fun _ => 1) (fun j => j) ir_w
      0 atm0 0 0 0 1 s23).rtk.ssat 0).rejc 0 = 1 ∧
    ((arc_ddres_pair E0 nav0 0 rtkL.x sat_w y23 (fun k => (k : ℚ)) (fun _ => 1) (fun j => j) ir_w
      0 atm0 0 0 0 1 s23).rtk.ssat 1).rejc 0 = 1 :=
  have h := C23_ddres_innovation_gate E0 nav0 0 rtkL.x sat_w y23 (fun k => (k : ℚ)) (fun _ => 1)
    (fun j => j) ir_w 0 atm0 0 0 0 1 s23 (by decide) (s23_valid 0 (by decide)).1
    (s23_valid 0 (by decide)).2.1 (s23_valid 0 (by decide)).2.2.1
    (s23_valid 0 (by decide)).2.2.2.1 (s23_valid 0 (by decide)).2.2.2.2.1
    (s23_valid 0 (by decide)).2.2.2.2.2.1 (s23_valid 0 (by decide)).2.2.2.2.2.2 s23_gate_phase
  ⟨⟨by decide, (s23_valid 0 (by decide)).1, (s23_valid 0 (by decide)).2.1,
      (s23_valid 0 (by decide)).2.2.1, (s23_valid 0 (by decide)).2.2.2.1,
      (s23_valid 0 (by decide)).2.2.2.2.1, (s23_valid 0 (by decide)).2.2.2.2.2.1,
      (s23_valid 0 (by decide)).2.2.2.2.2.2, s23_gate_phase⟩,
    h.1, h.2.2.2.2.2.2.2.2.2.2.1, h.2.2.2.2.2.2.2.2.2.2.2.1⟩

/-- C23, counterexample to the claim as stated: the code pair (`f = 1 = nf`) of
satellites 1 and 2 with the residual 160 and `maxinno = 30` in the Kalman path
(`ceres = 0`).  The pair is dropped (`nv` stays 0), and no rejection counter of
either satellite is incremented. -/
theorem C23_counterexample :
    s23.rtk.opt.ceres = 0 ∧ s23.rtk.opt.maxinno > 0 ∧
    arc_test_sys (s23.rtk.ssat (sat_w 1 - 1)).sys 0 = true ∧
    arc_validobs ((fun j : Nat => j) 1) (ir_w 1) 1 1 y23 = true ∧
    |(arc_ddres_pair E0 nav0 0 rtkL.x sat_w y23 (fun k => (k : ℚ)) (fun _ => 1) (fun j => j) ir_w
      0 atm0 0 1 0 1 s23).v s23.nv| > s23.rtk.opt.maxinno ∧
    (arc_ddres_pair E0 nav0 0 rtkL.x sat_w y23 (fun k => (k : ℚ)) (fun _ => 1) (fun j => j) ir_w
      0 atm0 0 1 0 1 s23).nv = s23.nv ∧
    ((arc_ddres_pair E0 nav0 0 rtkL.x sat_w y23 (fun k => (k : ℚ)) (fun _ => 1) (fun j => j) ir_w
      0 atm0 0 1 0 1 s23).rtk.ssat (sat_w 0 - 1)).rejc = (s23.rtk.ssat (sat_w 0 - 1)).rejc ∧
    ((arc_ddres_pair E0 nav0 0 rtkL.x sat_w y23 (fun k => (k : ℚ)) (fun _ => 1) (fun j => j) ir_w
      0 atm0 0 1 0 1 s23).rtk.ssat (sat_w 1 - 1)).rejc = (s23.rtk.ssat (sat_w 1 - 1)).rejc :=
  have h := arc_ddres_pair_rejected E0 nav0 0 rtkL.x sat_w y23 (fun k => (k : ℚ)) (fun _ => 1)
    (fun j => j) ir_w 0 atm0 0 1 0 1 s23 (by decide) (s23_valid 1 (by decide)).1
    (s23_valid 1 (by decide)).2.1 (s23_valid 1 (by decide)).2.2.1
    (s23_valid 1 (by decide)).2.2.2.1 (s23_valid 1 (by decide)).2.2.2.2.1
    (s23_valid 1 (by decide)).2.2.2.2.2.1 (s23_valid 1 (by decide)).2.2.2.2.2.2 s23_gate_code
  ⟨(s23_valid 1 (by decide)).2.2.2.2.1, (s23_valid 1 (by decide)).2.2.2.2.2.1,
    (s23_valid 1 (by decide)).1, (s23_valid 1 (by decide)).2.1, s23_gate_code, h.1,
    h.2.2.2.2.2.2.2.2.2.2.2.2 (by decide) _, h.2.2.2.2.2.2.2.2.2.2.2.2 (by decide) _⟩

/-! ## Slip detection by the loss-of-lock indicator -/

set_option maxRecDepth 100000 in
set_option maxHeartbeats 4000000 in
/-- The bits of the slip byte after `arc_detslp_ll`, for a byte `b`, an indicator
`L < 16`, the field position `2 p` and the slip word of a forward run (`L`) or
of a backward run (the cached indicator). -/
theorem detslp_byte_bits : ∀ p, p < 2 → ∀ b, b < 256 → ∀ L, L < 16 →
    (detslp_byte b L (2 * p) L % 2 =
        (b % 2 ||| L % 2) ||| (if getbitu b (2 * p) 2 / 2 % 2 = L / 2 % 2 then 0 else 1) ∧
      getbitu (detslp_byte b L (2 * p) L) (2 * p) 2 = L % 4 ∧
      getbitu (detslp_byte b L (2 * p) L) (2 - 2 * p) 2 = getbitu b (2 - 2 * p) 2) ∧
    (detslp_byte b L (2 * p) (getbitu b (2 * p) 2) % 2 =
        (b % 2 ||| getbitu b (2 * p) 2 % 2) |||
          (if getbitu b (2 * p) 2 / 2 % 2 = L / 2 % 2 then 0 else 1) ∧
      getbitu (detslp_byte b L (2 * p) (getbitu b (2 * p) 2)) (2 * p) 2 = L % 4 ∧
      getbitu (detslp_byte b L (2 * p) (getbitu b (2 * p) 2)) (2 - 2 * p) 2 =
        getbitu b (2 - 2 * p) 2) := by
  decide

/-- The slip byte of the observed satellite after `arc_detslp_ll`. -/
theorem arc_detslp_ll_slip (rtk : rtk_t) (obs : Nat → obsd_t) (i rcv : Nat)
    (hL : (obs i).L 0 ≠ 0) :
    ((arc_detslp_ll rtk obs i rcv).ssat ((obs i).sat - 1)).slip 0 =
      detslp_byte ((rtk.ssat ((obs i).sat - 1)).slip 0) ((obs i).LLI 0)
        (if rcv = 1 then 0 else 2)
        (if rtk.tt ≥ 0 then (obs i).LLI 0
         else getbitu ((rtk.ssat ((obs i).sat - 1)).slip 0) (if rcv = 1 then 0 else 2) 2) := by
  unfold arc_detslp_ll
  simp only [if_neg hL]
  by_cases hr : rcv = 1
  · simp only [if_pos hr, set_half_ssat_slip, set_slip_ssat_slip, if_true, Function.update_same]
    rfl
  · simp only [if_neg hr, set_half_ssat_slip, set_slip_ssat_slip, if_true, Function.update_same]
    rfl

/-- C24: for an observation with non-zero carrier phase (slip byte below 256,
loss-of-lock indicator below 16, which covers the RINEX values 0..7), after
`arc_detslp_ll` bit 0 of the satellite's slip byte equals its value before the
call OR-ed with bit 0 of the current indicator in a forward run (`tt >= 0`) or
bit 0 of the indicator cached for that receiver in a backward run, and with
whether bit 1 (parity unknown) differs between the cached and the current
indicator; the two low bits of the current indicator are cached in the
receiver's field (rover: position 0, base: position 2 of the upper nibble) and
the field of the other receiver is kept.  With zero carrier phase the control
struct is unchanged. -/
theorem C24_detslp_ll_flag (rtk : rtk_t) (obs : Nat → obsd_t) (i rcv : Nat)
    (hb : (rtk.ssat ((obs i).sat - 1)).slip 0 < 256) (hl : (obs i).LLI 0 < 16) :
    ((obs i).L 0 ≠ 0 →
      ((arc_detslp_ll rtk obs i rcv).ssat ((obs i).sat - 1)).slip 0 % 2 =
        ((rtk.ssat ((obs i).sat - 1)).slip 0 % 2 |||
          (if rtk.tt ≥ 0 then (obs i).LLI 0
           else getbitu ((rtk.ssat ((obs i).sat - 1)).slip 0) (if rcv = 1 then 0 else 2) 2) % 2) |||
          (if getbitu ((rtk.ssat ((obs i).sat - 1)).slip 0) (if rcv = 1 then 0 else 2) 2 / 2 % 2 =
              (obs i).LLI 0 / 2 % 2 then 0 else 1) ∧
      getbitu (((arc_detslp_ll rtk obs i rcv).ssat ((obs i).sat - 1)).slip 0)
          (if rcv = 1 then 0 else 2) 2 = (obs i).LLI 0 % 4 ∧
      getbitu (((arc_detslp_ll rtk obs i rcv).ssat ((obs i).sat - 1)).slip 0)
          (if rcv = 1 then 2 else 0) 2 =
        getbitu ((rtk.ssat ((obs i).sat - 1)).slip 0) (if rcv = 1 then 2 else 0) 2) ∧
    ((obs i).L 0 = 0 → arc_detslp_ll rtk obs i rcv = rtk) := by
  constructor
  · intro hL
    rw [arc_detslp_ll_slip rtk obs i rcv hL]
    by_cases hr : rcv = 1
    · have h := detslp_byte_bits 0 (by decide) _ hb _ hl
      simp only [if_pos hr]
      by_cases ht : rtk.tt ≥ 0
      · simp only [if_pos ht]
        exact h.1
      · simp only [if_neg ht]
        exact h.2
    · have h := detslp_byte_bits 1 (by decide) _ hb _ hl
      simp only [if_neg hr]
      by_cases ht : rtk.tt ≥ 0
      · simp only [if_pos ht]
        exact h.1
      · simp only [if_neg ht]
        exact h.2
  · intro hL
    unfold arc_detslp_ll
    simp only [if_pos hL]

/-- The theorem C24 at the rover observation of satellite 1 with the indicator 3
and the slip byte `0x40`, in a forward run. -/
theorem C24_detslp_ll_flag_witness :
    ((rtk24.ssat ((obs24 0).sat - 1)).slip 0 < 256 ∧ (obs24 0).LLI 0 < 16) ∧
    ((obs24 0).L 0 ≠ 0 →
      ((arc_detslp_ll rtk24 obs24 0 1).ssat ((obs24 0).sat - 1)).slip 0 % 2 =
        ((rtk24.ssat ((obs24 0).sat - 1)).slip 0 % 2 |||
          (if rtk24.tt ≥ 0 then (obs24 0).LLI 0
           else getbitu ((rtk24.ssat ((obs24 0).sat - 1)).slip 0) (if 1 = 1 then 0 else 2) 2) % 2) |||
          (if getbitu ((rtk24.ssat ((obs24 0).sat - 1)).slip 0) (if 1 = 1 then 0 else 2) 2 / 2 % 2 =
              (obs24 0).LLI 0 / 2 % 2 then 0 else 1) ∧
      getbitu (((arc_detslp_ll rtk24 obs24 0 1).ssat ((obs24 0).sat - 1)).slip 0)
          (if 1 = 1 then 0 else 2) 2 = (obs24 0).LLI 0 % 4 ∧
      getbitu (((arc_detslp_ll rtk24 obs24 0 1).ssat ((obs24 0).sat - 1)).slip 0)
          (if 1 = 1 then 2 else 0) 2 =
        getbitu ((rtk24.ssat ((obs24 0).sat - 1)).slip 0) (if 1 = 1 then 2 else 0) 2) ∧
    ((obs24 0).L 0 = 0 → arc_detslp_ll rtk24 obs24 0 1 = rtk24) :=
  ⟨⟨by decide, by decide⟩, C24_detslp_ll_flag rtk24 obs24 0 1 (by decide) (by decide)⟩

/-- The slip byte of the witness of C24 after the call: `0x40` becomes `0xC3`
(cached rover indicator 3, slip flag and parity flag set). -/
theorem rtk24_detslp_value :
    ((arc_detslp_ll rtk24 obs24 0 1).ssat 0).slip 0 = 195 := by
  have hL : (obs24 0).L 0 ≠ 0 := by norm_num [obs24, obs10]
  have h := arc_detslp_ll_slip rtk24 obs24 0 1 hL
  have ht : rtk24.tt ≥ 0 := by norm_num [rtk24]
  rw [if_pos ht] at h
  exact h.trans (by decide)

/-! ## Phase-minus-code estimate and coherency offset of `arc_udbias` -/

/-- The locals of the phase-minus-code loop of `arc_udbias` after the loop:
`bias[i]` is `cp-pr/lami` for a valid common satellite and 0 otherwise, `j`
counts the satellites of `udbias_sel` and `offset` sums their discrepancies. -/
theorem arc_udbias_est_spec (E : Env) (rtk : rtk_t) (obs : Nat → obsd_t) (sat iu ir : Nat → Nat)
    (ns : Nat) (nav : nav_t) :
    (∀ k, (arc_udbias_est E rtk obs sat iu ir ns nav).bias k =
      if k < ns ∧ udbias_valid E obs sat iu ir nav k then udbias_pmc E obs sat iu ir nav k
      else 0) ∧
    (arc_udbias_est E rtk obs sat iu ir ns nav).j = (udbias_sel E rtk obs sat iu ir ns nav).card ∧
    (arc_udbias_est E rtk obs sat iu ir ns nav).offset =
      Finset.sum (udbias_sel E rtk obs sat iu ir ns nav)
        (fun i => udbias_pmc E obs sat iu ir nav i - rtk.x (IB E (sat i) 0 rtk.opt)) := by
  unfold arc_udbias_est udbias_sel
  refine forN_inv_idx (fun (n : Nat) (s : udbias_est_t) =>
    (∀ k, s.bias k =
      if k < n ∧ udbias_valid E obs sat iu ir nav k then udbias_pmc E obs sat iu ir nav k
      else 0) ∧
    s.j = ((Finset.range n).filter
      (fun i => udbias_valid E obs sat iu ir nav i ∧ rtk.x (IB E (sat i) 0 rtk.opt) ≠ 0)).card ∧
    s.offset = Finset.sum ((Finset.range n).filter
      (fun i => udbias_valid E obs sat iu ir nav i ∧ rtk.x (IB E (sat i) 0 rtk.opt) ≠ 0))
        (fun i => udbias_pmc E obs sat iu ir nav i - rtk.x (IB E (sat i) 0 rtk.opt))) ns _ _ ?_ ?_
  · refine ⟨fun k => ?_, ?_, ?_⟩
    · rw [if_neg (fun h => Nat.not_lt_zero k h.1)]
    · simp
    · simp
  · intro n s _ ⟨h1, h2, h3⟩
    dsimp only
    have hnot : n ∉ (Finset.range n).filter
        (fun i => udbias_valid E obs sat iu ir nav i ∧ rtk.x (IB E (sat i) 0 rtk.opt) ≠ 0) :=
      fun h => absurd (Finset.mem_range.mp (Finset.mem_filter.mp h).1) (Nat.lt_irrefl n)
    by_cases c : arc_sdobs E obs (iu n) (ir n) 0 = 0 ∨
        arc_sdobs E obs (iu n) (ir n) (0 + E.NFREQ) = 0 ∨ nav.lam (sat n - 1) 0 ≤ 0
    · rw [if_pos c]
      have hv : ¬ udbias_valid E obs sat iu ir nav n := fun h => h c
      rw [Finset.range_succ, Finset.filter_insert, if_neg (fun h => hv h.1)]
      refine ⟨fun k => ?_, h2, h3⟩
      rw [h1 k]
      by_cases hk : k = n
      · subst hk
        rw [if_neg (fun h => hv h.2), if_neg (fun h => hv h.2)]
      · by_cases hkv : udbias_valid E obs sat iu ir nav k
        · by_cases hkn : k < n
          · rw [if_pos ⟨hkn, hkv⟩, if_pos ⟨by omega, hkv⟩]
          · rw [if_neg (fun h => hkn h.1), if_neg (fun h => hkn (by omega))]
        · rw [if_neg (fun h => hkv h.2), if_neg (fun h => hkv h.2)]
    · rw [if_neg c]
      have hv : udbias_valid E obs sat iu ir nav n := c
      have hb : ∀ k, Function.update s.bias n (udbias_pmc E obs sat iu ir nav n) k =
          if k < n + 1 ∧ udbias_valid E obs sat iu ir nav k then udbias_pmc E obs sat iu ir nav k
          else 0 := by
        intro k
        by_cases hk : k = n
        · subst hk
          rw [Function.update_same, if_pos ⟨Nat.lt_succ_self k, hv⟩]
        · rw [Function.update_noteq hk, h1 k]
          by_cases hkv : udbias_valid E obs sat iu ir nav k
          · by_cases hkn : k < n
            · rw [if_pos ⟨hkn, hkv⟩, if_pos ⟨by omega, hkv⟩]
            · rw [if_neg (fun h => hkn h.1), if_neg (fun h => hkn (by omega))]
          · rw [if_neg (fun h => hkv h.2), if_neg (fun h => hkv h.2)]
      by_cases cx : rtk.x (IB E (sat n) 0 rtk.opt) ≠ 0
      · rw [if_pos cx, Finset.range_succ, Finset.filter_insert, if_pos ⟨hv, cx⟩,
          Finset.card_insert_of_not_mem hnot, Finset.sum_insert hnot]
        refine ⟨hb, ?_, ?_⟩
        · show s.j + 1 = _
          rw [h2]
        · show s.offset + (udbias_pmc E obs sat iu ir nav n - rtk.x (IB E (sat n) 0 rtk.opt)) = _
          rw [h3, add_comm]
      · rw [if_neg cx, Finset.range_succ, Finset.filter_insert, if_neg (fun h => cx h.2)]
        exact ⟨hb, h2, h3⟩

/-- The offset correction of `arc_udbias` with `j > 0`: `offset/j` is added to
every non-zero ambiguity state of the slots `1..MAXSAT`, and no other state
changes. -/
theorem arc_udbias_offset_x (E : Env) (rtk : rtk_t) (es : udbias_est_t) (hj : es.j > 0) :
    (∀ s, 1 ≤ s → s ≤ E.MAXSAT → rtk.x (IB E s 0 rtk.opt) ≠ 0 →
      (arc_udbias_offset E rtk es).x (IB E s 0 rtk.opt) =
        rtk.x (IB E s 0 rtk.opt) + es.offset / (es.j : ℚ)) ∧
    (∀ k, ((∀ s, 1 ≤ s → s ≤ E.MAXSAT → k ≠ IB E s 0 rtk.opt) ∨ rtk.x k = 0) →
      (arc_udbias_offset E rtk es).x k = rtk.x k) := by
  unfold arc_udbias_offset
  rw [if_pos hj]
  have main := forN_inv_idx (fun (n : Nat) (r : rtk_t) => r.opt = rtk.opt ∧
    (∀ s, 1 ≤ s → s ≤ n → rtk.x (IB E s 0 rtk.opt) ≠ 0 →
      r.x (IB E s 0 rtk.opt) = rtk.x (IB E s 0 rtk.opt) + es.offset / (es.j : ℚ)) ∧
    (∀ k, ((∀ s, 1 ≤ s → s ≤ n → k ≠ IB E s 0 rtk.opt) ∨ rtk.x k = 0) → r.x k = rtk.x k))
    E.MAXSAT
    (fun i0 r =>
      let i := i0 + 1
      if r.x (IB E i 0 r.opt) ≠ 0 then
        set_x r (IB E i 0 r.opt) (r.x (IB E i 0 r.opt) + es.offset / (es.j : ℚ))
      else r) rtk
    ⟨rfl, fun s h1 h2 => absurd h1 (by omega), fun k _ => rfl⟩
    (by
      intro n r _ ⟨g1, g2, g3⟩
      dsimp only
      rw [g1]
      have hcur : r.x (IB E (n + 1) 0 rtk.opt) = rtk.x (IB E (n + 1) 0 rtk.opt) :=
        g3 _ (Or.inl (fun s h1 h2 => IB_ne E rtk.opt (n + 1) s 0 (by omega) h1 (by omega)))
      by_cases c : r.x (IB E (n + 1) 0 rtk.opt) ≠ 0
      · rw [if_pos c]
        refine ⟨g1, fun s h1 h2 hx => ?_, fun k hk => ?_⟩
        · show Function.update r.x _ _ _ = _
          rcases Nat.lt_succ_iff_lt_or_eq.mp (Nat.lt_succ_of_le h2) with hlt | heq
          · rw [Function.update_noteq (IB_ne E rtk.opt s (n + 1) 0 h1 (by omega) (by omega))]
            exact g2 s h1 (by omega) hx
          · subst heq
            rw [Function.update_same, hcur]
        · show Function.update r.x _ _ _ = _
          have hne : k ≠ IB E (n + 1) 0 rtk.opt := by
            rcases hk with hk | hk
            · exact hk (n + 1) (by omega) (Nat.le_refl _)
            · intro h
              rw [h] at hk
              exact c (hcur.trans hk)
          rw [Function.update_noteq hne]
          apply g3
          rcases hk with hk | hk
          · exact Or.inl (fun s h1 h2 => hk s h1 (by omega))
          · exact Or.inr hk
      · rw [if_neg c]
        have hz : rtk.x (IB E (n + 1) 0 rtk.opt) = 0 := by
          rw [← hcur]
          exact not_not.mp c
        refine ⟨g1, fun s h1 h2 hx => ?_, fun k hk => ?_⟩
        · rcases Nat.lt_succ_iff_lt_or_eq.mp (Nat.lt_succ_of_le h2) with hlt | heq
          · exact g2 s h1 (by omega) hx
          · subst heq
            exact absurd hz hx
        · by_cases hke : k = IB E (n + 1) 0 rtk.opt
          · rw [hke, hcur]
          · apply g3
            rcases hk with hk | hk
            · exact Or.inl (fun s h1 h2 => hk s h1 (by omega))
            · exact Or.inr hk)
  exact ⟨main.2.1, main.2.2⟩

/-- The coherency correction of `arc_udbias` on an arbitrary control struct. -/
theorem arc_udbias_coherency (E : Env) (rtk : rtk_t) (obs : Nat → obsd_t)
    (sat iu ir : Nat → Nat) (ns : Nat) (nav : nav_t)
    (hsat : ∀ i, i < ns → 1 ≤ sat i ∧ sat i ≤ E.MAXSAT) :
    (arc_udbias_est E rtk obs sat iu ir ns nav).j = (udbias_sel E rtk obs sat iu ir ns nav).card ∧
    (arc_udbias_est E rtk obs sat iu ir ns nav).offset /
        ((arc_udbias_est E rtk obs sat iu ir ns nav).j : ℚ) =
      coherency_mean E rtk obs sat iu ir ns nav ∧
    ((udbias_sel E rtk obs sat iu ir ns nav).Nonempty →
      (∀ s, 1 ≤ s → s ≤ E.MAXSAT → rtk.x (IB E s 0 rtk.opt) ≠ 0 →
        (arc_udbias_offset E rtk (arc_udbias_est E rtk obs sat iu ir ns nav)).x
            (IB E s 0 rtk.opt) =
          rtk.x (IB E s 0 rtk.opt) + coherency_mean E rtk obs sat iu ir ns nav) ∧
      (∀ k, ((∀ s, 1 ≤ s → s ≤ E.MAXSAT → k ≠ IB E s 0 rtk.opt) ∨ rtk.x k = 0) →
        (arc_udbias_offset E rtk (arc_udbias_est E rtk obs sat iu ir ns nav)).x k = rtk.x k) ∧
      Finset.sum (udbias_sel E rtk obs sat iu ir ns nav)
        (fun i => udbias_pmc E obs sat iu ir nav i -
          (arc_udbias_offset E rtk (arc_udbias_est E rtk obs sat iu ir ns nav)).x
            (IB E (sat i) 0 rtk.opt)) = 0) ∧
    (arc_udbias_offset E rtk (arc_udbias_est E rtk obs sat iu ir ns nav)).P = rtk.P ∧
    (arc_udbias_offset E rtk (arc_udbias_est E rtk obs sat iu ir ns nav)).ssat = rtk.ssat ∧
    (udbias_sel E rtk obs sat iu ir ns nav = ∅ →
      arc_udbias_offset E rtk (arc_udbias_est E rtk obs sat iu ir ns nav) = rtk) := by
  obtain ⟨_, e2, e3⟩ := arc_udbias_est_spec E rtk obs sat iu ir ns nav
  obtain ⟨_, _, f3, f4, _⟩ := arc_udbias_offset_frame E rtk
    (arc_udbias_est E rtk obs sat iu ir ns nav)
  have hmean : (arc_udbias_est E rtk obs sat iu ir ns nav).offset /
      ((arc_udbias_est E rtk obs sat iu ir ns nav).j : ℚ) =
      coherency_mean E rtk obs sat iu ir ns nav := by
    unfold coherency_mean
    rw [e2, e3]
  refine ⟨e2, hmean, ?_, f3, f4, ?_⟩
  · intro hne
    have hj : (arc_udbias_est E rtk obs sat iu ir ns nav).j > 0 := by
      rw [e2]
      exact Finset.card_pos.mpr hne
    obtain ⟨o1, o2⟩ := arc_udbias_offset_x E rtk (arc_udbias_est E rtk obs sat iu ir ns nav) hj
    rw [hmean] at o1
    refine ⟨o1, o2, ?_⟩
    have hsum : Finset.sum (udbias_sel E rtk obs sat iu ir ns nav)
        (fun i => udbias_pmc E obs sat iu ir nav i -
          (arc_udbias_offset E rtk (arc_udbias_est E rtk obs sat iu ir ns nav)).x
            (IB E (sat i) 0 rtk.opt)) =
        Finset.sum (udbias_sel E rtk obs sat iu ir ns nav)
          (fun i => (udbias_pmc E obs sat iu ir nav i - rtk.x (IB E (sat i) 0 rtk.opt)) -
            coherency_mean E rtk obs sat iu ir ns nav) := by
      apply Finset.sum_congr rfl
      intro i hi
      have hi2 := Finset.mem_filter.mp hi
      have hlt := Finset.mem_range.mp hi2.1
      rw [o1 (sat i) (hsat i hlt).1 (hsat i hlt).2 hi2.2.2]
      ring
    rw [hsum, Finset.sum_sub_distrib, Finset.sum_const, nsmul_eq_mul]
    unfold coherency_mean
    have hc : ((udbias_sel E rtk obs sat iu ir ns nav).card : ℚ) ≠ 0 := by
      have := Finset.card_pos.mpr hne
      exact_mod_cast (Nat.ne_of_gt this)
    field_simp
  · intro hem
    apply arc_udbias_offset_id
    left
    rw [e2, hem]
    rfl

/-- C26: in `arc_udbias` (exact arithmetic; common satellites numbered within
`1..MAXSAT`) the coherency offset `offset/j` equals the arithmetic mean, over the
common satellites with valid single-differenced phase and code, positive
wavelength and a non-zero ambiguity (`udbias_sel`), of (phase-minus-code
estimate - current ambiguity value).  When that set is not empty the offset is
added to every non-zero ambiguity state of every satellite slot and every other
state keeps its value, and the discrepancies of those common satellites then sum
to zero; `P` and the satellite tracks are not changed; when the set is empty the
step returns the control struct unchanged.  The result of `arc_udbias` is the
seeding loop run on the corrected struct. -/
theorem C26_coherency_offset (E : Env) (rtk : rtk_t) (tt : ℚ) (obs : Nat → obsd_t)
    (sat iu ir : Nat → Nat) (ns : Nat) (nav : nav_t)
    (hsat : ∀ i, i < ns → 1 ≤ sat i ∧ sat i ≤ E.MAXSAT) :
    (arc_udbias_est E (arc_udbias_before_est E rtk tt obs sat iu ir ns) obs sat iu ir ns nav).j =
      (udbias_sel E (arc_udbias_before_est E rtk tt obs sat iu ir ns) obs sat iu ir ns nav).card ∧
    (arc_udbias_est E (arc_udbias_before_est E rtk tt obs sat iu ir ns) obs sat iu ir ns
        nav).offset /
        ((arc_udbias_est E (arc_udbias_before_est E rtk tt obs sat iu ir ns) obs sat iu ir ns
          nav).j : ℚ) =
      coherency_mean E (arc_udbias_before_est E rtk tt obs sat iu ir ns) obs sat iu ir ns nav ∧
    ((udbias_sel E (arc_udbias_before_est E rtk tt obs sat iu ir ns) obs sat iu ir ns
        nav).Nonempty →
      (∀ s, 1 ≤ s → s ≤ E.MAXSAT →
        (arc_udbias_before_est E rtk tt obs sat iu ir ns).x
          (IB E s 0 (arc_udbias_before_est E rtk tt obs sat iu ir ns).opt) ≠ 0 →
        (arc_udbias_before_init E rtk tt obs sat iu ir ns nav).x
            (IB E s 0 (arc_udbias_before_est E rtk tt obs sat iu ir ns).opt) =
          (arc_udbias_before_est E rtk tt obs sat iu ir ns).x
              (IB E s 0 (arc_udbias_before_est E rtk tt obs sat iu ir ns).opt) +
            coherency_mean E (arc_udbias_before_est E rtk tt obs sat iu ir ns) obs sat iu ir ns
              nav) ∧
      (∀ k, ((∀ s, 1 ≤ s → s ≤ E.MAXSAT →
            k ≠ IB E s 0 (arc_udbias_before_est E rtk tt obs sat iu ir ns).opt) ∨
          (arc_udbias_before_est E rtk tt obs sat iu ir ns).x k = 0) →
        (arc_udbias_before_init E rtk tt obs sat iu ir ns nav).x k =
          (arc_udbias_before_est E rtk tt obs sat iu ir ns).x k) ∧
      Finset.sum
        (udbias_sel E (arc_udbias_before_est E rtk tt obs sat iu ir ns) obs sat iu ir ns nav)
        (fun i => udbias_pmc E obs sat iu ir nav i -
          (arc_udbias_before_init E rtk tt obs sat iu ir ns nav).x
            (IB E (sat i) 0 (arc_udbias_before_est E rtk tt obs sat iu ir ns).opt)) = 0) ∧
    (arc_udbias_before_init E rtk tt obs sat iu ir ns nav).P =
      (arc_udbias_before_est E rtk tt obs sat iu ir ns).P ∧
    (arc_udbias_before_init E rtk tt obs sat iu ir ns nav).ssat =
      (arc_udbias_before_est E rtk tt obs sat iu ir ns).ssat ∧
    (udbias_sel E (arc_udbias_before_est E rtk tt obs sat iu ir ns) obs sat iu ir ns nav = ∅ →
      arc_udbias_before_init E rtk tt obs sat iu ir ns nav =
        arc_udbias_before_est E rtk tt obs sat iu ir ns) ∧
    arc_udbias E rtk tt obs sat iu ir ns nav =
      arc_udbias_init E (arc_udbias_before_init E rtk tt obs sat iu ir ns nav)
        (arc_udbias_est E (arc_udbias_before_est E rtk tt obs sat iu ir ns) obs sat iu ir ns
          nav).bias sat ns := by
  obtain ⟨h1, h2, h3, h4, h5, h6⟩ := arc_udbias_coherency E
    (arc_udbias_before_est E rtk tt obs sat iu ir ns) obs sat iu ir ns nav hsat
  exact ⟨h1, h2, h3, h4, h5, h6, rfl⟩

/-- The theorem C26 at one common satellite (number 1). -/
theorem C26_coherency_offset_witness :
    (∀ i, i < 1 → 1 ≤ (fun _ : Nat => 1) i ∧ (fun _ : Nat => 1) i ≤ E0.MAXSAT) ∧
    (arc_udbias_est E0
        (arc_udbias_before_est E0 rtkL 1 obs10 (fun _ => 1) (fun _ => 0) (fun _ => 1) 1)
        obs10 (fun _ => 1) (fun _ => 0) (fun _ => 1) 1 nav0).j =
      (udbias_sel E0
        (arc_udbias_before_est E0 rtkL 1 obs10 (fun _ => 1) (fun _ => 0) (fun _ => 1) 1)
        obs10 (fun _ => 1) (fun _ => 0) (fun _ => 1) 1 nav0).card ∧
    (arc_udbias_est E0
        (arc_udbias_before_est E0 rtkL 1 obs10 (fun _ => 1) (fun _ => 0) (fun _ => 1) 1)
        obs10 (fun _ => 1) (fun _ => 0) (fun _ => 1) 1 nav0).offset /
        ((arc_udbias_est E0
          (arc_udbias_before_est E0 rtkL 1 obs10 (fun _ => 1) (fun _ => 0) (fun _ => 1) 1)
          obs10 (fun _ => 1) (fun _ => 0) (fun _ => 1) 1 nav0).j : ℚ) =
      coherency_mean E0
        (arc_udbias_before_est E0 rtkL 1 obs10 (fun _ => 1) (fun _ => 0) (fun _ => 1) 1)
        obs10 (fun _ => 1) (fun _ => 0) (fun _ => 1) 1 nav0 :=
  ⟨fun _ _ => ⟨Nat.le_refl 1, (by decide : 1 ≤ E0.MAXSAT)⟩,
    (C26_coherency_offset E0 rtkL 1 obs10 (fun _ => 1) (fun _ => 0) (fun _ => 1) 1 nav0
      (fun _ _ => ⟨Nat.le_refl 1, (by decide : 1 ≤ E0.MAXSAT)⟩)).1,
    (C26_coherency_offset E0 rtkL 1 obs10 (fun _ => 1) (fun _ => 0) (fun _ => 1) 1 nav0
      (fun _ _ => ⟨Nat.le_refl 1, (by decide : 1 ≤ E0.MAXSAT)⟩)).2.1⟩

set_option maxRecDepth 8000 in
set_option maxHeartbeats 2000000 in
/-- The coherency correction at one common satellite with phase-minus-code
estimate `(5-2)-(7-3)/1 = -1` and ambiguity 1: the offset is `-2`; the
ambiguities 1 and 2 of the two slots become `-1` and `0`. -/
theorem rtkL_coherency_value :
    (arc_udbias_before_est E0 rtkL 1 obs10 (fun _ => 1) (fun _ => 0) (fun _ => 1) 1).x 3 = 1 ∧
    (arc_udbias_before_est E0 rtkL 1 obs10 (fun _ => 1) (fun _ => 0) (fun _ => 1) 1).x 4 = 2 ∧
    (arc_udbias_before_init E0 rtkL 1 obs10 (fun _ => 1) (fun _ => 0) (fun _ => 1) 1 nav0).x 3
      = -1 ∧
    (arc_udbias_before_init E0 rtkL 1 obs10 (fun _ => 1) (fun _ => 0) (fun _ => 1) 1 nav0).x 4
      = 0 := by
  refine ⟨?_, ?_, ?_, ?_⟩ <;>
  norm_num [arc_udbias_before_init, arc_udbias_offset, arc_udbias_est, arc_sdobs,
      arc_udbias_before_est, arc_udbias_slip, arc_udbias_outage, arc_udbias_outage_body,
      arc_udbias_detslp, arc_detslp_ll, forN, E0, rtkL, rtk0, opt0, ssat0, obs10, nav0, IB, NR, NP,
      NI, NT, NL, set_slip, set_half, set_P, set_x, set_lock, set_outc, arc_initx, getbitu,
      setbitu, outage_exceeds, ARMODE_INST, IONOOPT_EST, IONOOPT_BRDC, TROPOPT_EST, TROPOPT_ESTG, Function.update]

/-! ## Seeding of the ambiguity states in `arc_udbias` -/

theorem arc_udbias_slip_nx_opt (E : Env) (rtk : rtk_t) (tt : ℚ) (sat : Nat → Nat) (ns : Nat) :
    (arc_udbias_slip E rtk tt sat ns).nx = rtk.nx ∧
    (arc_udbias_slip E rtk tt sat ns).opt = rtk.opt := by
  unfold arc_udbias_slip
  refine forN_inv (fun r : rtk_t => r.nx = rtk.nx ∧ r.opt = rtk.opt) _ _ _ ⟨rfl, rfl⟩ ?_
  intro i r _ h
  dsimp only
  split
  · exact h
  · exact h

theorem arc_udbias_before_init_nx_opt (E : Env) (rtk : rtk_t) (tt : ℚ) (obs : Nat → obsd_t)
    (sat iu ir : Nat → Nat) (ns : Nat) (nav : nav_t) :
    (arc_udbias_before_init E rtk tt obs sat iu ir ns nav).nx = rtk.nx ∧
    (arc_udbias_before_init E rtk tt obs sat iu ir ns nav).opt = rtk.opt := by
  unfold arc_udbias_before_init arc_udbias_before_est
  obtain ⟨_, _, d3, d4, _, _⟩ := arc_udbias_detslp_frame rtk obs sat iu ir ns
  obtain ⟨f1, f2, _⟩ := arc_udbias_offset_frame E
    (arc_udbias_slip E (arc_udbias_outage E (arc_udbias_detslp rtk obs sat iu ir ns)) tt sat ns)
    (arc_udbias_est E
      (arc_udbias_slip E (arc_udbias_outage E (arc_udbias_detslp rtk obs sat iu ir ns))
        tt sat ns) obs sat iu ir ns nav)
  constructor
  · rw [f1, (arc_udbias_slip_nx_opt E _ tt sat ns).1, (arc_udbias_outage_nx_opt E _).1, d3]
  · rw [f2, (arc_udbias_slip_nx_opt E _ tt sat ns).2, (arc_udbias_outage_nx_opt E _).2, d4]

/-- The seeding loop of `arc_udbias` leaves a state that is non-zero when the
loop starts: its value and its variance are kept. -/
theorem arc_udbias_init_keep (E : Env) (rtk : rtk_t) (bias : Nat → ℚ) (sat : Nat → Nat)
    (ns j : Nat) (hj : j < rtk.nx) (hidx : ∀ i, i < ns → IB E (sat i) 0 rtk.opt < rtk.nx)
    (hx : rtk.x j ≠ 0) :
    (arc_udbias_init E rtk bias sat ns).x j = rtk.x j ∧
    (arc_udbias_init E rtk bias sat ns).P (j + j * rtk.nx) = rtk.P (j + j * rtk.nx) := by
  unfold arc_udbias_init
  have main := forN_inv_idx (fun (n : Nat) (r : rtk_t) => (n ≤ ns) ∧ r.nx = rtk.nx ∧
      r.opt = rtk.opt ∧ r.x j = rtk.x j ∧ r.P (j + j * rtk.nx) = rtk.P (j + j * rtk.nx)) ns
    (fun i r =>
      if bias i = 0 ∨ r.x (IB E (sat i) 0 r.opt) ≠ 0 then r
      else arc_initx r (bias i) (SQR (r.opt.std 0)) (IB E (sat i) 0 r.opt)) rtk
    ⟨Nat.zero_le _, rfl, rfl, rfl, rfl⟩ (by
      intro i r hi ⟨_, g1, g2, g3, g4⟩
      dsimp only
      rw [g2]
      by_cases c : bias i = 0 ∨ r.x (IB E (sat i) 0 rtk.opt) ≠ 0
      · rw [if_pos c]
        exact ⟨hi, g1, g2, g3, g4⟩
      · rw [if_neg c]
        have hz : r.x (IB E (sat i) 0 rtk.opt) = 0 := not_not.mp (fun h => c (Or.inr h))
        have hne : j ≠ IB E (sat i) 0 rtk.opt := by
          intro h
          rw [← h, g3] at hz
          exact hx hz
        have hI : IB E (sat i) 0 rtk.opt < r.nx := by
          rw [g1]
          exact hidx i hi
        have hP := arc_initx_P r (bias i) (SQR (rtk.opt.std 0)) (IB E (sat i) 0 rtk.opt) hI j j
          (by rw [g1]; exact hj) (by rw [g1]; exact hj)
        rw [g1] at hP
        refine ⟨hi, ?_, ?_, ?_, ?_⟩
        · rw [arc_initx_nx, g1]
        · rw [arc_initx_opt, g2]
        · rw [arc_initx_x, Function.update_noteq hne, g3]
        · rw [hP, if_neg (fun h => h.elim hne hne), g4])
  exact ⟨main.2.2.2.1, main.2.2.2.2⟩

/-- The seeding loop of `arc_udbias` at a common satellite that appears once in
the list, with a zero ambiguity and a non-zero estimate. -/
theorem arc_udbias_init_seed (E : Env) (rtk : rtk_t) (bias : Nat → ℚ) (sat : Nat → Nat)
    (ns k : Nat) (hk : k < ns) (hsat : ∀ i, i < ns → 1 ≤ sat i)
    (hinj : ∀ i, i < ns → sat i = sat k → i = k)
    (hidx : ∀ i, i < ns → IB E (sat i) 0 rtk.opt < rtk.nx)
    (hb : bias k ≠ 0) (hz : rtk.x (IB E (sat k) 0 rtk.opt) = 0) :
    (arc_udbias_init E rtk bias sat ns).x (IB E (sat k) 0 rtk.opt) = bias k ∧
    (arc_udbias_init E rtk bias sat ns).P
        (IB E (sat k) 0 rtk.opt + IB E (sat k) 0 rtk.opt * rtk.nx) = SQR (rtk.opt.std 0) ∧
    (∀ m, m < rtk.nx → m ≠ IB E (sat k) 0 rtk.opt →
      (arc_udbias_init E rtk bias sat ns).P (IB E (sat k) 0 rtk.opt + m * rtk.nx) = 0 ∧
      (arc_udbias_init E rtk bias sat ns).P (m + IB E (sat k) 0 rtk.opt * rtk.nx) = 0) := by
  unfold arc_udbias_init
  have hJ : IB E (sat k) 0 rtk.opt < rtk.nx := hidx k hk
  have main := forN_inv_idx (fun (n : Nat) (r : rtk_t) => (n ≤ ns) ∧ r.nx = rtk.nx ∧
      r.opt = rtk.opt ∧ (n ≤ k → r.x (IB E (sat k) 0 rtk.opt) = 0) ∧
      (k < n → r.x (IB E (sat k) 0 rtk.opt) = bias k ∧
        r.P (IB E (sat k) 0 rtk.opt + IB E (sat k) 0 rtk.opt * rtk.nx) = SQR (rtk.opt.std 0) ∧
        (∀ m, m < rtk.nx → m ≠ IB E (sat k) 0 rtk.opt →
          r.P (IB E (sat k) 0 rtk.opt + m * rtk.nx) = 0 ∧
          r.P (m + IB E (sat k) 0 rtk.opt * rtk.nx) = 0))) ns
    (fun i r =>
      if bias i = 0 ∨ r.x (IB E (sat i) 0 r.opt) ≠ 0 then r
      else arc_initx r (bias i) (SQR (r.opt.std 0)) (IB E (sat i) 0 r.opt)) rtk
    ⟨Nat.zero_le _, rfl, rfl, fun _ => hz, fun h => absurd h (Nat.not_lt_zero k)⟩ (by
      intro i r hi ⟨_, g1, g2, g3, g4⟩
      dsimp only
      rw [g2]
      by_cases c : bias i = 0 ∨ r.x (IB E (sat i) 0 rtk.opt) ≠ 0
      · rw [if_pos c]
        refine ⟨hi, g1, g2, fun h => g3 (by omega), fun h => ?_⟩
        rcases Nat.lt_succ_iff_lt_or_eq.mp h with hlt | heq
        · exact g4 hlt
        · exfalso
          subst heq
          rcases c with c | c
          · exact hb c
          · exact c (g3 (Nat.le_refl _))
      · rw [if_neg c]
        have hI : IB E (sat i) 0 rtk.opt < r.nx := by
          rw [g1]
          exact hidx i hi
        have hP := fun a b ha hb =>
          arc_initx_P r (bias i) (SQR (rtk.opt.std 0)) (IB E (sat i) 0 rtk.opt) hI a b ha hb
        rw [g1] at hP
        refine ⟨hi, ?_, ?_, ?_, ?_⟩
        · rw [arc_initx_nx, g1]
        · rw [arc_initx_opt, g2]
        · intro h
          have hik : i ≠ k := by omega
          have hne : IB E (sat k) 0 rtk.opt ≠ IB E (sat i) 0 rtk.opt :=
            IB_ne E rtk.opt (sat k) (sat i) 0 (hsat k hk) (hsat i hi)
              (fun e => hik (hinj i hi e.symm))
          rw [arc_initx_x, Function.update_noteq hne]
          exact g3 (by omega)
        · intro h
          rcases Nat.lt_succ_iff_lt_or_eq.mp h with hlt | heq
          · obtain ⟨q1, q2, q3⟩ := g4 hlt
            have hik : i ≠ k := by omega
            have hne : IB E (sat k) 0 rtk.opt ≠ IB E (sat i) 0 rtk.opt :=
              IB_ne E rtk.opt (sat k) (sat i) 0 (hsat k hk) (hsat i hi)
                (fun e => hik (hinj i hi e.symm))
            refine ⟨?_, ?_, ?_⟩
            · rw [arc_initx_x, Function.update_noteq hne, q1]
            · rw [hP _ _ hJ hJ, if_neg (fun h => h.elim hne hne), q2]
            · intro m hm hmJ
              constructor
              · rw [hP _ _ hJ hm]
                by_cases hmi : m = IB E (sat i) 0 rtk.opt
                · rw [if_pos (Or.inr hmi), if_neg (fun h => hne h.1)]
                · rw [if_neg (fun h => h.elim hne hmi), (q3 m hm hmJ).1]
              · rw [hP _ _ hm hJ]
                by_cases hmi : m = IB E (sat i) 0 rtk.opt
                · rw [if_pos (Or.inl hmi), if_neg (fun h => hne h.2)]
                · rw [if_neg (fun h => h.elim hmi hne), (q3 m hm hmJ).2]
          · subst heq
            refine ⟨?_, ?_, ?_⟩
            · rw [arc_initx_x, Function.update_same]
            · rw [hP _ _ hJ hJ, if_pos (Or.inl rfl), if_pos ⟨rfl, rfl⟩]
            · intro m hm hmJ
              constructor
              · rw [hP _ _ hJ hm, if_pos (Or.inl rfl), if_neg (fun h => hmJ h.2)]
              · rw [hP _ _ hm hJ, if_pos (Or.inr rfl), if_neg (fun h => hmJ h.1)])
  exact main.2.2.2.2 hk

/-- C25: after `arc_udbias` (common satellites numbered from 1, state indices
inside the state vector), every common satellite `k` that appears once in the
list, whose ambiguity is zero when seeding starts and whose single-differenced
carrier phase `cp` and pseudorange `pr` are both non-zero with wavelength
`lambda > 0` and `cp - pr/lambda != 0`, has the ambiguity state value
`cp - pr/lambda`, the diagonal variance `std[0]^2`, and zero in every
off-diagonal entry of its row and column of `P`; a state that is non-zero when
seeding starts keeps its value and its variance. -/
theorem C25_udbias_seed (E : Env) (rtk : rtk_t) (tt : ℚ) (obs : Nat → obsd_t)
    (sat iu ir : Nat → Nat) (ns : Nat) (nav : nav_t) (k : Nat) (hk : k < ns)
    (hsat : ∀ i, i < ns → 1 ≤ sat i) (hinj : ∀ i, i < ns → sat i = sat k → i = k)
    (hidx : ∀ i, i < ns → IB E (sat i) 0 rtk.opt < rtk.nx) :
    ((arc_udbias_before_init E rtk tt obs sat iu ir ns nav).x (IB E (sat k) 0 rtk.opt) = 0 →
      arc_sdobs E obs (iu k) (ir k) 0 ≠ 0 → arc_sdobs E obs (iu k) (ir k) (0 + E.NFREQ) ≠ 0 →
      0 < nav.lam (sat k - 1) 0 →
      arc_sdobs E obs (iu k) (ir k) 0 -
        arc_sdobs E obs (iu k) (ir k) (0 + E.NFREQ) / nav.lam (sat k - 1) 0 ≠ 0 →
      (arc_udbias E rtk tt obs sat iu ir ns nav).x (IB E (sat k) 0 rtk.opt) =
        arc_sdobs E obs (iu k) (ir k) 0 -
          arc_sdobs E obs (iu k) (ir k) (0 + E.NFREQ) / nav.lam (sat k - 1) 0 ∧
      (arc_udbias E rtk tt obs sat iu ir ns nav).P
          (IB E (sat k) 0 rtk.opt + IB E (sat k) 0 rtk.opt * rtk.nx) = SQR (rtk.opt.std 0) ∧
      (∀ m, m < rtk.nx → m ≠ IB E (sat k) 0 rtk.opt →
        (arc_udbias E rtk tt obs sat iu ir ns nav).P (IB E (sat k) 0 rtk.opt + m * rtk.nx) = 0 ∧
        (arc_udbias E rtk tt obs sat iu ir ns nav).P (m + IB E (sat k) 0 rtk.opt * rtk.nx) = 0)) ∧
    (∀ j, j < rtk.nx → (arc_udbias_before_init E rtk tt obs sat iu ir ns nav).x j ≠ 0 →
      (arc_udbias E rtk tt obs sat iu ir ns nav).x j =
        (arc_udbias_before_init E rtk tt obs sat iu ir ns nav).x j ∧
      (arc_udbias E rtk tt obs sat iu ir ns nav).P (j + j * rtk.nx) =
        (arc_udbias_before_init E rtk tt obs sat iu ir ns nav).P (j + j * rtk.nx)) := by
  obtain ⟨n1, n2⟩ := arc_udbias_before_init_nx_opt E rtk tt obs sat iu ir ns nav
  have hout : arc_udbias E rtk tt obs sat iu ir ns nav =
      arc_udbias_init E (arc_udbias_before_init E rtk tt obs sat iu ir ns nav)
        (arc_udbias_est E (arc_udbias_before_est E rtk tt obs sat iu ir ns) obs sat iu ir ns
          nav).bias sat ns := rfl
  have hidx4 : ∀ i, i < ns →
      IB E (sat i) 0 (arc_udbias_before_init E rtk tt obs sat iu ir ns nav).opt <
        (arc_udbias_before_init E rtk tt obs sat iu ir ns nav).nx := by
    intro i hi
    rw [n1, n2]
    exact hidx i hi
  constructor
  · intro hz hcp hpr hlam hne
    have hvalid : udbias_valid E obs sat iu ir nav k := by
      rintro (h | h | h)
      · exact hcp h
      · exact hpr h
      · exact absurd hlam (not_lt.mpr h)
    have hbias : (arc_udbias_est E (arc_udbias_before_est E rtk tt obs sat iu ir ns) obs sat iu ir
        ns nav).bias k = udbias_pmc E obs sat iu ir nav k := by
      rw [(arc_udbias_est_spec E _ obs sat iu ir ns nav).1 k, if_pos ⟨hk, hvalid⟩]
    have h := arc_udbias_init_seed E (arc_udbias_before_init E rtk tt obs sat iu ir ns nav)
      (arc_udbias_est E (arc_udbias_before_est E rtk tt obs sat iu ir ns) obs sat iu ir ns
        nav).bias sat ns k hk hsat hinj hidx4 (by rw [hbias]; exact hne) (by rw [n2]; exact hz)
    rw [n1, n2, hbias] at h
    rw [hout]
    exact h
  · intro j hj hx
    have h := arc_udbias_init_keep E (arc_udbias_before_init E rtk tt obs sat iu ir ns nav)
      (arc_udbias_est E (arc_udbias_before_est E rtk tt obs sat iu ir ns) obs sat iu ir ns
        nav).bias sat ns j (by rw [n1]; exact hj) hidx4 hx
    rw [n1] at h
    rw [hout]
    exact h

set_option maxRecDepth 8000 in
set_option maxHeartbeats 2000000 in
theorem rtk0_before_init_x :
    (arc_udbias_before_init E0 rtk0 1 obs10 (fun _ => 1) (fun _ => 0) (fun _ => 1) 1 nav0).x
      (IB E0 ((fun _ : Nat => 1) 0) 0 rtk0.opt) = 0 := by
  norm_num [arc_udbias_before_init, arc_udbias_offset, arc_udbias_est, arc_sdobs,
      arc_udbias_before_est, arc_udbias_slip, arc_udbias_outage, arc_udbias_outage_body,
      arc_udbias_detslp, arc_detslp_ll, forN, E0, rtk0, opt0, ssat0, obs10, nav0, IB, NR, NP,
      NI, NT, NL, set_slip, set_half, set_P, set_x, set_lock, set_outc, arc_initx, getbitu,
      setbitu, outage_exceeds, ARMODE_INST, IONOOPT_EST, IONOOPT_BRDC, TROPOPT_EST, TROPOPT_ESTG,
      Function.update]

theorem obs10_pmc :
    arc_sdobs E0 obs10 ((fun _ : Nat => 0) 0) ((fun _ : Nat => 1) 0) 0 = 3 ∧
    arc_sdobs E0 obs10 ((fun _ : Nat => 0) 0) ((fun _ : Nat => 1) 0) (0 + E0.NFREQ) = 4 ∧
    nav0.lam ((fun _ : Nat => 1) 0 - 1) 0 = 1 := by
  norm_num [arc_sdobs, obs10, E0, nav0]

/-- The theorem C25 at one common satellite (number 1, state index 3) with
`cp = 3`, `pr = 4`, `lambda = 1` and a zero ambiguity: the ambiguity is seeded
with `3 - 4/1`, and the variance is `std[0]^2`. -/
theorem C25_udbias_seed_witness :
    ((0 : Nat) < 1 ∧ (∀ i, i < 1 → 1 ≤ (fun _ : Nat => 1) i) ∧
      (∀ i, i < 1 → (fun _ : Nat => 1) i = (fun _ : Nat => 1) 0 → i = 0) ∧
      (∀ i, i < 1 → IB E0 ((fun _ : Nat => 1) i) 0 rtk0.opt < rtk0.nx)) ∧
    (arc_udbias E0 rtk0 1 obs10 (fun _ => 1) (fun _ => 0) (fun _ => 1) 1 nav0).x
        (IB E0 ((fun _ : Nat => 1) 0) 0 rtk0.opt) =
      arc_sdobs E0 obs10 ((fun _ : Nat => 0) 0) ((fun _ : Nat => 1) 0) 0 -
        arc_sdobs E0 obs10 ((fun _ : Nat => 0) 0) ((fun _ : Nat => 1) 0) (0 + E0.NFREQ) /
          nav0.lam ((fun _ : Nat => 1) 0 - 1) 0 ∧
    (arc_udbias E0 rtk0 1 obs10 (fun _ => 1) (fun _ => 0) (fun _ => 1) 1 nav0).P
        (IB E0 ((fun _ : Nat => 1) 0) 0 rtk0.opt +
          IB E0 ((fun _ : Nat => 1) 0) 0 rtk0.opt * rtk0.nx) = SQR (rtk0.opt.std 0) :=
  have h := (C25_udbias_seed E0 rtk0 1 obs10 (fun _ => 1) (fun _ => 0) (fun _ => 1) 1 nav0 0
    (by decide) (fun _ _ => Nat.le_refl 1) (fun i hi _ => Nat.lt_one_iff.mp hi)
    (fun _ _ => (by decide : IB E0 1 0 rtk0.opt < rtk0.nx))).1 rtk0_before_init_x
    (by rw [obs10_pmc.1]; norm_num) (by rw [obs10_pmc.2.1]; norm_num)
    (by rw [obs10_pmc.2.2]; norm_num)
    (by rw [obs10_pmc.1, obs10_pmc.2.1, obs10_pmc.2.2]; norm_num)
  ⟨⟨by decide, fun _ _ => Nat.le_refl 1, fun i hi _ => Nat.lt_one_iff.mp hi,
      fun _ _ => (by decide : IB E0 1 0 rtk0.opt < rtk0.nx)⟩, h.1, h.2.1⟩

/-! ## The outage counter of slot 1 and the deactivation of ionosphere states -/

/-- `arc_udion` keeps the ionosphere state of a satellite that is not among the
common satellites and whose outage counter of frequency slot 1 does not exceed
`GAP_RESION`, whatever the counter of slot 0. -/
theorem arc_udion_keeps (E : Env) (rtk : rtk_t) (tt bl : ℚ) (sat : Nat → Nat) (ns s : Nat)
    (hs1 : 1 ≤ s) (hsat : ∀ i, i < ns → sat i ≠ s)
    (h1 : ¬ (rtk.ssat (s - 1)).outc 1 > GAP_RESION) :
    (arc_udion E rtk tt bl sat ns).x (II s rtk.opt) = rtk.x (II s rtk.opt) := by
  unfold arc_udion
  dsimp only
  have first := forN_inv (fun (r : rtk_t) =>
      r.opt = rtk.opt ∧ r.ssat = rtk.ssat ∧ r.x (II s rtk.opt) = rtk.x (II s rtk.opt)) E.MAXSAT
    (fun i0 r =>
      let i := i0 + 1
      let j := II i r.opt
      if r.x j ≠ 0 ∧ (r.ssat (i - 1)).outc 0 > GAP_RESION ∧ (r.ssat (i - 1)).outc 1 > GAP_RESION
      then set_x r j 0 else r) rtk
    ⟨rfl, rfl, rfl⟩ (by
      intro n r _ ⟨g1, g2, g3⟩
      dsimp only
      by_cases c : r.x (II (n + 1) r.opt) ≠ 0 ∧ (r.ssat (n + 1 - 1)).outc 0 > GAP_RESION ∧
          (r.ssat (n + 1 - 1)).outc 1 > GAP_RESION
      · rw [if_pos c]
        refine ⟨g1, g2, ?_⟩
        show Function.update r.x (II (n + 1) r.opt) 0 (II s rtk.opt) = _
        have e : s ≠ n + 1 := by
          intro e
          subst e
          rw [g2] at c
          exact h1 c.2.2
        rw [g1, Function.update_noteq (II_ne rtk.opt s (n + 1) hs1 (fun h => e h.symm)).symm]
        exact g3
      · rw [if_neg c]
        exact ⟨g1, g2, g3⟩)
  have main := forN_inv_idx (fun (n : Nat) (r : rtk_t) =>
      r.opt = rtk.opt ∧ r.x (II s rtk.opt) = rtk.x (II s rtk.opt)) ns
    (fun i r =>
      let j := II (sat i) r.opt
      if r.x j = 0 then
        arc_initx r (1 / 1000000) (SQR (r.opt.std 1 * bl / 10000)) j
      else
        let el := (r.ssat (sat i - 1)).azel 1
        let fact := E.cos el
        set_P r (j + j * r.nx) (r.P (j + j * r.nx) + SQR (r.opt.prn 1 * bl / 10000 * fact) * tt))
    _ ⟨first.1, first.2.2⟩ (by
      intro n r hn ⟨g1, g2⟩
      dsimp only
      split
      · refine ⟨(arc_initx_opt _ _ _ _).trans g1, ?_⟩
        rw [arc_initx_x, g1,
          Function.update_noteq (II_ne rtk.opt s (sat n) hs1 (hsat n hn)).symm]
        exact g2
      · exact ⟨g1, g2⟩)
  exact main.2

theorem set_outc_zero_outc_one (r : rtk_t) (a v t : Nat) :
    ((set_outc r a 0 v).ssat t).outc 1 = (r.ssat t).outc 1 := by
  unfold set_outc
  by_cases h : t = a
  · subst h
    simp [Function.update]
  · simp [Function.update, h]

/-- `arc_udbias`, the only function that counts outages, leaves the outage
counter of frequency slot 1 of every satellite: it increments `outc[f]` with
`f = 0` only. -/
theorem arc_udbias_outc_one (E : Env) (rtk : rtk_t) (tt : ℚ) (obs : Nat → obsd_t)
    (sat iu ir : Nat → Nat) (ns : Nat) (nav : nav_t) (t : Nat) :
    ((arc_udbias E rtk tt obs sat iu ir ns nav).ssat t).outc 1 = (rtk.ssat t).outc 1 := by
  unfold arc_udbias
  dsimp only
  have h1 : ∀ t, ((arc_udbias_detslp rtk obs sat iu ir ns).ssat t).outc 1 = (rtk.ssat t).outc 1 :=
    fun t => congrFun ((arc_udbias_detslp_frame rtk obs sat iu ir ns).2.2.2.2.2 t).1 1
  have h2 : ∀ r : rtk_t, ∀ t, ((arc_udbias_outage E r).ssat t).outc 1 = (r.ssat t).outc 1 := by
    intro r
    unfold arc_udbias_outage
    refine forN_inv (fun q : rtk_t => ∀ t, (q.ssat t).outc 1 = (r.ssat t).outc 1) _ _ _
      (fun _ => rfl) ?_
    intro i q _ hq t
    rw [← hq t]
    unfold arc_udbias_outage_body
    lift_lets
    intro f i1 reset r1 r2
    have ha : ((r2.ssat t).outc 1) = (q.ssat t).outc 1 := by
      show (((if _ then _ else if _ then _ else _ : rtk_t).ssat t).outc 1) = _
      split
      · rw [arc_initx_ssat]
        exact set_outc_zero_outc_one _ _ _ _
      · split
        · rw [arc_initx_ssat]
          exact set_outc_zero_outc_one _ _ _ _
        · exact set_outc_zero_outc_one _ _ _ _
    split
    · rw [set_lock_ssat_outc]
      exact ha
    · exact ha
  have h3 : ∀ r : rtk_t, ∀ t, ((arc_udbias_slip E r tt sat ns).ssat t).outc 1 =
      (r.ssat t).outc 1 := by
    intro r
    unfold arc_udbias_slip
    refine forN_inv (fun q : rtk_t => ∀ t, (q.ssat t).outc 1 = (r.ssat t).outc 1) _ _ _
      (fun _ => rfl) ?_
    intro i q _ hq t
    rw [← hq t]
    dsimp only
    split
    · rfl
    · rw [set_lock_ssat_outc]
      rfl
  have h5 : ∀ (r : rtk_t) (bias : Nat → ℚ), (arc_udbias_init E r bias sat ns).ssat = r.ssat := by
    intro r bias
    unfold arc_udbias_init
    refine forN_inv (fun q : rtk_t => q.ssat = r.ssat) _ _ _ rfl ?_
    intro i q _ hq
    dsimp only
    split
    · exact hq
    · rw [arc_initx_ssat]
      exact hq
  rw [h5, (arc_udbias_offset_frame E _ _).2.2.2.1, h3, h2, h1]

/-- C27, the code at a satellite whose phase outage counter exceeds `GAP_RESION`:
ionosphere estimation is enabled, satellite 1 is not a common satellite
(`ns = 0`), its phase outage counter `outc[0]` is 200, above `GAP_RESION = 120`,
and its counter `outc[1]`, which no function increments, is 0.  After
`arc_udion` its ionosphere state (index 3) still holds the value 5. -/
theorem C27_udion_state_kept :
    (rtk27 200 0).opt.ionoopt = IONOOPT_EST ∧
    ((rtk27 200 0).ssat 0).outc 0 > GAP_RESION ∧
    ((rtk27 200 0).ssat 0).outc 1 = 0 ∧
    II 1 (rtk27 200 0).opt = 3 ∧
    (rtk27 200 0).x 3 = 5 ∧
    (arc_udion E0 (rtk27 200 0) 1 1 (fun _ => 2) 0).x 3 = 5 := by
  refine ⟨rfl, by decide, rfl, by decide, by norm_num [rtk27], ?_⟩
  norm_num [arc_udion, forN, set_x, II, NP, GAP_RESION, E0, rtk27, rtk0, opt0, ssat0,
    Function.update]

/-! ## The shape of the transformation matrix -/

theorem flat_ne {n t i c c2 : Nat} (ht : t < n) (hi : i < n) (hc : c ≠ c2) :
    t + c * n ≠ i + c2 * n :=
  fun h => hc (flat_inj ht hi h).2

theorem fix_frame_refl (r : rtk_t) : fix_frame r r :=
  ⟨rfl, rfl, rfl, rfl, fun _ => ⟨rfl, rfl, rfl, rfl, rfl, rfl⟩⟩

theorem fix_frame_trans {a b c : rtk_t} (h1 : fix_frame a b) (h2 : fix_frame b c) :
    fix_frame a c := by
  obtain ⟨a1, a2, a3, a4, a5⟩ := h1
  obtain ⟨b1, b2, b3, b4, b5⟩ := h2
  refine ⟨b1.trans a1, b2.trans a2, b3.trans a3, b4.trans a4, fun t => ?_⟩
  obtain ⟨p1, p2, p3, p4, p5, p6⟩ := a5 t
  obtain ⟨q1, q2, q3, q4, q5, q6⟩ := b5 t
  exact ⟨q1.trans p1, q2.trans p2, q3.trans p3, q4.trans p4, q5.trans p5, q6.trans p6⟩

theorem fix_frame_upd (r : rtk_t) (a : Nat) (fx : Nat → Nat) :
    fix_frame r { r with ssat := Function.update r.ssat a { r.ssat a with fix := fx } } := by
  refine ⟨rfl, rfl, rfl, rfl, fun t => ?_⟩
  by_cases h : t = a
  · subst h
    simp only [Function.update_same, and_self]
  · simp only [ne_eq, h, not_false_eq_true, Function.update_noteq, and_self]

theorem fix_frame_upd2 (r : rtk_t) (a : Nat) (fx : Nat → Nat) (nx na : Nat) (h1 : nx = r.nx)
    (h2 : na = r.na) :
    fix_frame r { r with nx := nx, na := na,
                         ssat := Function.update r.ssat a { r.ssat a with fix := fx } } := by
  subst h1 h2
  exact fix_frame_upd r a fx

theorem ddmat_ref_ok_frame (R0 r : rtk_t) (h : fix_frame R0 r) (m f k : Nat) (nofix : Bool)
    (j : Nat) : ddmat_ref_ok r m f k nofix j ↔ ddmat_ref_ok R0 m f k nofix j := by
  obtain ⟨h1, _, _, h4, h5⟩ := h
  obtain ⟨p1, p2, p3, p4, p5, p6⟩ := h5 (j - k)
  unfold ddmat_ref_ok
  rw [h1, h4, p1, p2, p3, p4, p5, p6]

theorem arc_ddmat_ref_fix_frame (m f k : Nat) (nofix : Bool) (n : Nat) :
    ∀ (i : Nat) (r : rtk_t), fix_frame r (arc_ddmat_ref m f k nofix n i r).1 := by
  induction n with
  | zero => intro i r; exact fix_frame_refl r
  | succ n ih =>
    intro i r
    unfold arc_ddmat_ref
    dsimp only
    split
    · exact ih _ _
    · split
      · exact fix_frame_upd _ _ _
      · exact fix_frame_trans (fix_frame_upd _ _ _) (ih _ _)

/-- The identity part of `D`: after `for (i=0;i<na;i++) D[i+i*nx]=1.0` on a zero
matrix the columns below `na` are identity columns and every other column is
zero. -/
theorem ddmat_D0 (na nx : Nat) (hna : na ≤ nx) (D : Nat → ℚ) (hD : ∀ k, D k = 0) (c t : Nat)
    (ht : t < nx) :
    forN na (fun i D => Function.update D (i + i * nx) 1) D (t + c * nx) =
      if c < na ∧ t = c then 1 else 0 := by
  have h := forN_upd_inj na (fun i => i + i * nx) (fun _ => (1 : ℚ)) D
    (fun i i2 hi hi2 e => (flat_inj (Nat.lt_of_lt_of_le hi hna) (Nat.lt_of_lt_of_le hi2 hna) e).1)
  by_cases hc : c < na ∧ t = c
  · rw [if_pos hc]
    obtain ⟨hc1, hc2⟩ := hc
    subst hc2
    exact h.1 t hc1
  · rw [if_neg hc, h.2 _ (fun i hi e => hc ?_), hD]
    have := flat_inj ht (Nat.lt_of_lt_of_le hi hna) e
    exact ⟨this.2 ▸ hi, this.1.trans this.2.symm⟩

/-- One pass of the second loop of `arc_ddmat` keeps the invariant, when the
flag read one element past `ssat` is zero and the index `i` left by the
reference search is either `na+MAXSAT` (no reference) or the first index that
passes the reference test. -/
theorem arc_ddmat_col_inv (E : Env) (R0 : rtk_t) (M : Nat) (nofix : Bool) (i p : Nat)
    (s : ddmat_t) (hnx : R0.nx = R0.na + E.MAXSAT) (hz : (R0.ssat E.MAXSAT).vsat 0 = 0)
    (hp : p < E.MAXSAT) (hnf : nofix = ddmat_nofix R0 M)
    (hi : i = R0.na + E.MAXSAT ∨ (R0.na ≤ i ∧ i < R0.na + E.MAXSAT ∧
      ddmat_ref_ok R0 M 0 R0.na nofix i ∧
      ∀ j, R0.na ≤ j → j < i → ¬ ddmat_ref_ok R0 M 0 R0.na nofix j))
    (h : ddmat_Inv R0 M p s) :
    ddmat_Inv R0 M (p + 1) (arc_ddmat_col M 0 R0.na nofix i (R0.na + p) s) := by
  obtain ⟨mf, rf, sf, hf, h1, h3, hc, ho⟩ := h
  have hf2 := hf
  obtain ⟨fx, fnx, fna, fopt, fss⟩ := hf
  obtain ⟨q1, q2, q3, q4, q5, q6⟩ := fss p
  have hpos : ∀ c, c < s.nb → mf c < M ∨ (mf c = M ∧ sf c < R0.na + (p + 1)) := fun c hc0 =>
    (hc c hc0).2.imp id (fun h => ⟨h.1, by omega⟩)
  unfold arc_ddmat_col
  dsimp only
  rw [Nat.add_sub_cancel_left, fnx, fna]
  by_cases c1 : i = R0.na + p ∨ s.rtk.x (R0.na + p) = 0 ∨
      arc_test_sys (s.rtk.ssat p).sys M = false ∨ (s.rtk.ssat p).vsat 0 = 0
  · rw [if_pos c1]
    exact ⟨mf, rf, sf, hf2, h1, h3, fun c hc0 => ⟨(hc c hc0).1, hpos c hc0⟩, ho⟩
  rw [if_neg c1]
  by_cases c2 : (s.rtk.ssat p).lock 0 > 0 ∧ ¬ ((s.rtk.ssat p).slip 0 &&& 2 ≠ 0) ∧
      (s.rtk.ssat (i - R0.na)).vsat 0 ≠ 0 ∧ (s.rtk.ssat p).azel 1 ≥ s.rtk.opt.elmaskar ∧
      nofix = false
  swap
  · rw [if_neg c2]
    exact ⟨mf, rf, sf, fix_frame_trans hf2 (fix_frame_upd2 _ _ _ _ _ fnx.symm fna.symm), h1, h3,
      fun c hc0 => ⟨(hc c hc0).1, hpos c hc0⟩, ho⟩
  rw [if_pos c2]
  have hi2 : R0.na ≤ i ∧ i < R0.na + E.MAXSAT ∧ ddmat_ref_ok R0 M 0 R0.na nofix i ∧
      ∀ j, R0.na ≤ j → j < i → ¬ ddmat_ref_ok R0 M 0 R0.na nofix j := by
    rcases hi with hi | hi
    · exfalso
      apply c2.2.2.1
      rw [hi, Nat.add_sub_cancel_left, (fss E.MAXSAT).2.1]
      exact hz
    · exact hi
  obtain ⟨i1, i2, i3, i4⟩ := hi2
  have hij : i ≠ R0.na + p := fun e => c1 (Or.inl e)
  have hxj : R0.x (R0.na + p) ≠ 0 := fun e => c1 (Or.inr (Or.inl (by rw [fx]; exact e)))
  have hsys : arc_test_sys (R0.ssat (R0.na + p - R0.na)).sys M = true := by
    rw [Nat.add_sub_cancel_left, ← q1]
    exact Bool.not_eq_false _ ▸ (fun e => c1 (Or.inr (Or.inr (Or.inl e))))
  have hix : i < R0.nx := by omega
  have hjx : R0.na + p < R0.nx := by omega
  have hold : ∀ c t, c ≠ s.nb → t < R0.nx →
      Function.update (Function.update s.D (i + (R0.na + s.nb) * R0.nx) 1)
        (R0.na + p + (R0.na + s.nb) * R0.nx) (-1) (t + (R0.na + c) * R0.nx) =
        s.D (t + (R0.na + c) * R0.nx) := by
    intro c t hcn ht
    rw [Function.update_noteq (flat_ne ht hjx (by omega)),
      Function.update_noteq (flat_ne ht hix (by omega))]
  refine ⟨Function.update mf s.nb M, Function.update rf s.nb i,
    Function.update sf s.nb (R0.na + p), fix_frame_trans hf2 (fix_frame_upd2 _ _ _ _ _ fnx.symm fna.symm), ?_, ?_, ?_, ?_⟩
  · intro c t hc0 ht
    show Function.update (Function.update s.D (i + (R0.na + s.nb) * R0.nx) 1)
        (R0.na + p + (R0.na + s.nb) * R0.nx) (-1) (t + c * R0.nx) = _
    rw [Function.update_noteq (flat_ne ht hjx (by omega)),
      Function.update_noteq (flat_ne ht hix (by omega))]
    exact h1 c t hc0 ht
  · intro c t hc0 ht
    have hc1 : R0.na + (s.nb + 1) ≤ c := hc0
    show Function.update (Function.update s.D (i + (R0.na + s.nb) * R0.nx) 1)
        (R0.na + p + (R0.na + s.nb) * R0.nx) (-1) (t + c * R0.nx) = _
    rw [Function.update_noteq (flat_ne ht hjx (by omega)),
      Function.update_noteq (flat_ne ht hix (by omega))]
    exact h3 c t (by omega) ht
  · intro c hc0
    have hc1 : c < s.nb + 1 := hc0
    by_cases e : c = s.nb
    · rw [e, Function.update_same, Function.update_same, Function.update_same]
      refine ⟨?_, Or.inr ⟨rfl, by omega⟩⟩
      unfold ddmat_col_spec
      refine ⟨i1, hix, Nat.le_add_right _ _, hjx, hij, hnf ▸ i3, fun j hj1 hj2 => hnf ▸ i4 j hj1 hj2,
        hxj, hsys, fun t ht => ?_⟩
      show Function.update (Function.update s.D (i + (R0.na + s.nb) * R0.nx) 1)
        (R0.na + p + (R0.na + s.nb) * R0.nx) (-1) (t + (R0.na + s.nb) * R0.nx) = _
      by_cases ti : t = i
      · subst ti
        rw [if_pos rfl, Function.update_noteq (by omega), Function.update_same]
      · rw [if_neg ti]
        by_cases tj : t = R0.na + p
        · subst tj
          rw [if_pos rfl, Function.update_same]
        · rw [if_neg tj, Function.update_noteq (by omega), Function.update_noteq (by omega)]
          exact h3 _ t (Nat.le_refl _) ht
    · have hlt : c < s.nb := by omega
      simp only [ne_eq, e, not_false_eq_true, Function.update_noteq]
      obtain ⟨hspec, _⟩ := hc c hlt
      refine ⟨?_, hpos c hlt⟩
      unfold ddmat_col_spec at hspec ⊢
      obtain ⟨a1, a2, a3, a4, a5, a6, a7, a8, a9, a10⟩ := hspec
      refine ⟨a1, a2, a3, a4, a5, a6, a7, a8, a9, fun t ht => ?_⟩
      show Function.update (Function.update s.D (i + (R0.na + s.nb) * R0.nx) 1)
        (R0.na + p + (R0.na + s.nb) * R0.nx) (-1) (t + (R0.na + c) * R0.nx) = _
      rw [hold c t e ht]
      exact a10 t ht
  · intro c c2 h12 h2
    have h2b : c2 < s.nb + 1 := h2
    by_cases e : c2 = s.nb
    · have hcn : c ≠ s.nb := by omega
      rw [e]
      simp only [ne_eq, hcn, not_false_eq_true, Function.update_noteq, Function.update_same]
      exact (hc c (by omega)).2
    · have hcn : c ≠ s.nb := by omega
      simp only [ne_eq, hcn, e, not_false_eq_true, Function.update_noteq]
      exact ho c c2 h12 (by omega)

/-- The two loops of `arc_ddmat` for one family keep the invariant. -/
theorem arc_ddmat_family_inv (E : Env) (R0 : rtk_t) (M : Nat) (nofix : Bool) (s : ddmat_t)
    (hnx : R0.nx = R0.na + E.MAXSAT) (hz : (R0.ssat E.MAXSAT).vsat 0 = 0)
    (hnf : nofix = ddmat_nofix R0 M) (h : ddmat_Inv R0 M 0 s) :
    ddmat_Inv R0 (M + 1) 0
      (forN E.MAXSAT
        (fun j0 t => arc_ddmat_col M 0 R0.na nofix
          (arc_ddmat_ref M 0 R0.na nofix E.MAXSAT R0.na s.rtk).2 (R0.na + j0) t)
        { s with rtk := (arc_ddmat_ref M 0 R0.na nofix E.MAXSAT R0.na s.rtk).1 }) := by
  obtain ⟨mf, rf, sf, hf, h1, h3, hc, ho⟩ := h
  have hi : (arc_ddmat_ref M 0 R0.na nofix E.MAXSAT R0.na s.rtk).2 = R0.na + E.MAXSAT ∨
      (R0.na ≤ (arc_ddmat_ref M 0 R0.na nofix E.MAXSAT R0.na s.rtk).2 ∧
        (arc_ddmat_ref M 0 R0.na nofix E.MAXSAT R0.na s.rtk).2 < R0.na + E.MAXSAT ∧
        ddmat_ref_ok R0 M 0 R0.na nofix (arc_ddmat_ref M 0 R0.na nofix E.MAXSAT R0.na s.rtk).2 ∧
        ∀ j, R0.na ≤ j → j < (arc_ddmat_ref M 0 R0.na nofix E.MAXSAT R0.na s.rtk).2 →
          ¬ ddmat_ref_ok R0 M 0 R0.na nofix j) := by
    rcases arc_ddmat_ref_first M 0 R0.na nofix E.MAXSAT R0.na s.rtk with ⟨e, _⟩ | ⟨a, b, c, d⟩
    · exact Or.inl e
    · exact Or.inr ⟨a, b, (ddmat_ref_ok_frame R0 s.rtk hf M 0 R0.na nofix _).mp c,
        fun j hj1 hj2 hk => d j hj1 hj2 ((ddmat_ref_ok_frame R0 s.rtk hf M 0 R0.na nofix j).mpr hk)⟩
  have init : ddmat_Inv R0 M 0
      { s with rtk := (arc_ddmat_ref M 0 R0.na nofix E.MAXSAT R0.na s.rtk).1 } :=
    ⟨mf, rf, sf, fix_frame_trans hf (arc_ddmat_ref_fix_frame M 0 R0.na nofix E.MAXSAT R0.na s.rtk),
      h1, h3, hc, ho⟩
  have main := forN_inv_idx (fun (p : Nat) (t : ddmat_t) => ddmat_Inv R0 M p t) E.MAXSAT
    (fun j0 t => arc_ddmat_col M 0 R0.na nofix
      (arc_ddmat_ref M 0 R0.na nofix E.MAXSAT R0.na s.rtk).2 (R0.na + j0) t)
    { s with rtk := (arc_ddmat_ref M 0 R0.na nofix E.MAXSAT R0.na s.rtk).1 } init
    (fun p t hp ht => arc_ddmat_col_inv E R0 M nofix _ p t hnx hz hp hnf hi ht)
  obtain ⟨mf2, rf2, sf2, g, g1, g3, gc, go⟩ := main
  refine ⟨mf2, rf2, sf2, g, g1, g3, fun c hc0 => ⟨(gc c hc0).1, Or.inl ?_⟩, go⟩
  rcases (gc c hc0).2 with h | h
  · omega
  · omega

/-- The invariant holds when `arc_ddmat` returns: all four families are done. -/
theorem arc_ddmat_Inv (E : Env) (rtk : rtk_t) (D : Nat → ℚ)
    (hnx : rtk.nx = rtk.na + E.MAXSAT) (hD : ∀ k, D k = 0)
    (hz : (rtk.ssat E.MAXSAT).vsat 0 = 0) :
    ddmat_Inv rtk 4 0 (arc_ddmat E rtk D) := by
  unfold arc_ddmat
  dsimp only
  refine forN_inv_idx (fun (m : Nat) (s : ddmat_t) => ddmat_Inv rtk m 0 s) 4 _ _ ?_ ?_
  · refine ⟨fun _ => 0, fun _ => 0, fun _ => 0, ?_, ?_, ?_, ?_, ?_⟩
    · refine forN_inv (fun r : rtk_t => fix_frame rtk r) _ _ _ (fix_frame_refl _) ?_
      intro i r _ h
      exact fix_frame_trans h (fix_frame_upd _ _ _)
    · intro c t hc ht
      show forN rtk.na _ D (t + c * rtk.nx) = _
      rw [ddmat_D0 rtk.na rtk.nx (by omega) D hD c t ht]
      by_cases e : t = c
      · rw [if_pos ⟨hc, e⟩, if_pos e]
      · rw [if_neg (fun h => e h.2), if_neg e]
    · intro c t hc ht
      have hc1 : rtk.na + 0 ≤ c := hc
      show forN rtk.na _ D (t + c * rtk.nx) = _
      rw [ddmat_D0 rtk.na rtk.nx (by omega) D hD c t ht, if_neg (fun h => by omega)]
    · intro c hc
      exact absurd hc (Nat.not_lt_zero c)
    · intro c c2 _ hc
      exact absurd hc (Nat.not_lt_zero c2)
  · intro m s _ h
    have hopt : s.rtk.opt = rtk.opt := by
      obtain ⟨_, _, _, hf, _⟩ := h
      exact hf.2.2.2.1
    simp only [forN, Nat.mul_zero, Nat.add_zero]
    exact arc_ddmat_family_inv E rtk m _ s hnx hz (by unfold ddmat_nofix; rw [hopt]) h

/-- The double-difference columns of `arc_ddmat` belong to different
satellites, so that there are at most `MAXSAT` of them. -/
theorem ddmat_inv_nb (E : Env) (R0 : rtk_t) (mf rf sf : Nat → Nat) (M P : Nat) (s : ddmat_t)
    (hnx : R0.nx = R0.na + E.MAXSAT) (h : ddmat_inv R0 mf rf sf M P s) : s.nb ≤ E.MAXSAT := by
  obtain ⟨_, _, _, hc, ho⟩ := h
  have key : ∀ c c2, c < c2 → c2 < s.nb → sf c = sf c2 → False := by
    intro c c2 hlt h2 e
    have s1 := (hc c (by omega)).1
    have s2 := (hc c2 h2).1
    unfold ddmat_col_spec at s1 s2
    have t1 := s1.2.2.2.2.2.2.2.2.1
    have t2 := s2.2.2.2.2.2.2.2.2.1
    rw [← e] at t2
    have hm := arc_test_sys_unique _ _ _ t1 t2
    rcases ho c c2 hlt h2 with h | h
    · omega
    · omega
  have hinj : Set.InjOn sf (Finset.range s.nb : Set Nat) := by
    intro c hc1 c2 hc2 e
    have g1 : c < s.nb := Finset.mem_range.mp hc1
    have g2 : c2 < s.nb := Finset.mem_range.mp hc2
    by_contra hne
    rcases Nat.lt_or_gt_of_ne hne with hlt | hgt
    · exact key c c2 hlt g2 e
    · exact key c2 c hgt g1 e.symm
  have hmaps : ∀ c ∈ Finset.range s.nb, sf c ∈ Finset.Ico R0.na (R0.na + E.MAXSAT) := by
    intro c hc1
    have s1 := (hc c (Finset.mem_range.mp hc1)).1
    unfold ddmat_col_spec at s1
    rw [Finset.mem_Ico]
    exact ⟨s1.2.2.1, hnx ▸ s1.2.2.2.1⟩
  have hcard := Finset.card_le_card_of_injOn sf hmaps hinj
  rw [Finset.card_range, Nat.card_Ico, Nat.add_sub_cancel_left] at hcard
  exact hcard

/-- C14: given a zero-initialised matrix `D`, with the state layout
`nx = na + MAXSAT` and the flag read one element past the array `ssat`
(`ssat[MAXSAT].vsat[0]`, which the second loop reads when a family has no
reference) equal to zero, `arc_ddmat` returns `nb` with `na + nb <= nx` and
leaves `D` with: the first `na` columns equal to the identity columns; each
column `na+c`, `c < nb`, with `+1` in a row `r`, `-1` in a row `s != r` and
zero in every other row, where `r` and `s` are ambiguity rows
(`na <= r, s < nx`), `r` is the reference ambiguity of a family `m < 4` (the
first ambiguity of the family that passes the reference test) and `s` is an
active ambiguity of a satellite of the same family; and every column from
`na+nb` on equal to zero. -/
theorem C14_ddmat_shape (E : Env) (rtk : rtk_t) (D : Nat → ℚ)
    (hnx : rtk.nx = rtk.na + E.MAXSAT) (hD : ∀ k, D k = 0)
    (hz : (rtk.ssat E.MAXSAT).vsat 0 = 0) :
    rtk.na + (arc_ddmat E rtk D).nb ≤ rtk.nx ∧
    (∀ c t, c < rtk.na → t < rtk.nx →
      (arc_ddmat E rtk D).D (t + c * rtk.nx) = if t = c then 1 else 0) ∧
    (∀ c, c < (arc_ddmat E rtk D).nb → ∃ m r s, m < 4 ∧
      rtk.na ≤ r ∧ r < rtk.nx ∧ rtk.na ≤ s ∧ s < rtk.nx ∧ r ≠ s ∧
      ddmat_ref_ok rtk m 0 rtk.na (ddmat_nofix rtk m) r ∧
      (∀ j, rtk.na ≤ j → j < r → ¬ ddmat_ref_ok rtk m 0 rtk.na (ddmat_nofix rtk m) j) ∧
      rtk.x s ≠ 0 ∧ arc_test_sys (rtk.ssat (s - rtk.na)).sys m = true ∧
      ∀ t, t < rtk.nx →
        (arc_ddmat E rtk D).D (t + (rtk.na + c) * rtk.nx) =
          if t = r then 1 else if t = s then -1 else 0) ∧
    (∀ c t, rtk.na + (arc_ddmat E rtk D).nb ≤ c → t < rtk.nx →
      (arc_ddmat E rtk D).D (t + c * rtk.nx) = 0) := by
  obtain ⟨mf, rf, sf, hinv⟩ := arc_ddmat_Inv E rtk D hnx hD hz
  have hnb := ddmat_inv_nb E rtk mf rf sf 4 0 _ hnx hinv
  obtain ⟨_, h1, h3, hc, _⟩ := hinv
  refine ⟨by omega, h1, fun c hc0 => ?_, h3⟩
  obtain ⟨hspec, hpos⟩ := hc c hc0
  unfold ddmat_col_spec at hspec
  obtain ⟨a1, a2, a3, a4, a5, a6, a7, a8, a9, a10⟩ := hspec
  have hm : mf c < 4 := by
    rcases hpos with h | h
    · exact h
    · omega
  exact ⟨mf c, rf c, sf c, hm, a1, a2, a3, a4, a5, a6, a7, a8, a9, a10⟩

/-- The theorem C14 at two tracked GPS satellites. -/
theorem C14_ddmat_shape_witness :
    (rtk14w.nx = rtk14w.na + E0.MAXSAT ∧ (∀ k, (fun _ : Nat => (0 : ℚ)) k = 0) ∧
      (rtk14w.ssat E0.MAXSAT).vsat 0 = 0) ∧
    rtk14w.na + (arc_ddmat E0 rtk14w (fun _ => 0)).nb ≤ rtk14w.nx ∧
    (∀ c t, c < rtk14w.na → t < rtk14w.nx →
      (arc_ddmat E0 rtk14w (fun _ => 0)).D (t + c * rtk14w.nx) = if t = c then 1 else 0) ∧
    (∀ c t, rtk14w.na + (arc_ddmat E0 rtk14w (fun _ => 0)).nb ≤ c → t < rtk14w.nx →
      (arc_ddmat E0 rtk14w (fun _ => 0)).D (t + c * rtk14w.nx) = 0) :=
  ⟨⟨rfl, fun _ => rfl, rfl⟩,
    (C14_ddmat_shape E0 rtk14w (fun _ => 0) rfl (fun _ => rfl) rfl).1,
    (C14_ddmat_shape E0 rtk14w (fun _ => 0) rfl (fun _ => rfl) rfl).2.1,
    (C14_ddmat_shape E0 rtk14w (fun _ => 0) rfl (fun _ => rfl) rfl).2.2.2⟩

set_option maxRecDepth 8000 in
/-- The transformation matrix at two tracked GPS satellites: one column, with
`+1` in row 3 (the reference) and `-1` in row 4. -/
theorem rtk14w_ddmat :
    (arc_ddmat E0 rtk14w (fun _ => 0)).nb = 1 ∧
    (arc_ddmat E0 rtk14w (fun _ => 0)).D =
      Function.update (Function.update (Function.update (Function.update (Function.update
        (fun _ => 0) 0 1) 6 1) 12 1) 18 1) 19 (-1) := by
  simp [arc_ddmat, forN, arc_ddmat_ref, arc_ddmat_col, arc_test_sys,
    E0, rtk14w, rtkL, rtk0, opt0, ssat0, SYS_GPS, SYS_SBS, SYS_GAL, SYS_CMP]

set_option maxRecDepth 8000 in
/-- The transformation matrix at a GPS family without a reference (one active
ambiguity whose half-cycle flag is not valid) when the flag read past the array
is zero: no column is written. -/
theorem rtk14z_ddmat :
    (arc_ddmat E0 rtk14z (fun _ => 0)).nb = 0 ∧
    (arc_ddmat E0 rtk14z (fun _ => 0)).D =
      Function.update (Function.update (Function.update (fun _ => 0) 0 1) 6 1) 12 1 := by
  simp [arc_ddmat, forN, arc_ddmat_ref, arc_ddmat_col, arc_test_sys,
    E0, rtk14z, rtk14, rtk0, opt0, ssat0, SYS_GPS, SYS_SBS, SYS_GAL, SYS_CMP]

end ARC
